import Mathlib

/-!
# Warzone 2100 netcode: player registry, join handshake and player-info sync

A shallow embedding of parts of `lib/netplay/netplay.cpp`.

* C strings are lists of bytes (`CString`), without the terminating NUL.
* Fixed-size global arrays are lists; an element is read with `List.getD` and
  written with `List.set`.
* Everything the code sends or asks of another module is appended to the
  `out` trace of the state, oldest first.
* `NETbeginEncode(queue, type) ... NETend()` leaves an `encode` event, and
  `NETend()` passes a message of a net queue or of the broadcast queue on to
  `NETsend` at once: the message is written to the sockets, whose answers are
  those of a `SocketEnv`, and a player whose socket fails the write is dropped
  on the spot.
* Where the code reads through a pointer that is not the address of an object
  (`NETuint8_t((uint8_t *)ERROR_FULL)` in `NETallowJoining`), its behaviour is
  undefined: the function has no result there (`none`).
* `debug`, `NETlogEntry`, `setPlayerColour`, `printConsoleNameChange`,
  `MultiPlayerJoin` and the socket-set bookkeeping belong to other modules
  and do not touch the state modelled here; they leave no trace.
* A message is given by the values its fields decode to; fields that lie past
  the end of a payload decode to zero.
* `playercount` is a `uint32_t` and wraps; it is compared with `maxPlayers` as
  a natural number, both being far below `2^31`.
-/

namespace Netplay

/-- A C string: its bytes up to, not including, the terminating NUL. -/
abbrev CString := List Nat

/-- Compile-time constants that `netplay.cpp` takes from headers
(`netplay.h`, `frame.h`) which are not among the sources. They are
parameters of the model. -/
structure NetConstants where
  /-- Number of player slots in a game. -/
  MAX_PLAYERS : Nat
  /-- Size of `NetPlay.players` and of `connected_bsocket`. -/
  MAX_CONNECTED_PLAYERS : Nat
  /-- Size of `tmp_socket`. -/
  MAX_TMP_SOCKETS : Nat
  /-- Size of the ban list. -/
  MAX_BANS : Nat
  /-- Capacity, terminator included, of a player name. -/
  StringSize : Nat
  /-- Capacity, terminator included, of `PLAYER::IPtextAddress`. -/
  IPtextSize : Nat
  /-- Marker of a slot that is open for a human player. -/
  AI_OPEN : Int
  /-- Pseudo player index meaning every player. -/
  NET_ALL_PLAYERS : Nat
  /-- Ticks of the game clock in a second. -/
  GAME_TICKS_PER_SEC : Nat := 1000
  /-- Enumerator of `CONNECTION_STATUS` for a dropped player. -/
  CONNECTIONSTATUS_PLAYER_DROPPED : Nat := 0
  /-- Enumerator of `CONNECTION_STATUS` for a leaving player. -/
  CONNECTIONSTATUS_PLAYER_LEAVING : Nat := 1
  /-- Capacity, terminator included, of `PLAYER_IP::pname`. -/
  banNameSize : Nat := 40
deriving DecidableEq, Repr

/-- The host's player index: "right now, host starts always at index zero". -/
def NET_HOST_ONLY : Nat := 0

/-- The constants as the Warzone 2100 headers of this period define them. -/
def wzConstants : NetConstants :=
  { MAX_PLAYERS := 8, MAX_CONNECTED_PLAYERS := 8, MAX_TMP_SOCKETS := 16, MAX_BANS := 255,
    StringSize := 64, IPtextSize := 40, AI_OPEN := -2, NET_ALL_PLAYERS := 255 }

/-- Enumeration `LOBBY_ERROR_TYPES`; `ERROR_NOERROR` is its zero. -/
inductive LOBBY_ERROR_TYPES
  | ERROR_NOERROR
  | ERROR_CONNECTION
  | ERROR_FULL
  | ERROR_INVALID
  | ERROR_KICKED
  | ERROR_WRONGVERSION
  | ERROR_WRONGPASSWORD
  | ERROR_HOSTDROPPED
  | ERROR_WRONGDATA
  | ERROR_UNKNOWNFILEISSUE
  | ERROR_LOBBY_REJECTED
deriving DecidableEq, Repr

/-- File-transfer progress of one player (`WZFile`), with the fields
`netplay.cpp` uses. `pFileHandle = 0` is the null handle. -/
structure WZFile where
  pFileHandle : Nat
  currPos : Int
  fileSize_32 : Int
  isSending : Bool
  isCancelled : Bool
deriving DecidableEq, Repr

/-- One slot of `NetPlay.players` (`PLAYER`), with the fields `netplay.cpp` uses. -/
structure PLAYER where
  name : CString
  position : Int
  colour : Int
  allocated : Bool
  heartattacktime : Nat
  heartbeat : Bool
  kick : Bool
  team : Int
  ready : Bool
  ai : Int
  difficulty : Int
  needFile : Bool
  wzFile : WZFile
  IPtextAddress : CString
deriving DecidableEq, Repr

/-- A slot of zero-initialised static storage. -/
def PLAYER.zero : PLAYER :=
  { name := [], position := 0, colour := 0, allocated := false, heartattacktime := 0,
    heartbeat := false, kick := false, team := 0, ready := false, ai := 0, difficulty := 0,
    needFile := false,
    wzFile := { pFileHandle := 0, currPos := 0, fileSize_32 := 0, isSending := false,
                isCancelled := false },
    IPtextAddress := [] }

instance : Inhabited PLAYER := ⟨PLAYER.zero⟩

/-- One entry of the ban list (`PLAYER_IP`). -/
structure PLAYER_IP where
  pname : CString
  IPAddress : CString
deriving DecidableEq, Repr

/-- A message queue (`NETQUEUE`): `NETnetQueue(i)`, `NETbroadcastQueue()`,
`NETnetTmpQueue(i)`. -/
inductive NETQUEUE
  | net (index : Nat)
  | broadcast
  | tmp (index : Nat)
deriving DecidableEq, Repr

/-- The per-slot payload of a `NET_PLAYER_INFO` message, in wire order. -/
structure PlayerInfoEntry where
  index : Nat
  allocated : Bool
  heartbeat : Bool
  kick : Bool
  name : CString
  heartattacktime : Nat
  colour : Int
  position : Int
  team : Int
  ready : Bool
  ai : Int
  difficulty : Int
  skDiff : Nat
deriving DecidableEq, Repr

/-- What a decoder reads past the end of a payload: zero bytes. -/
def PlayerInfoEntry.zero : PlayerInfoEntry :=
  { index := 0, allocated := false, heartbeat := false, kick := false, name := [],
    heartattacktime := 0, colour := 0, position := 0, team := 0, ready := false, ai := 0,
    difficulty := 0, skDiff := 0 }

instance : Inhabited PlayerInfoEntry := ⟨PlayerInfoEntry.zero⟩

/-- The byte of a `NET_REJECTED` message: the value of the local variable
`rejected`. -/
inductive RejectByte
  | value (code : LOBBY_ERROR_TYPES)
deriving DecidableEq, Repr

/-- A message that is passed on undecoded: its type and its payload. -/
structure RawMessage where
  type : Nat
  data : List Nat
deriving DecidableEq, Repr

instance : Inhabited RawMessage := ⟨{ type := 0, data := [] }⟩

/-- The messages of this development, decoded. `NET_SEND_TO_PLAYER` carries
the flag `complete`, the result of `NETend()` after its decoding; `other` is a
message of any type that is not listed. -/
inductive NetMessage
  | NET_PLAYER_INFO (indexLen : Nat) (entries : List PlayerInfoEntry)
  | NET_REJECTED (byte : RejectByte)
  | NET_ACCEPTED (index : Nat)
  | NET_PLAYER_JOINED (index : Nat)
  | NET_JOIN (name ModList GamePassword username session : CString)
  | NET_SEND_TO_PLAYER (sender receiver : Nat) (message : NetMessage) (complete : Bool)
  | NET_SHARE_GAME_QUEUE (player num : Nat) (messages : List RawMessage)
  | NET_PLAYER_STATS (data : List Nat)
  | NET_PLAYER_LEAVING (index : Nat) (host : Bool)
  | NET_PLAYER_DROPPED (index : Nat)
  | NET_GAME_FLAGS (count : Nat) (flags : List Int)
  | NET_DEBUG_SYNC (time bufLen : Nat) (buf : List Nat)
  | other (raw : RawMessage)
deriving DecidableEq, Repr

/-- What leaves the session layer. -/
inductive Event
  /-- Calls `NETbeginEncode(queue, type) ... NETend()`. -/
  | encode (queue : NETQUEUE) (msg : NetMessage)
  /-- Call `NETflush()`. -/
  | flush
  /-- Call `writeAll(socket, &result, 4)` with `result = htonl(code)`. -/
  | writeAll (socket : Nat) (code : LOBBY_ERROR_TYPES)
  /-- Call `socketBeginCompression(socket)`. -/
  | beginCompression (socket : Nat)
  /-- Call `socketClose(socket)`. -/
  | socketClose (socket : Nat)
  /-- Call `socketClose(NULL)`. -/
  | socketCloseNull
  /-- Call `lobbyclient.addPlayer(index, name, username, session)`. -/
  | lobbyAddPlayer (index : Nat) (name username session : CString)
  /-- Call `lobbyclient.delPlayer(index)`. -/
  | lobbyDelPlayer (index : Nat)
  /-- Call `lobbyclient.updatePlayer(index, name)`. -/
  | lobbyUpdatePlayer (index : Nat) (name : CString)
  /-- Call `lobbyclient.delGame()`. -/
  | lobbyDelGame
  /-- Call `writeAll(socket, rawData, rawLen)` of `NETsend`. -/
  | writeMessage (socket : Nat) (message : NetMessage)
  /-- Call `dumpDebugSync(buf, bufLen, time, player)`: a file is written. -/
  | dumpDebugSync (time player : Nat) (buf : List Nat)
  /-- Call `setLobbyError(code)`. -/
  | setLobbyError (code : LOBBY_ERROR_TYPES)
  /-- Call `socketFlush(socket)`. -/
  | socketFlush (socket : Nat)
  /-- Call `NETflushGameQueues()`. -/
  | flushGameQueues
deriving DecidableEq, Repr

/-- The globals of `netplay.cpp` that the modelled functions read or write:
`NetPlay`, `game.skDiff`, `allow_joining`, `IPlist`, the socket tables,
two fields of `sync_counter`, `netPlayersUpdated`, and the output trace. -/
structure NetState where
  players : List PLAYER
  skDiff : List Nat
  playercount : Nat
  maxPlayers : Nat
  hostPlayer : Nat
  isHost : Bool
  bComms : Bool
  GamePassworded : Bool
  gamePassword : CString
  allow_joining : Bool
  IPlist : Option (List PLAYER_IP)
  tmp_socket : List (Option Nat)
  connected_bsocket : List (Option Nat)
  joins : Nat
  cantjoin : Nat
  netPlayersUpdated : Bool
  out : List Event
  /-- Static counter `numBans` of `addToBanList`. -/
  numBans : Nat := 0
  /-- Counter `sync_counter.banned`. -/
  banned : Nat := 0
  /-- Counter `sync_counter.drops`. -/
  drops : Nat := 0
  /-- Counter `sync_counter.left`. -/
  left : Nat := 0
  /-- Flag `NetPlay.isHostAlive`. -/
  isHostAlive : Bool := false
  /-- Socket `tcp_socket`, `none` for `NULL`. -/
  tcp_socket : Option Nat := none
  /-- Socket `bsocket`, `none` for `NULL`. -/
  bsocket : Option Nat := none
  /-- Whether `socket_set` is not `NULL`. -/
  socket_set : Bool := false
  /-- Variable `selectedPlayer`. -/
  selectedPlayer : Nat := 0
  /-- Messages waiting in the game queues `NETgameQueue(i)`. -/
  gameQueues : List (List RawMessage) := []
  /-- Complete messages waiting in the queues `NETnetQueue(i)`. -/
  netQueues : List (List NetMessage) := []
  /-- Table `NET_PlayerConnectionStatus[status][player]`. -/
  connectionStatus : List (List Nat) := []
  /-- Variable `realTime`. -/
  realTime : Nat := 0
  /-- Array `NetGameFlags`. -/
  NetGameFlags : List Int := [0, 0, 0, 0]
deriving DecidableEq, Repr

/-- Read `NetPlay.players[i]`. -/
def NetState.player (s : NetState) (i : Nat) : PLAYER := s.players.getD i default

/-- Write `NetPlay.players[i]`. -/
def NetState.setPlayer (s : NetState) (i : Nat) (p : PLAYER) : NetState :=
  { s with players := s.players.set i p }

/-- Append to the output trace. -/
def NetState.emit (s : NetState) (e : Event) : NetState := { s with out := s.out ++ [e] }

/-- Copy of a string into a buffer of `size` bytes (`sstrcpy`, and `NETstring`
when decoding): at most `size - 1` bytes are kept. -/
def sstrcpy (size : Nat) (src : CString) : CString := src.take (size - 1)

/-- Arithmetic of `uint32_t`. -/
def u32 (n : Int) : Nat := (n % 4294967296).toNat

/-- Function `NET_InitPlayer(i, initPosition)`. -/
def NET_InitPlayer (cfg : NetConstants) (s : NetState) (i : Nat) (initPosition : Bool) :
    NetState :=
  let p := s.player i
  let p := { p with allocated := false, heartattacktime := 0, heartbeat := true, kick := false }
  let p := if !s.isHost then { p with name := [] } else p
  let p := if initPosition then { p with colour := i, position := i, team := i } else p
  let p := { p with ready := false, needFile := false }
  let p := if s.bComms then { p with ai := cfg.AI_OPEN } else { p with ai := 0 }
  let p := { p with difficulty := 1 }
  let p := { p with wzFile := { p.wzFile with isCancelled := false, isSending := false } }
  s.setPlayer i p

/-- The loop of `NET_InitPlayers` from index `i` on, for `k` more slots. -/
def NET_InitPlayers_loop (cfg : NetConstants) : Nat → Nat → NetState → NetState
  | 0, _, s => s
  | k + 1, i, s => NET_InitPlayers_loop cfg k (i + 1) (NET_InitPlayer cfg s i true)

/-- Function `NET_InitPlayers()`. -/
def NET_InitPlayers (cfg : NetConstants) (s : NetState) : NetState :=
  let s := NET_InitPlayers_loop cfg cfg.MAX_CONNECTED_PLAYERS 0 s
  { s with hostPlayer := NET_HOST_ONLY, playercount := 0 }

/-- The test of the scan in `NET_CreatePlayer`: the slot is unallocated and open. -/
def slotFree (cfg : NetConstants) (p : PLAYER) : Bool :=
  p.allocated == false && p.ai == cfg.AI_OPEN

/-- The scan of `NET_CreatePlayer` from `index` on, for `k` more slots: the
first index whose slot passes the test. -/
def NET_CreatePlayer_scan (cfg : NetConstants) (s : NetState) : Nat → Nat → Option Nat
  | 0, _ => none
  | k + 1, index =>
    if slotFree cfg (s.player index) then some index
    else NET_CreatePlayer_scan cfg s k (index + 1)

/-- Function `NET_CreatePlayer(name)`: the returned index, or `-1`, and the new state. -/
def NET_CreatePlayer (cfg : NetConstants) (s : NetState) (name : CString) : Int × NetState :=
  match NET_CreatePlayer_scan cfg s cfg.MAX_CONNECTED_PLAYERS 0 with
  | some index =>
    let s := NET_InitPlayer cfg s index false
    let s := s.setPlayer index
      { s.player index with allocated := true, name := sstrcpy cfg.StringSize name }
    let s := { s with playercount := u32 ((s.playercount : Int) + 1) }
    let s := { s with joins := s.joins + 1 }
    ((index : Int), s)
  | none => (-1, s)

/-- Function `NET_DestroyPlayer(index)`. -/
def NET_DestroyPlayer (cfg : NetConstants) (s : NetState) (index : Nat) : NetState :=
  let s :=
    if (s.player index).allocated then
      let s := s.setPlayer index { s.player index with allocated := false }
      let s := { s with playercount := u32 ((s.playercount : Int) - 1) }
      if s.allow_joining && s.isHost then s.emit (.lobbyDelPlayer index) else s
    else s
  NET_InitPlayer cfg s index false

/-- The value `writeAll` returns in `NETsend`: the length of the message,
`SOCKET_ERROR`, or anything else. -/
inductive WriteResult
  | complete
  | SOCKET_ERROR
  | short
deriving DecidableEq, Repr

/-- What `readNoInt` and `socketReadDisconnected` tell `NET_fillBuffer`: `size`
bytes (0 on a socket that is not disconnected) that complete the messages
`messages`, a size of 0 on a disconnected socket, or `SOCKET_ERROR`. -/
inductive ReadResult
  | data (size : Nat) (messages : List NetMessage)
  | closed
  | SOCKET_ERROR
deriving DecidableEq, Repr

/-- What the sockets answer during one call of a function of the session layer. -/
structure SocketEnv where
  /-- Whether `checkSockets(socket_set, NET_READ_TIMEOUT) > 0`. -/
  checkSockets : Bool
  /-- Result of `socketReadReady(socket)`. -/
  socketReadReady : Nat → Bool
  /-- Result of `readNoInt(socket, bufstart, bufsize)`. -/
  readNoInt : Nat → ReadResult
  /-- Result `writeAll n socket` of the call `writeAll(socket, rawData, rawLen)`
  that is made when the trace holds `n` events: a socket may take one write and
  fail the next. -/
  writeAll : Nat → Nat → WriteResult

/-- No write of the environment ends in `SOCKET_ERROR`. -/
def SocketEnv.reliable (env : SocketEnv) : Prop :=
  ∀ n sock, env.writeAll n sock ≠ WriteResult.SOCKET_ERROR

/-- Function `NETplayerLeaving(index)`. -/
def NETplayerLeaving (cfg : NetConstants) (s : NetState) (index : Nat) : NetState :=
  let s :=
    match s.connected_bsocket.getD index none with
    | some sock =>
      { s.emit (.socketClose sock) with connected_bsocket := s.connected_bsocket.set index none }
    | none => s
  let s := { s with left := s.left + 1 }
  NET_DestroyPlayer cfg s index

/-- Function `NETplayerClientDisconnect(index)`. Its `NETbeginEncode ... NETend()`
sends in its turn: the argument `NETend` is that call, see `NETend_fuel`. -/
def NETplayerClientDisconnect (cfg : NetConstants)
    (NETend : NetState → NETQUEUE → NetMessage → NetState) (s : NetState) (index : Nat) :
    NetState :=
  match s.connected_bsocket.getD index none with
  | some _ =>
    let s := NETplayerLeaving cfg s index
    NETend s .broadcast (.NET_PLAYER_DROPPED index)
  | none => s

/-- The loop of `NETsend` on the host over the players `ps`; `NETend` is the call
that `NETplayerClientDisconnect` makes. -/
def NETsend_host (cfg : NetConstants) (env : SocketEnv)
    (NETend : NetState → NETQUEUE → NetMessage → NetState) (message : NetMessage) :
    List Nat → NetState → NetState
  | [], s => s
  | player :: ps, s =>
    let s :=
      match s.connected_bsocket.getD player none with
      | some sock =>
        let s := s.emit (.writeMessage sock message)
        match env.writeAll s.out.length sock with
        | .SOCKET_ERROR => NETplayerClientDisconnect cfg NETend s player
        | _ => s
      | none => s
    NETsend_host cfg env NETend message ps s

/-- The branch of `NETsend` for a client whose write to the host, on the socket
`sock`, ends in `SOCKET_ERROR`. -/
def NETsend_hostLost (s : NetState) (sock : Nat) : NetState :=
  let s := s.emit (.socketClose sock)
  let s := { s with tcp_socket := none, bsocket := none }
  let s := s.setPlayer s.hostPlayer { s.player s.hostPlayer with heartbeat := false }
  { s with isHostAlive := false }

/-- The body of `NETsend(player, message)`: the returned flag and the new state;
`NETend` is the call that closes the encodings made while the message is sent.
The byte counters of `nStats` are left out. -/
def NETsend_body (cfg : NetConstants) (env : SocketEnv)
    (NETend : NetState → NETQUEUE → NetMessage → NetState) (s : NetState) (player : Nat)
    (message : NetMessage) : Bool × NetState :=
  if !s.bComms then (true, s)
  else if player ≥ cfg.MAX_CONNECTED_PLAYERS ∧ player ≠ cfg.NET_ALL_PLAYERS then (false, s)
  else if s.isHost then
    let firstPlayer : Int := if player = cfg.NET_ALL_PLAYERS then 0 else player
    let lastPlayer : Int :=
      if player = cfg.NET_ALL_PLAYERS then (cfg.MAX_CONNECTED_PLAYERS : Int) - 1 else player
    (true, NETsend_host cfg env NETend message
      (List.range' firstPlayer.toNat (lastPlayer + 1 - firstPlayer).toNat) s)
  else if player = s.hostPlayer then
    match s.tcp_socket with
    | some sock =>
      let s := s.emit (.writeMessage sock message)
      match env.writeAll s.out.length sock with
      | .complete => (true, s)
      | .SOCKET_ERROR => (false, NETsend_hostLost s sock)
      | .short => (false, s)
    | none => (false, s)
  else
    (false, NETend s (.net NET_HOST_ONLY)
      (.NET_SEND_TO_PLAYER (s.selectedPlayer % 256) player message true))

/-- The call `NETend()` that closes `NETbeginEncode(queue, type)`, with `fuel`
for the sends that follow from it. The message is recorded in the trace; a
message of a net queue or of the broadcast queue is then passed to `NETsend`,
which writes it to the sockets at once (`NETjoinGame` tests `bsocket` right
after its `NETend()`: "Connection dropped while sending NET_JOIN"). A write
that fails makes `NETsend` drop the player and announce it through `NETend`
again, and a client that cannot reach the receiver wraps the message for the
host through `NETend`: of these nested calls at most `fuel` follow one
another. A message of a temporary queue stays in its queue, no socket of
`NETsend` serving it. -/
def NETend_fuel (cfg : NetConstants) (env : SocketEnv) :
    Nat → NetState → NETQUEUE → NetMessage → NetState
  | 0 => fun s queue message => s.emit (.encode queue message)
  | fuel + 1 => fun s queue message =>
    let s := s.emit (.encode queue message)
    match queue with
    | .net index => (NETsend_body cfg env (NETend_fuel cfg env fuel) s index message).2
    | .broadcast =>
      (NETsend_body cfg env (NETend_fuel cfg env fuel) s cfg.NET_ALL_PLAYERS message).2
    | .tmp _ => s

/-- The call `NETend()` that closes `NETbeginEncode(queue, type)`. Each nested
send follows the drop of a player, which clears one of the
`MAX_CONNECTED_PLAYERS` socket handles that `NETsend` writes to, or is the one
relay of a client: the fuel given here is never used up (`NETend_fuel_enough`). -/
def NETend (cfg : NetConstants) (env : SocketEnv) (s : NetState) (queue : NETQUEUE)
    (message : NetMessage) : NetState :=
  NETend_fuel cfg env (cfg.MAX_CONNECTED_PLAYERS + 2) s queue message

/-- Function `NETsend(player, message)`: the returned flag and the new state. -/
def NETsend (cfg : NetConstants) (env : SocketEnv) (s : NetState) (player : Nat)
    (message : NetMessage) : Bool × NetState :=
  NETsend_body cfg env (NETend cfg env) s player message

/-- One entry of the payload that `NETSendNPlayerInfoTo` writes for slot `index`. -/
def playerInfoEntry (cfg : NetConstants) (s : NetState) (index : Nat) : PlayerInfoEntry :=
  let p := s.player index
  { index := index, allocated := p.allocated, heartbeat := p.heartbeat, kick := p.kick,
    name := sstrcpy cfg.StringSize p.name, heartattacktime := p.heartattacktime,
    colour := p.colour, position := p.position, team := p.team, ready := p.ready,
    ai := p.ai, difficulty := p.difficulty, skDiff := s.skDiff.getD index 0 }

/-- Function `NETSendNPlayerInfoTo(index, indexLen, to)`, with `indexLen` the
length of `index` and `dest` for `to`. -/
def NETSendNPlayerInfoTo (cfg : NetConstants) (env : SocketEnv) (s : NetState)
    (index : List Nat) (dest : Nat) : NetState :=
  NETend cfg env s (.net dest)
    (.NET_PLAYER_INFO index.length (index.map (playerInfoEntry cfg s)))

/-- Function `NETSendPlayerInfoTo(index, to)`. -/
def NETSendPlayerInfoTo (cfg : NetConstants) (env : SocketEnv) (s : NetState) (index : Nat)
    (dest : Nat) : NetState :=
  NETSendNPlayerInfoTo cfg env s [index] dest

/-- Function `NETSendAllPlayerInfoTo(to)`. -/
def NETSendAllPlayerInfoTo (cfg : NetConstants) (env : SocketEnv) (s : NetState)
    (dest : Nat) : NetState :=
  if s.isHost then NETSendNPlayerInfoTo cfg env s (List.range cfg.MAX_PLAYERS) dest else s

/-- Function `NETBroadcastPlayerInfo(index)`. -/
def NETBroadcastPlayerInfo (cfg : NetConstants) (env : SocketEnv) (s : NetState)
    (index : Nat) : NetState :=
  NETSendPlayerInfoTo cfg env s index cfg.NET_ALL_PLAYERS

/-- Function `NETchangePlayerName(index, newName)`. -/
def NETchangePlayerName (cfg : NetConstants) (env : SocketEnv) (s : NetState) (index : Nat)
    (newName : CString) : Bool × NetState :=
  if !s.bComms then
    (true, s.setPlayer 0 { s.player 0 with name := sstrcpy cfg.StringSize newName })
  else
    let s := if s.isHost && s.allow_joining then s.emit (.lobbyUpdatePlayer index newName) else s
    let s := s.setPlayer index { s.player index with name := sstrcpy cfg.StringSize newName }
    (true, NETBroadcastPlayerInfo cfg env s index)

/-- One upper-case hexadecimal digit, as a byte. -/
def hexDigit (d : Nat) : Nat := if d < 10 then 48 + d else 55 + d

/-- The digits of `n` in upper-case hexadecimal, at most `fuel` of them. -/
def hexDigits : Nat → Nat → CString
  | 0, _ => []
  | fuel + 1, n => if n < 16 then [hexDigit n] else hexDigits fuel (n / 16) ++ [hexDigit (n % 16)]

/-- Conversion `%X` of an `unsigned`: at most eight digits. -/
def formatX (n : Nat) : CString := hexDigits 8 n

/-- The call `ssprintf(name, "%s_%X", orig, pass + 1)` into `char name[StringSize]`. -/
def suffixedName (cfg : NetConstants) (orig : CString) (pass : Nat) : CString :=
  sstrcpy cfg.StringSize (orig ++ [95] ++ formatX (pass + 1))

/-- The inner `for (j ...)` of `NETfixDuplicatePlayerNames`: does it stop before
`j == i`, at a slot whose name equals `name`? -/
def duplicateBelow (s : NetState) (i : Nat) (name : CString) : Bool :=
  (List.range i).any (fun j => name == (s.player j).name)

/-- The `for (pass ...)` loop of `NETfixDuplicatePlayerNames` for slot `i`, with `k`
passes left: the values of `pass` and `name` when the loop is left. -/
def NETfixDuplicatePlayerNames_pass (cfg : NetConstants) (s : NetState) (i : Nat) :
    Nat → Nat → CString → Nat × CString
  | 0, pass, name => (pass, name)
  | k + 1, pass, name =>
    let name := if pass ≠ 0 then suffixedName cfg (s.player i).name pass else name
    if duplicateBelow s i name then NETfixDuplicatePlayerNames_pass cfg s i k (pass + 1) name
    else (pass, name)

/-- The body of the outer loop of `NETfixDuplicatePlayerNames` for slot `i`. -/
def NETfixDuplicatePlayerNames_slot (cfg : NetConstants) (env : SocketEnv) (s : NetState)
    (i : Nat) : NetState :=
  let name := sstrcpy cfg.StringSize (s.player i).name
  if name = [] then s
  else
    let r := NETfixDuplicatePlayerNames_pass cfg s i 101 0 name
    if r.1 ≠ 0 then (NETchangePlayerName cfg env s i r.2).2 else s

/-- The outer loop of `NETfixDuplicatePlayerNames` from slot `i` on, for `k` more slots. -/
def NETfixDuplicatePlayerNames_loop (cfg : NetConstants) (env : SocketEnv) :
    Nat → Nat → NetState → NetState
  | 0, _, s => s
  | k + 1, i, s =>
    NETfixDuplicatePlayerNames_loop cfg env k (i + 1)
      (NETfixDuplicatePlayerNames_slot cfg env s i)

/-- Function `NETfixDuplicatePlayerNames()`: slots `1 .. MAX_PLAYERS - 1`. -/
def NETfixDuplicatePlayerNames (cfg : NetConstants) (env : SocketEnv) (s : NetState) :
    NetState :=
  NETfixDuplicatePlayerNames_loop cfg env (cfg.MAX_PLAYERS - 1) 1 s

instance : Inhabited PLAYER_IP := ⟨{ pname := [], IPAddress := [] }⟩

/-- Function `onBanList(ip)`. -/
def onBanList (cfg : NetConstants) (s : NetState) (ip : CString) : Bool :=
  match s.IPlist with
  | none => false
  | some l => (List.range cfg.MAX_BANS).any (fun i => ip == (l.getD i default).IPAddress)

/-- The guard that makes `NET_PLAYER_INFO` bail out at an entry naming `index`,
received on queue `q`. -/
def playerInfoBadIndex (cfg : NetConstants) (s : NetState) (q index : Nat) : Bool :=
  decide (index ≥ cfg.MAX_CONNECTED_PLAYERS) ||
    (q != s.hostPlayer && (q != index || !(s.player index).allocated))

/-- The body of the entry loop of `NET_PLAYER_INFO` after the guard: the entry
`e`, received on queue `q`, is stored into slot `e.index`. -/
def playerInfoApply (cfg : NetConstants) (s : NetState) (q : Nat) (e : PlayerInfoEntry) :
    NetState :=
  let index := e.index
  let p := s.player index
  let p := { p with allocated := e.allocated, heartbeat := e.heartbeat, kick := e.kick,
                    name := sstrcpy cfg.StringSize e.name,
                    heartattacktime := e.heartattacktime, ready := e.ready }
  if q = s.hostPlayer then
    let p := { p with colour := e.colour, position := e.position, team := e.team, ai := e.ai,
                      difficulty := e.difficulty }
    { s.setPlayer index p with skDiff := s.skDiff.set index e.skDiff }
  else s.setPlayer index p

/-- The entry loop of `NET_PLAYER_INFO` over the entries still to read: the
state, the last value of `index` and the `error` flag when the loop is left. -/
def playerInfoLoop (cfg : NetConstants) (q : Nat) :
    List PlayerInfoEntry → NetState → Nat → NetState × Nat × Bool
  | [], s, index => (s, index, false)
  | e :: es, s, _ =>
    if playerInfoBadIndex cfg s q e.index then (s, e.index, true)
    else playerInfoLoop cfg q es (playerInfoApply cfg s q e) e.index

/-- The entries a decoder reads from a payload that declares `indexLen` of
them: what lies past the end of the payload reads as zero. -/
def readEntries (indexLen : Nat) (entries : List PlayerInfoEntry) : List PlayerInfoEntry :=
  (List.range indexLen).map (fun n => entries.getD n default)

/-- The `case NET_PLAYER_INFO` of `NETprocessSystemMessage`, for a message
received on queue `q`. -/
def NETprocessSystemMessage_PLAYER_INFO (cfg : NetConstants) (env : SocketEnv) (s : NetState)
    (q : Nat) (indexLen : Nat) (entries : List PlayerInfoEntry) : NetState :=
  if indexLen > cfg.MAX_PLAYERS ∨ (q ≠ NET_HOST_ONLY ∧ indexLen > 1) then s
  else
    let r := playerInfoLoop cfg q (readEntries indexLen entries) s cfg.MAX_PLAYERS
    let s := r.1
    let s :=
      if s.isHost && !r.2.2 then
        NETfixDuplicatePlayerNames cfg env (NETBroadcastPlayerInfo cfg env s r.2.1)
      else s
    { s with netPlayersUpdated := true }

/-- Enumerator `CONNECTIONSTATUS_NORMAL`: the number of timed statuses, which
`NETsetPlayerConnectionStatus` asserts to be the size of its array `timeouts`. -/
def CONNECTIONSTATUS_NORMAL : Nat := 4

/-- Array `timeouts` of `NETsetPlayerConnectionStatus`. -/
def timeouts (cfg : NetConstants) : List Nat :=
  [cfg.GAME_TICKS_PER_SEC * 10, cfg.GAME_TICKS_PER_SEC * 10, cfg.GAME_TICKS_PER_SEC,
    cfg.GAME_TICKS_PER_SEC / 6]

/-- The assignment `NET_PlayerConnectionStatus[status][player] = v`. -/
def NetState.setConnectionStatus (s : NetState) (status player v : Nat) : NetState :=
  { s with connectionStatus :=
      s.connectionStatus.set status ((s.connectionStatus.getD status []).set player v) }

/-- The loop of `NETsetPlayerConnectionStatus` for `CONNECTIONSTATUS_NORMAL`, over
the statuses `ns`. -/
def NETsetPlayerConnectionStatus_clear (player : Nat) : List Nat → NetState → NetState
  | [], s => s
  | n :: ns, s => NETsetPlayerConnectionStatus_clear player ns (s.setConnectionStatus n player 0)

/-- Function `NETsetPlayerConnectionStatus(status, player)` for a `player` other
than `NET_ALL_PLAYERS`, or for the status `CONNECTIONSTATUS_NORMAL`. -/
def NETsetPlayerConnectionStatus_single (cfg : NetConstants) (s : NetState)
    (status player : Nat) : NetState :=
  if status = CONNECTIONSTATUS_NORMAL then
    NETsetPlayerConnectionStatus_clear player (List.range CONNECTIONSTATUS_NORMAL) s
  else
    s.setConnectionStatus status player
      (u32 ((s.realTime : Int) + ((timeouts cfg).getD status 0 : Nat)))

/-- The loop of `NETsetPlayerConnectionStatus` for `NET_ALL_PLAYERS`, over the
players `ns`. -/
def NETsetPlayerConnectionStatus_all (cfg : NetConstants) (status : Nat) :
    List Nat → NetState → NetState
  | [], s => s
  | n :: ns, s =>
    NETsetPlayerConnectionStatus_all cfg status ns
      (NETsetPlayerConnectionStatus_single cfg s status n)

/-- Function `NETsetPlayerConnectionStatus(status, player)`. -/
def NETsetPlayerConnectionStatus (cfg : NetConstants) (s : NetState) (status player : Nat) :
    NetState :=
  if status = CONNECTIONSTATUS_NORMAL then NETsetPlayerConnectionStatus_single cfg s status player
  else if player = cfg.NET_ALL_PLAYERS then
    NETsetPlayerConnectionStatus_all cfg status (List.range cfg.MAX_PLAYERS) s
  else NETsetPlayerConnectionStatus_single cfg s status player

/-- Function `NETplayerDropped(index)`. -/
def NETplayerDropped (cfg : NetConstants) (env : SocketEnv) (s : NetState) (index : Nat) :
    NetState :=
  let s := NETend cfg env s .broadcast (.NET_PLAYER_DROPPED index)
  let s := { s with drops := s.drops + 1 }
  let s := NET_DestroyPlayer cfg s index
  NETsetPlayerConnectionStatus cfg s cfg.CONNECTIONSTATUS_PLAYER_DROPPED index

/-- The call `NETinsertMessageFromNet(NETnetQueue(index), message)` while the
messages of the queue `NETnetQueue(q)` are held apart as `queue`. -/
def insertNetMessage (s : NetState) (q : Nat) (queue : List NetMessage) (index : Nat)
    (message : NetMessage) : List NetMessage × NetState :=
  if index = q then (queue ++ [message], s)
  else (queue, { s with netQueues := s.netQueues.set index (s.netQueues.getD index [] ++ [message]) })

/-- The `case NET_SEND_TO_PLAYER` of `NETprocessSystemMessage`: the messages left
in the queue after the pop, and the new state. -/
def NETprocessSystemMessage_SEND_TO_PLAYER (cfg : NetConstants) (env : SocketEnv)
    (s : NetState) (q : Nat) (rest : List NetMessage) (sender receiver : Nat)
    (message : NetMessage) (complete : Bool) : List NetMessage × NetState :=
  if !complete then (rest, s)
  else if (receiver = s.selectedPlayer ∨ receiver = cfg.NET_ALL_PLAYERS) ∧ q = s.hostPlayer then
    if sender ≠ s.selectedPlayer then insertNetMessage s q rest sender message else (rest, s)
  else if s.isHost ∧ sender = q then
    let s := NETend cfg env s (.net receiver) (.NET_SEND_TO_PLAYER sender receiver message true)
    if receiver = cfg.NET_ALL_PLAYERS then insertNetMessage s q rest sender message else (rest, s)
  else (rest, s)

/-- The messages a decoder reads from a payload that declares `num` of them. -/
def readMessages (num : Nat) (messages : List RawMessage) : List RawMessage :=
  (List.range num).map (fun n => messages.getD n default)

/-- The call `NETinsertMessageFromNet(NETgameQueue(player), message)`. -/
def insertGameMessage (s : NetState) (player : Nat) (message : RawMessage) : NetState :=
  { s with gameQueues := s.gameQueues.set player (s.gameQueues.getD player [] ++ [message]) }

/-- The `case NET_SHARE_GAME_QUEUE` of `NETprocessSystemMessage`: every message
read is inserted into the game queue of `player`; the test of `NETend()` and of
`player > MAX_PLAYERS` that follows the loop only writes to the log. -/
def NETprocessSystemMessage_SHARE_GAME_QUEUE (s : NetState) (player num : Nat)
    (messages : List RawMessage) : NetState :=
  (readMessages num messages).foldl (fun t m => insertGameMessage t player m) s

/-- The `case NET_PLAYER_LEAVING` of `NETprocessSystemMessage`. -/
def NETprocessSystemMessage_PLAYER_LEAVING (cfg : NetConstants) (env : SocketEnv)
    (s : NetState) (q index : Nat) : NetState :=
  let index := if q ≠ s.hostPlayer ∧ index ≠ q then q else index
  let s :=
    if s.isHost then NETend cfg env s .broadcast (.NET_PLAYER_LEAVING index s.isHost) else s
  let s := NETplayerLeaving cfg s index
  NETsetPlayerConnectionStatus cfg s cfg.CONNECTIONSTATUS_PLAYER_LEAVING index

/-- Function `NETsendGameFlags()`. -/
def NETsendGameFlags (cfg : NetConstants) (env : SocketEnv) (s : NetState) : NetState :=
  NETend cfg env s .broadcast
    (.NET_GAME_FLAGS 4 ((List.range 4).map (fun i => s.NetGameFlags.getD i 0)))

/-- The loop of `case NET_GAME_FLAGS` that stores the flags `is`. -/
def NETprocessSystemMessage_GAME_FLAGS_loop (flags : List Int) : List Nat → NetState → NetState
  | [], s => s
  | i :: is, s =>
    NETprocessSystemMessage_GAME_FLAGS_loop flags is
      { s with NetGameFlags := s.NetGameFlags.set i (flags.getD i 0) }

/-- The values that `i` takes in the loop "Retrieve all game flags" of `case
NET_GAME_FLAGS`, for a message that declares `count` flags: the indices at which
`NetGameFlags[i]` is written. `max_flags` is `ARRAY_SIZE(NetGameFlags)`. -/
def NETprocessSystemMessage_GAME_FLAGS_indices (count : Nat) : List Nat :=
  let max_flags := 4
  let count := if count > max_flags then max_flags else count
  List.range count

/-- The `case NET_GAME_FLAGS` of `NETprocessSystemMessage`. -/
def NETprocessSystemMessage_GAME_FLAGS (cfg : NetConstants) (env : SocketEnv) (s : NetState)
    (count : Nat) (flags : List Int) : NetState :=
  let s := NETprocessSystemMessage_GAME_FLAGS_loop flags
    (NETprocessSystemMessage_GAME_FLAGS_indices count) s
  if s.isHost then NETsendGameFlags cfg env s else s

/-- Function `recvDebugSync(queue)` for the queue of index `q`. -/
def recvDebugSync (s : NetState) (q time bufLen : Nat) (buf : List Nat) : NetState :=
  let bufLen := min bufLen 2000000
  s.emit (.dumpDebugSync time q (buf.take bufLen))

/-- Function `NETprocessSystemMessage(playerQueue, type)`, `playerQueue` being the
queue `NETnetQueue(q)` whose pending messages are `queue` and `type` the type of
its first message: the returned flag, the messages left in the queue, and the
new state. `recvMultiStats` belongs to another module and leaves no trace. -/
def NETprocessSystemMessage (cfg : NetConstants) (env : SocketEnv) (s : NetState) (q : Nat)
    (queue : List NetMessage) : Bool × List NetMessage × NetState :=
  match queue with
  | .NET_SEND_TO_PLAYER sender receiver message complete :: rest =>
    let r := NETprocessSystemMessage_SEND_TO_PLAYER cfg env s q rest sender receiver message
      complete
    (true, r.1, r.2)
  | .NET_SHARE_GAME_QUEUE player num messages :: rest =>
    (true, rest, NETprocessSystemMessage_SHARE_GAME_QUEUE s player num messages)
  | .NET_PLAYER_STATS _ :: rest => (true, rest, { s with netPlayersUpdated := true })
  | .NET_PLAYER_INFO indexLen entries :: rest =>
    (true, rest, NETprocessSystemMessage_PLAYER_INFO cfg env s q indexLen entries)
  | .NET_PLAYER_JOINED _ :: rest => (true, rest, { s with netPlayersUpdated := true })
  | .NET_PLAYER_LEAVING index _ :: rest =>
    (true, rest, NETprocessSystemMessage_PLAYER_LEAVING cfg env s q index)
  | .NET_GAME_FLAGS count flags :: rest =>
    (true, rest, NETprocessSystemMessage_GAME_FLAGS cfg env s count flags)
  | .NET_DEBUG_SYNC time bufLen buf :: rest => (true, rest, recvDebugSync s q time bufLen buf)
  | _ => (false, queue, s)

/-- Variable `NETCODE_VERSION_MAJOR`. -/
def NETCODE_VERSION_MAJOR : Int := 5

/-- Variable `NETCODE_VERSION_MINOR`. -/
def NETCODE_VERSION_MINOR : Int := 1

/-- Function `NETisCorrectVersion(game_version_major, game_version_minor)`; the
arguments are `uint32_t`, and the comparison converts the `int` constants to
unsigned. -/
def NETisCorrectVersion (game_version_major game_version_minor : Nat) : Bool :=
  u32 NETCODE_VERSION_MAJOR == game_version_major &&
    u32 NETCODE_VERSION_MINOR == game_version_minor

/-- The four bytes of a 32-bit value in network order (`htonl` and `memcpy`). -/
def htonl (x : Nat) : List Nat := [x / 16777216 % 256, x / 65536 % 256, x / 256 % 256, x % 256]

/-- The 32-bit value whose bytes in network order start the list (`memcpy` and `ntohl`). -/
def ntohl (b : List Nat) : Nat :=
  b.getD 0 0 % 256 * 16777216 + b.getD 1 0 % 256 * 65536 + b.getD 2 0 % 256 * 256
    + b.getD 3 0 % 256

/-- The bytes of the C string `"list"`, terminator included. -/
def listCommand : List Nat := [108, 105, 115, 116, 0]

/-- What the sockets answer during the handshake of `NETallowJoining`. -/
structure HandshakeEnv where
  /-- Result of `socketAccept(tcp_socket)`. -/
  accept : Option Nat
  /-- Whether `checkSockets(tmp_socket_set, NET_TIMEOUT_DELAY) > 0` and
  `socketReadReady(tmp_socket[i])` both hold. -/
  readable : Bool
  /-- First `readNoInt`: `none` for `SOCKET_ERROR`, else `buffer[0 .. 5)` after the call. -/
  read5 : Option (List Nat)
  /-- Second `readNoInt`: `none` for `SOCKET_ERROR`, else `buffer[5 .. 8)` after the call. -/
  read3 : Option (List Nat)
deriving DecidableEq, Repr

/-- The version check inside the handshake, once the socket is stored in
`tmp_socket[i]`: the new state and the flag `connectFailed`. -/
def NETallowJoining_version (s : NetState) (sock : Nat) (env : HandshakeEnv) : NetState × Bool :=
  if env.readable then
    match env.read5 with
    | none => (s, true)
    | some b5 =>
      if b5.take 5 = listCommand then (s, true)
      else
        match env.read3 with
        | none => (s, true)
        | some b3 =>
          let buffer := b5.take 5 ++ b3.take 3
          let major := ntohl buffer
          let minor := ntohl (buffer.drop 4)
          if NETisCorrectVersion major minor then
            (((s.emit (.writeAll sock .ERROR_NOERROR)).emit (.beginCompression sock)), false)
          else (s.emit (.writeAll sock .ERROR_WRONGVERSION), true)
  else (s, true)

/-- The block "See if there's an incoming connection" of `NETallowJoining`
(lines 1697-1764), `i` being the first empty slot of `tmp_socket`. -/
def NETallowJoining_handshake (s : NetState) (i : Nat) (env : HandshakeEnv) : NetState :=
  if s.tmp_socket.getD i none = none then
    match env.accept with
    | none => s
    | some sock =>
      let s := { s with tmp_socket := s.tmp_socket.set i (some sock) }
      let r := NETallowJoining_version s sock env
      if r.2 then
        { r.1.emit (.socketClose sock) with tmp_socket := r.1.tmp_socket.set i none }
      else r.1
  else s

/-- What other modules answer while a join request is handled. -/
structure JoinEnv where
  /-- Result of `getSocketTextAddress(connected_bsocket[index])`. -/
  socketTextAddress : CString
  /-- Result of `getModList()`. -/
  modList : CString
  /-- Result of `lobbyclient.isAuthenticated()`. -/
  isAuthenticated : Bool
  /-- Whether `lobbyclient.addPlayer(...)` returns `LOBBY_NO_ERROR`. -/
  addPlayerOk : Bool
deriving DecidableEq, Repr

/-- The chain of checks of `NETallowJoining` that sets `rejected` (lines
1852-1876), for the slot `index` just created. -/
def NETallowJoining_checks (cfg : NetConstants) (s : NetState) (index : Nat)
    (ModList GamePassword : CString) (env : JoinEnv) : LOBBY_ERROR_TYPES :=
  if onBanList cfg s (s.player index).IPtextAddress then .ERROR_KICKED
  else if s.GamePassworded && s.gamePassword != GamePassword then .ERROR_WRONGPASSWORD
  else if s.playercount > s.maxPlayers then .ERROR_FULL
  else if env.modList != ModList then .ERROR_WRONGDATA
  else .ERROR_NOERROR

/-- The loop "Narrowcast to new player that everyone has joined" over the slots `js`. -/
def NETallowJoining_narrowcast (cfg : NetConstants) (net : SocketEnv) (index : Nat) :
    List Nat → NetState → NetState
  | [], s => s
  | j :: js, s =>
    let s :=
      if index ≠ j ∧ (s.player j).allocated then
        NETend cfg net s (.net index) (.NET_PLAYER_JOINED j)
      else s
    NETallowJoining_narrowcast cfg net index js s

/-- The closing loop of `NETallowJoining` that broadcasts the info of the slots `js`. -/
def NETallowJoining_broadcastAll (cfg : NetConstants) (net : SocketEnv) :
    List Nat → NetState → NetState
  | [], s => s
  | j :: js, s => NETallowJoining_broadcastAll cfg net js (NETBroadcastPlayerInfo cfg net s j)

/-- The branch `if (rejected)` of `NETallowJoining` (lines 1892-1909): the
player created in slot `index` is told the reason and removed again. The
handle passed to `socketClose` is `NULL` when the write of the reason failed
and the player was dropped there and then. -/
def NETallowJoining_refuse (cfg : NetConstants) (net : SocketEnv) (s : NetState) (index : Nat)
    (rejected : LOBBY_ERROR_TYPES) : NetState :=
  let s := NETend cfg net s (.net index) (.NET_REJECTED (.value rejected))
  let s := s.emit .flush
  let s := { s with allow_joining := false }
  let s := NET_DestroyPlayer cfg s index
  let s := { s with allow_joining := true }
  let s :=
    match s.connected_bsocket.getD index none with
    | some sock => s.emit (.socketClose sock)
    | none => s.emit .socketCloseNull
  { s with connected_bsocket := s.connected_bsocket.set index none }

/-- The end of `NETallowJoining` for a player that is not rejected (lines
1911-1957): the player in slot `index` is told its slot, then the roster. -/
def NETallowJoining_welcome (cfg : NetConstants) (net : SocketEnv) (s : NetState)
    (index : Nat) : NetState :=
  let s := NETend cfg net s (.net index) (.NET_ACCEPTED index)
  let s := NETSendAllPlayerInfoTo cfg net s index
  let s := NETBroadcastPlayerInfo cfg net s index
  let s := NETallowJoining_narrowcast cfg net index (List.range cfg.MAX_CONNECTED_PLAYERS) s
  let s := NETend cfg net s .broadcast (.NET_PLAYER_JOINED index)
  let s := NETallowJoining_broadcastAll cfg net (List.range cfg.MAX_CONNECTED_PLAYERS) s
  let s := NETfixDuplicatePlayerNames cfg net s
  s.setPlayer index
    { s.player index with
        wzFile := { (s.player index).wzFile with isCancelled := false, isSending := false },
        needFile := false }

/-- The lines of `NETallowJoining` between the creation of the player and the
checks (1839-1850): the socket of `tmp_socket[i]` becomes `connected_bsocket[index]`
and its text address is stored in the slot. -/
def NETallowJoining_promote (cfg : NetConstants) (s : NetState) (i index : Nat) (env : JoinEnv) :
    NetState :=
  let s := { s with connected_bsocket := s.connected_bsocket.set index (s.tmp_socket.getD i none),
                    tmp_socket := s.tmp_socket.set i none }
  s.setPlayer index
    { s.player index with IPtextAddress := sstrcpy cfg.IPtextSize env.socketTextAddress }

/-- The lines of `NETallowJoining` from the checks on (1852-1958), for the
player created in slot `index`: the checks, the question to the lobby, and then
either the refusal or the welcome. The flag tells whether `NETallowJoining` is
left by the `return` of the refusal. -/
def NETallowJoining_verdict (cfg : NetConstants) (net : SocketEnv) (s : NetState) (index : Nat)
    (name ModList GamePassword username session : CString) (env : JoinEnv) :
    Bool × NetState :=
  let rejected := NETallowJoining_checks cfg s index ModList GamePassword env
  let lobbyAsked := rejected = .ERROR_NOERROR ∧ env.isAuthenticated
  let s := if lobbyAsked then s.emit (.lobbyAddPlayer index name username session) else s
  let rejected := if lobbyAsked ∧ ¬ env.addPlayerOk then .ERROR_LOBBY_REJECTED else rejected
  if rejected ≠ .ERROR_NOERROR then (true, NETallowJoining_refuse cfg net s index rejected)
  else (false, NETallowJoining_welcome cfg net s index)

/-- The handling of a `NET_JOIN` request in `NETallowJoining` (lines
1797-1958): the request is the first message of the queue of `tmp_socket[i]`,
which is not null; its strings are given as `NETstring` left them in the local
buffers. The index returned by `NET_CreatePlayer` is stored in a `uint8_t`.
The result is the flag of `NETallowJoining_verdict` and the new state. When no
player can be created, the code encodes its refusal with
`NETuint8_t((uint8_t *)ERROR_FULL)`, a read through a pointer made of the
enumerator: the behaviour of the program is undefined from there, and the
result is `none`. -/
def NETallowJoining_join (cfg : NetConstants) (net : SocketEnv) (s : NetState) (i : Nat)
    (name ModList GamePassword username session : CString) (env : JoinEnv) :
    Option (Bool × NetState) :=
  let r := NET_CreatePlayer cfg s name
  let s := r.2
  if r.1 = -1 then none
  else
    let index := r.1.toNat % 256
    let s := NETallowJoining_promote cfg s i index env
    some (NETallowJoining_verdict cfg net s index name ModList GamePassword username session env)

/-- The `NET_REJECTED` bytes of a trace, in order. -/
def rejections : List Event → List RejectByte
  | [] => []
  | .encode _ (.NET_REJECTED b) :: es => b :: rejections es
  | _ :: es => rejections es

/-- The `NET_ACCEPTED` slot indices of a trace, in order. -/
def acceptances : List Event → List Nat
  | [] => []
  | .encode _ (.NET_ACCEPTED k) :: es => k :: acceptances es
  | _ :: es => acceptances es

/-- Zero-initialised globals of a session with communication enabled. -/
def zeroState (cfg : NetConstants) : NetState :=
  { players := List.replicate cfg.MAX_CONNECTED_PLAYERS PLAYER.zero,
    skDiff := List.replicate cfg.MAX_PLAYERS 0,
    playercount := 0, maxPlayers := 0, hostPlayer := 0, isHost := false, bComms := true,
    GamePassworded := false, gamePassword := [], allow_joining := false, IPlist := none,
    tmp_socket := List.replicate cfg.MAX_TMP_SOCKETS none,
    connected_bsocket := List.replicate cfg.MAX_CONNECTED_PLAYERS none,
    joins := 0, cantjoin := 0, netPlayersUpdated := false, out := [] }

/-- A host as `NEThostGame` leaves it: tables initialised by `NET_InitPlayers`,
the host player, named `A`, created in slot 0, room for four players, joining
allowed, and a connection waiting in `tmp_socket[0]`. -/
def hostState : NetState :=
  let s := NET_InitPlayers wzConstants (zeroState wzConstants)
  let s := { s with isHost := true, maxPlayers := 4 }
  let s := (NET_CreatePlayer wzConstants s [65]).2
  { s with allow_joining := true, tmp_socket := s.tmp_socket.set 0 (some 7) }

/-- An environment in which the lobby is not in use and the mod lists agree. -/
def plainJoinEnv : JoinEnv :=
  { socketTextAddress := [49, 46, 50, 46, 51, 46, 52], modList := [], isAuthenticated := false,
    addPlayerOk := true }

/-- A client of the game of `hostState`, in slot 1: it knows the host in slot 0. -/
def clientState : NetState :=
  let s := NET_InitPlayers wzConstants (zeroState wzConstants)
  let s := s.setPlayer 0 { s.player 0 with allocated := true, name := [65] }
  s.setPlayer 1 { s.player 1 with allocated := true, name := [66] }

/-- The slot `i` as `NET_InitPlayers` leaves it when it starts from zero-initialised
storage, the flags of the session being those of `s`: a fresh slot. -/
def freshSlot (cfg : NetConstants) (s : NetState) (i : Nat) : PLAYER :=
  (NET_InitPlayer cfg
    { s with players := List.replicate cfg.MAX_CONNECTED_PLAYERS PLAYER.zero } i true).player i

/-- The host of `hostState` after a second player, named `B`, has taken slot 1
and has downloaded five bytes of a map file. -/
def busyHost : NetState :=
  let s := (NET_CreatePlayer wzConstants hostState [66]).2
  s.setPlayer 1 { s.player 1 with wzFile := { (s.player 1).wzFile with currPos := 5 } }

/-- A call of the player registry. -/
inductive RegistryCall
  | create (name : CString)
  | destroy (index : Nat)
deriving DecidableEq, Repr

/-- One call of the registry, applied to a state. -/
def RegistryCall.run (cfg : NetConstants) (s : NetState) : RegistryCall → NetState
  | .create name => (NET_CreatePlayer cfg s name).2
  | .destroy index => NET_DestroyPlayer cfg s index

/-- A sequence of calls of the registry, applied in order. -/
def runRegistry (cfg : NetConstants) : List RegistryCall → NetState → NetState
  | [], s => s
  | c :: cs, s => runRegistry cfg cs (c.run cfg s)

/-- Number of allocated slots of a table. -/
def allocatedCount : List PLAYER → Nat
  | [] => 0
  | p :: ps => (if p.allocated then 1 else 0) + allocatedCount ps

/-- The slot that `NET_InitPlayer(i, initPosition)` stores, given the slot `p` it
finds, in closed form. -/
def initSlot (cfg : NetConstants) (isHost bComms : Bool) (i : Nat) (initPosition : Bool)
    (p : PLAYER) : PLAYER :=
  { name := if isHost then p.name else [],
    position := if initPosition then (i : Int) else p.position,
    colour := if initPosition then (i : Int) else p.colour,
    allocated := false,
    heartattacktime := 0,
    heartbeat := true,
    kick := false,
    team := if initPosition then (i : Int) else p.team,
    ready := false,
    ai := if bComms then cfg.AI_OPEN else 0,
    difficulty := 1,
    needFile := false,
    wzFile := { pFileHandle := p.wzFile.pFileHandle, currPos := p.wzFile.currPos,
                fileSize_32 := p.wzFile.fileSize_32, isSending := false, isCancelled := false },
    IPtextAddress := p.IPtextAddress }

/-- The fields of a slot that only the host may set. -/
def PLAYER.balance (p : PLAYER) : Int × Int × Int × Int × Int :=
  (p.colour, p.position, p.team, p.ai, p.difficulty)

/-- A slot with its name blanked: everything of the slot but the name. -/
def PLAYER.withoutName (p : PLAYER) : PLAYER := { p with name := [] }

/-- The state `s'` differs from `s` at most in names of slots and in messages
appended to the trace that are neither `NET_REJECTED` nor `NET_ACCEPTED`. -/
def NamesOnly (s s' : NetState) : Prop :=
  s'.players.map PLAYER.withoutName = s.players.map PLAYER.withoutName ∧
  ({ s' with players := [], out := [] } : NetState) = { s with players := [], out := [] } ∧
  ∃ evs, s'.out = s.out ++ evs ∧ rejections evs = [] ∧ acceptances evs = []

/-- The host of `busyHost` with a `NET_PLAYER_INFO` entry for slot 1 that asks for
another colour, position, team, AI marker, difficulty and skirmish difficulty. -/
def tamperEntry : PlayerInfoEntry :=
  { index := 1, allocated := true, heartbeat := true, kick := false, name := [66],
    heartattacktime := 0, colour := 7, position := 7, team := 7, ready := true, ai := 3,
    difficulty := 3, skDiff := 9 }

/-- The fields of a slot, name apart, that every sender of a `NET_PLAYER_INFO`
may set. -/
def PLAYER.status (p : PLAYER) : Bool × Bool × Bool × Nat × Bool :=
  (p.allocated, p.heartbeat, p.kick, p.heartattacktime, p.ready)

/-- The client of `clientState` after it has renamed itself `A`, which is also
the name of the host. -/
def renamedClient : NetState :=
  clientState.setPlayer 1 { clientState.player 1 with name := [65] }

/-- The eight bytes a client with protocol version `(major, minor)` writes on
connecting (`NETjoinGame`): `htonl(major)` followed by `htonl(minor)`. -/
def versionToken (major minor : Nat) : List Nat := htonl major ++ htonl minor

/-- A handshake in which the connection `sock` is accepted and both reads
deliver the version token of a client with version `(major, minor)`. -/
def clientHandshakeEnv (sock major minor : Nat) : HandshakeEnv :=
  { accept := some sock, readable := true,
    read5 := some ((versionToken major minor).take 5),
    read3 := some ((versionToken major minor).drop 5) }

/-- The host of `hostState` once four players `A`, `B`, `C`, `D` fill the
game of four, with the password `pw` set; slots 4 to 7 are still open. -/
def fullHost : NetState :=
  let s := (NET_CreatePlayer wzConstants hostState [66]).2
  let s := (NET_CreatePlayer wzConstants s [67]).2
  let s := (NET_CreatePlayer wzConstants s [68]).2
  { s with GamePassworded := true, gamePassword := [112, 119] }

/-- The order of the checks of a join request as the code has it: ban list,
password, capacity, mod list, lobby; the code of the first that fails. -/
def firstFailingCheck (banned wrongPassword full wrongMods lobbyRejects : Bool) :
    Option LOBBY_ERROR_TYPES :=
  if banned then some .ERROR_KICKED
  else if wrongPassword then some .ERROR_WRONGPASSWORD
  else if full then some .ERROR_FULL
  else if wrongMods then some .ERROR_WRONGDATA
  else if lobbyRejects then some .ERROR_LOBBY_REJECTED
  else none

/-- No slot `i` of `1 .. MAX_PLAYERS - 1` whose name, copied into a buffer of
`StringSize` bytes, is not empty has the name of a lower slot. -/
def namesDistinct (cfg : NetConstants) (names : Nat → CString) : Prop :=
  ∀ i j, j < i → i < cfg.MAX_PLAYERS → sstrcpy cfg.StringSize (names i) ≠ [] →
    sstrcpy cfg.StringSize (names i) ≠ names j

/-- The trace of `s'` is the trace of `s` followed by events among which there
is no `NET_REJECTED` and no `NET_ACCEPTED` message. -/
def NoVerdict (s s' : NetState) : Prop :=
  ∃ evs, s'.out = s.out ++ evs ∧ rejections evs = [] ∧ acceptances evs = []

/-- The state `s'` differs from `s` at most by messages appended to the trace
that are neither `NET_REJECTED` nor `NET_ACCEPTED`. -/
def SendsOnly (s s' : NetState) : Prop :=
  ({ s' with out := [] } : NetState) = { s with out := [] } ∧
  ∃ evs, s'.out = s.out ++ evs ∧ rejections evs = [] ∧ acceptances evs = []

/-- The entry of `tamperEntry` with a slot index past the player table. -/
def outOfRangeEntry : PlayerInfoEntry := { tamperEntry with index := 8 }

/-- The index of `IPlist` at which the next call of `addToBanList` writes: the
value of `numBans` after the block that allocates the list. -/
def addToBanList_index (s : NetState) : Nat :=
  match s.IPlist with
  | none => 0
  | some _ => s.numBans

/-- Function `addToBanList(ip, name)`. The list has `MAX_BANS` entries, which the
`memset` clears on every call; a write at an index past the list leaves the
list as it is. -/
def addToBanList (cfg : NetConstants) (s : NetState) (ip name : CString) : NetState :=
  let numBans := addToBanList_index s
  let cleared : List PLAYER_IP := List.replicate cfg.MAX_BANS default
  let entry : PLAYER_IP :=
    { IPAddress := sstrcpy cfg.IPtextSize ip, pname := sstrcpy cfg.banNameSize name }
  let s := { s with IPlist := some (cleared.set numBans entry) }
  let numBans := numBans + 1
  let s := { s with banned := s.banned + 1 }
  if numBans > cfg.MAX_BANS then { s with numBans := 0 } else { s with numBans := numBans }

/-- Successive calls of `addToBanList`, one for each pair of the list. -/
def addBans (cfg : NetConstants) : List (CString × CString) → NetState → NetState
  | [], s => s
  | b :: bs, s => addBans cfg bs (addToBanList cfg s b.1 b.2)

/-- Function `NETplayerKicked(index)`. -/
def NETplayerKicked (cfg : NetConstants) (s : NetState) (index : Nat) : NetState :=
  let s := addToBanList cfg s (s.player index).IPtextAddress (s.player index).name
  let s := NETplayerLeaving cfg s index
  NETsetPlayerConnectionStatus cfg s cfg.CONNECTIONSTATUS_PLAYER_LEAVING index

/-- The host of `busyHost` with its eight game queues, all empty. -/
def sharingHost : NetState := { busyHost with gameQueues := List.replicate 8 [] }

/-- A game message. -/
def forgedOrder : RawMessage := { type := 200, data := [1] }

/-- The address `1.1.1.1`. -/
def addressOne : CString := [49, 46, 49, 46, 49, 46, 49]

/-- The address `2.2.2.2`. -/
def addressTwo : CString := [50, 46, 50, 46, 50, 46, 50]

/-- As many bans as the list can hold, for the addresses `[1]`, `[2]`, ... -/
def manyBans (cfg : NetConstants) : List (CString × CString) :=
  (List.range cfg.MAX_BANS).map (fun n => ([n + 1], []))

/-- Constant `MAX_LEN_LOG_LINE`. -/
def MAX_LEN_LOG_LINE : Nat := 512

/-- Constant `MAX_SYNC_MESSAGES`. -/
def MAX_SYNC_MESSAGES : Nat := 20000

/-- Constant `MAX_SYNC_HISTORY`. -/
def MAX_SYNC_HISTORY : Nat := 12

/-- One diagnostic line: `syncDebugFunctions[h][i]` and `syncDebugStrings[h][i]`. -/
structure SyncLine where
  function : CString
  string : CString
deriving DecidableEq, Repr

/-- What `checkDebugSync` renders as text into `debugSyncTmpBuf` for a record:
its game time, its number of lines, its checksum and its lines. -/
structure SyncDump where
  time : Nat
  numLines : Nat
  crc : Nat
  lines : List SyncLine
deriving DecidableEq, Repr

/-- The static variables of the sync debug recorder, with the record of the
calls of `sendDebugSync`, oldest first. The lines of a record are kept as a
list whose length is the `syncDebugNum` of the record. -/
structure SyncDebug where
  syncDebugNext : Nat
  syncDebugNum : List Nat
  syncDebugGameTime : List Nat
  syncDebugLines : List (List SyncLine)
  syncDebugCrcs : List Nat
  numDumps : Nat
  sent : List SyncDump
deriving DecidableEq, Repr

/-- Bitwise complement of a `uint32_t`. -/
def not32 (x : Nat) : Nat := 4294967295 - x % 4294967296

/-- Function `_syncDebug(function, str, ...)`, `text` being what `vssprintf` makes
of the format and its arguments; `crcSum` belongs to another module. -/
def _syncDebug (crcSum : Nat → List Nat → Nat) (sd : SyncDebug) (function text : CString) :
    SyncDebug :=
  let outputBuffer := sstrcpy MAX_LEN_LOG_LINE text
  let next := sd.syncDebugNext
  let num := sd.syncDebugNum.getD next 0
  if num < MAX_SYNC_MESSAGES then
    let lines := (sd.syncDebugLines.getD next []).take num ++
      [{ function := function, string := outputBuffer }]
    let crc := crcSum (sd.syncDebugCrcs.getD next 0) (function ++ [0])
    let crc := crcSum crc (outputBuffer ++ [0])
    { sd with syncDebugLines := sd.syncDebugLines.set next lines,
              syncDebugCrcs := sd.syncDebugCrcs.set next crc,
              syncDebugNum := sd.syncDebugNum.set next (u32 ((num : Int) + 1)) }
  else sd

/-- Function `clearSyncDebugNext()`. -/
def clearSyncDebugNext (sd : SyncDebug) : SyncDebug :=
  let next := sd.syncDebugNext
  { sd with syncDebugLines := sd.syncDebugLines.set next [],
            syncDebugNum := sd.syncDebugNum.set next 0,
            syncDebugGameTime := sd.syncDebugGameTime.set next 0,
            syncDebugCrcs := sd.syncDebugCrcs.set next 0 }

/-- The loop of `resetSyncDebug` from `syncDebugNext` on, for `k` more records. -/
def resetSyncDebug_loop : Nat → SyncDebug → SyncDebug
  | 0, sd => sd
  | k + 1, sd =>
    let sd := clearSyncDebugNext sd
    resetSyncDebug_loop k { sd with syncDebugNext := sd.syncDebugNext + 1 }

/-- Function `resetSyncDebug()`. -/
def resetSyncDebug (sd : SyncDebug) : SyncDebug :=
  let sd := resetSyncDebug_loop MAX_SYNC_HISTORY { sd with syncDebugNext := 0 }
  { sd with syncDebugGameTime := sd.syncDebugGameTime.set MAX_SYNC_HISTORY 0,
            syncDebugCrcs := sd.syncDebugCrcs.set MAX_SYNC_HISTORY 0,
            syncDebugNext := 0 }

/-- Function `nextDebugSync()` at the game time `gameTime`: the returned checksum
and the new state. -/
def nextDebugSync (sd : SyncDebug) (gameTime : Nat) : Nat × SyncDebug :=
  let ret := not32 (sd.syncDebugCrcs.getD sd.syncDebugNext 0)
  let sd := { sd with syncDebugGameTime := sd.syncDebugGameTime.set sd.syncDebugNext gameTime }
  let sd := { sd with syncDebugNext := (sd.syncDebugNext + 1) % MAX_SYNC_HISTORY }
  (ret, clearSyncDebugNext sd)

/-- The search loop of `checkDebugSync` from `index` on, for `k` more records:
the value of `index` when the loop is left at a record of game time
`checkGameTime`, or at its end. -/
def checkDebugSync_find (sd : SyncDebug) (checkGameTime : Nat) : Nat → Nat → Nat
  | 0, index => index
  | k + 1, index =>
    if sd.syncDebugGameTime.getD index 0 = checkGameTime then index
    else checkDebugSync_find sd checkGameTime k (index + 1)

/-- The text that `checkDebugSync` dumps for the record `index`. -/
def syncDumpOf (sd : SyncDebug) (index : Nat) : SyncDump :=
  { time := sd.syncDebugGameTime.getD index 0,
    numLines := sd.syncDebugNum.getD index 0,
    crc := not32 (sd.syncDebugCrcs.getD index 0),
    lines := (sd.syncDebugLines.getD index []).take (sd.syncDebugNum.getD index 0) }

/-- Function `checkDebugSync(checkGameTime, checkCrc)`: the returned flag and the
new state. -/
def checkDebugSync (sd : SyncDebug) (checkGameTime checkCrc : Nat) : Bool × SyncDebug :=
  if checkGameTime = sd.syncDebugGameTime.getD sd.syncDebugNext 0 then (true, sd)
  else
    let index := checkDebugSync_find sd checkGameTime (MAX_SYNC_HISTORY + 1) 0
    if index < MAX_SYNC_HISTORY + 1 ∧ not32 (sd.syncDebugCrcs.getD index 0) = checkCrc then
      (true, sd)
    else if index ≥ MAX_SYNC_HISTORY then (false, sd)
    else
      let dump := syncDumpOf sd index
      let sd :=
        if sd.numDumps < 5 then
          { sd with numDumps := sd.numDumps + 1, sent := sd.sent ++ [dump] }
        else sd
      let sd :=
        { sd with
          syncDebugGameTime :=
            sd.syncDebugGameTime.set MAX_SYNC_HISTORY (sd.syncDebugGameTime.getD index 0),
          syncDebugCrcs := sd.syncDebugCrcs.set MAX_SYNC_HISTORY (sd.syncDebugCrcs.getD index 0) }
      let sd :=
        { sd with syncDebugLines := sd.syncDebugLines.set index [],
                  syncDebugNum := sd.syncDebugNum.set index 0,
                  syncDebugGameTime := sd.syncDebugGameTime.set index 0,
                  syncDebugCrcs := sd.syncDebugCrcs.set index 0 }
      (false, sd)

/-- A call of the sync debug recorder. -/
inductive SyncCall
  | syncDebug (function text : CString)
  | nextDebugSync (gameTime : Nat)
  | resetSyncDebug
  | checkDebugSync (checkGameTime checkCrc : Nat)
deriving DecidableEq, Repr

/-- One call of the recorder, applied to a state. -/
def runSyncCall (crcSum : Nat → List Nat → Nat) (sd : SyncDebug) : SyncCall → SyncDebug
  | .syncDebug function text => _syncDebug crcSum sd function text
  | .nextDebugSync gameTime => (nextDebugSync sd gameTime).2
  | .resetSyncDebug => resetSyncDebug sd
  | .checkDebugSync T c => (checkDebugSync sd T c).2

/-- A sequence of calls of the recorder, applied in order. -/
def runSync (crcSum : Nat → List Nat → Nat) : List SyncCall → SyncDebug → SyncDebug
  | [], sd => sd
  | c :: cs, sd => runSync crcSum cs (runSyncCall crcSum sd c)

/-- Successive calls of `nextDebugSync`, one for each game time of the list. -/
def runNext : List Nat → SyncDebug → SyncDebug
  | [], sd => sd
  | g :: gs, sd => runNext gs (nextDebugSync sd g).2

/-- Successive calls of `checkDebugSync` for the game time `T`, one for each
checksum of the list: the returned flags and the last state. -/
def runChecks (T : Nat) : List Nat → SyncDebug → List Bool × SyncDebug
  | [], sd => ([], sd)
  | c :: cs, sd =>
    let r := checkDebugSync sd T c
    let rs := runChecks T cs r.2
    (r.1 :: rs.1, rs.2)

/-- The recorder at the start of a session: zeroed static storage. -/
def syncStart : SyncDebug :=
  { syncDebugNext := 0,
    syncDebugNum := List.replicate MAX_SYNC_HISTORY 0,
    syncDebugGameTime := List.replicate (MAX_SYNC_HISTORY + 1) 0,
    syncDebugLines := List.replicate MAX_SYNC_HISTORY [],
    syncDebugCrcs := List.replicate (MAX_SYNC_HISTORY + 1) 0,
    numDumps := 0, sent := [] }

/-- The recorder after the ticks of game time 1 to 6 were finalized without a
line, and the checksums of the first five were found to differ by a peer. -/
def fiveDumps : SyncDebug :=
  runSync (fun _ _ => 0)
    [.nextDebugSync 1, .nextDebugSync 2, .nextDebugSync 3, .nextDebugSync 4, .nextDebugSync 5,
     .nextDebugSync 6, .checkDebugSync 1 0, .checkDebugSync 2 0, .checkDebugSync 3 0,
     .checkDebugSync 4 0, .checkDebugSync 5 0] syncStart

/-- The dumps sent so far are counted by `numDumps`, which is at most 5. -/
def DumpsCounted (sd : SyncDebug) : Prop :=
  sd.sent.length = sd.numDumps ∧ sd.numDumps ≤ 5

/-- Six ticks finalized without a line, each then found to differ by a peer. -/
def sixDivergences : List SyncCall :=
  [.nextDebugSync 1, .nextDebugSync 2, .nextDebugSync 3, .nextDebugSync 4, .nextDebugSync 5,
   .nextDebugSync 6, .checkDebugSync 1 0, .checkDebugSync 2 0, .checkDebugSync 3 0,
   .checkDebugSync 4 0, .checkDebugSync 5 0, .checkDebugSync 6 0]

/-- The recorder after `checkDebugSync` found the record `index` to differ: the
record is dumped if fewer than 5 dumps were sent, backed up and erased. -/
def eraseRecord (sd : SyncDebug) (index : Nat) : SyncDebug :=
  { syncDebugNext := sd.syncDebugNext,
    syncDebugNum := sd.syncDebugNum.set index 0,
    syncDebugGameTime :=
      (sd.syncDebugGameTime.set MAX_SYNC_HISTORY (sd.syncDebugGameTime.getD index 0)).set index 0,
    syncDebugLines := sd.syncDebugLines.set index [],
    syncDebugCrcs :=
      (sd.syncDebugCrcs.set MAX_SYNC_HISTORY (sd.syncDebugCrcs.getD index 0)).set index 0,
    numDumps := if sd.numDumps < 5 then sd.numDumps + 1 else sd.numDumps,
    sent := if sd.numDumps < 5 then sd.sent ++ [syncDumpOf sd index] else sd.sent }

/-- The recorder of a fresh session after one tick was finalized at game time 1
without a line. -/
def oneTick : SyncDebug := (nextDebugSync syncStart 1).2

/-- The record `p` of the history holds the game time `T` and the checksum
`crc`, no other slot holds `T`, and the open record is `d` places before `p`
in the ring. -/
def RecordHeld (sd : SyncDebug) (T crc p d : Nat) : Prop :=
  sd.syncDebugNext < MAX_SYNC_HISTORY ∧ p < MAX_SYNC_HISTORY ∧
    (sd.syncDebugNext + d) % MAX_SYNC_HISTORY = p ∧
    sd.syncDebugGameTime.length = MAX_SYNC_HISTORY + 1 ∧
    sd.syncDebugGameTime.getD p 0 = T ∧ sd.syncDebugCrcs.getD p 0 = crc ∧
    ∀ n, n < MAX_SYNC_HISTORY + 1 → n ≠ p → sd.syncDebugGameTime.getD n 0 ≠ T

/-- No slot of the recorder holds the game time `T`. -/
def RecordEvicted (sd : SyncDebug) (T : Nat) : Prop :=
  sd.syncDebugNext < MAX_SYNC_HISTORY ∧
    sd.syncDebugGameTime.length = MAX_SYNC_HISTORY + 1 ∧
    ∀ n, n < MAX_SYNC_HISTORY + 1 → sd.syncDebugGameTime.getD n 0 ≠ T

/-- The pointer `pSocket` of `NETrecvNet`: `&connected_bsocket[current]` or `&bsocket`. -/
inductive SocketRef
  | connected_bsocket (current : Nat)
  | bsocket
deriving DecidableEq, Repr

/-- Read `*pSocket`. -/
def SocketRef.get (s : NetState) : SocketRef → Option Nat
  | .connected_bsocket current => s.connected_bsocket.getD current none
  | .bsocket => s.bsocket

/-- The assignment `*pSocket = NULL`. -/
def SocketRef.clear (s : NetState) : SocketRef → NetState
  | .connected_bsocket current =>
    { s with connected_bsocket := s.connected_bsocket.set current none }
  | .bsocket => { s with bsocket := none }

/-- Function `NEThaltJoining()`. -/
def NEThaltJoining (s : NetState) : NetState :=
  { s with allow_joining := false }.emit .lobbyDelGame

/-- The loop of `NETclose` over the player slots `is`. -/
def NETclose_players (cfg : NetConstants) : List Nat → NetState → NetState
  | [], s => s
  | i :: is, s =>
    let s :=
      match s.connected_bsocket.getD i none with
      | some sock =>
        { s.emit (.socketClose sock) with connected_bsocket := s.connected_bsocket.set i none }
      | none => s
    NETclose_players cfg is (NET_DestroyPlayer cfg s i)

/-- The loop of `NETclose` over the temporary sockets `is`. -/
def NETclose_tmp : List Nat → NetState → NetState
  | [], s => s
  | i :: is, s =>
    let s :=
      match s.tmp_socket.getD i none with
      | some sock => { s.emit (.socketClose sock) with tmp_socket := s.tmp_socket.set i none }
      | none => s
    NETclose_tmp is s

/-- Function `NETclose()`. -/
def NETclose (cfg : NetConstants) (s : NetState) : NetState :=
  let s := NEThaltJoining s
  let s := { s with isHost := false, allow_joining := false }
  let s := { s with bsocket := none }
  let s := NETclose_players cfg (List.range cfg.MAX_CONNECTED_PLAYERS) s
  let s := NETclose_tmp (List.range cfg.MAX_TMP_SOCKETS) s
  let s := { s with socket_set := false }
  match s.tcp_socket with
  | some sock => { s.emit (.socketClose sock) with tcp_socket := none }
  | none => s

/-- Function `NET_fillBuffer(pSocket, socket_set, bufstart, bufsize)` for a
`*pSocket` that is the socket `socket`: the returned size, the messages that
the bytes read complete, and the new state. -/
def NET_fillBuffer (cfg : NetConstants) (env : SocketEnv) (s : NetState) (pSocket : SocketRef)
    (socket : Nat) : Nat × List NetMessage × NetState :=
  if !env.socketReadReady socket then (0, [], s)
  else
    match env.readNoInt socket with
    | .data size messages => (size, messages, s)
    | _ =>
      if s.tcp_socket = some socket then
        let s := { s with tcp_socket := none, bsocket := none, isHostAlive := false }
        let s := s.emit (.setLobbyError .ERROR_HOSTDROPPED)
        (0, [], NETclose cfg s)
      else
        let s := s.emit (.socketClose socket)
        (0, [], pSocket.clear s)

/-- The body of the loop of `NETcheckPlayers` for the slot `i`. -/
def NETcheckPlayers_slot (cfg : NetConstants) (env : SocketEnv) (gameTime2 : Nat)
    (s : NetState) (i : Nat) : NetState :=
  if (s.player i).allocated = false then s
  else
    let s :=
      if (s.player i).heartbeat = false ∧ (s.player i).heartattacktime = 0 then
        s.setPlayer i { s.player i with heartattacktime := gameTime2 }
      else if (s.player i).heartattacktime ≠ 0 ∧
          u32 (((s.player i).heartattacktime : Int) + 15 * (cfg.GAME_TICKS_PER_SEC : Int))
            < gameTime2 then
        s.setPlayer i { s.player i with kick := true }
      else s
    if (s.player i).kick then NETplayerDropped cfg env s i else s

/-- Function `NETcheckPlayers()` at the time `gameTime2`. -/
def NETcheckPlayers (cfg : NetConstants) (env : SocketEnv) (s : NetState) (gameTime2 : Nat) :
    NetState :=
  (List.range cfg.MAX_PLAYERS).foldl (NETcheckPlayers_slot cfg env gameTime2) s

/-- Function `NETflush()`. `NETflushGameQueues` belongs to another module. -/
def NETflush (cfg : NetConstants) (s : NetState) : NetState :=
  if !s.bComms then s
  else
    let s := s.emit .flushGameQueues
    if s.isHost then
      (List.range cfg.MAX_CONNECTED_PLAYERS).foldl
        (fun t player =>
          match t.connected_bsocket.getD player none with
          | some sock => t.emit (.socketFlush sock)
          | none => t) s
    else
      match s.bsocket with
      | some sock => s.emit (.socketFlush sock)
      | none => s

/-- What a read of a temporary socket gives `NETallowJoining`: a disconnected
socket or an error, bytes after which a `NET_JOIN` message is ready at the head
of the queue, with the strings that `NETstring` decodes from it, or bytes
after which none is. -/
inductive TmpRead
  | disconnected
  | join (name ModList GamePassword username session : CString)
  | other
deriving DecidableEq, Repr

/-- What the sockets and the lobby answer during one call of `NETallowJoining`. -/
structure AllowJoiningEnv where
  /-- Whether `tmp_socket_set` is not `NULL` once its allocation was tried. -/
  tmpSocketSet : Bool
  /-- The answers during the handshake. -/
  handshake : HandshakeEnv
  /-- Whether `checkSockets(tmp_socket_set, NET_READ_TIMEOUT) > 0`. -/
  checkSockets : Bool
  /-- Result of `socketReadReady(tmp_socket[i])`. -/
  socketReadReady : Nat → Bool
  /-- Result of `readNoInt(tmp_socket[i], buffer, sizeof(buffer))`. -/
  readNoInt : Nat → TmpRead
  /-- The answers while a join request is handled. -/
  join : JoinEnv

/-- The loop "Find the first empty socket slot" of `NETallowJoining` from `i` on,
for `k` more slots. -/
def NETallowJoining_firstEmpty (s : NetState) : Nat → Nat → Nat
  | 0, i => i
  | k + 1, i =>
    if s.tmp_socket.getD i none = none then i else NETallowJoining_firstEmpty s k (i + 1)

/-- The loop of `NETallowJoining` that reads the temporary sockets `is` (lines
1768-1960); it is left by the `return` that follows the refusal of a player.
The result is `none` when the handling of a request has no defined behaviour. -/
def NETallowJoining_read (cfg : NetConstants) (net : SocketEnv) (env : AllowJoiningEnv) :
    List Nat → NetState → Option NetState
  | [], s => some s
  | i :: is, s =>
    match s.tmp_socket.getD i none with
    | none => NETallowJoining_read cfg net env is s
    | some sock =>
      if env.socketReadReady sock then
        match env.readNoInt sock with
        | .disconnected =>
          NETallowJoining_read cfg net env is
            { s.emit (.socketClose sock) with tmp_socket := s.tmp_socket.set i none }
        | .join name ModList GamePassword username session =>
          match NETallowJoining_join cfg net s i name ModList GamePassword username session
            env.join with
          | none => none
          | some (true, s') => some s'
          | some (false, s') => NETallowJoining_read cfg net env is s'
        | .other => NETallowJoining_read cfg net env is s
      else NETallowJoining_read cfg net env is s

/-- Function `NETallowJoining()`: the new state, or `none` when the handling of
a request has no defined behaviour. -/
def NETallowJoining (cfg : NetConstants) (net : SocketEnv) (env : AllowJoiningEnv)
    (s : NetState) : Option NetState :=
  if s.allow_joining = false then some s
  else if !env.tmpSocketSet then some s
  else
    let i := NETallowJoining_firstEmpty s cfg.MAX_TMP_SOCKETS 0
    if i = cfg.MAX_TMP_SOCKETS then some s
    else
      let s := NETallowJoining_handshake s i env.handshake
      if env.checkSockets then
        NETallowJoining_read cfg net env (List.range cfg.MAX_TMP_SOCKETS) s
      else some s

/-- The body of the socket loop of `NETrecvNet` for the player `current`. -/
def NETrecvNet_socket (cfg : NetConstants) (env : SocketEnv) (s : NetState) (current : Nat) :
    NetState :=
  let pSocket : SocketRef := if s.isHost then .connected_bsocket current else .bsocket
  if !s.isHost ∧ current ≠ NET_HOST_ONLY then s
  else
    match pSocket.get s with
    | none => s
    | some socket =>
      let r := NET_fillBuffer cfg env s pSocket socket
      let s := r.2.2
      if r.1 > 0 then
        { s with netQueues := s.netQueues.set current (s.netQueues.getD current [] ++ r.2.1) }
      else if pSocket.get s = none then
        if s.isHost then
          let s := NETplayerDropped cfg env s current
          s.setPlayer current { s.player current with kick := true }
        else s
      else s

/-- The socket loop of `NETrecvNet` (lines 1393-1428). -/
def NETrecvNet_sockets (cfg : NetConstants) (env : SocketEnv) (s : NetState) : NetState :=
  (List.range cfg.MAX_CONNECTED_PLAYERS).foldl (NETrecvNet_socket cfg env) s

/-- Number of messages in a message, the wrapped ones included. -/
def NetMessage.weight : NetMessage → Nat
  | .NET_SEND_TO_PLAYER _ _ message _ => message.weight + 1
  | _ => 1

/-- Number of messages in a queue, the wrapped ones included. -/
def queueWeight (queue : List NetMessage) : Nat := (queue.map NetMessage.weight).sum

/-- The `while` loop of `NETrecvNet` on the queue of `current`, whose pending
messages are `queue`, for at most `fuel` messages: whether a message is left to
the caller, the messages left in the queue, and the new state. -/
def NETrecvNet_while (cfg : NetConstants) (env : SocketEnv) (current : Nat) :
    Nat → List NetMessage → NetState → Bool × List NetMessage × NetState
  | 0, queue, s => (false, queue, s)
  | fuel + 1, queue, s =>
    if queue.isEmpty then (false, queue, s)
    else
      let r := NETprocessSystemMessage cfg env s current queue
      if !r.1 then (true, r.2.1, r.2.2)
      else NETrecvNet_while cfg env current fuel r.2.1 r.2.2

/-- The loop `checkMessages` of `NETrecvNet` over the queues `cs`: the index of
the queue whose first message is left to the caller, if there is one, and the
new state. Every handled message takes one message out of the queue, wrapped
ones counted, so that the weight of the queue bounds the turns of the `while`. -/
def NETrecvNet_messages (cfg : NetConstants) (env : SocketEnv) :
    List Nat → NetState → Option Nat × NetState
  | [], s => (none, s)
  | current :: cs, s =>
    let queue := s.netQueues.getD current []
    let r := NETrecvNet_while cfg env current (queueWeight queue) queue s
    let s := { r.2.2 with netQueues := r.2.2.netQueues.set current r.2.1 }
    if r.1 then (some current, s) else NETrecvNet_messages cfg env cs s

/-- The lines of `NETrecvNet` that follow the call of `NETallowJoining`. -/
def NETrecvNet_poll (cfg : NetConstants) (env : SocketEnv) (s : NetState) (gameTime2 : Nat) :
    Option Nat × NetState :=
  let s := NETcheckPlayers cfg env s gameTime2
  let s :=
    if s.socket_set = false ∨ !env.checkSockets then s else NETrecvNet_sockets cfg env s
  NETrecvNet_messages cfg env (List.range cfg.MAX_CONNECTED_PLAYERS) s

/-- Function `NETrecvNet(queue, type)` at the time `gameTime2`: the index of the
queue stored in `*queue` when the function returns true, `none` when it returns
false, and the new state. There is no result (the outer `none`) when
`NETallowJoining` has none. -/
def NETrecvNet (cfg : NetConstants) (join : AllowJoiningEnv) (env : SocketEnv) (s : NetState)
    (gameTime2 : Nat) : Option (Option Nat × NetState) :=
  if !s.bComms then some (none, s)
  else if s.isHost then
    match NETallowJoining cfg env join s with
    | some s => some (NETrecvNet_poll cfg env s gameTime2)
    | none => none
  else some (NETrecvNet_poll cfg env s gameTime2)

/-- The `NET_PLAYER_DROPPED` slot indices of a trace, in order. -/
def droppedNotices : List Event → List Nat
  | [] => []
  | .encode _ (.NET_PLAYER_DROPPED index) :: es => index :: droppedNotices es
  | _ :: es => droppedNotices es

/-- An environment in which nothing waits on the listening socket. -/
def quietJoinEnv : AllowJoiningEnv :=
  { tmpSocketSet := true,
    handshake := { accept := none, readable := false, read5 := none, read3 := none },
    checkSockets := false, socketReadReady := fun _ => false, readNoInt := fun _ => .other,
    join := plainJoinEnv }

/-- An environment in which no socket has anything to read. -/
def quietEnv : SocketEnv :=
  { checkSockets := false, socketReadReady := fun _ => false,
    readNoInt := fun _ => .data 0 [], writeAll := fun _ _ => .complete }

/-- An environment in which the socket `sock` is found closed by the other side. -/
def closedEnv (sock : Nat) : SocketEnv :=
  { checkSockets := true, socketReadReady := fun n => n == sock,
    readNoInt := fun n => if n = sock then .closed else .data 0 [],
    writeAll := fun _ _ => .complete }

/-- An environment in which nothing waits to be read and every write to the
socket `sock` ends in `SOCKET_ERROR`. -/
def failingEnv (sock : Nat) : SocketEnv :=
  { checkSockets := false, socketReadReady := fun _ => false,
    readNoInt := fun _ => .data 0 [],
    writeAll := fun _ n => if n = sock then .SOCKET_ERROR else .complete }

/-- A host in a running game (joining halted, listening on socket 3) whose
player 1, connected through socket 9, has reported a heartbeat of false that
`NETcheckPlayers` has marked at the time 1000. -/
def timedOutHost : NetState :=
  let s := busyHost
  let s := s.setPlayer 1 { s.player 1 with heartbeat := false, heartattacktime := 1000 }
  { s with allow_joining := false, tmp_socket := List.replicate 16 none,
           connected_bsocket := s.connected_bsocket.set 1 (some 9),
           tcp_socket := some 3, socket_set := true, isHostAlive := true,
           netQueues := List.replicate 8 [], gameQueues := List.replicate 8 [],
           connectionStatus := List.replicate 4 (List.replicate 8 0) }

/-- The host of `timedOutHost` after a third player, named `C`, has taken slot 2
through the socket 11; the difficulty of that slot was set to 3. -/
def peersHost : NetState :=
  let s := (NET_CreatePlayer wzConstants timedOutHost [67]).2
  let s := s.setPlayer 2 { s.player 2 with difficulty := 3 }
  { s with connected_bsocket := s.connected_bsocket.set 2 (some 11) }

/-- The state `s'` has the colour, position and team of every slot and the
skirmish difficulties of `s`; the ai and the difficulty of a slot are those of
`s` too, or those of a slot that was freed: `AI_OPEN` and 1. -/
def BalanceKept (cfg : NetConstants) (s s' : NetState) : Prop :=
  s'.skDiff = s.skDiff ∧
  ∀ j, (s'.player j).colour = (s.player j).colour ∧
    (s'.player j).position = (s.player j).position ∧
    (s'.player j).team = (s.player j).team ∧
    (((s'.player j).ai = (s.player j).ai ∧ (s'.player j).difficulty = (s.player j).difficulty) ∨
      ((s'.player j).ai = cfg.AI_OPEN ∧ (s'.player j).difficulty = 1))

/-- The host of `peersHost` while it still accepts players, with a connection
waiting in `tmp_socket[0]` on the socket 7. -/
def lobbyHost : NetState :=
  { peersHost with allow_joining := true, tmp_socket := peersHost.tmp_socket.set 0 (some 7) }

/-- The number of players that have a socket: the entries of `connected_bsocket`
that are not `NULL`. -/
def liveSockets (s : NetState) : Nat := s.connected_bsocket.countP (fun h => h.isSome)

/-- The slots of `s'` have the names they have in `s`, the player table has the
same length, and comms are enabled or disabled as in `s`. -/
def NamesKept (s s' : NetState) : Prop :=
  (∀ j, (s'.player j).name = (s.player j).name) ∧ s'.bComms = s.bComms ∧
    s'.players.length = s.players.length

/-- No slot is allocated in `s'` that was not allocated in `s`. -/
def AllocOnlyDrops (s s' : NetState) : Prop :=
  ∀ j, (s'.player j).allocated = true → (s.player j).allocated = true

/-- Every slot of `s'`, with its socket handle, is as in `s`, or it is the slot
of a player that was dropped: unallocated, its socket handle `NULL`. -/
def DroppedOrKept (s s' : NetState) : Prop :=
  ∀ j, (s'.player j = s.player j ∧
      s'.connected_bsocket.getD j none = s.connected_bsocket.getD j none) ∨
    ((s'.player j).allocated = false ∧ s'.connected_bsocket.getD j none = none)

/-- The globals that say whether this machine is a client with a live host:
`NetPlay.isHost`, `NetPlay.isHostAlive`, `tcp_socket` and `bsocket`. -/
def NetState.link (s : NetState) : Bool × Bool × Option Nat × Option Nat :=
  (s.isHost, s.isHostAlive, s.tcp_socket, s.bsocket)

/-- A client that has lost its host: `isHostAlive` is false and both handles of
the host socket are `NULL`. -/
def HostLost (s : NetState) : Prop := s.link = (false, false, none, none)

/-- If the host was lost in `s`, it is lost in `s'`. -/
def LostKept (s s' : NetState) : Prop := HostLost s → HostLost s'

/-- A call of `NETsend`, `NETflush` or `NETrecvNet`, with what the sockets answer
during the call. -/
inductive LinkStep
  | NETsend (env : SocketEnv) (player : Nat) (message : NetMessage)
  | NETflush
  | NETrecvNet (join : AllowJoiningEnv) (env : SocketEnv) (gameTime2 : Nat)

/-- One call, applied to a state: the new state, if the call has a result. -/
def runLinkStep (cfg : NetConstants) (s : NetState) : LinkStep → Option NetState
  | .NETsend env player message => some (NETsend cfg env s player message).2
  | .NETflush => some (NETflush cfg s)
  | .NETrecvNet join env gameTime2 => (NETrecvNet cfg join env s gameTime2).map (fun r => r.2)

/-- A sequence of calls, applied in order. -/
def runLinkSteps (cfg : NetConstants) : List LinkStep → NetState → Option NetState
  | [], s => some s
  | step :: steps, s =>
    match runLinkStep cfg s step with
    | some s => runLinkSteps cfg steps s
    | none => none

/-- A client in slot 1 of the game of `hostState`, joined to the host through
the socket 5. -/
def joinedClient : NetState :=
  { clientState with tcp_socket := some 5, bsocket := some 5, socket_set := true,
                     isHostAlive := true, selectedPlayer := 1,
                     netQueues := List.replicate 8 [], gameQueues := List.replicate 8 [],
                     connectionStatus := List.replicate 4 (List.replicate 8 0) }

/-- An environment in which every read and every write ends in `SOCKET_ERROR`. -/
def brokenEnv : SocketEnv :=
  { checkSockets := true, socketReadReady := fun _ => true,
    readNoInt := fun _ => .SOCKET_ERROR, writeAll := fun _ _ => .SOCKET_ERROR }

/-- Calls that follow the loss of the host: a message for the host, a flush, a
polling cycle, and a message for player 2. -/
def laterSteps : List LinkStep :=
  [.NETsend quietEnv 0 (.other forgedOrder), .NETflush,
   .NETrecvNet quietJoinEnv (closedEnv 5) 30000, .NETsend brokenEnv 2 (.other forgedOrder)]

/-- Function `NETgetGameFlags(flag)`. -/
def NETgetGameFlags (s : NetState) (flag : Nat) : Int :=
  if flag < 1 ∨ flag > 4 then 0 else s.NetGameFlags.getD (flag - 1) 0

/-- Function `NETsetGameFlags(flag, value)`: the returned flag and the new
state. For a flag in 1..4 the value returned is the assigned value, converted
to `bool`. -/
def NETsetGameFlags (cfg : NetConstants) (env : SocketEnv) (s : NetState) (flag : Nat)
    (value : Int) : Bool × NetState :=
  if !s.bComms then (true, s)
  else if flag > 0 ∧ flag < 5 then
    (decide (value ≠ 0), { s with NetGameFlags := s.NetGameFlags.set (flag - 1) value })
  else (true, NETsendGameFlags cfg env s)

/-- The last line of `NETcheckPlayerConnectionStatus(status, player)`. -/
def NETcheckPlayerConnectionStatus_timed (s : NetState) (status player : Nat) : Bool :=
  decide (s.realTime < (s.connectionStatus.getD status []).getD player 0)

/-- Function `NETcheckPlayerConnectionStatus(status, player)` for a `player`
other than `NET_ALL_PLAYERS`. -/
def NETcheckPlayerConnectionStatus_single (s : NetState) (status player : Nat) : Bool :=
  if status = CONNECTIONSTATUS_NORMAL then
    (List.range CONNECTIONSTATUS_NORMAL).any
      (fun n => NETcheckPlayerConnectionStatus_timed s n player)
  else NETcheckPlayerConnectionStatus_timed s status player

/-- Function `NETcheckPlayerConnectionStatus(status, player)`; the players of
its loop for `NET_ALL_PLAYERS` are taken to differ from `NET_ALL_PLAYERS`. -/
def NETcheckPlayerConnectionStatus (cfg : NetConstants) (s : NetState) (status player : Nat) :
    Bool :=
  if player = cfg.NET_ALL_PLAYERS then
    (List.range cfg.MAX_PLAYERS).any (fun n => NETcheckPlayerConnectionStatus_single s status n)
  else NETcheckPlayerConnectionStatus_single s status player

/-- The host of `hostState` with the game flags 7, 8, 9 and 10. -/
def flaggedHost : NetState := { hostState with NetGameFlags := [7, 8, 9, 10] }

/-- The host of `timedOutHost` at the real time 50, after player 1 was marked as
dropped: the mark lasts until the real time 10050. -/
def markedHost : NetState :=
  NETsetPlayerConnectionStatus wzConstants { timedOutHost with realTime := 50 }
    wzConstants.CONNECTIONSTATUS_PLAYER_DROPPED 1

/-- The host of `busyHost` in a running game, whose player 1 has a heartbeat of
true and a timer that was started at the time 1000. -/
def revivedHost : NetState :=
  let s := timedOutHost
  s.setPlayer 1 { s.player 1 with heartbeat := true, heartattacktime := 1000 }

/-- The `NET_ACCEPTED` and `NET_PLAYER_JOINED` messages of a trace with the queues
they are written to, in order. -/
def joinNotices : List Event → List (NETQUEUE × NetMessage)
  | [] => []
  | .encode q (.NET_ACCEPTED k) :: es => (q, .NET_ACCEPTED k) :: joinNotices es
  | .encode q (.NET_PLAYER_JOINED j) :: es => (q, .NET_PLAYER_JOINED j) :: joinNotices es
  | _ :: es => joinNotices es

/-- The messages of a trace with the queues they are written to, in order. -/
def messagesOf : List Event → List (NETQUEUE × NetMessage)
  | [] => []
  | .encode q m :: es => (q, m) :: messagesOf es
  | _ :: es => messagesOf es

/-- The state `s'` has the trace of `s` followed by events among which there is
no `NET_ACCEPTED`, no `NET_PLAYER_JOINED` and no `NET_REJECTED` message. -/
def OutQuiet (s s' : NetState) : Prop :=
  ∃ evs, s'.out = s.out ++ evs ∧ joinNotices evs = [] ∧ rejections evs = []

/-- The steps of a send, for a relation `R` between the state before and the
state after: a write; on the host the announcement of a drop and the drop
itself; on a client the relay through the host and the loss of the host. -/
structure SendSteps (cfg : NetConstants) (R : NetState → NetState → Prop) : Prop where
  refl : ∀ t, R t t
  trans : ∀ a b c, R a b → R b c → R a c
  write : ∀ t sock m, R t (t.emit (.writeMessage sock m))
  drop : ∀ t i, t.isHost = true → R t (t.emit (.encode .broadcast (.NET_PLAYER_DROPPED i)))
  relay : ∀ t a b c, t.isHost = false →
    R t (t.emit (.encode (.net NET_HOST_ONLY) (.NET_SEND_TO_PLAYER a b c true)))
  leave : ∀ t i, t.isHost = true → t.bComms = true → R t (NETplayerLeaving cfg t i)
  lost : ∀ t sock, t.isHost = false → t.bComms = true → R t (NETsend_hostLost t sock)

/-- A relation `R` that every send keeps under the environment `env`: it holds
between the state in which a message has been encoded and the state that
`NETend` returns. -/
structure SendFrame (cfg : NetConstants) (env : SocketEnv) (R : NetState → NetState → Prop) :
    Prop where
  refl : ∀ t, R t t
  trans : ∀ a b c, R a b → R b c → R a c
  send : ∀ t q m, R (t.emit (.encode q m)) (NETend cfg env t q m)

/-- The steps of `NETchangePlayerName`, sends apart, for a relation `R`: the
encoding of a player info, the notice to the lobby, and the new name. -/
structure NameSteps (R : NetState → NetState → Prop) : Prop where
  info : ∀ t dest n es, R t (t.emit (.encode (.net dest) (.NET_PLAYER_INFO n es)))
  lobby : ∀ t i n, R t (t.emit (.lobbyUpdatePlayer i n))
  rename : ∀ t i n, R t (t.setPlayer i { t.player i with name := n })

/-- The slots other than `index` that the narrowcast of `NETallowJoining` names:
the allocated ones, in increasing order. -/
def otherPlayers (cfg : NetConstants) (s : NetState) (index : Nat) : List Nat :=
  (List.range cfg.MAX_CONNECTED_PLAYERS).filter (fun j => index ≠ j ∧ (s.player j).allocated)

/-- Whether `NETprocessSystemMessage` has a `case` for the type of the message. -/
def isSystemMessage : NetMessage → Bool
  | .NET_SEND_TO_PLAYER _ _ _ _ => true
  | .NET_SHARE_GAME_QUEUE _ _ _ => true
  | .NET_PLAYER_STATS _ => true
  | .NET_PLAYER_INFO _ _ => true
  | .NET_PLAYER_JOINED _ => true
  | .NET_PLAYER_LEAVING _ _ => true
  | .NET_GAME_FLAGS _ _ => true
  | .NET_DEBUG_SYNC _ _ _ => true
  | _ => false

/-- A relay request of player 1 for everyone, as the host finds it in the queue
of player 1. -/
def relayRequest : NetMessage :=
  .NET_SEND_TO_PLAYER 1 wzConstants.NET_ALL_PLAYERS (.other forgedOrder) true

/-- The recorder of a fresh session with one line in the open record. -/
def oneLine : SyncDebug := _syncDebug (fun crc data => crc + data.length) syncStart [102] [120]

/-- The name that `NETfixDuplicatePlayerNames` tries at the pass `pass` for a slot
whose name is `orig`: the name itself at pass 0, then the name followed by `_`
and `pass + 1` in hexadecimal, as it fits a buffer of `StringSize` bytes. -/
def candidateName (cfg : NetConstants) (orig : CString) (pass : Nat) : CString :=
  if pass = 0 then sstrcpy cfg.StringSize orig else suffixedName cfg orig pass

/-- What `NETfixDuplicatePlayerNames` makes of a slot `i` whose name is `orig`
when the lower slots have the names `lower`: `final` is `orig` if that is empty
or differs from the lower names; and for a non-empty `orig`, `final` differs
from the lower names unless all 101 candidates are among them, when it is the
last candidate. -/
def SlotFixed (cfg : NetConstants) (orig : CString) (lower : Nat → CString) (i : Nat)
    (final : CString) : Prop :=
  (orig = [] → final = orig) ∧
  ((∀ j, j < i → orig ≠ lower j) → final = orig) ∧
  (orig ≠ [] →
    (∀ j, j < i → final ≠ lower j) ∨
    ((∀ p, p ≤ 100 → ∃ j, j < i ∧ candidateName cfg orig p = lower j) ∧
      final = candidateName cfg orig 100))

/-- A client that knows three players, named `A`, `A` and `A_2`. -/
def shadowedNames : NetState :=
  let s := clientState
  let s := s.setPlayer 1 { s.player 1 with name := [65] }
  s.setPlayer 2 { s.player 2 with allocated := true, name := [65, 95, 50] }

/-- A client that knows two players of the same name, 63 times the letter `A`:
the longest name that a buffer of `StringSize` bytes holds. -/
def longNames : NetState :=
  let s := clientState
  let s := s.setPlayer 0 { s.player 0 with name := List.replicate 63 65 }
  s.setPlayer 1 { s.player 1 with name := List.replicate 63 65 }

/-! ## Player registry -/

theorem player_setPlayer_same (s : NetState) (i : Nat) (p : PLAYER) (h : i < s.players.length) :
    (s.setPlayer i p).player i = p := by
  simp [NetState.setPlayer, NetState.player, List.getD_eq_getElem?_getD, h]

theorem player_setPlayer_ne (s : NetState) (i j : Nat) (p : PLAYER) (h : i ≠ j) :
    (s.setPlayer i p).player j = s.player j := by
  simp [NetState.setPlayer, NetState.player, List.getD_eq_getElem?_getD, List.getElem?_set_ne h]

theorem player_default_of_le (s : NetState) (i : Nat) (h : s.players.length ≤ i) :
    s.player i = PLAYER.zero := by
  simp [NetState.player, List.getD_eq_getElem?_getD, List.getElem?_eq_none h]
  rfl

theorem setPlayer_of_le (s : NetState) (i : Nat) (p : PLAYER) (h : s.players.length ≤ i) :
    s.setPlayer i p = s := by
  simp [NetState.setPlayer, List.set_eq_of_length_le h]

theorem setPlayer_setPlayer (s : NetState) (i : Nat) (p p' : PLAYER) :
    (s.setPlayer i p).setPlayer i p' = s.setPlayer i p' := by
  simp [NetState.setPlayer]

theorem list_set_getD_self {α : Type} (l : List α) (i : Nat) (d : α) :
    l.set i (l.getD i d) = l := by
  induction l generalizing i with
  | nil => simp
  | cons a l ih =>
    cases i with
    | zero => simp
    | succ i => simpa using ih i

theorem setPlayer_player_self (s : NetState) (i : Nat) : s.setPlayer i (s.player i) = s := by
  unfold NetState.setPlayer NetState.player
  rw [list_set_getD_self]

theorem slotFree_iff (cfg : NetConstants) (p : PLAYER) :
    slotFree cfg p = true ↔ p.allocated = false ∧ p.ai = cfg.AI_OPEN := by
  simp [slotFree]

theorem scan_some (cfg : NetConstants) (s : NetState) :
    ∀ (k start index : Nat), NET_CreatePlayer_scan cfg s k start = some index →
      start ≤ index ∧ index < start + k ∧ slotFree cfg (s.player index) = true ∧
        ∀ j, start ≤ j → j < index → slotFree cfg (s.player j) = false := by
  intro k
  induction k with
  | zero => intro start index h; simp [NET_CreatePlayer_scan] at h
  | succ k ih =>
    intro start index h
    unfold NET_CreatePlayer_scan at h
    by_cases hf : slotFree cfg (s.player start) = true
    · rw [if_pos hf] at h
      cases h
      exact ⟨Nat.le_refl _, by omega, hf, fun j h1 h2 => absurd h1 (by omega)⟩
    · rw [if_neg hf] at h
      obtain ⟨h1, h2, h3, h4⟩ := ih (start + 1) index h
      refine ⟨by omega, by omega, h3, fun j hj1 hj2 => ?_⟩
      by_cases hjs : j = start
      · subst hjs; simpa using hf
      · exact h4 j (by omega) hj2

theorem scan_none (cfg : NetConstants) (s : NetState) :
    ∀ (k start : Nat), NET_CreatePlayer_scan cfg s k start = none →
      ∀ j, start ≤ j → j < start + k → slotFree cfg (s.player j) = false := by
  intro k
  induction k with
  | zero => intro start _ j h1 h2; omega
  | succ k ih =>
    intro start h j h1 h2
    unfold NET_CreatePlayer_scan at h
    by_cases hf : slotFree cfg (s.player start) = true
    · rw [if_pos hf] at h; cases h
    · rw [if_neg hf] at h
      by_cases hjs : j = start
      · subst hjs; simpa using hf
      · exact ih (start + 1) h j (by omega) (by omega)

/-- C4. `NET_CreatePlayer(name)` either finds no slot below `MAX_CONNECTED_PLAYERS`
that is unallocated with `ai == AI_OPEN`, and then returns the sentinel `-1` and
leaves the whole state (player table and `playercount` included) as it was; or it
returns the smallest index of such a slot. The sentinel is returned exactly when
no such slot exists. -/
theorem NET_CreatePlayer_first_free (cfg : NetConstants) (s : NetState) (name : CString) :
    (((∀ i, i < cfg.MAX_CONNECTED_PLAYERS →
          ¬ ((s.player i).allocated = false ∧ (s.player i).ai = cfg.AI_OPEN)) ∧
        (NET_CreatePlayer cfg s name).1 = -1 ∧ (NET_CreatePlayer cfg s name).2 = s) ∨
      (∃ i, i < cfg.MAX_CONNECTED_PLAYERS ∧
        ((s.player i).allocated = false ∧ (s.player i).ai = cfg.AI_OPEN) ∧
        (∀ j, j < i → ¬ ((s.player j).allocated = false ∧ (s.player j).ai = cfg.AI_OPEN)) ∧
        (NET_CreatePlayer cfg s name).1 = (i : Int))) ∧
    ((NET_CreatePlayer cfg s name).1 = -1 ↔
      ∀ i, i < cfg.MAX_CONNECTED_PLAYERS →
        ¬ ((s.player i).allocated = false ∧ (s.player i).ai = cfg.AI_OPEN)) := by
  cases hscan : NET_CreatePlayer_scan cfg s cfg.MAX_CONNECTED_PLAYERS 0 with
  | none =>
    have hnone : ∀ i, i < cfg.MAX_CONNECTED_PLAYERS →
        ¬ ((s.player i).allocated = false ∧ (s.player i).ai = cfg.AI_OPEN) := by
      intro i hi hfree
      have := scan_none cfg s _ _ hscan i (Nat.zero_le _) (by omega)
      rw [(slotFree_iff cfg _).mpr hfree] at this
      cases this
    have hr : NET_CreatePlayer cfg s name = (-1, s) := by
      simp [NET_CreatePlayer, hscan]
    refine ⟨Or.inl ⟨hnone, by rw [hr], by rw [hr]⟩, ?_⟩
    rw [hr]
    exact ⟨fun _ => hnone, fun _ => rfl⟩
  | some index =>
    obtain ⟨_, h2, h3, h4⟩ := scan_some cfg s _ _ _ hscan
    have hr : (NET_CreatePlayer cfg s name).1 = (index : Int) := by
      simp [NET_CreatePlayer, hscan]
    have hlt : index < cfg.MAX_CONNECTED_PLAYERS := by omega
    have hfree := (slotFree_iff cfg _).mp h3
    refine ⟨Or.inr ⟨index, hlt, hfree, ?_, hr⟩, ?_⟩
    · intro j hj hfj
      have := h4 j (Nat.zero_le _) hj
      rw [(slotFree_iff cfg _).mpr hfj] at this
      cases this
    · rw [hr]
      constructor
      · intro h; omega
      · intro h; exact absurd hfree (h index hlt)

theorem NET_InitPlayer_eq (cfg : NetConstants) (s : NetState) (i : Nat) (b : Bool) :
    NET_InitPlayer cfg s i b = s.setPlayer i (initSlot cfg s.isHost s.bComms i b (s.player i)) := by
  unfold NET_InitPlayer initSlot
  cases s.isHost <;> cases s.bComms <;> cases b <;> rfl

theorem initSlot_idem (cfg : NetConstants) (h c : Bool) (i : Nat) (b : Bool) (p : PLAYER) :
    initSlot cfg h c i false (initSlot cfg h c i b p) = initSlot cfg h c i b p := by
  unfold initSlot
  cases h <;> cases b <;> rfl

theorem NET_InitPlayer_idem (cfg : NetConstants) (s : NetState) (i : Nat) (b : Bool) :
    NET_InitPlayer cfg (NET_InitPlayer cfg s i b) i false = NET_InitPlayer cfg s i b := by
  by_cases h : i < s.players.length
  · rw [NET_InitPlayer_eq cfg s i b, NET_InitPlayer_eq]
    rw [player_setPlayer_same _ _ _ h, setPlayer_setPlayer]
    show s.setPlayer i (initSlot cfg s.isHost s.bComms i false _) = _
    rw [initSlot_idem]
  · have hle := Nat.le_of_not_lt h
    have h1 : NET_InitPlayer cfg s i b = s := by
      rw [NET_InitPlayer_eq, setPlayer_of_le _ _ _ hle]
    rw [h1, NET_InitPlayer_eq, setPlayer_of_le _ _ _ hle]

theorem NET_InitPlayer_allocated (cfg : NetConstants) (s : NetState) (i : Nat) (b : Bool) :
    ((NET_InitPlayer cfg s i b).player i).allocated = false := by
  by_cases h : i < s.players.length
  · rw [NET_InitPlayer_eq, player_setPlayer_same _ _ _ h]
    rfl
  · have hle := Nat.le_of_not_lt h
    rw [NET_InitPlayer_eq, setPlayer_of_le _ _ _ hle, player_default_of_le _ _ hle]
    rfl

theorem NET_DestroyPlayer_eq_init (cfg : NetConstants) (s : NetState) (i : Nat) :
    ∃ s1, NET_DestroyPlayer cfg s i = NET_InitPlayer cfg s1 i false := by
  unfold NET_DestroyPlayer
  exact ⟨_, rfl⟩

theorem NET_DestroyPlayer_of_unallocated (cfg : NetConstants) (s : NetState) (i : Nat)
    (h : (s.player i).allocated = false) :
    NET_DestroyPlayer cfg s i = NET_InitPlayer cfg s i false := by
  simp [NET_DestroyPlayer, h]

theorem NET_InitPlayer_playercount (cfg : NetConstants) (s : NetState) (i : Nat) (b : Bool) :
    (NET_InitPlayer cfg s i b).playercount = s.playercount := by
  rw [NET_InitPlayer_eq]; rfl

theorem NET_DestroyPlayer_playercount (cfg : NetConstants) (s : NetState) (i : Nat) :
    (NET_DestroyPlayer cfg s i).playercount =
      (if (s.player i).allocated then u32 ((s.playercount : Int) - 1) else s.playercount) := by
  unfold NET_DestroyPlayer
  rw [NET_InitPlayer_playercount]
  cases hal : (s.player i).allocated
  · simp
  · simp only [if_true]
    split <;> rfl

/-- C5. Applying `NET_DestroyPlayer(i)` a second time changes nothing: the state
after two calls, player table and `playercount` included, is the state after
one. One call decrements `playercount` (as a `uint32_t`) exactly when slot `i`
was allocated, and not at all otherwise. -/
theorem NET_DestroyPlayer_idempotent (cfg : NetConstants) (s : NetState) (i : Nat) :
    NET_DestroyPlayer cfg (NET_DestroyPlayer cfg s i) i = NET_DestroyPlayer cfg s i ∧
    (NET_DestroyPlayer cfg s i).playercount =
      (if (s.player i).allocated then u32 ((s.playercount : Int) - 1) else s.playercount) := by
  constructor
  · obtain ⟨s1, h1⟩ := NET_DestroyPlayer_eq_init cfg s i
    rw [h1, NET_DestroyPlayer_of_unallocated _ _ _ (NET_InitPlayer_allocated cfg s1 i false),
      NET_InitPlayer_idem]
  · exact NET_DestroyPlayer_playercount cfg s i

theorem NET_DestroyPlayer_slot (cfg : NetConstants) (s : NetState) (i : Nat)
    (h : i < s.players.length) :
    (NET_DestroyPlayer cfg s i).player i = initSlot cfg s.isHost s.bComms i false (s.player i) := by
  unfold NET_DestroyPlayer
  cases hal : (s.player i).allocated
  · simp only [Bool.false_eq_true, if_false]
    rw [NET_InitPlayer_eq, player_setPlayer_same _ _ _ h]
  · simp only [if_true]
    split
    · rw [NET_InitPlayer_eq, player_setPlayer_same]
      · show initSlot cfg s.isHost s.bComms i false ((s.setPlayer i _).player i) = _
        rw [player_setPlayer_same _ _ _ h]
        rfl
      · simpa [NetState.emit, NetState.setPlayer] using h
    · rw [NET_InitPlayer_eq, player_setPlayer_same]
      · show initSlot cfg s.isHost s.bComms i false ((s.setPlayer i _).player i) = _
        rw [player_setPlayer_same _ _ _ h]
        rfl
      · simpa [NetState.setPlayer] using h

theorem freshSlot_eq (cfg : NetConstants) (s : NetState) (i : Nat)
    (h : i < cfg.MAX_CONNECTED_PLAYERS) :
    freshSlot cfg s i = initSlot cfg s.isHost s.bComms i true PLAYER.zero := by
  unfold freshSlot
  rw [NET_InitPlayer_eq, player_setPlayer_same]
  · have : ({ s with players := List.replicate cfg.MAX_CONNECTED_PLAYERS PLAYER.zero } :
        NetState).player i = PLAYER.zero := by
      simp [NetState.player, List.getD_eq_getElem?_getD, List.getElem?_replicate, h]
    rw [this]
  · simpa using h

/-- C6, counterexample. On a host, after `NET_DestroyPlayer(1)` slot 1 still
carries the name `B` and the file offset 5 of its former occupant, while a fresh
slot has an empty name and offset 0: the slot is not equal to a fresh slot. -/
theorem NET_DestroyPlayer_keeps_name_and_offset :
    ((NET_DestroyPlayer wzConstants busyHost 1).player 1).name = [66] ∧
    (freshSlot wzConstants busyHost 1).name = [] ∧
    ((NET_DestroyPlayer wzConstants busyHost 1).player 1).wzFile.currPos = 5 ∧
    (freshSlot wzConstants busyHost 1).wzFile.currPos = 0 ∧
    (NET_DestroyPlayer wzConstants busyHost 1).player 1 ≠ freshSlot wzConstants busyHost 1 := by
  decide

/-- C6, amended. After `NET_DestroyPlayer(i)` the fields `allocated`,
`heartattacktime`, `heartbeat`, `kick`, `ready`, `needFile`, `ai`, `difficulty` and
the cancel and sending flags of the file transfer of slot `i` have the values of
a fresh slot. The name has the fresh (empty) value when the local role is not
host and is kept on the host. Colour, position, team, IP text, file handle, file
offset and file size are kept as they were. -/
theorem NET_DestroyPlayer_reinitializes (cfg : NetConstants) (s : NetState) (i : Nat)
    (hlen : s.players.length = cfg.MAX_CONNECTED_PLAYERS) (hi : i < cfg.MAX_CONNECTED_PLAYERS) :
    (((NET_DestroyPlayer cfg s i).player i).allocated = (freshSlot cfg s i).allocated ∧
     ((NET_DestroyPlayer cfg s i).player i).heartattacktime = (freshSlot cfg s i).heartattacktime ∧
     ((NET_DestroyPlayer cfg s i).player i).heartbeat = (freshSlot cfg s i).heartbeat ∧
     ((NET_DestroyPlayer cfg s i).player i).kick = (freshSlot cfg s i).kick ∧
     ((NET_DestroyPlayer cfg s i).player i).ready = (freshSlot cfg s i).ready ∧
     ((NET_DestroyPlayer cfg s i).player i).needFile = (freshSlot cfg s i).needFile ∧
     ((NET_DestroyPlayer cfg s i).player i).ai = (freshSlot cfg s i).ai ∧
     ((NET_DestroyPlayer cfg s i).player i).difficulty = (freshSlot cfg s i).difficulty ∧
     ((NET_DestroyPlayer cfg s i).player i).wzFile.isCancelled
        = (freshSlot cfg s i).wzFile.isCancelled ∧
     ((NET_DestroyPlayer cfg s i).player i).wzFile.isSending
        = (freshSlot cfg s i).wzFile.isSending) ∧
    ((NET_DestroyPlayer cfg s i).player i).name
        = (if s.isHost then (s.player i).name else (freshSlot cfg s i).name) ∧
    (((NET_DestroyPlayer cfg s i).player i).colour = (s.player i).colour ∧
     ((NET_DestroyPlayer cfg s i).player i).position = (s.player i).position ∧
     ((NET_DestroyPlayer cfg s i).player i).team = (s.player i).team ∧
     ((NET_DestroyPlayer cfg s i).player i).IPtextAddress = (s.player i).IPtextAddress ∧
     ((NET_DestroyPlayer cfg s i).player i).wzFile.pFileHandle = (s.player i).wzFile.pFileHandle ∧
     ((NET_DestroyPlayer cfg s i).player i).wzFile.currPos = (s.player i).wzFile.currPos ∧
     ((NET_DestroyPlayer cfg s i).player i).wzFile.fileSize_32
        = (s.player i).wzFile.fileSize_32) := by
  rw [NET_DestroyPlayer_slot cfg s i (by omega), freshSlot_eq cfg s i hi]
  unfold initSlot
  cases s.isHost <;> simp [PLAYER.zero]

/-- C6, amended, at slot 1 of `busyHost`. -/
theorem NET_DestroyPlayer_reinitializes_witness :
    busyHost.players.length = wzConstants.MAX_CONNECTED_PLAYERS ∧
    1 < wzConstants.MAX_CONNECTED_PLAYERS ∧
    ((NET_DestroyPlayer wzConstants busyHost 1).player 1).name
        = (if busyHost.isHost then (busyHost.player 1).name
           else (freshSlot wzConstants busyHost 1).name) :=
  ⟨by decide, by decide,
    (NET_DestroyPlayer_reinitializes wzConstants busyHost 1 (by decide) (by decide)).2.1⟩

theorem allocatedCount_le_length (l : List PLAYER) : allocatedCount l ≤ l.length := by
  induction l with
  | nil => simp [allocatedCount]
  | cons p ps ih =>
    simp only [allocatedCount, List.length_cons]
    split <;> omega

theorem allocatedCount_set (l : List PLAYER) (i : Nat) (p : PLAYER) (h : i < l.length) :
    allocatedCount (l.set i p) + (if (l.getD i default).allocated then 1 else 0)
      = allocatedCount l + (if p.allocated then 1 else 0) := by
  induction l generalizing i with
  | nil => simp at h
  | cons a l ih =>
    cases i with
    | zero => simp [allocatedCount]; omega
    | succ i =>
      have := ih i (by simpa using h)
      simp only [List.set_cons_succ, allocatedCount, List.getD_cons_succ] at this ⊢
      omega

theorem allocatedCount_zero (l : List PLAYER)
    (h : ∀ j, j < l.length → (l.getD j default).allocated = false) : allocatedCount l = 0 := by
  induction l with
  | nil => rfl
  | cons a l ih =>
    have h0 := h 0 (by simp)
    simp only [List.getD_cons_zero] at h0
    have := ih (fun j hj => by simpa using h (j + 1) (by simpa using hj))
    simp [allocatedCount, h0, this]

theorem NET_InitPlayer_player_ne (cfg : NetConstants) (s : NetState) (i j : Nat) (b : Bool)
    (h : i ≠ j) : (NET_InitPlayer cfg s i b).player j = s.player j := by
  rw [NET_InitPlayer_eq, player_setPlayer_ne _ _ _ _ h]

theorem NET_InitPlayer_length (cfg : NetConstants) (s : NetState) (i : Nat) (b : Bool) :
    (NET_InitPlayer cfg s i b).players.length = s.players.length := by
  rw [NET_InitPlayer_eq]; simp [NetState.setPlayer]

theorem NET_InitPlayers_loop_spec (cfg : NetConstants) :
    ∀ (k i : Nat) (s : NetState),
      (NET_InitPlayers_loop cfg k i s).players.length = s.players.length ∧
      ∀ j, ((∀ j', j' < i → (s.player j').allocated = false) → j < i + k →
        ((NET_InitPlayers_loop cfg k i s).player j).allocated = false) := by
  intro k
  induction k with
  | zero =>
    intro i s
    exact ⟨rfl, fun j hlow hj => hlow j (by omega)⟩
  | succ k ih =>
    intro i s
    obtain ⟨h1, h2⟩ := ih (i + 1) (NET_InitPlayer cfg s i true)
    refine ⟨by rw [NET_InitPlayers_loop, h1, NET_InitPlayer_length], fun j hlow hj => ?_⟩
    rw [NET_InitPlayers_loop]
    refine h2 j (fun j' hj' => ?_) (by omega)
    by_cases hji : i = j'
    · subst hji; exact NET_InitPlayer_allocated cfg s i true
    · rw [NET_InitPlayer_player_ne _ _ _ _ _ hji]
      exact hlow j' (by omega)

theorem NET_CreatePlayer_some (cfg : NetConstants) (s : NetState) (name : CString) (index : Nat)
    (hscan : NET_CreatePlayer_scan cfg s cfg.MAX_CONNECTED_PLAYERS 0 = some index)
    (hlt : index < s.players.length) :
    NET_CreatePlayer cfg s name =
      ((index : Int),
        { s.setPlayer index
            { initSlot cfg s.isHost s.bComms index false (s.player index) with
                allocated := true, name := sstrcpy cfg.StringSize name } with
          playercount := u32 ((s.playercount : Int) + 1), joins := s.joins + 1 }) := by
  unfold NET_CreatePlayer
  rw [hscan]
  show ((index : Int),
    { (NET_InitPlayer cfg s index false).setPlayer index
        { (NET_InitPlayer cfg s index false).player index with
            allocated := true, name := sstrcpy cfg.StringSize name } with
      playercount := u32 (((NET_InitPlayer cfg s index false).playercount : Int) + 1),
      joins := (NET_InitPlayer cfg s index false).joins + 1 }) = _
  rw [NET_InitPlayer_eq, player_setPlayer_same _ _ _ hlt, setPlayer_setPlayer]
  rfl

theorem NET_DestroyPlayer_players (cfg : NetConstants) (s : NetState) (i : Nat) :
    (NET_DestroyPlayer cfg s i).players =
      s.players.set i (initSlot cfg s.isHost s.bComms i false (s.player i)) := by
  by_cases h : i < s.players.length
  · unfold NET_DestroyPlayer
    cases hal : (s.player i).allocated
    · simp only [Bool.false_eq_true, if_false]
      rw [NET_InitPlayer_eq]; rfl
    · simp only [if_true]
      have hl : i < (s.setPlayer i { s.player i with allocated := false }).players.length := by
        simpa [NetState.setPlayer] using h
      split
      · rw [NET_InitPlayer_eq]
        show (List.set _ i (initSlot cfg s.isHost s.bComms i false
          ((s.setPlayer i { s.player i with allocated := false }).player i))) = _
        rw [player_setPlayer_same _ _ _ h]
        simp [NetState.setPlayer, NetState.emit, initSlot]
      · rw [NET_InitPlayer_eq]
        show (List.set _ i (initSlot cfg s.isHost s.bComms i false
          ((s.setPlayer i { s.player i with allocated := false }).player i))) = _
        rw [player_setPlayer_same _ _ _ h]
        simp [NetState.setPlayer, initSlot]
  · have hle := Nat.le_of_not_lt h
    have hal : (s.player i).allocated = false := by
      rw [player_default_of_le _ _ hle]; rfl
    rw [NET_DestroyPlayer_of_unallocated _ _ _ hal, NET_InitPlayer_eq]
    rfl

/-- The invariant of the registry: the table has its size, and `playercount`
counts the allocated slots. -/
theorem registry_step (cfg : NetConstants) (s : NetState) (c : RegistryCall)
    (hmax : cfg.MAX_CONNECTED_PLAYERS < 4294967296)
    (hlen : s.players.length = cfg.MAX_CONNECTED_PLAYERS)
    (hcount : s.playercount = allocatedCount s.players) :
    (c.run cfg s).players.length = cfg.MAX_CONNECTED_PLAYERS ∧
    (c.run cfg s).playercount = allocatedCount (c.run cfg s).players := by
  cases c with
  | create name =>
    show (NET_CreatePlayer cfg s name).2.players.length = _ ∧
      (NET_CreatePlayer cfg s name).2.playercount = allocatedCount (NET_CreatePlayer cfg s name).2.players
    cases hscan : NET_CreatePlayer_scan cfg s cfg.MAX_CONNECTED_PLAYERS 0 with
    | none =>
      have hr : NET_CreatePlayer cfg s name = (-1, s) := by simp [NET_CreatePlayer, hscan]
      rw [hr]; exact ⟨hlen, hcount⟩
    | some index =>
      obtain ⟨_, h2, h3, _⟩ := scan_some cfg s _ _ _ hscan
      have hlt : index < s.players.length := by omega
      rw [NET_CreatePlayer_some cfg s name index hscan hlt]
      have hset := allocatedCount_set s.players index
        { initSlot cfg s.isHost s.bComms index false (s.player index) with
            allocated := true, name := sstrcpy cfg.StringSize name } hlt
      have hold : (s.players.getD index default).allocated = false :=
        ((slotFree_iff cfg _).mp h3).1
      rw [hold] at hset
      simp only [Bool.false_eq_true, if_false, if_true, Nat.add_zero] at hset
      have hle := allocatedCount_le_length (s.players.set index
        { initSlot cfg s.isHost s.bComms index false (s.player index) with
            allocated := true, name := sstrcpy cfg.StringSize name })
      simp only [List.length_set] at hle
      refine ⟨by simpa [NetState.setPlayer] using hlen, ?_⟩
      show u32 ((s.playercount : Int) + 1) = allocatedCount (s.players.set index _)
      rw [hset, hcount]
      unfold u32
      omega
  | destroy i =>
    show (NET_DestroyPlayer cfg s i).players.length = _ ∧
      (NET_DestroyPlayer cfg s i).playercount = allocatedCount (NET_DestroyPlayer cfg s i).players
    rw [NET_DestroyPlayer_players, NET_DestroyPlayer_playercount cfg s i]
    refine ⟨by simpa using hlen, ?_⟩
    by_cases h : i < s.players.length
    · have hset := allocatedCount_set s.players i
        (initSlot cfg s.isHost s.bComms i false (s.player i)) h
      have hnew : (initSlot cfg s.isHost s.bComms i false (s.player i)).allocated = false := rfl
      rw [hnew] at hset
      have hle := allocatedCount_le_length s.players
      cases hal : (s.player i).allocated
      · have hal2 : (s.players.getD i default).allocated = false := hal
        rw [hal2] at hset
        simp only [Bool.false_eq_true, if_false, Nat.add_zero] at hset ⊢
        omega
      · have hal2 : (s.players.getD i default).allocated = true := hal
        rw [hal2] at hset
        simp only [Bool.false_eq_true, if_false, if_true, Nat.add_zero] at hset ⊢
        unfold u32
        omega
    · have hle := Nat.le_of_not_lt h
      have hal : (s.player i).allocated = false := by
        rw [player_default_of_le _ _ hle]; rfl
      rw [hal, List.set_eq_of_length_le hle]
      simpa using hcount

theorem registry_run (cfg : NetConstants) (calls : List RegistryCall)
    (hmax : cfg.MAX_CONNECTED_PLAYERS < 4294967296) :
    ∀ s : NetState, s.players.length = cfg.MAX_CONNECTED_PLAYERS →
      s.playercount = allocatedCount s.players →
      (runRegistry cfg calls s).players.length = cfg.MAX_CONNECTED_PLAYERS ∧
      (runRegistry cfg calls s).playercount = allocatedCount (runRegistry cfg calls s).players := by
  induction calls with
  | nil => intro s h1 h2; exact ⟨h1, h2⟩
  | cons c cs ih =>
    intro s h1 h2
    obtain ⟨h3, h4⟩ := registry_step cfg s c hmax h1 h2
    exact ih _ h3 h4

theorem NET_InitPlayers_invariant (cfg : NetConstants) (s : NetState)
    (hlen : s.players.length = cfg.MAX_CONNECTED_PLAYERS) :
    (NET_InitPlayers cfg s).players.length = cfg.MAX_CONNECTED_PLAYERS ∧
    (NET_InitPlayers cfg s).playercount = allocatedCount (NET_InitPlayers cfg s).players := by
  obtain ⟨h1, h2⟩ := NET_InitPlayers_loop_spec cfg cfg.MAX_CONNECTED_PLAYERS 0 s
  refine ⟨by simpa [NET_InitPlayers, h1] using hlen, ?_⟩
  show 0 = allocatedCount (NET_InitPlayers_loop cfg cfg.MAX_CONNECTED_PLAYERS 0 s).players
  rw [allocatedCount_zero]
  intro j hj
  exact h2 j (fun j' hj' => absurd hj' (by omega)) (by omega)

theorem NET_CreatePlayer_result_unallocated (cfg : NetConstants) (s : NetState)
    (name : CString) (i : Nat) (h : (NET_CreatePlayer cfg s name).1 = (i : Int)) :
    i < cfg.MAX_CONNECTED_PLAYERS ∧ (s.player i).allocated = false ∧
      NET_CreatePlayer_scan cfg s cfg.MAX_CONNECTED_PLAYERS 0 = some i := by
  cases hscan : NET_CreatePlayer_scan cfg s cfg.MAX_CONNECTED_PLAYERS 0 with
  | none =>
    have hr : NET_CreatePlayer cfg s name = (-1, s) := by simp [NET_CreatePlayer, hscan]
    rw [hr] at h
    simp only at h
    omega
  | some index =>
    have hr : (NET_CreatePlayer cfg s name).1 = (index : Int) := by
      simp [NET_CreatePlayer, hscan]
    rw [hr] at h
    have hi : index = i := by exact_mod_cast h
    subst hi
    obtain ⟨_, h2, h3, _⟩ := scan_some cfg s _ _ _ hscan
    exact ⟨by omega, ((slotFree_iff cfg _).mp h3).1, rfl⟩

/-- C7. Start from the state `NET_InitPlayers` leaves and apply any sequence of
`NET_CreatePlayer` and `NET_DestroyPlayer` calls. Then `playercount` equals the
number of allocated slots, it does not exceed `MAX_CONNECTED_PLAYERS`, and the
next `NET_CreatePlayer` never returns the index of a slot that is allocated. -/
theorem registry_invariant (cfg : NetConstants) (s0 : NetState) (calls : List RegistryCall)
    (hlen : s0.players.length = cfg.MAX_CONNECTED_PLAYERS)
    (hmax : cfg.MAX_CONNECTED_PLAYERS < 4294967296) :
    (runRegistry cfg calls (NET_InitPlayers cfg s0)).playercount
      = allocatedCount (runRegistry cfg calls (NET_InitPlayers cfg s0)).players ∧
    (runRegistry cfg calls (NET_InitPlayers cfg s0)).playercount ≤ cfg.MAX_CONNECTED_PLAYERS ∧
    ∀ (name : CString) (i : Nat),
      (NET_CreatePlayer cfg (runRegistry cfg calls (NET_InitPlayers cfg s0)) name).1 = (i : Int) →
      ((runRegistry cfg calls (NET_InitPlayers cfg s0)).player i).allocated = false := by
  obtain ⟨h1, h2⟩ := NET_InitPlayers_invariant cfg s0 hlen
  obtain ⟨h3, h4⟩ := registry_run cfg calls hmax _ h1 h2
  refine ⟨h4, ?_, ?_⟩
  · rw [h4, ← h3]; exact allocatedCount_le_length _
  · intro name i hi
    exact (NET_CreatePlayer_result_unallocated cfg _ name i hi).2.1

/-- C7 on a run that creates two players, destroys the first and creates a third. -/
theorem registry_invariant_witness :
    (zeroState wzConstants).players.length = wzConstants.MAX_CONNECTED_PLAYERS ∧
    wzConstants.MAX_CONNECTED_PLAYERS < 4294967296 ∧
    (runRegistry wzConstants [.create [65], .create [66], .destroy 0, .create [67]]
      (NET_InitPlayers wzConstants (zeroState wzConstants))).playercount ≤
        wzConstants.MAX_CONNECTED_PLAYERS :=
  ⟨by decide, by decide,
    (registry_invariant wzConstants (zeroState wzConstants)
      [.create [65], .create [66], .destroy 0, .create [67]] (by decide) (by decide)).2.1⟩

/-! ## Frame lemmas: what the senders and the name fixer leave alone -/

theorem map_set_same {α β : Type} (f : α → β) (l : List α) (i : Nat) (a d : α)
    (h : f a = f (l.getD i d)) : (l.set i a).map f = l.map f := by
  have h1 : (l.map f).getD i (f d) = f (l.getD i d) := List.getD_map _ _ f
  rw [List.map_set, h, ← h1, list_set_getD_self]

theorem getD_of_map_eq {α β : Type} (f : α → β) (l l' : List α) (i : Nat) (d : α)
    (h : l'.map f = l.map f) : f (l'.getD i d) = f (l.getD i d) := by
  have h1 : (l.map f).getD i (f d) = f (l.getD i d) := List.getD_map _ _ f
  have h2 : (l'.map f).getD i (f d) = f (l'.getD i d) := List.getD_map _ _ f
  rw [← h1, ← h2, h]

theorem list_getD_set {α : Type} (l : List α) (i j : Nat) (v d : α) :
    (l.set i v).getD j d = if i = j ∧ i < l.length then v else l.getD j d := by
  induction l generalizing i j with
  | nil => simp
  | cons a l ih =>
    cases i with
    | zero =>
      cases j with
      | zero => simp
      | succ j => simp
    | succ i =>
      cases j with
      | zero => simp
      | succ j =>
        simp only [List.set_cons_succ, List.getD_cons_succ, List.length_cons, ih]
        simp

theorem list_getD_set_ne {α : Type} (l : List α) (i j : Nat) (v d : α) (h : i ≠ j) :
    (l.set i v).getD j d = l.getD j d := by
  rw [list_getD_set, if_neg (fun hc => h hc.1)]

theorem list_getD_set_self {α : Type} (l : List α) (i : Nat) (v d : α) (h : i < l.length) :
    (l.set i v).getD i d = v := by
  rw [list_getD_set, if_pos ⟨rfl, h⟩]


theorem rejections_append (l l' : List Event) :
    rejections (l ++ l') = rejections l ++ rejections l' := by
  induction l with
  | nil => rfl
  | cons e es ih =>
    cases e with
    | encode q m => cases m <;> simp [rejections, ih]
    | _ => simp [rejections, ih]

theorem acceptances_append (l l' : List Event) :
    acceptances (l ++ l') = acceptances l ++ acceptances l' := by
  induction l with
  | nil => rfl
  | cons e es ih =>
    cases e with
    | encode q m => cases m <;> simp [acceptances, ih]
    | _ => simp [acceptances, ih]

theorem joinNotices_append (l l' : List Event) :
    joinNotices (l ++ l') = joinNotices l ++ joinNotices l' := by
  induction l with
  | nil => rfl
  | cons e es ih =>
    cases e with
    | encode q m => cases m <;> simp [joinNotices, ih]
    | _ => simp [joinNotices, ih]

theorem messagesOf_append (l l' : List Event) :
    messagesOf (l ++ l') = messagesOf l ++ messagesOf l' := by
  induction l with
  | nil => rfl
  | cons e es ih => cases e <;> simp [messagesOf, ih]

/-- A trace without `NET_ACCEPTED` and `NET_PLAYER_JOINED` accepts nobody. -/
theorem acceptances_of_joinNotices (l : List Event) (h : joinNotices l = []) :
    acceptances l = [] := by
  induction l with
  | nil => rfl
  | cons e es ih =>
    cases e with
    | encode q m =>
      cases m <;> first
        | (simp only [joinNotices] at h; simp only [acceptances]; exact ih h)
        | (simp [joinNotices] at h)
    | _ => simp only [joinNotices] at h; simp only [acceptances]; exact ih h

/-! ### What the drop of a player changes -/

theorem NET_DestroyPlayer_flags (cfg : NetConstants) (s : NetState) (i : Nat) :
    (NET_DestroyPlayer cfg s i).isHost = s.isHost ∧
    (NET_DestroyPlayer cfg s i).bComms = s.bComms := by
  unfold NET_DestroyPlayer
  cases hal : (s.player i).allocated
  · exact ⟨rfl, rfl⟩
  · dsimp only
    rw [if_pos rfl]
    split <;> exact ⟨rfl, rfl⟩

theorem NETplayerLeaving_flags (cfg : NetConstants) (s : NetState) (i : Nat) :
    (NETplayerLeaving cfg s i).isHost = s.isHost ∧
    (NETplayerLeaving cfg s i).bComms = s.bComms := by
  unfold NETplayerLeaving
  cases s.connected_bsocket.getD i none with
  | none => exact NET_DestroyPlayer_flags cfg _ i
  | some sock => exact NET_DestroyPlayer_flags cfg _ i

theorem NET_DestroyPlayer_out (cfg : NetConstants) (s : NetState) (i : Nat) :
    (NET_DestroyPlayer cfg s i).out
      = s.out ++ (if ((s.player i).allocated && (s.allow_joining && s.isHost)) = true
          then [.lobbyDelPlayer i] else []) := by
  unfold NET_DestroyPlayer
  rw [NET_InitPlayer_eq]
  cases hal : (s.player i).allocated
  · simp [NetState.setPlayer]
  · cases hj : (s.allow_joining && s.isHost)
    · simp [NetState.setPlayer, hj]
    · simp [NetState.setPlayer, NetState.emit, hj]

theorem NET_DestroyPlayer_sockets (cfg : NetConstants) (s : NetState) (index : Nat) :
    (NET_DestroyPlayer cfg s index).connected_bsocket = s.connected_bsocket := by
  unfold NET_DestroyPlayer
  simp only
  split
  · split <;> rfl
  · rfl

theorem NET_DestroyPlayer_unallocated (cfg : NetConstants) (s : NetState) (index : Nat) :
    ((NET_DestroyPlayer cfg s index).player index).allocated = false := by
  obtain ⟨s1, h⟩ := NET_DestroyPlayer_eq_init cfg s index
  rw [h]
  exact NET_InitPlayer_allocated cfg s1 index false

theorem NET_DestroyPlayer_player_ne (cfg : NetConstants) (s : NetState) (index j : Nat)
    (h : index ≠ j) : (NET_DestroyPlayer cfg s index).player j = s.player j := by
  unfold NetState.player
  rw [NET_DestroyPlayer_players, list_getD_set_ne _ _ _ _ _ h]

/-- A slot after `NET_DestroyPlayer(index)`: as before, or the slot `index`
initialised again. -/
theorem NET_DestroyPlayer_player (cfg : NetConstants) (s : NetState) (index j : Nat) :
    (NET_DestroyPlayer cfg s index).player j = s.player j ∨
    (j = index ∧ (NET_DestroyPlayer cfg s index).player j
      = initSlot cfg s.isHost s.bComms index false (s.player index)) := by
  by_cases hj : index = j
  · subst hj
    by_cases hlt : index < s.players.length
    · exact Or.inr ⟨rfl, NET_DestroyPlayer_slot cfg s index hlt⟩
    · left
      unfold NetState.player
      rw [NET_DestroyPlayer_players, List.set_eq_of_length_le (Nat.le_of_not_lt hlt)]
  · exact Or.inl (NET_DestroyPlayer_player_ne cfg s index j hj)

theorem NETplayerLeaving_sockets (cfg : NetConstants) (s : NetState) (index : Nat) :
    (NETplayerLeaving cfg s index).connected_bsocket = s.connected_bsocket.set index none := by
  unfold NETplayerLeaving
  simp only
  rw [NET_DestroyPlayer_sockets]
  split
  · rfl
  · rename_i hn
    show s.connected_bsocket = _
    have h := list_set_getD_self s.connected_bsocket index none
    rw [hn] at h
    exact h.symm

theorem NETplayerLeaving_unallocated (cfg : NetConstants) (s : NetState) (index : Nat) :
    ((NETplayerLeaving cfg s index).player index).allocated = false := by
  unfold NETplayerLeaving
  exact NET_DestroyPlayer_unallocated _ _ _

theorem NETplayerLeaving_player_ne (cfg : NetConstants) (s : NetState) (index j : Nat)
    (h : index ≠ j) : (NETplayerLeaving cfg s index).player j = s.player j := by
  unfold NETplayerLeaving
  simp only
  rw [NET_DestroyPlayer_player_ne _ _ _ _ h]
  split <;> rfl

/-- A slot after `NETplayerLeaving(index)`: as before, or the slot `index`
initialised again. -/
theorem NETplayerLeaving_player (cfg : NetConstants) (s : NetState) (index j : Nat) :
    (NETplayerLeaving cfg s index).player j = s.player j ∨
    (j = index ∧ (NETplayerLeaving cfg s index).player j
      = initSlot cfg s.isHost s.bComms index false (s.player index)) := by
  unfold NETplayerLeaving
  cases s.connected_bsocket.getD index none with
  | none => exact NET_DestroyPlayer_player cfg _ index j
  | some sock => exact NET_DestroyPlayer_player cfg _ index j

theorem NETplayerLeaving_length (cfg : NetConstants) (s : NetState) (index : Nat) :
    (NETplayerLeaving cfg s index).players.length = s.players.length := by
  unfold NETplayerLeaving
  cases s.connected_bsocket.getD index none with
  | none => rw [NET_DestroyPlayer_players]; simp
  | some sock => rw [NET_DestroyPlayer_players]; simp [NetState.emit]

/-- The trace of `NETplayerLeaving(index)`: the socket of the player is closed,
if there is one, and the lobby is told, if the player was allocated and the
host lets players join. -/
theorem NETplayerLeaving_out (cfg : NetConstants) (s : NetState) (index : Nat) :
    ∃ evs, (NETplayerLeaving cfg s index).out = s.out ++ evs ∧
      (evs = [] ∨ evs = [.lobbyDelPlayer index] ∨
        ∃ sock, evs = [.socketClose sock] ∨ evs = [.socketClose sock, .lobbyDelPlayer index]) := by
  unfold NETplayerLeaving
  cases s.connected_bsocket.getD index none with
  | none =>
    simp only
    rw [NET_DestroyPlayer_out]
    split
    · exact ⟨_, rfl, Or.inr (Or.inl rfl)⟩
    · exact ⟨[], rfl, Or.inl rfl⟩
  | some sock =>
    simp only
    rw [NET_DestroyPlayer_out]
    split
    · exact ⟨[.socketClose sock, .lobbyDelPlayer index], by simp [NetState.emit],
        Or.inr (Or.inr ⟨sock, Or.inr rfl⟩)⟩
    · exact ⟨[.socketClose sock], by simp [NetState.emit], Or.inr (Or.inr ⟨sock, Or.inl rfl⟩)⟩

/-- What `NETplayerLeaving` does not touch: everything but the player table, the
player count, the sockets of the players, the counter `left` and the trace. -/
theorem NETplayerLeaving_rest (cfg : NetConstants) (s : NetState) (index : Nat) :
    ({ NETplayerLeaving cfg s index with
        players := [], playercount := 0, connected_bsocket := [], left := 0, out := [] }
      : NetState)
      = { s with players := [], playercount := 0, connected_bsocket := [], left := 0,
                 out := [] } := by
  unfold NETplayerLeaving NET_DestroyPlayer
  rw [NET_InitPlayer_eq]
  cases s.connected_bsocket.getD index none with
  | none =>
    dsimp only
    split
    · split <;> rfl
    · rfl
  | some sock =>
    dsimp only
    split
    · split <;> rfl
    · rfl

theorem NETsend_hostLost_player (s : NetState) (sock j : Nat) :
    ((NETsend_hostLost s sock).player j) = s.player j ∨
    (NETsend_hostLost s sock).player j = { s.player j with heartbeat := false } := by
  unfold NETsend_hostLost
  by_cases h : s.hostPlayer = j ∧ s.hostPlayer < s.players.length
  · right
    obtain ⟨h1, h2⟩ := h
    subst h1
    exact player_setPlayer_same _ _ _ h2
  · left
    unfold NetState.player NetState.setPlayer NetState.emit
    dsimp only
    rw [list_getD_set, if_neg h]

/-! ### What a send does to the state

`NETend` is followed through its nested calls once and for all: a relation
between states that holds along the single steps of a send holds between the
state after the `encode` event and the state that `NETend` returns. -/

/-- The loop of `NETsend` on the host: a relation that holds along the writes
and the drops holds from the start of the loop to its end. -/
theorem NETsend_host_rel (cfg : NetConstants) (env : SocketEnv)
    (k : NetState → NETQUEUE → NetMessage → NetState) (message : NetMessage)
    (R : NetState → NetState → Prop)
    (hrefl : ∀ t, R t t) (htrans : ∀ a b c, R a b → R b c → R a c)
    (hwrite : ∀ t sock m, R t (t.emit (.writeMessage sock m)))
    (hdrop : ∀ t i, t.isHost = true →
      R t (t.emit (.encode .broadcast (.NET_PLAYER_DROPPED i))))
    (hleave : ∀ t i, t.isHost = true → t.bComms = true → R t (NETplayerLeaving cfg t i))
    (hk : ∀ t q m, R (t.emit (.encode q m)) (k t q m) ∧
      (k t q m).isHost = t.isHost ∧ (k t q m).bComms = t.bComms) :
    ∀ (ps : List Nat) (s : NetState), s.isHost = true → s.bComms = true →
      R s (NETsend_host cfg env k message ps s) ∧
      (NETsend_host cfg env k message ps s).isHost = true ∧
      (NETsend_host cfg env k message ps s).bComms = true := by
  intro ps
  induction ps with
  | nil => intro s h1 h2; exact ⟨hrefl s, h1, h2⟩
  | cons player ps ih =>
    intro s h1 h2
    unfold NETsend_host
    cases hs : s.connected_bsocket.getD player none with
    | none => exact ih s h1 h2
    | some sock =>
      simp only
      cases env.writeAll (s.emit (.writeMessage sock message)).out.length sock with
      | complete =>
        obtain ⟨a, b, c⟩ := ih (s.emit (.writeMessage sock message)) h1 h2
        exact ⟨htrans _ _ _ (hwrite s sock message) a, b, c⟩
      | short =>
        obtain ⟨a, b, c⟩ := ih (s.emit (.writeMessage sock message)) h1 h2
        exact ⟨htrans _ _ _ (hwrite s sock message) a, b, c⟩
      | SOCKET_ERROR =>
        simp only
        have hd : NETplayerClientDisconnect cfg k (s.emit (.writeMessage sock message)) player
            = k (NETplayerLeaving cfg (s.emit (.writeMessage sock message)) player) .broadcast
                (.NET_PLAYER_DROPPED player) := by
          unfold NETplayerClientDisconnect
          have : (s.emit (.writeMessage sock message)).connected_bsocket.getD player none
              = some sock := hs
          rw [this]
        rw [hd]
        have hf := NETplayerLeaving_flags cfg (s.emit (.writeMessage sock message)) player
        have hk1 := hk (NETplayerLeaving cfg (s.emit (.writeMessage sock message)) player)
          .broadcast (.NET_PLAYER_DROPPED player)
        have e1 : (k (NETplayerLeaving cfg (s.emit (.writeMessage sock message)) player)
            .broadcast (.NET_PLAYER_DROPPED player)).isHost = true := by
          rw [hk1.2.1, hf.1]; exact h1
        have e2 : (k (NETplayerLeaving cfg (s.emit (.writeMessage sock message)) player)
            .broadcast (.NET_PLAYER_DROPPED player)).bComms = true := by
          rw [hk1.2.2, hf.2]; exact h2
        obtain ⟨a, b, c⟩ := ih _ e1 e2
        refine ⟨?_, b, c⟩
        refine htrans _ _ _ (hwrite s sock message) ?_
        refine htrans _ _ _ (hleave _ player h1 h2) ?_
        refine htrans _ _ _ (hdrop _ player (hf.1.trans h1)) ?_
        exact htrans _ _ _ hk1.1 a

/-- The body of `NETsend`: a relation that holds along the steps of a send holds
from the call to the return. -/
theorem NETsend_body_rel (cfg : NetConstants) (env : SocketEnv)
    (k : NetState → NETQUEUE → NetMessage → NetState) (R : NetState → NetState → Prop)
    (hrefl : ∀ t, R t t) (htrans : ∀ a b c, R a b → R b c → R a c)
    (hwrite : ∀ t sock m, R t (t.emit (.writeMessage sock m)))
    (hdrop : ∀ t i, t.isHost = true →
      R t (t.emit (.encode .broadcast (.NET_PLAYER_DROPPED i))))
    (hrelay : ∀ t a b c, t.isHost = false →
      R t (t.emit (.encode (.net NET_HOST_ONLY) (.NET_SEND_TO_PLAYER a b c true))))
    (hleave : ∀ t i, t.isHost = true → t.bComms = true → R t (NETplayerLeaving cfg t i))
    (hlost : ∀ t sock, t.isHost = false → t.bComms = true → R t (NETsend_hostLost t sock))
    (hk : ∀ t q m, R (t.emit (.encode q m)) (k t q m) ∧
      (k t q m).isHost = t.isHost ∧ (k t q m).bComms = t.bComms)
    (s : NetState) (player : Nat) (message : NetMessage) :
    R s (NETsend_body cfg env k s player message).2 ∧
    (NETsend_body cfg env k s player message).2.isHost = s.isHost ∧
    (NETsend_body cfg env k s player message).2.bComms = s.bComms := by
  unfold NETsend_body
  cases hc : s.bComms with
  | false => exact ⟨hrefl s, rfl, hc⟩
  | true =>
    simp only [Bool.not_true, Bool.false_eq_true, if_false]
    split
    · exact ⟨hrefl s, rfl, hc⟩
    · cases hh : s.isHost with
      | true =>
        simp only [if_true]
        exact NETsend_host_rel cfg env k message R hrefl htrans hwrite hdrop hleave hk _ s hh hc
      | false =>
        simp only [Bool.false_eq_true, if_false]
        split
        · cases s.tcp_socket with
          | none => exact ⟨hrefl s, hh, hc⟩
          | some sock =>
            simp only
            cases env.writeAll (s.emit (.writeMessage sock message)).out.length sock with
            | complete => exact ⟨hwrite s sock message, hh, hc⟩
            | short => exact ⟨hwrite s sock message, hh, hc⟩
            | SOCKET_ERROR =>
              exact ⟨htrans _ _ _ (hwrite s sock message) (hlost _ sock hh hc), hh, hc⟩
        · obtain ⟨a, b, c⟩ := hk s (.net NET_HOST_ONLY)
            (.NET_SEND_TO_PLAYER (s.selectedPlayer % 256) player message true)
          exact ⟨htrans _ _ _ (hrelay s _ _ _ hh) a, b.trans hh, c.trans hc⟩

/-- The call `NETend()` with any fuel: a relation that holds along the steps of
a send holds from the `encode` event to the return. -/
theorem NETend_fuel_rel (cfg : NetConstants) (env : SocketEnv) (R : NetState → NetState → Prop)
    (hrefl : ∀ t, R t t) (htrans : ∀ a b c, R a b → R b c → R a c)
    (hwrite : ∀ t sock m, R t (t.emit (.writeMessage sock m)))
    (hdrop : ∀ t i, t.isHost = true →
      R t (t.emit (.encode .broadcast (.NET_PLAYER_DROPPED i))))
    (hrelay : ∀ t a b c, t.isHost = false →
      R t (t.emit (.encode (.net NET_HOST_ONLY) (.NET_SEND_TO_PLAYER a b c true))))
    (hleave : ∀ t i, t.isHost = true → t.bComms = true → R t (NETplayerLeaving cfg t i))
    (hlost : ∀ t sock, t.isHost = false → t.bComms = true → R t (NETsend_hostLost t sock)) :
    ∀ (n : Nat) (s : NetState) (q : NETQUEUE) (m : NetMessage),
      R (s.emit (.encode q m)) (NETend_fuel cfg env n s q m) ∧
      (NETend_fuel cfg env n s q m).isHost = s.isHost ∧
      (NETend_fuel cfg env n s q m).bComms = s.bComms := by
  intro n
  induction n with
  | zero => intro s q m; exact ⟨hrefl _, rfl, rfl⟩
  | succ n ih =>
    intro s q m
    cases q with
    | net index =>
      exact NETsend_body_rel cfg env (NETend_fuel cfg env n) R hrefl htrans hwrite hdrop hrelay
        hleave hlost ih (s.emit (.encode (.net index) m)) index m
    | broadcast =>
      exact NETsend_body_rel cfg env (NETend_fuel cfg env n) R hrefl htrans hwrite hdrop hrelay
        hleave hlost ih (s.emit (.encode .broadcast m)) cfg.NET_ALL_PLAYERS m
    | tmp i => exact ⟨hrefl _, rfl, rfl⟩

/-- A relation that holds along the steps of a send holds from the `encode`
event to the return of `NETend`. -/
theorem NETend_steps (cfg : NetConstants) (env : SocketEnv) {R : NetState → NetState → Prop}
    (h : SendSteps cfg R) (s : NetState) (q : NETQUEUE) (m : NetMessage) :
    R (s.emit (.encode q m)) (NETend cfg env s q m) :=
  (NETend_fuel_rel cfg env R h.refl h.trans h.write h.drop h.relay h.leave h.lost _ s q m).1

theorem NETend_flags (cfg : NetConstants) (env : SocketEnv) (s : NetState) (q : NETQUEUE)
    (m : NetMessage) :
    (NETend cfg env s q m).isHost = s.isHost ∧ (NETend cfg env s q m).bComms = s.bComms :=
  (NETend_fuel_rel cfg env (fun _ _ => True) (fun _ => trivial) (fun _ _ _ _ _ => trivial)
    (fun _ _ _ => trivial) (fun _ _ _ => trivial) (fun _ _ _ _ _ => trivial)
    (fun _ _ _ _ => trivial) (fun _ _ _ _ => trivial) _ s q m).2

theorem sendFrame_of_steps (cfg : NetConstants) (env : SocketEnv)
    {R : NetState → NetState → Prop} (h : SendSteps cfg R) : SendFrame cfg env R :=
  ⟨h.refl, h.trans, fun t q m => NETend_steps cfg env h t q m⟩

/-- On a host, the steps of a client need not be considered. -/
theorem NETend_host (cfg : NetConstants) (env : SocketEnv) (R : NetState → NetState → Prop)
    (hrefl : ∀ t, R t t) (htrans : ∀ a b c, R a b → R b c → R a c)
    (hwrite : ∀ t sock m, R t (t.emit (.writeMessage sock m)))
    (hdrop : ∀ t i, R t (t.emit (.encode .broadcast (.NET_PLAYER_DROPPED i))))
    (hleave : ∀ t i, t.isHost = true → t.bComms = true → R t (NETplayerLeaving cfg t i))
    (s : NetState) (q : NETQUEUE) (m : NetMessage) (hs : s.isHost = true) :
    R (s.emit (.encode q m)) (NETend cfg env s q m) := by
  have h := NETend_fuel_rel cfg env
    (fun a b => b.isHost = a.isHost ∧ (a.isHost = true → R a b))
    (fun t => ⟨rfl, fun _ => hrefl t⟩)
    (fun a b c h1 h2 => ⟨h2.1.trans h1.1, fun ha =>
      htrans a b c (h1.2 ha) (h2.2 (h1.1.trans ha))⟩)
    (fun t sock m => ⟨rfl, fun _ => hwrite t sock m⟩)
    (fun t i _ => ⟨rfl, fun _ => hdrop t i⟩)
    (fun t a b c hf => ⟨rfl, fun ht => by rw [hf] at ht; cases ht⟩)
    (fun t i h1 h2 => ⟨(NETplayerLeaving_flags cfg t i).1, fun _ => hleave t i h1 h2⟩)
    (fun t sock hf _ => ⟨rfl, fun ht => by rw [hf] at ht; cases ht⟩)
    (cfg.MAX_CONNECTED_PLAYERS + 2) s q m
  exact h.1.2 hs

/-! ### Sends that do not fail -/

theorem NETsend_host_reliable (cfg : NetConstants) (env : SocketEnv) (hrel : env.reliable)
    (k : NetState → NETQUEUE → NetMessage → NetState) (message : NetMessage)
    (R : NetState → NetState → Prop)
    (hrefl : ∀ t, R t t) (htrans : ∀ a b c, R a b → R b c → R a c)
    (hwrite : ∀ t sock m, R t (t.emit (.writeMessage sock m))) :
    ∀ (ps : List Nat) (s : NetState), R s (NETsend_host cfg env k message ps s) := by
  intro ps
  induction ps with
  | nil => intro s; exact hrefl s
  | cons player ps ih =>
    intro s
    unfold NETsend_host
    cases hs : s.connected_bsocket.getD player none with
    | none => exact ih s
    | some sock =>
      simp only
      cases hw : env.writeAll (s.emit (.writeMessage sock message)).out.length sock with
      | complete => exact htrans _ _ _ (hwrite s sock message) (ih _)
      | short => exact htrans _ _ _ (hwrite s sock message) (ih _)
      | SOCKET_ERROR => exact absurd hw (hrel _ _)

theorem NETsend_body_reliable (cfg : NetConstants) (env : SocketEnv) (hrel : env.reliable)
    (k : NetState → NETQUEUE → NetMessage → NetState) (R : NetState → NetState → Prop)
    (hrefl : ∀ t, R t t) (htrans : ∀ a b c, R a b → R b c → R a c)
    (hwrite : ∀ t sock m, R t (t.emit (.writeMessage sock m)))
    (hrelay : ∀ t a b c,
      R t (t.emit (.encode (.net NET_HOST_ONLY) (.NET_SEND_TO_PLAYER a b c true))))
    (hk : ∀ t q m, R (t.emit (.encode q m)) (k t q m))
    (s : NetState) (player : Nat) (message : NetMessage) :
    R s (NETsend_body cfg env k s player message).2 := by
  unfold NETsend_body
  cases hc : s.bComms with
  | false => exact hrefl s
  | true =>
    simp only [Bool.not_true, Bool.false_eq_true, if_false]
    split
    · exact hrefl s
    · cases hh : s.isHost with
      | true =>
        simp only [if_true]
        exact NETsend_host_reliable cfg env hrel k message R hrefl htrans hwrite _ s
      | false =>
        simp only [Bool.false_eq_true, if_false]
        split
        · cases s.tcp_socket with
          | none => exact hrefl s
          | some sock =>
            simp only
            cases hw : env.writeAll (s.emit (.writeMessage sock message)).out.length sock with
            | complete => exact hwrite s sock message
            | short => exact hwrite s sock message
            | SOCKET_ERROR => exact absurd hw (hrel _ _)
        · exact htrans _ _ _ (hrelay s _ _ _) (hk s _ _)

theorem NETend_fuel_reliable (cfg : NetConstants) (env : SocketEnv) (hrel : env.reliable)
    (R : NetState → NetState → Prop)
    (hrefl : ∀ t, R t t) (htrans : ∀ a b c, R a b → R b c → R a c)
    (hwrite : ∀ t sock m, R t (t.emit (.writeMessage sock m)))
    (hrelay : ∀ t a b c,
      R t (t.emit (.encode (.net NET_HOST_ONLY) (.NET_SEND_TO_PLAYER a b c true)))) :
    ∀ (n : Nat) (s : NetState) (q : NETQUEUE) (m : NetMessage),
      R (s.emit (.encode q m)) (NETend_fuel cfg env n s q m) := by
  intro n
  induction n with
  | zero => intro s q m; exact hrefl _
  | succ n ih =>
    intro s q m
    cases q with
    | net index =>
      exact NETsend_body_reliable cfg env hrel (NETend_fuel cfg env n) R hrefl htrans hwrite
        hrelay ih (s.emit (.encode (.net index) m)) index m
    | broadcast =>
      exact NETsend_body_reliable cfg env hrel (NETend_fuel cfg env n) R hrefl htrans hwrite
        hrelay ih (s.emit (.encode .broadcast m)) cfg.NET_ALL_PLAYERS m
    | tmp i => exact hrefl _

/-- When no write fails, a relation that holds along the writes and the relay
of a client is kept by every send. -/
theorem sendFrame_of_reliable (cfg : NetConstants) (env : SocketEnv) (hrel : env.reliable)
    (R : NetState → NetState → Prop)
    (hrefl : ∀ t, R t t) (htrans : ∀ a b c, R a b → R b c → R a c)
    (hwrite : ∀ t sock m, R t (t.emit (.writeMessage sock m)))
    (hrelay : ∀ t a b c,
      R t (t.emit (.encode (.net NET_HOST_ONLY) (.NET_SEND_TO_PLAYER a b c true)))) :
    SendFrame cfg env R :=
  ⟨hrefl, htrans, fun t q m =>
    NETend_fuel_reliable cfg env hrel R hrefl htrans hwrite hrelay _ t q m⟩

/-! ### The senders of player infos and the name fixer -/

theorem NETSendNPlayerInfoTo_frame (cfg : NetConstants) (env : SocketEnv)
    {R : NetState → NetState → Prop} (h : SendFrame cfg env R)
    (hinfo : ∀ t dest n es, R t (t.emit (.encode (.net dest) (.NET_PLAYER_INFO n es))))
    (s : NetState) (index : List Nat) (dest : Nat) :
    R s (NETSendNPlayerInfoTo cfg env s index dest) :=
  h.trans _ _ _ (hinfo s dest _ _) (h.send s _ _)

theorem NETBroadcastPlayerInfo_frame (cfg : NetConstants) (env : SocketEnv)
    {R : NetState → NetState → Prop} (h : SendFrame cfg env R)
    (hinfo : ∀ t dest n es, R t (t.emit (.encode (.net dest) (.NET_PLAYER_INFO n es))))
    (s : NetState) (index : Nat) : R s (NETBroadcastPlayerInfo cfg env s index) :=
  NETSendNPlayerInfoTo_frame cfg env h hinfo s [index] cfg.NET_ALL_PLAYERS

theorem NETSendAllPlayerInfoTo_frame (cfg : NetConstants) (env : SocketEnv)
    {R : NetState → NetState → Prop} (h : SendFrame cfg env R)
    (hinfo : ∀ t dest n es, R t (t.emit (.encode (.net dest) (.NET_PLAYER_INFO n es))))
    (s : NetState) (dest : Nat) : R s (NETSendAllPlayerInfoTo cfg env s dest) := by
  unfold NETSendAllPlayerInfoTo
  split
  · exact NETSendNPlayerInfoTo_frame cfg env h hinfo s _ dest
  · exact h.refl s

theorem NETallowJoining_broadcastAll_frame (cfg : NetConstants) (env : SocketEnv)
    {R : NetState → NetState → Prop} (h : SendFrame cfg env R)
    (hinfo : ∀ t dest n es, R t (t.emit (.encode (.net dest) (.NET_PLAYER_INFO n es)))) :
    ∀ (js : List Nat) (s : NetState), R s (NETallowJoining_broadcastAll cfg env js s) := by
  intro js
  induction js with
  | nil => intro s; exact h.refl s
  | cons j js ih =>
    intro s
    exact h.trans _ _ _ (NETBroadcastPlayerInfo_frame cfg env h hinfo s j) (ih _)

theorem NETchangePlayerName_frame (cfg : NetConstants) (env : SocketEnv)
    {R : NetState → NetState → Prop} (h : SendFrame cfg env R) (hn : NameSteps R)
    (s : NetState) (index : Nat) (newName : CString) :
    R s (NETchangePlayerName cfg env s index newName).2 := by
  unfold NETchangePlayerName
  cases hc : s.bComms
  · exact hn.rename s 0 _
  · simp only [Bool.not_true, Bool.false_eq_true, if_false]
    refine h.trans _ _ _ ?_ (NETBroadcastPlayerInfo_frame cfg env h hn.info _ index)
    refine h.trans _ _ _ ?_ (hn.rename _ index _)
    split
    · exact hn.lobby s _ _
    · exact h.refl s

theorem NETfixDuplicatePlayerNames_slot_frame (cfg : NetConstants) (env : SocketEnv)
    {R : NetState → NetState → Prop} (h : SendFrame cfg env R) (hn : NameSteps R)
    (s : NetState) (i : Nat) : R s (NETfixDuplicatePlayerNames_slot cfg env s i) := by
  unfold NETfixDuplicatePlayerNames_slot
  simp only
  split
  · exact h.refl s
  · split
    · exact NETchangePlayerName_frame cfg env h hn s i _
    · exact h.refl s

theorem NETfixDuplicatePlayerNames_loop_frame (cfg : NetConstants) (env : SocketEnv)
    {R : NetState → NetState → Prop} (h : SendFrame cfg env R) (hn : NameSteps R) :
    ∀ (k i : Nat) (s : NetState), R s (NETfixDuplicatePlayerNames_loop cfg env k i s) := by
  intro k
  induction k with
  | zero => intro i s; exact h.refl s
  | succ k ih =>
    intro i s
    exact h.trans _ _ _ (NETfixDuplicatePlayerNames_slot_frame cfg env h hn s i) (ih (i + 1) _)

theorem NETfixDuplicatePlayerNames_frame (cfg : NetConstants) (env : SocketEnv)
    {R : NetState → NetState → Prop} (h : SendFrame cfg env R) (hn : NameSteps R)
    (s : NetState) : R s (NETfixDuplicatePlayerNames cfg env s) :=
  NETfixDuplicatePlayerNames_loop_frame cfg env h hn _ 1 s

/-! ### The trace of a send -/

theorem outQuiet_refl (s : NetState) : OutQuiet s s := ⟨[], by simp, rfl, rfl⟩

theorem outQuiet_trans (s s' s'' : NetState) (h : OutQuiet s s') (h' : OutQuiet s' s'') :
    OutQuiet s s'' := by
  obtain ⟨evs, h1, h2, h3⟩ := h
  obtain ⟨evs', h1', h2', h3'⟩ := h'
  refine ⟨evs ++ evs', ?_, ?_, ?_⟩
  · rw [h1', h1, List.append_assoc]
  · rw [joinNotices_append, h2, h2']
    rfl
  · rw [rejections_append, h3, h3']
    rfl

theorem outQuiet_emit (s : NetState) (e : Event) (h : joinNotices [e] = [])
    (hr : rejections [e] = []) : OutQuiet s (s.emit e) := ⟨[e], rfl, h, hr⟩

theorem outQuiet_of_out (s s' : NetState) (h : s'.out = s.out) : OutQuiet s s' :=
  ⟨[], by simp [h], rfl, rfl⟩

theorem outQuiet_setPlayer (s : NetState) (i : Nat) (p : PLAYER) :
    OutQuiet s (s.setPlayer i p) := outQuiet_of_out _ _ rfl

theorem outQuiet_sendSteps (cfg : NetConstants) : SendSteps cfg OutQuiet where
  refl := outQuiet_refl
  trans := outQuiet_trans
  write := fun t _ _ => outQuiet_emit t _ rfl rfl
  drop := fun t _ _ => outQuiet_emit t _ rfl rfl
  relay := fun t _ _ _ _ => outQuiet_emit t _ rfl rfl
  leave := by
    intro t i _ _
    obtain ⟨evs, h1, h2⟩ := NETplayerLeaving_out cfg t i
    refine ⟨evs, h1, ?_, ?_⟩
    · rcases h2 with h | h | ⟨sock, h | h⟩ <;> rw [h] <;> rfl
    · rcases h2 with h | h | ⟨sock, h | h⟩ <;> rw [h] <;> rfl
  lost := fun t sock _ _ => ⟨[.socketClose sock], rfl, rfl, rfl⟩

theorem outQuiet_nameSteps : NameSteps OutQuiet where
  info := fun t _ _ _ => outQuiet_emit t _ rfl rfl
  lobby := fun t _ _ => outQuiet_emit t _ rfl rfl
  rename := fun t _ _ => outQuiet_setPlayer t _ _

theorem outQuiet_frame (cfg : NetConstants) (env : SocketEnv) : SendFrame cfg env OutQuiet :=
  sendFrame_of_steps cfg env (outQuiet_sendSteps cfg)

/-- The trace that `NETend` leaves: the message, then events among which there
is no `NET_ACCEPTED`, no `NET_PLAYER_JOINED` and no `NET_REJECTED` message. -/
theorem NETend_out (cfg : NetConstants) (env : SocketEnv) (s : NetState) (q : NETQUEUE)
    (m : NetMessage) :
    ∃ evs, (NETend cfg env s q m).out = s.out ++ Event.encode q m :: evs ∧
      joinNotices evs = [] ∧ rejections evs = [] := by
  obtain ⟨evs, h1, h2, h3⟩ := (outQuiet_frame cfg env).send s q m
  exact ⟨evs, by rw [h1]; simp [NetState.emit], h2, h3⟩

/-! ### Sends that do not fail: the state is as before -/

theorem namesOnly_refl (s : NetState) : NamesOnly s s :=
  ⟨rfl, rfl, [], by simp, rfl, rfl⟩

theorem namesOnly_trans (s s' s'' : NetState) (h : NamesOnly s s') (h' : NamesOnly s' s'') :
    NamesOnly s s'' := by
  obtain ⟨h1, h2, evs, h3, h4, h5⟩ := h
  obtain ⟨h1', h2', evs', h3', h4', h5'⟩ := h'
  refine ⟨h1'.trans h1, h2'.trans h2, evs ++ evs', ?_, ?_, ?_⟩
  · rw [h3', h3, List.append_assoc]
  · rw [rejections_append, h4, h4']; rfl
  · rw [acceptances_append, h5, h5']; rfl

theorem namesOnly_emit (s : NetState) (e : Event) (hr : rejections [e] = [])
    (ha : acceptances [e] = []) : NamesOnly s (s.emit e) :=
  ⟨rfl, rfl, [e], rfl, hr, ha⟩

theorem namesOnly_setName (s : NetState) (i : Nat) (n : CString) :
    NamesOnly s (s.setPlayer i { s.player i with name := n }) := by
  refine ⟨?_, rfl, [], by simp [NetState.setPlayer], rfl, rfl⟩
  exact map_set_same PLAYER.withoutName s.players i _ default rfl

theorem namesOnly_player {s s' : NetState} (h : NamesOnly s s') (i : Nat) :
    (s'.player i).withoutName = (s.player i).withoutName :=
  getD_of_map_eq PLAYER.withoutName s.players s'.players i default h.1

theorem namesOnly_length {s s' : NetState} (h : NamesOnly s s') :
    s'.players.length = s.players.length := by
  have := congrArg List.length h.1
  simpa using this

theorem namesOnly_frame (cfg : NetConstants) (env : SocketEnv) (hrel : env.reliable) :
    SendFrame cfg env NamesOnly :=
  sendFrame_of_reliable cfg env hrel NamesOnly namesOnly_refl namesOnly_trans
    (fun t _ _ => namesOnly_emit t _ rfl rfl) (fun t _ _ _ => namesOnly_emit t _ rfl rfl)

theorem namesOnly_nameSteps : NameSteps NamesOnly where
  info := fun t _ _ _ => namesOnly_emit t _ rfl rfl
  lobby := fun t _ _ => namesOnly_emit t _ rfl rfl
  rename := fun t i n => namesOnly_setName t i n

theorem sendsOnly_refl (s : NetState) : SendsOnly s s := ⟨rfl, [], by simp, rfl, rfl⟩

theorem sendsOnly_trans (s s' s'' : NetState) (h : SendsOnly s s') (h' : SendsOnly s' s'') :
    SendsOnly s s'' := by
  obtain ⟨h2, evs, h3, h4, h5⟩ := h
  obtain ⟨h2', evs', h3', h4', h5'⟩ := h'
  refine ⟨h2'.trans h2, evs ++ evs', ?_, ?_, ?_⟩
  · rw [h3', h3, List.append_assoc]
  · rw [rejections_append, h4, h4']; rfl
  · rw [acceptances_append, h5, h5']; rfl

theorem sendsOnly_emit (s : NetState) (e : Event) (hr : rejections [e] = [])
    (ha : acceptances [e] = []) : SendsOnly s (s.emit e) :=
  ⟨rfl, [e], rfl, hr, ha⟩

theorem sendsOnly_players {s s' : NetState} (h : SendsOnly s s') : s'.players = s.players := by
  have := congrArg NetState.players h.1
  exact this

theorem sendsOnly_namesOnly {s s' : NetState} (h : SendsOnly s s') : NamesOnly s s' := by
  refine ⟨by rw [sendsOnly_players h], ?_, h.2⟩
  have := congrArg (fun x : NetState => ({ x with players := [] } : NetState)) h.1
  exact this

theorem sendsOnly_frame (cfg : NetConstants) (env : SocketEnv) (hrel : env.reliable) :
    SendFrame cfg env SendsOnly :=
  sendFrame_of_reliable cfg env hrel SendsOnly sendsOnly_refl sendsOnly_trans
    (fun t _ _ => sendsOnly_emit t _ rfl rfl) (fun t _ _ _ => sendsOnly_emit t _ rfl rfl)

theorem sendsOnly_info (t : NetState) (dest n : Nat) (es : List PlayerInfoEntry) :
    SendsOnly t (t.emit (.encode (.net dest) (.NET_PLAYER_INFO n es))) :=
  sendsOnly_emit t _ rfl rfl

/-- A send that does not fail changes the trace only. -/
theorem NETend_reliable (cfg : NetConstants) (env : SocketEnv) (hrel : env.reliable)
    (s : NetState) (q : NETQUEUE) (m : NetMessage) :
    ({ NETend cfg env s q m with out := [] } : NetState) = { s with out := [] } :=
  ((sendsOnly_frame cfg env hrel).send s q m).1

theorem quietEnv_reliable : quietEnv.reliable := by
  intro n sock h
  cases h

/-! ## The fuel of `NETend`

On a host every nested call of `NETend` follows the loss of a socket, so there
are no more of them than there are sockets; on a client, whose host is the
player `NET_HOST_ONLY`, a message is wrapped for the host at most once. The fuel
that `NETend` is given is enough: more fuel gives the same result. -/

theorem countP_set_none (l : List (Option Nat)) :
    ∀ i : Nat, (l.set i none).countP (fun h => h.isSome) ≤ l.countP (fun h => h.isSome) ∧
      (∀ x, l.getD i none = some x →
        (l.set i none).countP (fun h => h.isSome) + 1 = l.countP (fun h => h.isSome)) := by
  induction l with
  | nil => intro i; simp
  | cons a l ih =>
    intro i
    cases i with
    | zero =>
      cases a with
      | none => simp
      | some v => simp [List.countP_cons]
    | succ i =>
      obtain ⟨h1, h2⟩ := ih i
      refine ⟨?_, fun x hx => ?_⟩
      · simp only [List.set_cons_succ, List.countP_cons]
        omega
      · have hx' : l.getD i none = some x := by simpa using hx
        have := h2 x hx'
        simp only [List.set_cons_succ, List.countP_cons]
        omega

theorem NETplayerLeaving_live (cfg : NetConstants) (s : NetState) (i : Nat) :
    liveSockets (NETplayerLeaving cfg s i) ≤ liveSockets s ∧
    (∀ x, s.connected_bsocket.getD i none = some x →
      liveSockets (NETplayerLeaving cfg s i) + 1 = liveSockets s) := by
  unfold liveSockets
  rw [NETplayerLeaving_sockets]
  exact countP_set_none s.connected_bsocket i

/-- A send opens no socket. -/
theorem NETend_fuel_live (cfg : NetConstants) (env : SocketEnv) (n : Nat) (s : NetState)
    (q : NETQUEUE) (m : NetMessage) :
    liveSockets (NETend_fuel cfg env n s q m) ≤ liveSockets s ∧
    (NETend_fuel cfg env n s q m).isHost = s.isHost := by
  have h := NETend_fuel_rel cfg env (fun a b => liveSockets b ≤ liveSockets a)
    (fun _ => Nat.le_refl _) (fun _ _ _ h1 h2 => Nat.le_trans h2 h1)
    (fun _ _ _ => Nat.le_refl _) (fun _ _ _ => Nat.le_refl _) (fun _ _ _ _ _ => Nat.le_refl _)
    (fun t i _ _ => (NETplayerLeaving_live cfg t i).1)
    (fun _ _ _ _ => Nat.le_refl _) n s q m
  exact ⟨h.1, h.2.1⟩

theorem NETsend_host_fuel (cfg : NetConstants) (env : SocketEnv)
    (k1 k2 : NetState → NETQUEUE → NetMessage → NetState) (message : NetMessage) (B : Nat)
    (hk : ∀ t q m, t.isHost = true → liveSockets t < B → k1 t q m = k2 t q m)
    (hk2 : ∀ t q m, liveSockets (k2 t q m) ≤ liveSockets t ∧ (k2 t q m).isHost = t.isHost) :
    ∀ (ps : List Nat) (s : NetState), s.isHost = true → liveSockets s ≤ B →
      NETsend_host cfg env k1 message ps s = NETsend_host cfg env k2 message ps s := by
  intro ps
  induction ps with
  | nil => intro s _ _; rfl
  | cons player ps ih =>
    intro s h1 h2
    unfold NETsend_host
    cases hs : s.connected_bsocket.getD player none with
    | none => exact ih s h1 h2
    | some sock =>
      simp only
      cases env.writeAll (s.emit (.writeMessage sock message)).out.length sock with
      | complete => exact ih (s.emit (.writeMessage sock message)) h1 h2
      | short => exact ih (s.emit (.writeMessage sock message)) h1 h2
      | SOCKET_ERROR =>
        simp only
        have hs' : (s.emit (.writeMessage sock message)).connected_bsocket.getD player none
            = some sock := hs
        have hd : ∀ k : NetState → NETQUEUE → NetMessage → NetState,
            NETplayerClientDisconnect cfg k (s.emit (.writeMessage sock message)) player
              = k (NETplayerLeaving cfg (s.emit (.writeMessage sock message)) player) .broadcast
                  (.NET_PLAYER_DROPPED player) := by
          intro k
          unfold NETplayerClientDisconnect
          rw [hs']
        rw [hd k1, hd k2]
        have hl := (NETplayerLeaving_live cfg (s.emit (.writeMessage sock message)) player).2
          sock hs'
        have hf := (NETplayerLeaving_flags cfg (s.emit (.writeMessage sock message)) player).1
        have hlive : liveSockets (s.emit (.writeMessage sock message)) = liveSockets s := rfl
        have he := hk (NETplayerLeaving cfg (s.emit (.writeMessage sock message)) player)
          .broadcast (.NET_PLAYER_DROPPED player) (hf.trans h1) (by omega)
        rw [he]
        obtain ⟨g1, g2⟩ := hk2
          (NETplayerLeaving cfg (s.emit (.writeMessage sock message)) player)
          .broadcast (.NET_PLAYER_DROPPED player)
        exact ih _ (g2.trans (hf.trans h1)) (by omega)

theorem NETsend_body_fuel (cfg : NetConstants) (env : SocketEnv)
    (k1 k2 : NetState → NETQUEUE → NetMessage → NetState) (B : Nat)
    (hk : ∀ t q m, t.isHost = true → liveSockets t < B → k1 t q m = k2 t q m)
    (hk2 : ∀ t q m, liveSockets (k2 t q m) ≤ liveSockets t ∧ (k2 t q m).isHost = t.isHost)
    (s : NetState) (player : Nat) (message : NetMessage) (h1 : s.isHost = true)
    (h2 : liveSockets s ≤ B) :
    NETsend_body cfg env k1 s player message = NETsend_body cfg env k2 s player message := by
  unfold NETsend_body
  simp only [h1, if_true]
  rw [NETsend_host_fuel cfg env k1 k2 message B hk hk2 _ s h1 h2]

/-- On a host, fuel above the number of sockets is fuel enough. -/
theorem NETend_fuel_host (cfg : NetConstants) (env : SocketEnv) :
    ∀ (fuel : Nat) (s : NetState) (q : NETQUEUE) (m : NetMessage), s.isHost = true →
      liveSockets s < fuel →
      NETend_fuel cfg env (fuel + 1) s q m = NETend_fuel cfg env fuel s q m := by
  intro fuel
  induction fuel with
  | zero => intro s q m _ h; omega
  | succ n ih =>
    intro s q m h1 h2
    have hb : ∀ (player : Nat) (x : NetState), x.isHost = true → liveSockets x ≤ n →
        NETsend_body cfg env (NETend_fuel cfg env (n + 1)) x player m
          = NETsend_body cfg env (NETend_fuel cfg env n) x player m :=
      fun player x hx1 hx2 =>
        NETsend_body_fuel cfg env (NETend_fuel cfg env (n + 1)) (NETend_fuel cfg env n) n
          (fun t q m ht1 ht2 => ih t q m ht1 ht2)
          (fun t q m => NETend_fuel_live cfg env n t q m) x player m hx1 hx2
    cases q with
    | net index =>
      show (NETsend_body cfg env (NETend_fuel cfg env (n + 1))
          (s.emit (.encode (.net index) m)) index m).2
        = (NETsend_body cfg env (NETend_fuel cfg env n)
          (s.emit (.encode (.net index) m)) index m).2
      exact congrArg Prod.snd
        (hb index (s.emit (.encode (.net index) m)) h1 (Nat.le_of_lt_succ h2))
    | broadcast =>
      show (NETsend_body cfg env (NETend_fuel cfg env (n + 1))
          (s.emit (.encode .broadcast m)) cfg.NET_ALL_PLAYERS m).2
        = (NETsend_body cfg env (NETend_fuel cfg env n)
          (s.emit (.encode .broadcast m)) cfg.NET_ALL_PLAYERS m).2
      exact congrArg Prod.snd
        (hb cfg.NET_ALL_PLAYERS (s.emit (.encode .broadcast m)) h1 (Nat.le_of_lt_succ h2))
    | tmp i => rfl

/-- On a client whose host is the player `NET_HOST_ONLY`, a message for the host
is sent without a nested call. -/
theorem NETend_fuel_client_host (cfg : NetConstants) (env : SocketEnv) (g g' : Nat)
    (t : NetState) (m : NetMessage) (h1 : t.isHost = false)
    (h2 : t.hostPlayer = NET_HOST_ONLY) :
    NETend_fuel cfg env (g + 1) t (.net NET_HOST_ONLY) m
      = NETend_fuel cfg env (g' + 1) t (.net NET_HOST_ONLY) m := by
  have hh : (t.emit (.encode (.net NET_HOST_ONLY) m)).isHost = false := h1
  have hp : NET_HOST_ONLY = (t.emit (.encode (.net NET_HOST_ONLY) m)).hostPlayer := h2.symm
  show (NETsend_body cfg env (NETend_fuel cfg env g)
      (t.emit (.encode (.net NET_HOST_ONLY) m)) NET_HOST_ONLY m).2
    = (NETsend_body cfg env (NETend_fuel cfg env g')
      (t.emit (.encode (.net NET_HOST_ONLY) m)) NET_HOST_ONLY m).2
  unfold NETsend_body
  simp only [hh, Bool.false_eq_true, if_false, if_pos hp]

/-- On a client whose host is the player `NET_HOST_ONLY`, fuel for two nested
calls is fuel enough. -/
theorem NETend_fuel_client (cfg : NetConstants) (env : SocketEnv) (g : Nat) (s : NetState)
    (q : NETQUEUE) (m : NetMessage) (h1 : s.isHost = false)
    (h2 : s.hostPlayer = NET_HOST_ONLY) :
    NETend_fuel cfg env (g + 3) s q m = NETend_fuel cfg env (g + 2) s q m := by
  have hb : ∀ (player : Nat) (x : NetState), x.isHost = false →
      x.hostPlayer = NET_HOST_ONLY →
      NETsend_body cfg env (NETend_fuel cfg env (g + 2)) x player m
        = NETsend_body cfg env (NETend_fuel cfg env (g + 1)) x player m := by
    intro player x hx1 hx2
    unfold NETsend_body
    simp only [hx1, Bool.false_eq_true, if_false]
    rw [NETend_fuel_client_host cfg env (g + 1) g x _ hx1 hx2]
  cases q with
  | net index =>
    show (NETsend_body cfg env (NETend_fuel cfg env (g + 2))
        (s.emit (.encode (.net index) m)) index m).2
      = (NETsend_body cfg env (NETend_fuel cfg env (g + 1))
        (s.emit (.encode (.net index) m)) index m).2
    exact congrArg Prod.snd (hb index (s.emit (.encode (.net index) m)) h1 h2)
  | broadcast =>
    show (NETsend_body cfg env (NETend_fuel cfg env (g + 2))
        (s.emit (.encode .broadcast m)) cfg.NET_ALL_PLAYERS m).2
      = (NETsend_body cfg env (NETend_fuel cfg env (g + 1))
        (s.emit (.encode .broadcast m)) cfg.NET_ALL_PLAYERS m).2
    exact congrArg Prod.snd
      (hb cfg.NET_ALL_PLAYERS (s.emit (.encode .broadcast m)) h1 h2)
  | tmp i => rfl

/-- The fuel of `NETend` is enough. On a host whose array `connected_bsocket`
has no more than `MAX_CONNECTED_PLAYERS` entries, and on a client whose host is
the player `NET_HOST_ONLY`, the value `NetPlay.hostPlayer` is always given, any
larger fuel gives the result of `NETend`. -/
theorem NETend_fuel_enough (cfg : NetConstants) (env : SocketEnv) (s : NetState)
    (q : NETQUEUE) (m : NetMessage)
    (h : (s.isHost = true ∧ s.connected_bsocket.length ≤ cfg.MAX_CONNECTED_PLAYERS) ∨
      (s.isHost = false ∧ s.hostPlayer = NET_HOST_ONLY)) :
    ∀ n, cfg.MAX_CONNECTED_PLAYERS + 2 ≤ n →
      NETend_fuel cfg env n s q m = NETend cfg env s q m := by
  intro n hn
  induction n, hn using Nat.le_induction with
  | base => rfl
  | succ n hn ih =>
    rw [← ih]
    rcases h with ⟨h1, h2⟩ | ⟨h1, h2⟩
    · have hl : liveSockets s ≤ s.connected_bsocket.length := List.countP_le_length _
      exact NETend_fuel_host cfg env n s q m h1 (by omega)
    · obtain ⟨g, rfl⟩ : ∃ g, n = g + 2 := ⟨n - 2, by omega⟩
      exact NETend_fuel_client cfg env g s q m h1 h2

/-! ## Player-info messages -/

theorem setPlayer_player (s : NetState) (i j : Nat) (p : PLAYER) :
    (s.setPlayer i p).player j = s.player j ∨ (j = i ∧ (s.setPlayer i p).player j = p) := by
  by_cases h : i = j ∧ i < s.players.length
  · obtain ⟨h1, h2⟩ := h
    subst h1
    exact Or.inr ⟨rfl, player_setPlayer_same s i p h2⟩
  · left
    unfold NetState.player NetState.setPlayer
    dsimp only
    rw [list_getD_set, if_neg h]

theorem balanceKept_refl (cfg : NetConstants) (s : NetState) : BalanceKept cfg s s :=
  ⟨rfl, fun _ => ⟨rfl, rfl, rfl, Or.inl ⟨rfl, rfl⟩⟩⟩

theorem balanceKept_trans (cfg : NetConstants) (a b c : NetState) (h : BalanceKept cfg a b)
    (h' : BalanceKept cfg b c) : BalanceKept cfg a c := by
  refine ⟨h'.1.trans h.1, fun j => ?_⟩
  obtain ⟨a1, a2, a3, a4⟩ := h.2 j
  obtain ⟨b1, b2, b3, b4⟩ := h'.2 j
  refine ⟨b1.trans a1, b2.trans a2, b3.trans a3, ?_⟩
  rcases b4 with ⟨x, y⟩ | x
  · rcases a4 with ⟨u, v⟩ | u
    · exact Or.inl ⟨x.trans u, y.trans v⟩
    · exact Or.inr ⟨x.trans u.1, y.trans u.2⟩
  · exact Or.inr x

/-- A state with the same player table and skirmish difficulties. -/
theorem balanceKept_of_players (cfg : NetConstants) (s s' : NetState)
    (h : s'.players = s.players) (h' : s'.skDiff = s.skDiff) : BalanceKept cfg s s' := by
  refine ⟨h', fun j => ?_⟩
  have : s'.player j = s.player j := by unfold NetState.player; rw [h]
  rw [this]
  exact ⟨rfl, rfl, rfl, Or.inl ⟨rfl, rfl⟩⟩

theorem balanceKept_sendSteps (cfg : NetConstants) : SendSteps cfg (BalanceKept cfg) where
  refl := balanceKept_refl cfg
  trans := balanceKept_trans cfg
  write := fun t _ _ => balanceKept_of_players cfg t _ rfl rfl
  drop := fun t _ _ => balanceKept_of_players cfg t _ rfl rfl
  relay := fun t _ _ _ _ => balanceKept_of_players cfg t _ rfl rfl
  leave := by
    intro t i _ hc
    refine ⟨?_, fun j => ?_⟩
    · have h := congrArg (fun x : NetState => x.skDiff) (NETplayerLeaving_rest cfg t i)
      exact h
    · rcases NETplayerLeaving_player cfg t i j with h | ⟨hj, h⟩
      · rw [h]; exact ⟨rfl, rfl, rfl, Or.inl ⟨rfl, rfl⟩⟩
      · rw [h, hj, hc]
        exact ⟨rfl, rfl, rfl, Or.inr ⟨rfl, rfl⟩⟩
  lost := by
    intro t sock _ _
    refine ⟨rfl, fun j => ?_⟩
    rcases NETsend_hostLost_player t sock j with h | h <;> rw [h] <;>
      exact ⟨rfl, rfl, rfl, Or.inl ⟨rfl, rfl⟩⟩

theorem balanceKept_nameSteps (cfg : NetConstants) : NameSteps (BalanceKept cfg) where
  info := fun t _ _ _ => balanceKept_of_players cfg t _ rfl rfl
  lobby := fun t _ _ => balanceKept_of_players cfg t _ rfl rfl
  rename := by
    intro t i n
    refine ⟨rfl, fun j => ?_⟩
    rcases setPlayer_player t i j { t.player i with name := n } with h | ⟨hj, h⟩
    · rw [h]; exact ⟨rfl, rfl, rfl, Or.inl ⟨rfl, rfl⟩⟩
    · rw [h, hj]; exact ⟨rfl, rfl, rfl, Or.inl ⟨rfl, rfl⟩⟩

theorem namesOnly_balance {s s' : NetState} (h : NamesOnly s s') :
    s'.players.map PLAYER.balance = s.players.map PLAYER.balance ∧ s'.skDiff = s.skDiff ∧
      s'.hostPlayer = s.hostPlayer ∧ s'.isHost = s.isHost := by
  have hc : PLAYER.balance ∘ PLAYER.withoutName = PLAYER.balance := by
    funext p; rfl
  have h1 := congrArg (List.map PLAYER.balance) h.1
  rw [List.map_map, List.map_map, hc] at h1
  have h2 := congrArg NetState.skDiff h.2.1
  have h3 := congrArg NetState.hostPlayer h.2.1
  have h4 := congrArg NetState.isHost h.2.1
  exact ⟨h1, h2, h3, h4⟩

theorem playerInfoApply_nonhost (cfg : NetConstants) (s : NetState) (q : Nat)
    (e : PlayerInfoEntry) (h : q ≠ s.hostPlayer) :
    (playerInfoApply cfg s q e).players.map PLAYER.balance = s.players.map PLAYER.balance ∧
    (playerInfoApply cfg s q e).skDiff = s.skDiff ∧
    (playerInfoApply cfg s q e).hostPlayer = s.hostPlayer ∧
    (playerInfoApply cfg s q e).out = s.out := by
  unfold playerInfoApply
  simp only [if_neg h]
  exact ⟨map_set_same PLAYER.balance s.players _ _ default rfl, rfl, rfl, rfl⟩

theorem playerInfoApply_isHost (cfg : NetConstants) (s : NetState) (q : Nat)
    (e : PlayerInfoEntry) : (playerInfoApply cfg s q e).isHost = s.isHost := by
  unfold playerInfoApply
  simp only
  split <;> rfl

theorem playerInfoLoop_isHost (cfg : NetConstants) (q : Nat) :
    ∀ (es : List PlayerInfoEntry) (s : NetState) (index : Nat),
      (playerInfoLoop cfg q es s index).1.isHost = s.isHost := by
  intro es
  induction es with
  | nil => intro s index; rfl
  | cons e es ih =>
    intro s index
    unfold playerInfoLoop
    split
    · rfl
    · rw [ih, playerInfoApply_isHost]

theorem playerInfoLoop_nonhost (cfg : NetConstants) (q : Nat) :
    ∀ (es : List PlayerInfoEntry) (s : NetState) (index : Nat), q ≠ s.hostPlayer →
      (playerInfoLoop cfg q es s index).1.players.map PLAYER.balance
        = s.players.map PLAYER.balance ∧
      (playerInfoLoop cfg q es s index).1.skDiff = s.skDiff := by
  intro es
  induction es with
  | nil => intro s index _; exact ⟨rfl, rfl⟩
  | cons e es ih =>
    intro s index h
    unfold playerInfoLoop
    split
    · exact ⟨rfl, rfl⟩
    · obtain ⟨h1, h2, h3, _⟩ := playerInfoApply_nonhost cfg s q e h
      obtain ⟨h4, h5⟩ := ih (playerInfoApply cfg s q e) e.index (by rw [h3]; exact h)
      exact ⟨h4.trans h1, h5.trans h2⟩

/-- A state whose slots have the balance fields of `s`. -/
theorem balanceKept_of_map (cfg : NetConstants) (s s' : NetState)
    (h : s'.players.map PLAYER.balance = s.players.map PLAYER.balance)
    (h' : s'.skDiff = s.skDiff) : BalanceKept cfg s s' := by
  refine ⟨h', fun j => ?_⟩
  have hb := getD_of_map_eq PLAYER.balance s.players s'.players j default h
  simp only [PLAYER.balance, Prod.mk.injEq] at hb
  exact ⟨hb.1, hb.2.1, hb.2.2.1, Or.inl hb.2.2.2⟩

/-- The re-broadcast of a host and the name fixer that follows it. -/
theorem rebroadcast_balanceKept (cfg : NetConstants) (env : SocketEnv) (s : NetState)
    (index : Nat) :
    BalanceKept cfg s
      (NETfixDuplicatePlayerNames cfg env (NETBroadcastPlayerInfo cfg env s index)) :=
  balanceKept_trans cfg _ _ _
    (NETBroadcastPlayerInfo_frame cfg env (sendFrame_of_steps cfg env (balanceKept_sendSteps cfg))
      (balanceKept_nameSteps cfg).info s index)
    (NETfixDuplicatePlayerNames_frame cfg env
      (sendFrame_of_steps cfg env (balanceKept_sendSteps cfg)) (balanceKept_nameSteps cfg) _)

theorem rebroadcast_namesOnly (cfg : NetConstants) (env : SocketEnv) (hrel : env.reliable)
    (s : NetState) (index : Nat) :
    NamesOnly s
      (NETfixDuplicatePlayerNames cfg env (NETBroadcastPlayerInfo cfg env s index)) :=
  namesOnly_trans _ _ _
    (NETBroadcastPlayerInfo_frame cfg env (namesOnly_frame cfg env hrel)
      namesOnly_nameSteps.info s index)
    (NETfixDuplicatePlayerNames_frame cfg env (namesOnly_frame cfg env hrel)
      namesOnly_nameSteps _)

theorem NETprocessSystemMessage_PLAYER_INFO_nonhost (cfg : NetConstants) (env : SocketEnv)
    (s : NetState) (q indexLen : Nat) (entries : List PlayerInfoEntry)
    (hq : q ≠ s.hostPlayer) :
    BalanceKept cfg s (NETprocessSystemMessage_PLAYER_INFO cfg env s q indexLen entries) ∧
    ((s.isHost = false ∨ env.reliable) →
      (NETprocessSystemMessage_PLAYER_INFO cfg env s q indexLen entries).players.map
          PLAYER.balance = s.players.map PLAYER.balance) := by
  unfold NETprocessSystemMessage_PLAYER_INFO
  split
  · exact ⟨balanceKept_refl cfg s, fun _ => rfl⟩
  · obtain ⟨h1, h2⟩ :=
      playerInfoLoop_nonhost cfg q (readEntries indexLen entries) s cfg.MAX_PLAYERS hq
    have hh := playerInfoLoop_isHost cfg q (readEntries indexLen entries) s cfg.MAX_PLAYERS
    have hb := balanceKept_of_map cfg s _ h1 h2
    simp only
    split
    · rename_i hcond
      refine ⟨balanceKept_trans cfg _ _ _ hb ⟨(rebroadcast_balanceKept cfg env _ _).1,
        (rebroadcast_balanceKept cfg env _ _).2⟩, fun hw => ?_⟩
      rcases hw with hw | hw
      · rw [hh, hw] at hcond
        simp at hcond
      · exact (namesOnly_balance (rebroadcast_namesOnly cfg env hw _ _)).1.trans h1
    · exact ⟨hb, fun _ => h1⟩

/-- C8, counterexample. On the host of `peersHost` the slot of player 2 has the
difficulty 3. Player 1 sends a `NET_PLAYER_INFO` on its own queue; the host
re-broadcasts the info, the write to the socket of player 2 fails, and the slot
of player 2 is freed and initialised again: its difficulty is 1 afterwards. -/
theorem NET_PLAYER_INFO_write_error_resets_difficulty :
    1 ≠ peersHost.hostPlayer ∧ (peersHost.player 2).difficulty = 3 ∧
    ((NETprocessSystemMessage wzConstants (failingEnv 11) peersHost 1
        [.NET_PLAYER_INFO 1 [tamperEntry]]).2.2.player 2).difficulty = 1 := by
  decide

/-- C8, amended. A `NET_PLAYER_INFO` message received on a queue whose index is
not `NetPlay.hostPlayer` leaves the colour, position and team of every player
slot, and the whole of `game.skDiff`, as they were, whatever the message
carries. The ai and the difficulty of a slot are left as well, or they are
those of a freed slot, `AI_OPEN` and 1; and they are left in every slot when
the receiver is not the host or when no write of the re-broadcast fails. -/
theorem NET_PLAYER_INFO_nonhost_keeps_balance (cfg : NetConstants) (env : SocketEnv)
    (s : NetState) (q indexLen : Nat) (entries : List PlayerInfoEntry)
    (rest : List NetMessage) (hq : q ≠ s.hostPlayer) (i : Nat) :
    (((NETprocessSystemMessage cfg env s q (.NET_PLAYER_INFO indexLen entries :: rest)).2.2.player
        i).colour = (s.player i).colour ∧
     ((NETprocessSystemMessage cfg env s q (.NET_PLAYER_INFO indexLen entries :: rest)).2.2.player
        i).position = (s.player i).position ∧
     ((NETprocessSystemMessage cfg env s q (.NET_PLAYER_INFO indexLen entries :: rest)).2.2.player
        i).team = (s.player i).team) ∧
    (NETprocessSystemMessage cfg env s q (.NET_PLAYER_INFO indexLen entries :: rest)).2.2.skDiff
      = s.skDiff ∧
    ((((NETprocessSystemMessage cfg env s q
          (.NET_PLAYER_INFO indexLen entries :: rest)).2.2.player i).ai = (s.player i).ai ∧
      ((NETprocessSystemMessage cfg env s q
          (.NET_PLAYER_INFO indexLen entries :: rest)).2.2.player i).difficulty
        = (s.player i).difficulty) ∨
     (((NETprocessSystemMessage cfg env s q
          (.NET_PLAYER_INFO indexLen entries :: rest)).2.2.player i).ai = cfg.AI_OPEN ∧
      ((NETprocessSystemMessage cfg env s q
          (.NET_PLAYER_INFO indexLen entries :: rest)).2.2.player i).difficulty = 1)) ∧
    ((s.isHost = false ∨ env.reliable) →
      ((NETprocessSystemMessage cfg env s q
          (.NET_PLAYER_INFO indexLen entries :: rest)).2.2.player i).ai = (s.player i).ai ∧
      ((NETprocessSystemMessage cfg env s q
          (.NET_PLAYER_INFO indexLen entries :: rest)).2.2.player i).difficulty
        = (s.player i).difficulty) := by
  obtain ⟨⟨h1, h2⟩, h3⟩ :=
    NETprocessSystemMessage_PLAYER_INFO_nonhost cfg env s q indexLen entries hq
  obtain ⟨a1, a2, a3, a4⟩ := h2 i
  refine ⟨⟨a1, a2, a3⟩, h1, a4, fun hw => ?_⟩
  have hb := getD_of_map_eq PLAYER.balance s.players _ i default (h3 hw)
  simp only [PLAYER.balance, Prod.mk.injEq] at hb
  exact hb.2.2.2

/-- C8, amended, on the host of `busyHost`: player 1 asks on its own queue for
another colour, position, team, AI marker and difficulty. -/
theorem NET_PLAYER_INFO_nonhost_keeps_balance_witness :
    1 ≠ busyHost.hostPlayer ∧
    ((NETprocessSystemMessage wzConstants quietEnv busyHost 1
        [.NET_PLAYER_INFO 1 [tamperEntry]]).2.2.player 1).colour = (busyHost.player 1).colour :=
  ⟨by decide,
    (NET_PLAYER_INFO_nonhost_keeps_balance wzConstants quietEnv busyHost 1 1 [tamperEntry] []
      (by decide) 1).1.1⟩

/-- C10. A `NET_PLAYER_INFO` message that declares more than one update on a
queue other than the host's (`NET_HOST_ONLY`, the value `NetPlay.hostPlayer` is
given), or more than `MAX_PLAYERS` updates on any queue, is popped and
`NETprocessSystemMessage` returns true, while the whole state stays as it was: no
slot is modified and nothing is sent. -/
theorem NET_PLAYER_INFO_bad_count (cfg : NetConstants) (env : SocketEnv) (s : NetState)
    (q indexLen : Nat) (entries : List PlayerInfoEntry) (rest : List NetMessage)
    (h : (q ≠ NET_HOST_ONLY ∧ 1 < indexLen) ∨ cfg.MAX_PLAYERS < indexLen) :
    NETprocessSystemMessage cfg env s q (.NET_PLAYER_INFO indexLen entries :: rest)
      = (true, rest, s) := by
  have hg : indexLen > cfg.MAX_PLAYERS ∨ (q ≠ NET_HOST_ONLY ∧ indexLen > 1) := by
    rcases h with h | h
    · exact Or.inr h
    · exact Or.inl h
  show (true, rest, NETprocessSystemMessage_PLAYER_INFO cfg env s q indexLen entries) = _
  unfold NETprocessSystemMessage_PLAYER_INFO
  rw [if_pos hg]

/-- C10 on the host of `busyHost`: player 1 sends two updates in one message. -/
theorem NET_PLAYER_INFO_bad_count_witness :
    ((1 ≠ NET_HOST_ONLY ∧ 1 < 2) ∨ wzConstants.MAX_PLAYERS < 2) ∧
    NETprocessSystemMessage wzConstants quietEnv busyHost 1
        [.NET_PLAYER_INFO 2 [tamperEntry, tamperEntry], .NET_PLAYER_JOINED 1]
      = (true, [.NET_PLAYER_JOINED 1], busyHost) :=
  ⟨by decide,
    NET_PLAYER_INFO_bad_count wzConstants quietEnv busyHost 1 2 [tamperEntry, tamperEntry]
      [.NET_PLAYER_JOINED 1] (by decide)⟩

theorem playerInfo_single (cfg : NetConstants) (env : SocketEnv) (b : NetState) (q : Nat)
    (e : PlayerInfoEntry) (hmp : 1 ≤ cfg.MAX_PLAYERS)
    (hbad : playerInfoBadIndex cfg b q e.index = false) :
    NETprocessSystemMessage_PLAYER_INFO cfg env b q 1 [e] =
      { (if b.isHost then
          NETfixDuplicatePlayerNames cfg env
            (NETBroadcastPlayerInfo cfg env (playerInfoApply cfg b q e) e.index)
         else playerInfoApply cfg b q e) with netPlayersUpdated := true } := by
  have hg : ¬ (1 > cfg.MAX_PLAYERS ∨ (q ≠ NET_HOST_ONLY ∧ 1 > 1)) := by omega
  have hr : readEntries 1 [e] = [e] := rfl
  have hh : (playerInfoApply cfg b q e).isHost = b.isHost := playerInfoApply_isHost cfg b q e
  unfold NETprocessSystemMessage_PLAYER_INFO
  rw [if_neg hg, hr]
  simp only [playerInfoLoop, hbad, Bool.false_eq_true, if_false, hh, Bool.not_false,
    Bool.and_true]

theorem playerInfo_single_bad (cfg : NetConstants) (env : SocketEnv) (b : NetState) (q : Nat)
    (e : PlayerInfoEntry) (hmp : 1 ≤ cfg.MAX_PLAYERS)
    (hbad : playerInfoBadIndex cfg b q e.index = true) :
    NETprocessSystemMessage_PLAYER_INFO cfg env b q 1 [e]
      = { b with netPlayersUpdated := true } := by
  have hg : ¬ (1 > cfg.MAX_PLAYERS ∨ (q ≠ NET_HOST_ONLY ∧ 1 > 1)) := by omega
  have hr : readEntries 1 [e] = [e] := rfl
  unfold NETprocessSystemMessage_PLAYER_INFO
  rw [if_neg hg, hr]
  simp [playerInfoLoop, hbad]

theorem sstrcpy_of_length_lt (size : Nat) (str : CString) (h : str.length < size) :
    sstrcpy size str = str := by
  unfold sstrcpy
  exact List.take_of_length_le (by omega)

theorem sstrcpy_idem (size : Nat) (str : CString) :
    sstrcpy size (sstrcpy size str) = sstrcpy size str := by
  unfold sstrcpy
  simp [List.take_take]

/-- The state after a single applied entry, as far as the claims need it, when
the receiver is not the host or no write of its re-broadcast fails. -/
theorem playerInfo_single_fields (cfg : NetConstants) (env : SocketEnv) (b : NetState)
    (q : Nat) (e : PlayerInfoEntry) (hmp : 1 ≤ cfg.MAX_PLAYERS)
    (hbad : playerInfoBadIndex cfg b q e.index = false)
    (hw : b.isHost = false ∨ env.reliable) :
    ((NETprocessSystemMessage_PLAYER_INFO cfg env b q 1 [e]).player e.index).withoutName
      = ((playerInfoApply cfg b q e).player e.index).withoutName ∧
    (NETprocessSystemMessage_PLAYER_INFO cfg env b q 1 [e]).skDiff
      = (playerInfoApply cfg b q e).skDiff ∧
    (b.isHost = false →
      (NETprocessSystemMessage_PLAYER_INFO cfg env b q 1 [e]).players
        = (playerInfoApply cfg b q e).players) := by
  rw [playerInfo_single cfg env b q e hmp hbad]
  cases hh : b.isHost
  · exact ⟨rfl, rfl, fun _ => rfl⟩
  · have hrel : env.reliable := by
      rcases hw with h | h
      · rw [hh] at h; cases h
      · exact h
    have hn := rebroadcast_namesOnly cfg env hrel (playerInfoApply cfg b q e) e.index
    refine ⟨namesOnly_player hn e.index, (namesOnly_balance hn).2.1, fun h => by cases h⟩

theorem playerInfoApply_host_slot (cfg : NetConstants) (b : NetState) (q : Nat)
    (e : PlayerInfoEntry) (hq : q = b.hostPlayer) (hK : e.index < b.players.length)
    (hsk : e.index < b.skDiff.length) :
    ((playerInfoApply cfg b q e).player e.index).status
      = (e.allocated, e.heartbeat, e.kick, e.heartattacktime, e.ready) ∧
    ((playerInfoApply cfg b q e).player e.index).balance
      = (e.colour, e.position, e.team, e.ai, e.difficulty) ∧
    ((playerInfoApply cfg b q e).player e.index).name = sstrcpy cfg.StringSize e.name ∧
    (playerInfoApply cfg b q e).skDiff.getD e.index 0 = e.skDiff := by
  unfold playerInfoApply
  simp only [if_pos hq]
  have hp : ∀ (p : PLAYER) (l : List Nat),
      ({ b.setPlayer e.index p with skDiff := l } : NetState).player e.index = p := by
    intro p l
    exact player_setPlayer_same b e.index p hK
  rw [hp]
  refine ⟨rfl, rfl, rfl, ?_⟩
  simp [List.getD_eq_getElem?_getD, hsk]

theorem playerInfoApply_nonhost_slot (cfg : NetConstants) (b : NetState) (q : Nat)
    (e : PlayerInfoEntry) (hq : q ≠ b.hostPlayer) (hK : e.index < b.players.length) :
    ((playerInfoApply cfg b q e).player e.index).status
      = (e.allocated, e.heartbeat, e.kick, e.heartattacktime, e.ready) ∧
    ((playerInfoApply cfg b q e).player e.index).balance = (b.player e.index).balance ∧
    ((playerInfoApply cfg b q e).player e.index).name = sstrcpy cfg.StringSize e.name ∧
    (playerInfoApply cfg b q e).skDiff = b.skDiff := by
  unfold playerInfoApply
  simp only [if_neg hq]
  rw [player_setPlayer_same b e.index _ hK]
  exact ⟨rfl, rfl, rfl, rfl⟩

theorem status_withoutName (p p' : PLAYER) (h : p'.withoutName = p.withoutName) :
    p'.status = p.status ∧ p'.balance = p.balance := by
  have h1 := congrArg PLAYER.status h
  have h2 := congrArg PLAYER.balance h
  exact ⟨h1, h2⟩

theorem NETprocessSystemMessage_PLAYER_INFO_state (cfg : NetConstants) (env : SocketEnv)
    (b : NetState) (q n : Nat) (es : List PlayerInfoEntry) (rest : List NetMessage) :
    (NETprocessSystemMessage cfg env b q (.NET_PLAYER_INFO n es :: rest)).2.2
      = NETprocessSystemMessage_PLAYER_INFO cfg env b q n es := rfl

/-- The message that `NETSendNPlayerInfoTo` encodes for one slot. -/
theorem NETSendNPlayerInfoTo_message (cfg : NetConstants) (env : SocketEnv) (a : NetState)
    (K dest n : Nat) (es : List PlayerInfoEntry) (evs : List Event)
    (hm : (NETSendNPlayerInfoTo cfg env a [K] dest).out
      = a.out ++ Event.encode (.net dest) (.NET_PLAYER_INFO n es) :: evs) :
    n = 1 ∧ es = [playerInfoEntry cfg a K] := by
  obtain ⟨evs', h1, _, _⟩ := NETend_out cfg env a (.net dest)
    (.NET_PLAYER_INFO [K].length ([K].map (playerInfoEntry cfg a)))
  have h2 : (NETSendNPlayerInfoTo cfg env a [K] dest).out
      = a.out ++ Event.encode (.net dest)
          (.NET_PLAYER_INFO [K].length ([K].map (playerInfoEntry cfg a))) :: evs' := h1
  rw [h2] at hm
  have h3 := List.append_cancel_left hm
  simp only [List.length_singleton, List.map_cons, List.map_nil, List.cons.injEq,
    Event.encode.injEq, NetMessage.NET_PLAYER_INFO.injEq, true_and] at h3
  exact ⟨h3.1.1.symm, h3.1.2.symm⟩

/-- C9, counterexample. A client in slot 1 that has renamed itself `A` sends its
player info; the host, whose own name is `A`, receives it on queue 1 and ends
with the name `A_2` in slot 1, not with the sender's name. And when the host of
`timedOutHost` receives the info of slot 1 from the client of `clientState` and
fails to write its re-broadcast to the socket of player 1, it frees the slot:
slot 1 ends unallocated, while it is allocated on the sender. -/
theorem playerInfo_roundtrip_renames :
    messagesOf (NETSendNPlayerInfoTo wzConstants quietEnv renamedClient [1] NET_HOST_ONLY).out
      = [(.net NET_HOST_ONLY,
          .NET_PLAYER_INFO 1 [playerInfoEntry wzConstants renamedClient 1])] ∧
    1 ≠ busyHost.hostPlayer ∧
    (busyHost.player 1).allocated = true ∧
    (renamedClient.player 1).name = [65] ∧
    ((NETprocessSystemMessage wzConstants quietEnv busyHost 1
        [.NET_PLAYER_INFO 1 [playerInfoEntry wzConstants renamedClient 1]]).2.2.player 1).name
      = [65, 95, 50] ∧
    1 ≠ timedOutHost.hostPlayer ∧
    (timedOutHost.player 1).allocated = true ∧
    (clientState.player 1).allocated = true ∧
    ((NETprocessSystemMessage wzConstants (failingEnv 9) timedOutHost 1
        [.NET_PLAYER_INFO 1 [playerInfoEntry wzConstants clientState 1]]).2.2.player
      1).allocated = false := by
  decide

/-- C9, amended. Let a peer decode the `NET_PLAYER_INFO` message that
`NETSendNPlayerInfoTo` encodes for slot `K < MAX_CONNECTED_PLAYERS`, and let the
peer not be the host, or no write of the re-broadcast that a host makes fail.
Received on the host's queue, the message makes the peer's slot `K` equal to the
sender's in allocated, heartbeat, kick, heartattacktime, ready, colour,
position, team, ai, difficulty and skDiff, and in name when the receiver is not
itself the host. Received on another queue `q`, it is applied only when `q = K`
and the receiver's slot `K` is allocated: then allocated, heartbeat, kick,
heartattacktime and ready (and the name, when the receiver is not the host)
become the sender's, while colour, position, team, ai, difficulty and skDiff
keep the receiver's values; otherwise the message is dropped and neither the
player table nor skDiff nor the trace changes. -/
theorem playerInfo_roundtrip (cfg : NetConstants) (enva env : SocketEnv) (a b : NetState)
    (K q dest n : Nat) (es : List PlayerInfoEntry) (evs : List Event)
    (rest : List NetMessage)
    (hK : K < cfg.MAX_CONNECTED_PLAYERS)
    (hlen : b.players.length = cfg.MAX_CONNECTED_PLAYERS)
    (hsk : K < b.skDiff.length) (hmp : 1 ≤ cfg.MAX_PLAYERS)
    (hname : (a.player K).name.length < cfg.StringSize)
    (hm : (NETSendNPlayerInfoTo cfg enva a [K] dest).out
      = a.out ++ Event.encode (.net dest) (.NET_PLAYER_INFO n es) :: evs)
    (hw : b.isHost = false ∨ env.reliable) :
    (q = b.hostPlayer →
      ((NETprocessSystemMessage cfg env b q (.NET_PLAYER_INFO n es :: rest)).2.2.player K).status
        = (a.player K).status ∧
      ((NETprocessSystemMessage cfg env b q (.NET_PLAYER_INFO n es :: rest)).2.2.player
        K).balance = (a.player K).balance ∧
      (NETprocessSystemMessage cfg env b q (.NET_PLAYER_INFO n es :: rest)).2.2.skDiff.getD K 0
        = a.skDiff.getD K 0 ∧
      (b.isHost = false →
        ((NETprocessSystemMessage cfg env b q (.NET_PLAYER_INFO n es :: rest)).2.2.player
          K).name = (a.player K).name)) ∧
    (q ≠ b.hostPlayer → q = K → (b.player K).allocated = true →
      ((NETprocessSystemMessage cfg env b q (.NET_PLAYER_INFO n es :: rest)).2.2.player K).status
        = (a.player K).status ∧
      ((NETprocessSystemMessage cfg env b q (.NET_PLAYER_INFO n es :: rest)).2.2.player
        K).balance = (b.player K).balance ∧
      (NETprocessSystemMessage cfg env b q (.NET_PLAYER_INFO n es :: rest)).2.2.skDiff
        = b.skDiff ∧
      (b.isHost = false →
        ((NETprocessSystemMessage cfg env b q (.NET_PLAYER_INFO n es :: rest)).2.2.player
          K).name = (a.player K).name)) ∧
    (q ≠ b.hostPlayer → (q ≠ K ∨ (b.player K).allocated = false) →
      (NETprocessSystemMessage cfg env b q (.NET_PLAYER_INFO n es :: rest)).2.2.players
        = b.players ∧
      (NETprocessSystemMessage cfg env b q (.NET_PLAYER_INFO n es :: rest)).2.2.skDiff
        = b.skDiff ∧
      (NETprocessSystemMessage cfg env b q (.NET_PLAYER_INFO n es :: rest)).2.2.out
        = b.out) := by
  obtain ⟨hn, hes⟩ := NETSendNPlayerInfoTo_message cfg enva a K dest n es evs hm
  subst hn hes
  rw [NETprocessSystemMessage_PLAYER_INFO_state]
  have hKl : (playerInfoEntry cfg a K).index < b.players.length := by
    show K < b.players.length
    omega
  have hnm : sstrcpy cfg.StringSize (playerInfoEntry cfg a K).name = (a.player K).name := by
    show sstrcpy cfg.StringSize (sstrcpy cfg.StringSize (a.player K).name) = _
    rw [sstrcpy_idem, sstrcpy_of_length_lt _ _ hname]
  refine ⟨fun hq => ?_, fun hq hqK hal => ?_, fun hq hno => ?_⟩
  · have hbad : playerInfoBadIndex cfg b q (playerInfoEntry cfg a K).index = false := by
      show playerInfoBadIndex cfg b q K = false
      simp [playerInfoBadIndex, hq, hK]
    obtain ⟨h1, h2, h3⟩ := playerInfo_single_fields cfg env b q _ hmp hbad hw
    obtain ⟨g1, g2, g3, g4⟩ := playerInfoApply_host_slot cfg b q _ hq hKl hsk
    obtain ⟨f1, f2⟩ := status_withoutName _ _ h1
    refine ⟨f1.trans g1, f2.trans g2, ?_, fun hh => ?_⟩
    · rw [h2]; exact g4
    · unfold NetState.player at g3 ⊢
      rw [h3 hh]
      exact g3.trans hnm
  · have hbad : playerInfoBadIndex cfg b q (playerInfoEntry cfg a K).index = false := by
      show playerInfoBadIndex cfg b q K = false
      simp [playerInfoBadIndex, hqK, hK, hal]
    obtain ⟨h1, h2, h3⟩ := playerInfo_single_fields cfg env b q _ hmp hbad hw
    obtain ⟨g1, g2, g3, g4⟩ := playerInfoApply_nonhost_slot cfg b q _ hq hKl
    obtain ⟨f1, f2⟩ := status_withoutName _ _ h1
    refine ⟨f1.trans g1, f2.trans g2, h2.trans g4, fun hh => ?_⟩
    unfold NetState.player at g3 ⊢
    rw [h3 hh]
    exact g3.trans hnm
  · have hbad : playerInfoBadIndex cfg b q (playerInfoEntry cfg a K).index = true := by
      show playerInfoBadIndex cfg b q K = true
      rcases hno with hno | hno
      · simp [playerInfoBadIndex, hq, hno]
      · simp [playerInfoBadIndex, hq, hno]
    rw [playerInfo_single_bad cfg env b q _ hmp hbad]
    exact ⟨rfl, rfl, rfl⟩

/-- C9, amended, for the info of slot 1 that the host of `busyHost` sends and the
client of `clientState` receives on the host's queue. -/
theorem playerInfo_roundtrip_witness :
    1 < wzConstants.MAX_CONNECTED_PLAYERS ∧
    clientState.players.length = wzConstants.MAX_CONNECTED_PLAYERS ∧
    1 < clientState.skDiff.length ∧ 1 ≤ wzConstants.MAX_PLAYERS ∧
    (busyHost.player 1).name.length < wzConstants.StringSize ∧
    (NETSendNPlayerInfoTo wzConstants quietEnv busyHost [1] 255).out
      = busyHost.out ++ Event.encode (.net 255)
          (.NET_PLAYER_INFO 1 [playerInfoEntry wzConstants busyHost 1]) :: [] ∧
    (clientState.isHost = false ∨ quietEnv.reliable) ∧
    ((NETprocessSystemMessage wzConstants quietEnv clientState 0
        [.NET_PLAYER_INFO 1 [playerInfoEntry wzConstants busyHost 1]]).2.2.player 1).status
      = (busyHost.player 1).status :=
  ⟨by decide, by decide, by decide, by decide, by decide, by decide, Or.inl (by decide),
    ((playerInfo_roundtrip wzConstants quietEnv quietEnv busyHost clientState 1 0 255 1
      [playerInfoEntry wzConstants busyHost 1] [] [] (by decide) (by decide) (by decide)
      (by decide) (by decide) (by decide) (Or.inl (by decide))).1 (by decide)).1⟩

/-! ## The version handshake -/

theorem NETisCorrectVersion_iff (major minor : Nat) :
    NETisCorrectVersion major minor = true ↔ major = 5 ∧ minor = 1 := by
  have h1 : u32 NETCODE_VERSION_MAJOR = 5 := by decide
  have h2 : u32 NETCODE_VERSION_MINOR = 1 := by decide
  unfold NETisCorrectVersion
  rw [h1, h2]
  simp only [Bool.and_eq_true, beq_iff_eq]
  constructor
  · rintro ⟨h, h'⟩; exact ⟨h.symm, h'.symm⟩
  · rintro ⟨h, h'⟩; exact ⟨h.symm, h'.symm⟩

theorem versionToken_decode (major minor : Nat) (hmaj : major < 4294967296)
    (hmin : minor < 4294967296) :
    ((versionToken major minor).take 5).take 5 ++ ((versionToken major minor).drop 5).take 3
      = versionToken major minor ∧
    ntohl (versionToken major minor) = major ∧
    ntohl ((versionToken major minor).drop 4) = minor := by
  refine ⟨by simp [versionToken, htonl], ?_, ?_⟩
  · simp only [versionToken, htonl, ntohl, List.cons_append, List.nil_append,
      List.getD_cons_zero, List.getD_cons_succ]
    omega
  · simp only [versionToken, htonl, ntohl, List.cons_append, List.nil_append,
      List.drop_succ_cons, List.drop_zero, List.getD_cons_zero, List.getD_cons_succ]
    omega

theorem versionToken_list (major minor : Nat) (hmaj : major < 4294967296)
    (hmin : minor < 4294967296) :
    ((versionToken major minor).take 5).take 5 = listCommand ↔
      major = 1818850164 ∧ minor < 16777216 := by
  simp only [versionToken, htonl, listCommand, List.cons_append, List.nil_append,
    List.take_succ_cons, List.take_zero, List.cons.injEq, and_true]
  omega

theorem tmp_socket_restore (l : List (Option Nat)) (i : Nat) (x : Option Nat)
    (h : l.getD i none = none) : (l.set i x).set i none = l := by
  rw [List.set_set, ← h, list_set_getD_self]

/-- The handshake with a client whose token is not accepted, in closed form. -/
theorem NETallowJoining_handshake_refused (s : NetState) (i sock major minor : Nat)
    (hmaj : major < 4294967296) (hmin : minor < 4294967296)
    (hi : s.tmp_socket.getD i none = none) (hne : ¬ (major = 5 ∧ minor = 1)) :
    NETallowJoining_handshake s i (clientHandshakeEnv sock major minor) =
      { s with out := s.out ++
          (if major = 1818850164 ∧ minor < 16777216 then []
           else [.writeAll sock .ERROR_WRONGVERSION]) ++ [.socketClose sock] } := by
  obtain ⟨hbuf, hM, hm⟩ := versionToken_decode major minor hmaj hmin
  have hlist := versionToken_list major minor hmaj hmin
  have hver : NETisCorrectVersion major minor = false := by
    cases hv : NETisCorrectVersion major minor
    · rfl
    · exact absurd ((NETisCorrectVersion_iff major minor).mp hv) hne
  unfold NETallowJoining_handshake
  rw [if_pos hi]
  simp only [clientHandshakeEnv]
  by_cases hl : major = 1818850164 ∧ minor < 16777216
  · have hl' := hlist.mpr hl
    simp only [NETallowJoining_version, hl', if_true, if_pos hl, List.append_nil,
      NetState.emit]
    rw [tmp_socket_restore _ _ _ hi]
  · have hl' : ¬ ((versionToken major minor).take 5).take 5 = listCommand :=
      fun h => hl (hlist.mp h)
    simp only [NETallowJoining_version, hl', if_true, if_false, if_neg hl, hbuf, hM, hm, hver,
      NetState.emit, Bool.false_eq_true]
    rw [tmp_socket_restore _ _ _ hi]

/-- C2, counterexample. A client whose version pair is `(0x6C697374, 0)` sends a
token that starts with the bytes of `"list"`: the version is not the correct
one, yet the host closes the socket without replying `ERROR_WRONGVERSION`. -/
theorem NETallowJoining_list_token_no_reply :
    NETisCorrectVersion 1818850164 0 = false ∧
    (versionToken 1818850164 0).take 5 = [108, 105, 115, 116, 0] ∧
    (NETallowJoining_handshake hostState 1 (clientHandshakeEnv 9 1818850164 0)).out
      = [.socketClose 9] := by
  decide

/-- C2, amended. `NETisCorrectVersion(major, minor)` is true exactly for `(5, 1)`.
For every other pair sent by a connecting client, the handshake of
`NETallowJoining` closes the socket and clears `tmp_socket[i]` again, and leaves
the player table, `playercount` and all the rest of the state as they were; it
replies `ERROR_WRONGVERSION` before closing unless the token starts with the
five bytes of the string `"list"` (major `0x6C697374`, minor below `2^24`), in
which case it closes without a reply. -/
theorem NETallowJoining_wrong_version (s : NetState) (i sock major minor : Nat)
    (hmaj : major < 4294967296) (hmin : minor < 4294967296)
    (hi : s.tmp_socket.getD i none = none) (hne : ¬ (major = 5 ∧ minor = 1)) :
    (∀ M m : Nat, NETisCorrectVersion M m = true ↔ M = 5 ∧ m = 1) ∧
    (NETallowJoining_handshake s i (clientHandshakeEnv sock major minor)).players = s.players ∧
    (NETallowJoining_handshake s i (clientHandshakeEnv sock major minor)).playercount
      = s.playercount ∧
    (NETallowJoining_handshake s i (clientHandshakeEnv sock major minor)).tmp_socket
      = s.tmp_socket ∧
    (NETallowJoining_handshake s i (clientHandshakeEnv sock major minor)).out
      = s.out ++
          (if major = 1818850164 ∧ minor < 16777216 then []
           else [.writeAll sock .ERROR_WRONGVERSION]) ++ [.socketClose sock] ∧
    NETallowJoining_handshake s i (clientHandshakeEnv sock major minor)
      = { s with out :=
            (NETallowJoining_handshake s i (clientHandshakeEnv sock major minor)).out } := by
  refine ⟨NETisCorrectVersion_iff, ?_⟩
  rw [NETallowJoining_handshake_refused s i sock major minor hmaj hmin hi hne]
  exact ⟨rfl, rfl, rfl, rfl, rfl⟩

/-- C2, amended, for a client of version `(5, 0)` that connects to the host of
`hostState`: the reply is `ERROR_WRONGVERSION`, then the socket is closed. -/
theorem NETallowJoining_wrong_version_witness :
    (5 : Nat) < 4294967296 ∧ (0 : Nat) < 4294967296 ∧
    hostState.tmp_socket.getD 1 none = none ∧ ¬ ((5 : Nat) = 5 ∧ (0 : Nat) = 1) ∧
    (NETallowJoining_handshake hostState 1 (clientHandshakeEnv 9 5 0)).out
      = hostState.out ++
          (if (5 : Nat) = 1818850164 ∧ (0 : Nat) < 16777216 then []
           else [.writeAll 9 .ERROR_WRONGVERSION]) ++ [.socketClose 9] :=
  ⟨by decide, by decide, by decide, by decide,
    (NETallowJoining_wrong_version hostState 1 9 5 0 (by decide) (by decide) (by decide)
      (by decide)).2.2.2.2.1⟩

/-! ## Join requests -/

theorem noVerdict_refl (s : NetState) : NoVerdict s s := ⟨[], by simp, rfl, rfl⟩

theorem noVerdict_trans (s s' s'' : NetState) (h : NoVerdict s s') (h' : NoVerdict s' s'') :
    NoVerdict s s'' := by
  obtain ⟨evs, h3, h4, h5⟩ := h
  obtain ⟨evs', h3', h4', h5'⟩ := h'
  refine ⟨evs ++ evs', ?_, ?_, ?_⟩
  · rw [h3', h3, List.append_assoc]
  · rw [rejections_append, h4, h4']; rfl
  · rw [acceptances_append, h5, h5']; rfl

theorem noVerdict_emit (s : NetState) (e : Event) (hr : rejections [e] = [])
    (ha : acceptances [e] = []) : NoVerdict s (s.emit e) := ⟨[e], rfl, hr, ha⟩

theorem noVerdict_of_out (s s' : NetState) (h : s'.out = s.out) : NoVerdict s s' :=
  ⟨[], by simp [h], rfl, rfl⟩

theorem noVerdict_of_outQuiet {s s' : NetState} (h : OutQuiet s s') : NoVerdict s s' := by
  obtain ⟨evs, h1, h2, h3⟩ := h
  exact ⟨evs, h1, h3, acceptances_of_joinNotices evs h2⟩

theorem noVerdict_frame (cfg : NetConstants) (env : SocketEnv) :
    SendFrame cfg env NoVerdict :=
  ⟨noVerdict_refl, noVerdict_trans,
    fun t q m => noVerdict_of_outQuiet ((outQuiet_frame cfg env).send t q m)⟩

theorem noVerdict_nameSteps : NameSteps NoVerdict where
  info := fun t _ _ _ => noVerdict_emit t _ rfl rfl
  lobby := fun t _ _ => noVerdict_emit t _ rfl rfl
  rename := fun t _ _ => noVerdict_of_out t _ rfl

theorem NETallowJoining_narrowcast_frame (cfg : NetConstants) (net : SocketEnv)
    {R : NetState → NetState → Prop} (h : SendFrame cfg net R)
    (hj : ∀ t q j, R t (t.emit (.encode q (.NET_PLAYER_JOINED j)))) (index : Nat) :
    ∀ (js : List Nat) (s : NetState),
      R s (NETallowJoining_narrowcast cfg net index js s) := by
  intro js
  induction js with
  | nil => intro s; exact h.refl s
  | cons j js ih =>
    intro s
    unfold NETallowJoining_narrowcast
    refine h.trans _ _ _ ?_ (ih _)
    split
    · exact h.trans _ _ _ (hj s _ _) (h.send s _ _)
    · exact h.refl s

/-- The welcome of a newcomer: what follows the encoding of `NET_ACCEPTED`, up to
the call of `NETfixDuplicatePlayerNames`. -/
theorem NETallowJoining_welcome_frame (cfg : NetConstants) (net : SocketEnv)
    {R : NetState → NetState → Prop} (h : SendFrame cfg net R)
    (hinfo : ∀ t dest n es, R t (t.emit (.encode (.net dest) (.NET_PLAYER_INFO n es))))
    (hj : ∀ t q j, R t (t.emit (.encode q (.NET_PLAYER_JOINED j))))
    (s : NetState) (index : Nat) :
    ∃ p, R (s.emit (.encode (.net index) (.NET_ACCEPTED index))) p ∧
      NETallowJoining_welcome cfg net s index =
        (NETfixDuplicatePlayerNames cfg net p).setPlayer index
          { (NETfixDuplicatePlayerNames cfg net p).player index with
              wzFile := { ((NETfixDuplicatePlayerNames cfg net p).player index).wzFile with
                isCancelled := false, isSending := false },
              needFile := false } := by
  refine ⟨NETallowJoining_broadcastAll cfg net (List.range cfg.MAX_CONNECTED_PLAYERS)
    (NETend cfg net
      (NETallowJoining_narrowcast cfg net index (List.range cfg.MAX_CONNECTED_PLAYERS)
        (NETBroadcastPlayerInfo cfg net
          (NETSendAllPlayerInfoTo cfg net
            (NETend cfg net s (.net index) (.NET_ACCEPTED index)) index) index))
      .broadcast (.NET_PLAYER_JOINED index)), ?_, rfl⟩
  refine h.trans _ _ _ ?_ (NETallowJoining_broadcastAll_frame cfg net h hinfo _ _)
  refine h.trans _ _ _ ?_ (h.send _ _ _)
  refine h.trans _ _ _ ?_ (hj _ _ _)
  refine h.trans _ _ _ ?_ (NETallowJoining_narrowcast_frame cfg net h hj index _ _)
  refine h.trans _ _ _ ?_ (NETBroadcastPlayerInfo_frame cfg net h hinfo _ index)
  refine h.trans _ _ _ ?_ (NETSendAllPlayerInfoTo_frame cfg net h hinfo _ index)
  exact h.send s _ _

theorem NETallowJoining_welcome_out (cfg : NetConstants) (net : SocketEnv) (s : NetState)
    (index : Nat) :
    rejections (NETallowJoining_welcome cfg net s index).out = rejections s.out ∧
    acceptances (NETallowJoining_welcome cfg net s index).out
      = acceptances s.out ++ [index] := by
  obtain ⟨p, hp, he⟩ := NETallowJoining_welcome_frame cfg net (noVerdict_frame cfg net)
    noVerdict_nameSteps.info (fun t _ _ => noVerdict_emit t _ rfl rfl) s index
  have hf := NETfixDuplicatePlayerNames_frame cfg net (noVerdict_frame cfg net)
    noVerdict_nameSteps p
  obtain ⟨evs, h3, h4, h5⟩ := noVerdict_trans _ _ _ hp hf
  have hout : (NETallowJoining_welcome cfg net s index).out
      = s.out ++ [.encode (.net index) (.NET_ACCEPTED index)] ++ evs := by
    rw [he]
    exact h3
  rw [hout]
  simp only [rejections_append, acceptances_append, h4, h5, List.append_nil]
  exact ⟨by simp [rejections], by simp [acceptances]⟩

theorem NET_DestroyPlayer_out_quiet (cfg : NetConstants) (s : NetState) (index : Nat)
    (h : s.allow_joining = false) : (NET_DestroyPlayer cfg s index).out = s.out := by
  unfold NET_DestroyPlayer
  rw [NET_InitPlayer_eq]
  split
  · simp [h, NetState.setPlayer]
  · rfl

theorem NETallowJoining_refuse_out (cfg : NetConstants) (net : SocketEnv) (s : NetState)
    (index : Nat) (c : LOBBY_ERROR_TYPES) :
    rejections (NETallowJoining_refuse cfg net s index c).out
      = rejections s.out ++ [.value c] ∧
    acceptances (NETallowJoining_refuse cfg net s index c).out = acceptances s.out := by
  obtain ⟨evs, h1, h2, h3⟩ := NETend_out cfg net s (.net index) (.NET_REJECTED (.value c))
  have hd := NET_DestroyPlayer_out_quiet cfg
    { (NETend cfg net s (.net index) (.NET_REJECTED (.value c))).emit .flush with
      allow_joining := false } index rfl
  have hout : ∃ e, (NETallowJoining_refuse cfg net s index c).out
      = s.out ++ Event.encode (.net index) (.NET_REJECTED (.value c)) :: evs ++ [.flush]
          ++ [e] ∧ rejections [e] = [] ∧ acceptances [e] = [] := by
    unfold NETallowJoining_refuse
    simp only
    split
    · rename_i sock _
      refine ⟨.socketClose sock, ?_, rfl, rfl⟩
      simp only [NetState.emit] at hd ⊢
      rw [hd, h1]
    · refine ⟨.socketCloseNull, ?_, rfl, rfl⟩
      simp only [NetState.emit] at hd ⊢
      rw [hd, h1]
  obtain ⟨e, hout, he1, he2⟩ := hout
  have ha := acceptances_of_joinNotices evs h2
  rw [hout]
  simp only [rejections_append, acceptances_append, he1, he2, List.append_nil]
  constructor
  · have : rejections (Event.encode (.net index) (.NET_REJECTED (.value c)) :: evs)
        = .value c :: rejections evs := rfl
    rw [this, h3]
    simp [rejections]
  · have : acceptances (Event.encode (.net index) (.NET_REJECTED (.value c)) :: evs)
        = acceptances evs := rfl
    rw [this, ha]
    simp [acceptances]

theorem emit_lobbyAddPlayer_out (s : NetState) (index : Nat) (name username session : CString) :
    rejections (s.emit (.lobbyAddPlayer index name username session)).out = rejections s.out ∧
    acceptances (s.emit (.lobbyAddPlayer index name username session)).out
      = acceptances s.out := by
  simp [NetState.emit, rejections_append, acceptances_append, rejections, acceptances]

/-- What the verdict sends, in terms of the five checks. -/
theorem NETallowJoining_verdict_out (cfg : NetConstants) (net : SocketEnv) (u : NetState)
    (index : Nat) (name ModList GamePassword username session : CString) (env : JoinEnv) :
    rejections
        (NETallowJoining_verdict cfg net u index name ModList GamePassword username session
          env).2.out
      = rejections u.out ++
          ((firstFailingCheck (onBanList cfg u (u.player index).IPtextAddress)
              (u.GamePassworded && u.gamePassword != GamePassword)
              (decide (u.playercount > u.maxPlayers)) (env.modList != ModList)
              (env.isAuthenticated && !env.addPlayerOk)).map RejectByte.value).toList ∧
    acceptances
        (NETallowJoining_verdict cfg net u index name ModList GamePassword username session
          env).2.out
      = acceptances u.out ++
          (if firstFailingCheck (onBanList cfg u (u.player index).IPtextAddress)
              (u.GamePassworded && u.gamePassword != GamePassword)
              (decide (u.playercount > u.maxPlayers)) (env.modList != ModList)
              (env.isAuthenticated && !env.addPlayerOk) = none then [index] else []) := by
  have hl := emit_lobbyAddPlayer_out u index name username session
  unfold NETallowJoining_verdict NETallowJoining_checks firstFailingCheck
  cases h1 : onBanList cfg u (u.player index).IPtextAddress
  · cases h2 : (u.GamePassworded && u.gamePassword != GamePassword)
    · by_cases h3 : u.playercount > u.maxPlayers
      · have := NETallowJoining_refuse_out cfg net u index .ERROR_FULL
        simpa [h3] using this
      · cases h4 : (env.modList != ModList)
        · cases h5 : env.isAuthenticated
          · have := NETallowJoining_welcome_out cfg net u index
            simpa [h3] using this
          · cases h6 : env.addPlayerOk
            · have := NETallowJoining_refuse_out cfg net
                (u.emit (.lobbyAddPlayer index name username session)) index
                .ERROR_LOBBY_REJECTED
              rw [hl.1, hl.2] at this
              simpa [h3] using this
            · have := NETallowJoining_welcome_out cfg net
                (u.emit (.lobbyAddPlayer index name username session)) index
              rw [hl.1, hl.2] at this
              simpa [h3] using this
        · have := NETallowJoining_refuse_out cfg net u index .ERROR_WRONGDATA
          simpa [h3] using this
    · have := NETallowJoining_refuse_out cfg net u index .ERROR_WRONGPASSWORD
      simpa using this
  · have := NETallowJoining_refuse_out cfg net u index .ERROR_KICKED
    simpa using this

theorem scan_complete (cfg : NetConstants) (s : NetState) (index : Nat)
    (hidx : index < cfg.MAX_CONNECTED_PLAYERS)
    (hfree : (s.player index).allocated = false ∧ (s.player index).ai = cfg.AI_OPEN)
    (hleast : ∀ j, j < index →
      ¬ ((s.player j).allocated = false ∧ (s.player j).ai = cfg.AI_OPEN)) :
    NET_CreatePlayer_scan cfg s cfg.MAX_CONNECTED_PLAYERS 0 = some index := by
  cases hscan : NET_CreatePlayer_scan cfg s cfg.MAX_CONNECTED_PLAYERS 0 with
  | none =>
    have := scan_none cfg s _ _ hscan index (Nat.zero_le _) (by omega)
    rw [(slotFree_iff cfg _).mpr hfree] at this
    cases this
  | some k =>
    obtain ⟨_, _, h3, h4⟩ := scan_some cfg s _ _ _ hscan
    have hk : ¬ k < index := fun h => hleast k h ((slotFree_iff cfg _).mp h3)
    have hk' : ¬ index < k := by
      intro h
      have := h4 index (Nat.zero_le _) h
      rw [(slotFree_iff cfg _).mpr hfree] at this
      cases this
    have : k = index := by omega
    rw [this]

theorem scan_exists (cfg : NetConstants) (s : NetState)
    (h : ∃ k, k < cfg.MAX_CONNECTED_PLAYERS ∧
      ((s.player k).allocated = false ∧ (s.player k).ai = cfg.AI_OPEN)) :
    ∃ index, index < cfg.MAX_CONNECTED_PLAYERS ∧
      NET_CreatePlayer_scan cfg s cfg.MAX_CONNECTED_PLAYERS 0 = some index := by
  obtain ⟨k, hk, hfree⟩ := h
  cases hscan : NET_CreatePlayer_scan cfg s cfg.MAX_CONNECTED_PLAYERS 0 with
  | none =>
    have := scan_none cfg s _ _ hscan k (Nat.zero_le _) (by omega)
    rw [(slotFree_iff cfg _).mpr hfree] at this
    cases this
  | some index =>
    obtain ⟨_, h2, _, _⟩ := scan_some cfg s _ _ _ hscan
    exact ⟨index, by omega, rfl⟩

theorem scan_none_of_full (cfg : NetConstants) (s : NetState)
    (h : ∀ k, k < cfg.MAX_CONNECTED_PLAYERS →
      ¬ ((s.player k).allocated = false ∧ (s.player k).ai = cfg.AI_OPEN)) :
    NET_CreatePlayer_scan cfg s cfg.MAX_CONNECTED_PLAYERS 0 = none := by
  cases hscan : NET_CreatePlayer_scan cfg s cfg.MAX_CONNECTED_PLAYERS 0 with
  | none => rfl
  | some index =>
    obtain ⟨_, h2, h3, _⟩ := scan_some cfg s _ _ _ hscan
    exact absurd ((slotFree_iff cfg _).mp h3) (h index (by omega))


/-- The state in which the checks of a join request are made, in closed form. -/
theorem NETallowJoining_promote_create (cfg : NetConstants) (s : NetState) (i index : Nat)
    (name : CString) (env : JoinEnv)
    (hscan : NET_CreatePlayer_scan cfg s cfg.MAX_CONNECTED_PLAYERS 0 = some index)
    (hlt : index < s.players.length) :
    NETallowJoining_promote cfg (NET_CreatePlayer cfg s name).2 i index env =
      { s with
        players := s.players.set index
          { initSlot cfg s.isHost s.bComms index false (s.player index) with
              allocated := true, name := sstrcpy cfg.StringSize name,
              IPtextAddress := sstrcpy cfg.IPtextSize env.socketTextAddress },
        playercount := u32 ((s.playercount : Int) + 1), joins := s.joins + 1,
        connected_bsocket := s.connected_bsocket.set index (s.tmp_socket.getD i none),
        tmp_socket := s.tmp_socket.set i none } := by
  rw [NET_CreatePlayer_some cfg s name index hscan hlt]
  unfold NETallowJoining_promote
  simp [NetState.player, NetState.setPlayer, List.getD_eq_getElem?_getD, hlt]


theorem NETallowJoining_join_some (cfg : NetConstants) (net : SocketEnv) (s : NetState)
    (i index : Nat) (name ModList GamePassword username session : CString) (env : JoinEnv)
    (hscan : NET_CreatePlayer_scan cfg s cfg.MAX_CONNECTED_PLAYERS 0 = some index)
    (h256 : index < 256) :
    NETallowJoining_join cfg net s i name ModList GamePassword username session env =
      some (NETallowJoining_verdict cfg net
        (NETallowJoining_promote cfg (NET_CreatePlayer cfg s name).2 i index env) index
        name ModList GamePassword username session env) := by
  have hr : (NET_CreatePlayer cfg s name).1 = (index : Int) := by
    simp [NET_CreatePlayer, hscan]
  have hne : ¬ (NET_CreatePlayer cfg s name).1 = -1 := by rw [hr]; omega
  have hidx : (NET_CreatePlayer cfg s name).1.toNat % 256 = index := by
    rw [hr]; simp; omega
  unfold NETallowJoining_join
  simp only [if_neg hne, hidx]

theorem NETallowJoining_join_none (cfg : NetConstants) (net : SocketEnv) (s : NetState)
    (i : Nat) (name ModList GamePassword username session : CString) (env : JoinEnv)
    (hscan : NET_CreatePlayer_scan cfg s cfg.MAX_CONNECTED_PLAYERS 0 = none) :
    NETallowJoining_join cfg net s i name ModList GamePassword username session env = none := by
  have hr : NET_CreatePlayer cfg s name = (-1, s) := by simp [NET_CreatePlayer, hscan]
  unfold NETallowJoining_join
  rw [hr]
  simp

theorem onBanList_congr (cfg : NetConstants) (s s' : NetState) (ip : CString)
    (h : s'.IPlist = s.IPlist) : onBanList cfg s' ip = onBanList cfg s ip := by
  unfold onBanList
  rw [h]

theorem u32_succ_le (n : Nat) : u32 ((n : Int) + 1) ≤ n + 1 := by
  unfold u32
  omega


/-- The trace of a join request for which `NET_CreatePlayer` finds slot `index`. -/
theorem NETallowJoining_join_out (cfg : NetConstants) (net : SocketEnv) (s : NetState)
    (i index : Nat) (name ModList GamePassword username session : CString) (env : JoinEnv)
    (hscan : NET_CreatePlayer_scan cfg s cfg.MAX_CONNECTED_PLAYERS 0 = some index)
    (hlt : index < s.players.length) :
    rejections
        (NETallowJoining_verdict cfg net
          (NETallowJoining_promote cfg (NET_CreatePlayer cfg s name).2 i index env) index
          name ModList GamePassword username session env).2.out
      = rejections s.out ++
          ((firstFailingCheck (onBanList cfg s (sstrcpy cfg.IPtextSize env.socketTextAddress))
              (s.GamePassworded && s.gamePassword != GamePassword)
              (decide (u32 ((s.playercount : Int) + 1) > s.maxPlayers)) (env.modList != ModList)
              (env.isAuthenticated && !env.addPlayerOk)).map RejectByte.value).toList ∧
    acceptances
        (NETallowJoining_verdict cfg net
          (NETallowJoining_promote cfg (NET_CreatePlayer cfg s name).2 i index env) index
          name ModList GamePassword username session env).2.out
      = acceptances s.out ++
          (if firstFailingCheck (onBanList cfg s (sstrcpy cfg.IPtextSize env.socketTextAddress))
              (s.GamePassworded && s.gamePassword != GamePassword)
              (decide (u32 ((s.playercount : Int) + 1) > s.maxPlayers)) (env.modList != ModList)
              (env.isAuthenticated && !env.addPlayerOk) = none then [index] else []) := by
  have hv := NETallowJoining_verdict_out cfg net
    (NETallowJoining_promote cfg (NET_CreatePlayer cfg s name).2 i index env) index
    name ModList GamePassword username session env
  rw [NETallowJoining_promote_create cfg s i index name env hscan hlt] at hv ⊢
  have hip : (({ s with
        players := s.players.set index
          { initSlot cfg s.isHost s.bComms index false (s.player index) with
              allocated := true, name := sstrcpy cfg.StringSize name,
              IPtextAddress := sstrcpy cfg.IPtextSize env.socketTextAddress },
        playercount := u32 ((s.playercount : Int) + 1), joins := s.joins + 1,
        connected_bsocket := s.connected_bsocket.set index (s.tmp_socket.getD i none),
        tmp_socket := s.tmp_socket.set i none } : NetState).player index).IPtextAddress
      = sstrcpy cfg.IPtextSize env.socketTextAddress := by
    simp [NetState.player, List.getD_eq_getElem?_getD, hlt]
  rw [hip] at hv
  exact hv

/-- C1, counterexample. The host of `fullHost` has four players in a game of
four, open slots left, and the password `pw`. A request with the password `x`
makes the player count, 5 after the slot is taken, exceed `maxPlayers`, so it
fails the capacity check and the password check; the code sent back is
`ERROR_WRONGPASSWORD`, not `ERROR_FULL`. -/
theorem NETallowJoining_password_before_capacity :
    fullHost.GamePassworded = true ∧ fullHost.gamePassword ≠ [120] ∧
    fullHost.maxPlayers < (NET_CreatePlayer wzConstants fullHost [69]).2.playercount ∧
    (NETallowJoining_join wzConstants quietEnv fullHost 0 [69] [] [120] [] []
        plainJoinEnv).map (fun r => rejections r.2.out)
      = some [.value .ERROR_WRONGPASSWORD] := by
  decide

/-- C1, amended. When `NET_CreatePlayer` finds an open slot for the request,
the request is handled and the rejection code sent back is the one of the first
failing check in the order ban list (`ERROR_KICKED`), password when the game is
passworded (`ERROR_WRONGPASSWORD`), capacity `playercount > maxPlayers` with the
new player counted (`ERROR_FULL`), mod list (`ERROR_WRONGDATA`), lobby
(`ERROR_LOBBY_REJECTED`), and nothing is rejected when no check fails; this
holds whether or not the writes to the sockets succeed. -/
theorem NETallowJoining_rejection_order (cfg : NetConstants) (net : SocketEnv) (s : NetState)
    (i : Nat) (name ModList GamePassword username session : CString) (env : JoinEnv)
    (hlen : s.players.length = cfg.MAX_CONNECTED_PLAYERS)
    (h256 : cfg.MAX_CONNECTED_PLAYERS ≤ 256)
    (hex : ∃ k, k < cfg.MAX_CONNECTED_PLAYERS ∧
      ((s.player k).allocated = false ∧ (s.player k).ai = cfg.AI_OPEN)) :
    ∃ r, NETallowJoining_join cfg net s i name ModList GamePassword username session env
        = some r ∧
      rejections r.2.out
        = rejections s.out ++
            ((firstFailingCheck
                (onBanList cfg s (sstrcpy cfg.IPtextSize env.socketTextAddress))
                (s.GamePassworded && s.gamePassword != GamePassword)
                (decide (u32 ((s.playercount : Int) + 1) > s.maxPlayers))
                (env.modList != ModList)
                (env.isAuthenticated && !env.addPlayerOk)).map RejectByte.value).toList := by
  obtain ⟨index, hidx, hscan⟩ := scan_exists cfg s hex
  exact ⟨_, NETallowJoining_join_some cfg net s i index name ModList GamePassword username
      session env hscan (by omega),
    (NETallowJoining_join_out cfg net s i index name ModList GamePassword username session
      env hscan (by omega)).1⟩

/-- C1, amended, on the host of `fullHost` for a request with the right
password: the first failing check is the capacity, and `ERROR_FULL` is sent. -/
theorem NETallowJoining_rejection_order_witness :
    fullHost.players.length = wzConstants.MAX_CONNECTED_PLAYERS ∧
    wzConstants.MAX_CONNECTED_PLAYERS ≤ 256 ∧
    (∃ k, k < wzConstants.MAX_CONNECTED_PLAYERS ∧
      ((fullHost.player k).allocated = false ∧ (fullHost.player k).ai = wzConstants.AI_OPEN)) ∧
    ∃ r, NETallowJoining_join wzConstants quietEnv fullHost 0 [69] [] [112, 119] [] []
        plainJoinEnv = some r ∧
      rejections r.2.out
        = rejections fullHost.out ++
            ((firstFailingCheck
                (onBanList wzConstants fullHost
                  (sstrcpy wzConstants.IPtextSize plainJoinEnv.socketTextAddress))
                (fullHost.GamePassworded && fullHost.gamePassword != [112, 119])
                (decide (u32 ((fullHost.playercount : Int) + 1) > fullHost.maxPlayers))
                (plainJoinEnv.modList != [])
                (plainJoinEnv.isAuthenticated && !plainJoinEnv.addPlayerOk)).map
              RejectByte.value).toList :=
  ⟨by decide, by decide, ⟨4, by decide, by decide, by decide⟩,
    NETallowJoining_rejection_order wzConstants quietEnv fullHost 0 [69] [] [112, 119] [] []
      plainJoinEnv (by decide) (by decide) ⟨4, by decide, by decide, by decide⟩⟩

theorem duplicateBelow_false (s : NetState) (i : Nat) (name : CString)
    (h : ∀ j, j < i → name ≠ (s.player j).name) : duplicateBelow s i name = false := by
  unfold duplicateBelow
  rw [List.any_eq_false]
  intro j hj
  have := h j (List.mem_range.mp hj)
  simpa using this


theorem NETfixDuplicatePlayerNames_slot_id (cfg : NetConstants) (env : SocketEnv)
    (s : NetState) (i : Nat)
    (hd : namesDistinct cfg (fun k => (s.player k).name)) (hi : i < cfg.MAX_PLAYERS) :
    NETfixDuplicatePlayerNames_slot cfg env s i = s := by
  unfold NETfixDuplicatePlayerNames_slot
  simp only
  split
  · rfl
  · rename_i hne
    have hdup : duplicateBelow s i (sstrcpy cfg.StringSize (s.player i).name) = false :=
      duplicateBelow_false s i _ (fun j hj => hd i j hj hi hne)
    have hp : NETfixDuplicatePlayerNames_pass cfg s i 101 0
        (sstrcpy cfg.StringSize (s.player i).name)
          = (0, sstrcpy cfg.StringSize (s.player i).name) := by
      simp [NETfixDuplicatePlayerNames_pass, hdup]
    rw [hp]
    simp

theorem NETfixDuplicatePlayerNames_loop_id (cfg : NetConstants) (env : SocketEnv) :
    ∀ (k i : Nat) (s : NetState), namesDistinct cfg (fun k => (s.player k).name) →
      i + k ≤ cfg.MAX_PLAYERS → NETfixDuplicatePlayerNames_loop cfg env k i s = s := by
  intro k
  induction k with
  | zero => intro i s _ _; rfl
  | succ k ih =>
    intro i s hd hik
    unfold NETfixDuplicatePlayerNames_loop
    rw [NETfixDuplicatePlayerNames_slot_id cfg env s i hd (by omega)]
    exact ih (i + 1) s hd (by omega)

theorem NETfixDuplicatePlayerNames_id (cfg : NetConstants) (env : SocketEnv) (s : NetState)
    (hd : namesDistinct cfg (fun k => (s.player k).name)) :
    NETfixDuplicatePlayerNames cfg env s = s := by
  unfold NETfixDuplicatePlayerNames
  by_cases h0 : cfg.MAX_PLAYERS = 0
  · rw [h0]; rfl
  · exact NETfixDuplicatePlayerNames_loop_id cfg env _ 1 s hd (by omega)

/-- The slot of the newcomer after the welcome, when no write fails. -/
theorem NETallowJoining_welcome_slot (cfg : NetConstants) (net : SocketEnv)
    (hrel : net.reliable) (s : NetState) (index : Nat) (hlt : index < s.players.length) :
    ((NETallowJoining_welcome cfg net s index).player index).allocated
      = (s.player index).allocated ∧
    (namesDistinct cfg (fun k => (s.player k).name) →
      ((NETallowJoining_welcome cfg net s index).player index).name
        = (s.player index).name) := by
  obtain ⟨p, hp, he⟩ := NETallowJoining_welcome_frame cfg net (sendsOnly_frame cfg net hrel)
    sendsOnly_info (fun t _ _ => sendsOnly_emit t _ rfl rfl) s index
  have hn := NETfixDuplicatePlayerNames_frame cfg net (namesOnly_frame cfg net hrel)
    namesOnly_nameSteps p
  have hpl : ∀ k, p.player k = s.player k := by
    intro k
    unfold NetState.player
    rw [sendsOnly_players hp]
    rfl
  have hlen : index < (NETfixDuplicatePlayerNames cfg net p).players.length := by
    rw [namesOnly_length hn, sendsOnly_players hp]
    exact hlt
  rw [he, player_setPlayer_same _ _ _ hlen]
  constructor
  · have h1 := congrArg PLAYER.allocated (namesOnly_player hn index)
    have h2 : ∀ q : PLAYER, q.withoutName.allocated = q.allocated := fun _ => rfl
    rw [h2, h2, hpl index] at h1
    exact h1
  · intro hd
    have hd' : namesDistinct cfg (fun k => (p.player k).name) := by
      simp only [hpl]
      exact hd
    rw [NETfixDuplicatePlayerNames_id cfg net _ hd', hpl index]

/-- What the checks of a join request see of the state. -/
theorem NETallowJoining_promote_facts (cfg : NetConstants) (s : NetState) (i index : Nat)
    (name : CString) (env : JoinEnv)
    (hscan : NET_CreatePlayer_scan cfg s cfg.MAX_CONNECTED_PLAYERS 0 = some index)
    (hlt : index < s.players.length) :
    ((NETallowJoining_promote cfg (NET_CreatePlayer cfg s name).2 i index env).player
      index).allocated = true ∧
    ((NETallowJoining_promote cfg (NET_CreatePlayer cfg s name).2 i index env).player
      index).IPtextAddress = sstrcpy cfg.IPtextSize env.socketTextAddress ∧
    (∀ k, ((NETallowJoining_promote cfg (NET_CreatePlayer cfg s name).2 i index env).player
      k).name = (if k = index then sstrcpy cfg.StringSize name else (s.player k).name)) ∧
    (NETallowJoining_promote cfg (NET_CreatePlayer cfg s name).2 i index env).players.length
      = s.players.length ∧
    (NETallowJoining_promote cfg (NET_CreatePlayer cfg s name).2 i index env).GamePassworded
      = s.GamePassworded ∧
    (NETallowJoining_promote cfg (NET_CreatePlayer cfg s name).2 i index env).gamePassword
      = s.gamePassword ∧
    (NETallowJoining_promote cfg (NET_CreatePlayer cfg s name).2 i index env).playercount
      = u32 ((s.playercount : Int) + 1) ∧
    (NETallowJoining_promote cfg (NET_CreatePlayer cfg s name).2 i index env).maxPlayers
      = s.maxPlayers ∧
    (NETallowJoining_promote cfg (NET_CreatePlayer cfg s name).2 i index env).IPlist
      = s.IPlist := by
  rw [NETallowJoining_promote_create cfg s i index name env hscan hlt]
  refine ⟨?_, ?_, fun k => ?_, ?_, rfl, rfl, rfl, rfl, rfl⟩
  · simp [NetState.player, List.getD_eq_getElem?_getD, hlt]
  · simp [NetState.player, List.getD_eq_getElem?_getD, hlt]
  · by_cases hk : k = index
    · subst hk
      simp [NetState.player, List.getD_eq_getElem?_getD, hlt]
    · have hk' : index ≠ k := fun h => hk h.symm
      simp [NetState.player, List.getD_eq_getElem?_getD, List.getElem?_set_ne hk', hk]
  · simp


/-- When no check fails the verdict is the welcome, after the lobby was asked
if the host is authenticated there. -/
theorem NETallowJoining_verdict_pass (cfg : NetConstants) (net : SocketEnv) (u : NetState)
    (index : Nat) (name ModList GamePassword username session : CString) (env : JoinEnv)
    (hban : onBanList cfg u (u.player index).IPtextAddress = false)
    (hpw : (u.GamePassworded && u.gamePassword != GamePassword) = false)
    (hcap : ¬ u.playercount > u.maxPlayers)
    (hmod : (env.modList != ModList) = false)
    (hlobby : env.isAuthenticated = false ∨ env.addPlayerOk = true) :
    ∃ (u' : NetState) (pre : List Event), u'.players = u.players ∧ u'.out = u.out ++ pre ∧
      messagesOf pre = [] ∧ joinNotices pre = [] ∧
      NETallowJoining_verdict cfg net u index name ModList GamePassword username session env
        = (false, NETallowJoining_welcome cfg net u' index) := by
  have hc : NETallowJoining_checks cfg u index ModList GamePassword env = .ERROR_NOERROR := by
    unfold NETallowJoining_checks
    rw [hban, hpw, hmod]
    simp [hcap]
  unfold NETallowJoining_verdict
  rw [hc]
  cases ha : env.isAuthenticated
  · exact ⟨u, [], rfl, by simp, rfl, rfl, by simp⟩
  · have hok : env.addPlayerOk = true := by
      rcases hlobby with h | h
      · rw [ha] at h; cases h
      · exact h
    exact ⟨u.emit (.lobbyAddPlayer index name username session),
      [.lobbyAddPlayer index name username session], rfl, rfl, rfl, rfl, by simp [hok]⟩

/-- C3, counterexample. A client named `A` asks to join the host of `hostState`,
whose own player in slot 0 is named `A`. Every check passes and the client is
accepted into slot 1, the lowest free slot; but slot 1 ends with the name `A_2`,
not with the joiner's name. And when a client named `B` joins and the write of
`NET_ACCEPTED` to its socket, 7, fails, the host drops the newcomer there and
then: slot 1 ends unallocated. -/
theorem NETallowJoining_accepted_renamed :
    (hostState.player 1).allocated = false ∧ (hostState.player 1).ai = wzConstants.AI_OPEN ∧
    hostState.playercount < hostState.maxPlayers ∧ hostState.GamePassworded = false ∧
    onBanList wzConstants hostState plainJoinEnv.socketTextAddress = false ∧
    (NETallowJoining_join wzConstants quietEnv hostState 0 [65] [] [] [] [] plainJoinEnv).map
        (fun r => (rejections r.2.out, acceptances r.2.out, (r.2.player 1).allocated,
          (r.2.player 1).name))
      = some ([], [1], true, [65, 95, 50]) ∧
    (NETallowJoining_join wzConstants (failingEnv 7) hostState 0 [66] [] [] [] []
        plainJoinEnv).map
        (fun r => (rejections r.2.out, acceptances r.2.out, (r.2.player 1).allocated))
      = some ([], [1], false) := by
  refine ⟨by decide, by decide, by decide, by decide, by decide, ?_, ?_⟩
  · set_option maxRecDepth 4000 in decide
  · set_option maxRecDepth 4000 in decide

/-- C3, amended. Let `index` be the lowest slot that is unallocated and open, let
`playercount < maxPlayers`, and let the request come from an address that is not
on the ban list, with the game password (or the game not passworded), with the
host's mod list, and with no rejection by the lobby. Then the request is
admitted: no rejection code is produced and `NET_ACCEPTED` carries `index`. When
no write to a socket fails, slot `index` ends allocated; and it ends with the
joiner's name if, with that name entered in the table, no slot
`1 .. MAX_PLAYERS - 1` with a non-empty name has the name of a lower slot;
otherwise `NETfixDuplicatePlayerNames` may have replaced it. -/
theorem NETallowJoining_accepts (cfg : NetConstants) (net : SocketEnv) (s : NetState)
    (i index : Nat) (name ModList GamePassword username session : CString) (env : JoinEnv)
    (hlen : s.players.length = cfg.MAX_CONNECTED_PLAYERS)
    (h256 : cfg.MAX_CONNECTED_PLAYERS ≤ 256)
    (hidx : index < cfg.MAX_CONNECTED_PLAYERS)
    (hfree : (s.player index).allocated = false ∧ (s.player index).ai = cfg.AI_OPEN)
    (hleast : ∀ j, j < index →
      ¬ ((s.player j).allocated = false ∧ (s.player j).ai = cfg.AI_OPEN))
    (hcap : s.playercount < s.maxPlayers)
    (hban : onBanList cfg s (sstrcpy cfg.IPtextSize env.socketTextAddress) = false)
    (hpw : s.GamePassworded = false ∨ s.gamePassword = GamePassword)
    (hmod : env.modList = ModList)
    (hlobby : env.isAuthenticated = false ∨ env.addPlayerOk = true) :
    ∃ r, NETallowJoining_join cfg net s i name ModList GamePassword username session env
        = some (false, r) ∧
      rejections r.out = rejections s.out ∧
      acceptances r.out = acceptances s.out ++ [index] ∧
      (net.reliable →
        (r.player index).allocated = true ∧
        (namesDistinct cfg
            (fun k => if k = index then sstrcpy cfg.StringSize name else (s.player k).name) →
          (r.player index).name = sstrcpy cfg.StringSize name)) := by
  have hscan := scan_complete cfg s index hidx hfree hleast
  have hlt : index < s.players.length := by omega
  have hpw' : (s.GamePassworded && s.gamePassword != GamePassword) = false := by
    rcases hpw with h | h
    · simp [h]
    · simp [h]
  have hcap' : ¬ u32 ((s.playercount : Int) + 1) > s.maxPlayers := by
    have := u32_succ_le s.playercount
    omega
  have hmod' : (env.modList != ModList) = false := by simp [hmod]
  have hlobby' : (env.isAuthenticated && !env.addPlayerOk) = false := by
    rcases hlobby with h | h
    · simp [h]
    · simp [h]
  obtain ⟨hr, ha⟩ := NETallowJoining_join_out cfg net s i index name ModList GamePassword
    username session env hscan hlt
  have hffc : firstFailingCheck (onBanList cfg s (sstrcpy cfg.IPtextSize env.socketTextAddress))
      (s.GamePassworded && s.gamePassword != GamePassword)
      (decide (u32 ((s.playercount : Int) + 1) > s.maxPlayers)) (env.modList != ModList)
      (env.isAuthenticated && !env.addPlayerOk) = none := by
    rw [hban, hpw', hmod', hlobby']
    simp [firstFailingCheck, hcap']
  rw [hffc] at hr ha
  rw [NETallowJoining_join_some cfg net s i index name ModList GamePassword username session
    env hscan (by omega)]
  obtain ⟨u1, u2, u3, u4, u5, u6, u7, u8, u9⟩ :=
    NETallowJoining_promote_facts cfg s i index name env hscan hlt
  generalize NETallowJoining_promote cfg (NET_CreatePlayer cfg s name).2 i index env = u
    at u1 u2 u3 u4 u5 u6 u7 u8 u9 hr ha ⊢
  have vban : onBanList cfg u (u.player index).IPtextAddress = false := by
    rw [u2, onBanList_congr cfg s u _ u9]; exact hban
  have vpw : (u.GamePassworded && u.gamePassword != GamePassword) = false := by
    rw [u5, u6]; exact hpw'
  have vcap : ¬ u.playercount > u.maxPlayers := by
    rw [u7, u8]; exact hcap'
  obtain ⟨u', _, hu', _, _, _, hv⟩ := NETallowJoining_verdict_pass cfg net u index name ModList
    GamePassword username session env vban vpw vcap hmod' hlobby
  rw [hv] at hr ha ⊢
  refine ⟨_, rfl, by simpa using hr, by simpa using ha, fun hrel => ?_⟩
  have hpl : ∀ k, u'.player k = u.player k := by
    intro k
    unfold NetState.player
    rw [hu']
  have hlt' : index < u'.players.length := by
    rw [hu', u4]; exact hlt
  obtain ⟨w1, w2⟩ := NETallowJoining_welcome_slot cfg net hrel u' index hlt'
  refine ⟨by rw [w1, hpl, u1], fun hd => ?_⟩
  rw [w2 (by simp only [hpl, u3]; exact hd), hpl, u3, if_pos rfl]

/-- C3, amended, for a client named `B` that joins the host of `hostState`: it is
accepted into slot 1. -/
theorem NETallowJoining_accepts_witness :
    hostState.players.length = wzConstants.MAX_CONNECTED_PLAYERS ∧
    wzConstants.MAX_CONNECTED_PLAYERS ≤ 256 ∧ 1 < wzConstants.MAX_CONNECTED_PLAYERS ∧
    ((hostState.player 1).allocated = false ∧ (hostState.player 1).ai = wzConstants.AI_OPEN) ∧
    (∀ j, j < 1 → ¬ ((hostState.player j).allocated = false ∧
      (hostState.player j).ai = wzConstants.AI_OPEN)) ∧
    hostState.playercount < hostState.maxPlayers ∧
    onBanList wzConstants hostState
      (sstrcpy wzConstants.IPtextSize plainJoinEnv.socketTextAddress) = false ∧
    (hostState.GamePassworded = false ∨ hostState.gamePassword = []) ∧
    plainJoinEnv.modList = [] ∧
    (plainJoinEnv.isAuthenticated = false ∨ plainJoinEnv.addPlayerOk = true) ∧
    ∃ r, NETallowJoining_join wzConstants quietEnv hostState 0 [66] [] [] [] [] plainJoinEnv
        = some (false, r) ∧
      rejections r.out = rejections hostState.out ∧
      acceptances r.out = acceptances hostState.out ++ [1] ∧
      (quietEnv.reliable →
        (r.player 1).allocated = true ∧
        (namesDistinct wzConstants
            (fun k => if k = 1 then sstrcpy wzConstants.StringSize [66]
              else (hostState.player k).name) →
          (r.player 1).name = sstrcpy wzConstants.StringSize [66])) :=
  ⟨by decide, by decide, by decide, by decide, by decide, by decide, by decide, by decide,
    by decide, by decide,
    NETallowJoining_accepts wzConstants quietEnv hostState 0 1 [66] [] [] [] [] plainJoinEnv
      (by decide) (by decide) (by decide) (by decide) (by decide) (by decide) (by decide)
      (by decide) (by decide) (by decide)⟩

/-! ## Player-info messages with a bad entry -/

theorem playerInfoApply_frame (cfg : NetConstants) (s : NetState) (q : Nat)
    (e : PlayerInfoEntry) :
    (playerInfoApply cfg s q e).hostPlayer = s.hostPlayer ∧
    (playerInfoApply cfg s q e).out = s.out := by
  unfold playerInfoApply
  simp only
  split <;> exact ⟨rfl, rfl⟩

theorem playerInfoFold_frame (cfg : NetConstants) (q : Nat) :
    ∀ (pre : List PlayerInfoEntry) (s : NetState),
      (pre.foldl (fun t e => playerInfoApply cfg t q e) s).hostPlayer = s.hostPlayer ∧
      (pre.foldl (fun t e => playerInfoApply cfg t q e) s).out = s.out := by
  intro pre
  induction pre with
  | nil => intro s; exact ⟨rfl, rfl⟩
  | cons e es ih =>
    intro s
    obtain ⟨h1, h2⟩ := ih (playerInfoApply cfg s q e)
    obtain ⟨h3, h4⟩ := playerInfoApply_frame cfg s q e
    exact ⟨h1.trans h3, h2.trans h4⟩

/-- The entry loop on a batch of the host whose first bad entry is `bad`. -/
theorem playerInfoLoop_host_prefix (cfg : NetConstants) (q : Nat) (bad : PlayerInfoEntry)
    (post : List PlayerInfoEntry) (hbad : cfg.MAX_CONNECTED_PLAYERS ≤ bad.index) :
    ∀ (pre : List PlayerInfoEntry) (s : NetState) (index : Nat), q = s.hostPlayer →
      (∀ e ∈ pre, e.index < cfg.MAX_CONNECTED_PLAYERS) →
      playerInfoLoop cfg q (pre ++ bad :: post) s index
        = (pre.foldl (fun t e => playerInfoApply cfg t q e) s, bad.index, true) := by
  intro pre
  induction pre with
  | nil =>
    intro s index _ _
    have hb : playerInfoBadIndex cfg s q bad.index = true := by
      simp [playerInfoBadIndex, hbad]
    simp [playerInfoLoop, hb]
  | cons e es ih =>
    intro s index hq hpre
    have he : e.index < cfg.MAX_CONNECTED_PLAYERS := hpre e (List.mem_cons_self _ _)
    have hb : playerInfoBadIndex cfg s q e.index = false := by
      simp [playerInfoBadIndex, hq, he]
    have hq' : q = (playerInfoApply cfg s q e).hostPlayer := by
      rw [(playerInfoApply_frame cfg s q e).1]; exact hq
    have := ih (playerInfoApply cfg s q e) e.index hq'
      (fun x hx => hpre x (List.mem_cons_of_mem _ hx))
    simp only [List.cons_append, playerInfoLoop, hb, Bool.false_eq_true, if_false, List.foldl_cons]
    exact this

/-- C11, counterexample. The host sends a batch of two entries: the first sets
colour 7 and the ready flag for slot 1, the second names slot 8, which is out of
range. The client has applied the first entry when it meets the second: slot 1
is modified by a message that holds a bad entry. -/
theorem NET_PLAYER_INFO_batch_partly_applied :
    wzConstants.MAX_CONNECTED_PLAYERS ≤ outOfRangeEntry.index ∧
    (clientState.player 1).ready = false ∧ (clientState.player 1).colour = 1 ∧
    ((NETprocessSystemMessage wzConstants quietEnv clientState 0
        [.NET_PLAYER_INFO 2 [tamperEntry, outOfRangeEntry]]).2.2.player 1).ready = true ∧
    ((NETprocessSystemMessage wzConstants quietEnv clientState 0
        [.NET_PLAYER_INFO 2 [tamperEntry, outOfRangeEntry]]).2.2.player 1).colour = 7 := by
  decide

/-- C11, amended. Let a `NET_PLAYER_INFO` message pass the test of its count, and
let `bad` be the first entry read that names a slot index at or above
`MAX_CONNECTED_PLAYERS` or, from a sender other than the host, a slot other than
the sender's own allocated slot. Then the decoding stops at `bad`: this entry and
all later ones are not applied, nothing is sent, and the message is popped. The
entries `pre` that precede `bad`, which only a batch of the host can have, have
been applied and stay applied; when `bad` is the first entry the state is the
old one but for the flag `netPlayersUpdated`. -/
theorem NET_PLAYER_INFO_bad_entry (cfg : NetConstants) (env : SocketEnv) (s : NetState)
    (q indexLen : Nat)
    (entries pre : List PlayerInfoEntry) (bad : PlayerInfoEntry) (post : List PlayerInfoEntry)
    (rest : List NetMessage)
    (hcount : indexLen ≤ cfg.MAX_PLAYERS ∧ (q = NET_HOST_ONLY ∨ indexLen ≤ 1))
    (hread : readEntries indexLen entries = pre ++ bad :: post)
    (hpre : pre = [] ∨ (q = s.hostPlayer ∧ ∀ e ∈ pre, e.index < cfg.MAX_CONNECTED_PLAYERS))
    (hbad : cfg.MAX_CONNECTED_PLAYERS ≤ bad.index ∨
      (q ≠ s.hostPlayer ∧ (q ≠ bad.index ∨ (s.player bad.index).allocated = false))) :
    NETprocessSystemMessage cfg env s q (.NET_PLAYER_INFO indexLen entries :: rest)
      = (true, rest,
          { pre.foldl (fun t e => playerInfoApply cfg t q e) s with netPlayersUpdated := true }) ∧
    (pre.foldl (fun t e => playerInfoApply cfg t q e) s).out = s.out ∧
    (pre = [] →
      (NETprocessSystemMessage cfg env s q (.NET_PLAYER_INFO indexLen entries :: rest)).2.2
        = { s with netPlayersUpdated := true }) := by
  have hg : ¬ (indexLen > cfg.MAX_PLAYERS ∨ (q ≠ NET_HOST_ONLY ∧ indexLen > 1)) := by
    rcases hcount with ⟨h1, h2 | h2⟩
    · intro h; rcases h with h | h
      · omega
      · exact h.1 h2
    · omega
  have hloop : playerInfoLoop cfg q (pre ++ bad :: post) s cfg.MAX_PLAYERS
      = (pre.foldl (fun t e => playerInfoApply cfg t q e) s, bad.index, true) := by
    rcases hpre with hnil | ⟨hq, hall⟩
    · subst hnil
      have hb : playerInfoBadIndex cfg s q bad.index = true := by
        rcases hbad with h | ⟨h1, h2 | h2⟩
        · simp [playerInfoBadIndex, h]
        · simp [playerInfoBadIndex, h1, h2]
        · simp [playerInfoBadIndex, h1, h2]
      simp [playerInfoLoop, hb]
    · have hb : cfg.MAX_CONNECTED_PLAYERS ≤ bad.index := by
        rcases hbad with h | ⟨h1, _⟩
        · exact h
        · exact absurd hq h1
      exact playerInfoLoop_host_prefix cfg q bad post hb pre s cfg.MAX_PLAYERS hq hall
  have hmain : NETprocessSystemMessage_PLAYER_INFO cfg env s q indexLen entries
      = { pre.foldl (fun t e => playerInfoApply cfg t q e) s with netPlayersUpdated := true } := by
    unfold NETprocessSystemMessage_PLAYER_INFO
    rw [if_neg hg, hread, hloop]
    simp
  refine ⟨?_, (playerInfoFold_frame cfg q pre s).2, fun hnil => ?_⟩
  · show (true, rest, NETprocessSystemMessage_PLAYER_INFO cfg env s q indexLen entries) = _
    rw [hmain]
  · show NETprocessSystemMessage_PLAYER_INFO cfg env s q indexLen entries = _
    rw [hmain, hnil]
    rfl

/-- C11, amended, on the batch of the counterexample: the first entry is applied,
the second is the bad one. -/
theorem NET_PLAYER_INFO_bad_entry_witness :
    (2 ≤ wzConstants.MAX_PLAYERS ∧ (0 = NET_HOST_ONLY ∨ 2 ≤ 1)) ∧
    readEntries 2 [tamperEntry, outOfRangeEntry] = [tamperEntry] ++ outOfRangeEntry :: [] ∧
    NETprocessSystemMessage wzConstants quietEnv clientState 0
        (.NET_PLAYER_INFO 2 [tamperEntry, outOfRangeEntry] :: [])
      = (true, [],
          { [tamperEntry].foldl (fun t e => playerInfoApply wzConstants t 0 e) clientState with
            netPlayersUpdated := true }) :=
  ⟨by decide, by decide,
    (NET_PLAYER_INFO_bad_entry wzConstants quietEnv clientState 0 2 [tamperEntry, outOfRangeEntry]
      [tamperEntry] outOfRangeEntry [] [] (by decide) (by decide)
      (Or.inr ⟨by decide, by decide⟩) (Or.inl (by decide))).1⟩

/-! ## Shared game queues -/

/-- C12, the code at the failing input. Player 1 sends the host a
`NET_SHARE_GAME_QUEUE` message that declares player 0, the host itself, and
carries one game message: the message is popped and the game message is inserted
into the game queue of player 0. -/
theorem NET_SHARE_GAME_QUEUE_inserts_unchecked :
    sharingHost.gameQueues.getD 0 [] = [] ∧
    (NETprocessSystemMessage wzConstants quietEnv sharingHost 1
        [.NET_SHARE_GAME_QUEUE 0 1 [forgedOrder]]).1 = true ∧
    (NETprocessSystemMessage wzConstants quietEnv sharingHost 1
        [.NET_SHARE_GAME_QUEUE 0 1 [forgedOrder]]).2.2.gameQueues.getD 0 [] = [forgedOrder] := by
  decide

/-! ## The ban list -/

theorem addToBanList_IPlist (cfg : NetConstants) (s : NetState) (ip name : CString) :
    (addToBanList cfg s ip name).IPlist =
      some ((List.replicate cfg.MAX_BANS (default : PLAYER_IP)).set (addToBanList_index s)
        { IPAddress := sstrcpy cfg.IPtextSize ip, pname := sstrcpy cfg.banNameSize name }) := by
  unfold addToBanList
  simp only
  split <;> rfl

theorem addToBanList_next (cfg : NetConstants) (s : NetState) (ip name : CString) :
    addToBanList_index (addToBanList cfg s ip name) =
      (if addToBanList_index s + 1 > cfg.MAX_BANS then 0 else addToBanList_index s + 1) := by
  have h := addToBanList_IPlist cfg s ip name
  have hidx : addToBanList_index (addToBanList cfg s ip name)
      = (addToBanList cfg s ip name).numBans := by
    unfold addToBanList_index
    rw [h]
  rw [hidx]
  unfold addToBanList
  simp only
  by_cases hgt : addToBanList_index s + 1 > cfg.MAX_BANS
  · rw [if_pos hgt, if_pos hgt]
  · rw [if_neg hgt, if_neg hgt]

/-- After a call of `addToBanList` only its own address, or the empty address
of a cleared entry, is on the list. -/
theorem onBanList_after_add (cfg : NetConstants) (s : NetState) (ip name a : CString)
    (h : onBanList cfg (addToBanList cfg s ip name) a = true) :
    a = [] ∨ a = sstrcpy cfg.IPtextSize ip := by
  unfold onBanList at h
  rw [addToBanList_IPlist] at h
  simp only [List.any_eq_true, List.mem_range, beq_iff_eq] at h
  obtain ⟨i, hi, hia⟩ := h
  by_cases hk : addToBanList_index s = i
  · right
    rw [hia, hk]
    simp [List.getD_eq_getElem?_getD, hi]
  · left
    rw [hia]
    simp [List.getD_eq_getElem?_getD, List.getElem?_set_ne hk, hi]
    rfl

theorem onBanList_of_added (cfg : NetConstants) (s : NetState) (ip name : CString)
    (h : addToBanList_index s < cfg.MAX_BANS) :
    onBanList cfg (addToBanList cfg s ip name) (sstrcpy cfg.IPtextSize ip) = true := by
  unfold onBanList
  rw [addToBanList_IPlist]
  simp only [List.any_eq_true, List.mem_range, beq_iff_eq]
  exact ⟨addToBanList_index s, h, by simp [List.getD_eq_getElem?_getD, h]⟩

theorem addBans_index (cfg : NetConstants) :
    ∀ (bs : List (CString × CString)) (s : NetState),
      addToBanList_index s + bs.length ≤ cfg.MAX_BANS →
      addToBanList_index (addBans cfg bs s) = addToBanList_index s + bs.length := by
  intro bs
  induction bs with
  | nil => intro s _; rfl
  | cons b bs ih =>
    intro s h
    simp only [List.length_cons] at h
    have hn := addToBanList_next cfg s b.1 b.2
    rw [if_neg (by omega)] at hn
    have := ih (addToBanList cfg s b.1 b.2) (by rw [hn]; omega)
    simp only [addBans, List.length_cons]
    rw [this, hn]
    omega

/-- C13, the code at the failing input. On a host without bans, `1.1.1.1` is
banned and is then on the list; after `2.2.2.2` is banned too, `2.2.2.2` is on the
list and `1.1.1.1` is not any more. -/
theorem addToBanList_forgets_earlier_ban :
    onBanList wzConstants (addToBanList wzConstants hostState addressOne [66]) addressOne
      = true ∧
    onBanList wzConstants
      (addToBanList wzConstants (addToBanList wzConstants hostState addressOne [66])
        addressTwo [67]) addressTwo = true ∧
    onBanList wzConstants
      (addToBanList wzConstants (addToBanList wzConstants hostState addressOne [66])
        addressTwo [67]) addressOne = false := by
  refine ⟨onBanList_of_added wzConstants hostState addressOne [66] (by decide),
    onBanList_of_added wzConstants _ addressTwo [67] ?_, ?_⟩
  · rw [addToBanList_next]; decide
  · cases h : onBanList wzConstants
      (addToBanList wzConstants (addToBanList wzConstants hostState addressOne [66])
        addressTwo [67]) addressOne
    · rfl
    · rcases onBanList_after_add wzConstants _ addressTwo [67] addressOne h with h1 | h1
      · exact absurd h1 (by decide)
      · exact absurd h1 (by decide)

/-- C14, the code at the failing input. On a host without bans, after `MAX_BANS`
calls of `addToBanList` the index at which the next call writes is `MAX_BANS`
itself, one past the last entry of the list; only after that write is the index
set back to 0. -/
theorem addToBanList_writes_past_end :
    addToBanList_index (addBans wzConstants (manyBans wzConstants) hostState)
      = wzConstants.MAX_BANS ∧
    addToBanList_index
      (addToBanList wzConstants (addBans wzConstants (manyBans wzConstants) hostState) [0] [])
      = 0 := by
  have hlen : (manyBans wzConstants).length = wzConstants.MAX_BANS := by
    simp [manyBans]
  have h0 : addToBanList_index hostState = 0 := by decide
  have h := addBans_index wzConstants (manyBans wzConstants) hostState (by rw [h0, hlen]; omega)
  rw [h0, hlen, Nat.zero_add] at h
  refine ⟨h, ?_⟩
  rw [addToBanList_next, h]
  simp

/-! ## The sync debug recorder -/

theorem syncDebug_dumps (crcSum : Nat → List Nat → Nat) (sd : SyncDebug) (f text : CString) :
    (_syncDebug crcSum sd f text).numDumps = sd.numDumps ∧
      (_syncDebug crcSum sd f text).sent = sd.sent := by
  unfold _syncDebug
  simp only
  split <;> exact ⟨rfl, rfl⟩

theorem resetSyncDebug_loop_dumps (k : Nat) (sd : SyncDebug) :
    (resetSyncDebug_loop k sd).numDumps = sd.numDumps ∧
      (resetSyncDebug_loop k sd).sent = sd.sent := by
  induction k generalizing sd with
  | zero => exact ⟨rfl, rfl⟩
  | succ k ih =>
    have h := ih { clearSyncDebugNext sd with
      syncDebugNext := (clearSyncDebugNext sd).syncDebugNext + 1 }
    exact h

theorem resetSyncDebug_dumps (sd : SyncDebug) :
    (resetSyncDebug sd).numDumps = sd.numDumps ∧ (resetSyncDebug sd).sent = sd.sent := by
  have h := resetSyncDebug_loop_dumps MAX_SYNC_HISTORY { sd with syncDebugNext := 0 }
  exact h

theorem checkDebugSync_dumps (sd : SyncDebug) (T c : Nat) (h : DumpsCounted sd) :
    DumpsCounted (checkDebugSync sd T c).2 := by
  unfold checkDebugSync
  simp only
  split
  · exact h
  · split
    · exact h
    · split
      · exact h
      · by_cases hn : sd.numDumps < 5
        · simp only [if_pos hn]
          refine ⟨?_, ?_⟩
          · show (sd.sent ++ [_]).length = sd.numDumps + 1
            rw [List.length_append, h.1]
            rfl
          · show sd.numDumps + 1 ≤ 5
            omega
        · simp only [if_neg hn]
          exact h

theorem runSyncCall_dumps (crcSum : Nat → List Nat → Nat) (sd : SyncDebug) (call : SyncCall)
    (h : DumpsCounted sd) : DumpsCounted (runSyncCall crcSum sd call) := by
  cases call with
  | syncDebug f text =>
    have e := syncDebug_dumps crcSum sd f text
    show (_syncDebug crcSum sd f text).sent.length = (_syncDebug crcSum sd f text).numDumps ∧
      (_syncDebug crcSum sd f text).numDumps ≤ 5
    rw [e.1, e.2]
    exact h
  | nextDebugSync g => exact h
  | resetSyncDebug =>
    have e := resetSyncDebug_dumps sd
    show (resetSyncDebug sd).sent.length = (resetSyncDebug sd).numDumps ∧
      (resetSyncDebug sd).numDumps ≤ 5
    rw [e.1, e.2]
    exact h
  | checkDebugSync T c => exact checkDebugSync_dumps sd T c h

theorem runSync_dumps (crcSum : Nat → List Nat → Nat) (calls : List SyncCall) (sd : SyncDebug)
    (h : DumpsCounted sd) : DumpsCounted (runSync crcSum calls sd) := by
  induction calls generalizing sd with
  | nil => exact h
  | cons call calls ih => exact ih _ (runSyncCall_dumps crcSum sd call h)

/-- C18. From the start of a session, where no dump has been sent and
`numDumps` is 0, any sequence of calls of `_syncDebug`, `nextDebugSync`,
`resetSyncDebug` and `checkDebugSync` leaves at most 5 calls of `sendDebugSync`,
whatever the recorder holds otherwise and whatever `crcSum` computes. -/
theorem sync_dumps_at_most_five (crcSum : Nat → List Nat → Nat) (calls : List SyncCall)
    (sd : SyncDebug) (hnum : sd.numDumps = 0) (hsent : sd.sent = []) :
    (runSync crcSum calls sd).sent.length ≤ 5 := by
  have h : DumpsCounted sd := by
    unfold DumpsCounted
    rw [hnum, hsent]
    exact ⟨rfl, by omega⟩
  have h2 := runSync_dumps crcSum calls sd h
  rw [h2.1]
  exact h2.2

/-- C18 on a fresh session in which six ticks are found to differ one after the
other. -/
theorem sync_dumps_at_most_five_witness :
    syncStart.numDumps = 0 ∧ syncStart.sent = [] ∧
      (runSync (fun _ _ => 0) sixDivergences syncStart).sent.length ≤ 5 :=
  ⟨rfl, rfl, sync_dumps_at_most_five (fun _ _ => 0) sixDivergences syncStart rfl rfl⟩

theorem checkDebugSync_find_spec (sd : SyncDebug) (T k idx : Nat) :
    idx ≤ checkDebugSync_find sd T k idx ∧ checkDebugSync_find sd T k idx ≤ idx + k ∧
      (checkDebugSync_find sd T k idx < idx + k →
        sd.syncDebugGameTime.getD (checkDebugSync_find sd T k idx) 0 = T) ∧
      ∀ n, idx ≤ n → n < checkDebugSync_find sd T k idx → sd.syncDebugGameTime.getD n 0 ≠ T := by
  induction k generalizing idx with
  | zero =>
    refine ⟨Nat.le_refl _, Nat.le_refl _, ?_, ?_⟩
    · intro h
      exact absurd h (Nat.lt_irrefl _)
    · intro n h1 h2
      have h3 : n < idx := h2
      omega
  | succ k ih =>
    unfold checkDebugSync_find
    by_cases h : sd.syncDebugGameTime.getD idx 0 = T
    · rw [if_pos h]
      refine ⟨Nat.le_refl _, by omega, fun _ => h, ?_⟩
      intro n h1 h2
      omega
    · rw [if_neg h]
      obtain ⟨i1, i2, i3, i4⟩ := ih (idx + 1)
      refine ⟨by omega, by omega, ?_, ?_⟩
      · intro hlt
        exact i3 (by omega)
      · intro n h1 h2
        by_cases hn : n = idx
        · rw [hn]
          exact h
        · exact i4 n (by omega) h2

theorem checkDebugSync_find_first (sd : SyncDebug) (T k idx m : Nat) (h1 : idx ≤ m)
    (h2 : m < idx + k) (ht : sd.syncDebugGameTime.getD m 0 = T)
    (hf : ∀ n, idx ≤ n → n < m → sd.syncDebugGameTime.getD n 0 ≠ T) :
    checkDebugSync_find sd T k idx = m := by
  obtain ⟨i1, i2, i3, i4⟩ := checkDebugSync_find_spec sd T k idx
  by_cases hlt : checkDebugSync_find sd T k idx < m
  · exact absurd (i3 (by omega)) (hf _ i1 hlt)
  · by_cases hgt : m < checkDebugSync_find sd T k idx
    · exact absurd ht (i4 m h1 hgt)
    · omega

theorem checkDebugSync_find_none (sd : SyncDebug) (T k idx : Nat)
    (hf : ∀ n, idx ≤ n → n < idx + k → sd.syncDebugGameTime.getD n 0 ≠ T) :
    checkDebugSync_find sd T k idx = idx + k := by
  obtain ⟨i1, i2, i3, i4⟩ := checkDebugSync_find_spec sd T k idx
  by_cases hlt : checkDebugSync_find sd T k idx < idx + k
  · exact absurd (i3 hlt) (hf _ i1 hlt)
  · omega

theorem checkDebugSync_match (sd : SyncDebug) (T c j : Nat)
    (hopen : T ≠ sd.syncDebugGameTime.getD sd.syncDebugNext 0)
    (hj : j < MAX_SYNC_HISTORY + 1) (ht : sd.syncDebugGameTime.getD j 0 = T)
    (hf : ∀ n, n < j → sd.syncDebugGameTime.getD n 0 ≠ T)
    (hc : not32 (sd.syncDebugCrcs.getD j 0) = c) :
    checkDebugSync sd T c = (true, sd) := by
  have hfind : checkDebugSync_find sd T (MAX_SYNC_HISTORY + 1) 0 = j :=
    checkDebugSync_find_first sd T _ 0 j (Nat.zero_le _) (by omega) ht (fun n _ h => hf n h)
  unfold checkDebugSync
  rw [if_neg hopen]
  simp only [hfind]
  rw [if_pos ⟨hj, hc⟩]

theorem checkDebugSync_mismatch (sd : SyncDebug) (T c j : Nat)
    (hopen : T ≠ sd.syncDebugGameTime.getD sd.syncDebugNext 0)
    (hj : j < MAX_SYNC_HISTORY) (ht : sd.syncDebugGameTime.getD j 0 = T)
    (hf : ∀ n, n < j → sd.syncDebugGameTime.getD n 0 ≠ T)
    (hc : not32 (sd.syncDebugCrcs.getD j 0) ≠ c) :
    checkDebugSync sd T c = (false, eraseRecord sd j) := by
  have hfind : checkDebugSync_find sd T (MAX_SYNC_HISTORY + 1) 0 = j :=
    checkDebugSync_find_first sd T _ 0 j (Nat.zero_le _) (by omega) ht (fun n _ h => hf n h)
  unfold checkDebugSync
  rw [if_neg hopen]
  simp only [hfind]
  rw [if_neg (fun h => hc h.2), if_neg (by omega)]
  unfold eraseRecord
  by_cases hn : sd.numDumps < 5
  · simp only [if_pos hn]
  · simp only [if_neg hn]

theorem checkDebugSync_backup (sd : SyncDebug) (T c : Nat)
    (hopen : T ≠ sd.syncDebugGameTime.getD sd.syncDebugNext 0)
    (hf : ∀ n, n < MAX_SYNC_HISTORY → sd.syncDebugGameTime.getD n 0 ≠ T) :
    checkDebugSync sd T c =
      (decide (sd.syncDebugGameTime.getD MAX_SYNC_HISTORY 0 = T ∧
        not32 (sd.syncDebugCrcs.getD MAX_SYNC_HISTORY 0) = c), sd) := by
  unfold checkDebugSync
  rw [if_neg hopen]
  by_cases hb : sd.syncDebugGameTime.getD MAX_SYNC_HISTORY 0 = T
  · have hfind : checkDebugSync_find sd T (MAX_SYNC_HISTORY + 1) 0 = MAX_SYNC_HISTORY :=
      checkDebugSync_find_first sd T _ 0 MAX_SYNC_HISTORY (Nat.zero_le _) (by omega) hb
        (fun n _ h => hf n h)
    simp only [hfind]
    by_cases hc : not32 (sd.syncDebugCrcs.getD MAX_SYNC_HISTORY 0) = c
    · rw [if_pos ⟨by omega, hc⟩, decide_eq_true (And.intro hb hc)]
    · rw [if_neg (fun h => hc h.2), if_pos (Nat.le_refl _),
        decide_eq_false (fun h => hc h.2)]
  · have hfind : checkDebugSync_find sd T (MAX_SYNC_HISTORY + 1) 0 = MAX_SYNC_HISTORY + 1 := by
      have h := checkDebugSync_find_none sd T (MAX_SYNC_HISTORY + 1) 0 (by
        intro n _ h2
        by_cases hn : n = MAX_SYNC_HISTORY
        · rw [hn]
          exact hb
        · exact hf n (by omega))
      rw [h]
      omega
    simp only [hfind]
    rw [if_neg (fun h => absurd h.1 (Nat.lt_irrefl _)), if_pos (by omega),
      decide_eq_false (fun h => hb h.1)]

/-- C16, counterexample. After five dumps were sent in the session, the
record of game time 6 is still in the history (at index 5) and the checksum 0
differs from its checksum, yet `checkDebugSync(6, 0)` dumps nothing: it
returns false and the list of sent dumps is unchanged. -/
theorem checkDebugSync_divergent_not_dumped :
    fiveDumps.syncDebugGameTime.getD 5 0 = 6 ∧
      not32 (fiveDumps.syncDebugCrcs.getD 5 0) ≠ 0 ∧
      (checkDebugSync fiveDumps 6 0).1 = false ∧
      (checkDebugSync fiveDumps 6 0).2.sent = fiveDumps.sent := by
  decide

/-- C16, amended. For a game time `T` other than the one stored at the
open record: if the first record of game time `T` in the history has the
checksum `c`, `checkDebugSync(T, c)` returns true and changes nothing; if its
checksum differs, the call returns false, backs the record up and erases it,
and dumps its text only if fewer than 5 dumps were sent before; if no record of
the history has the game time `T`, nothing is dumped or changed, and the call
returns true exactly when the backup slot holds `T` with the checksum `c`, false
otherwise. -/
theorem checkDebugSync_three_cases (sd : SyncDebug) (T c : Nat)
    (hopen : T ≠ sd.syncDebugGameTime.getD sd.syncDebugNext 0) :
    (∀ j, j < MAX_SYNC_HISTORY → sd.syncDebugGameTime.getD j 0 = T →
      (∀ n, n < j → sd.syncDebugGameTime.getD n 0 ≠ T) →
      (not32 (sd.syncDebugCrcs.getD j 0) = c → checkDebugSync sd T c = (true, sd)) ∧
      (not32 (sd.syncDebugCrcs.getD j 0) ≠ c →
        checkDebugSync sd T c = (false, eraseRecord sd j) ∧
        (checkDebugSync sd T c).2.sent =
          if sd.numDumps < 5 then sd.sent ++ [syncDumpOf sd j] else sd.sent)) ∧
    ((∀ n, n < MAX_SYNC_HISTORY → sd.syncDebugGameTime.getD n 0 ≠ T) →
      (checkDebugSync sd T c).2 = sd ∧
      ((checkDebugSync sd T c).1 = true ↔
        sd.syncDebugGameTime.getD MAX_SYNC_HISTORY 0 = T ∧
          not32 (sd.syncDebugCrcs.getD MAX_SYNC_HISTORY 0) = c)) := by
  refine ⟨?_, ?_⟩
  · intro j hj ht hf
    refine ⟨?_, ?_⟩
    · intro hc
      exact checkDebugSync_match sd T c j hopen (by omega) ht hf hc
    · intro hc
      have h := checkDebugSync_mismatch sd T c j hopen hj ht hf hc
      refine ⟨h, ?_⟩
      rw [h]
      rfl
  · intro hf
    have h := checkDebugSync_backup sd T c hopen hf
    rw [h]
    refine ⟨rfl, ?_⟩
    exact decide_eq_true_iff

/-- C16, amended, in its three cases: the record of game time 6 with its own
checksum, the record of game time 1 of `oneTick` with another checksum, and the
game time 77 that no slot holds. -/
theorem checkDebugSync_three_cases_witness :
    checkDebugSync fiveDumps 6 4294967295 = (true, fiveDumps) ∧
      (checkDebugSync oneTick 1 0 = (false, eraseRecord oneTick 0) ∧
        (checkDebugSync oneTick 1 0).2.sent =
          if oneTick.numDumps < 5 then oneTick.sent ++ [syncDumpOf oneTick 0]
          else oneTick.sent) ∧
      ((checkDebugSync fiveDumps 77 0).2 = fiveDumps ∧
        ((checkDebugSync fiveDumps 77 0).1 = true ↔
          fiveDumps.syncDebugGameTime.getD MAX_SYNC_HISTORY 0 = 77 ∧
            not32 (fiveDumps.syncDebugCrcs.getD MAX_SYNC_HISTORY 0) = 0)) :=
  ⟨((checkDebugSync_three_cases fiveDumps 6 4294967295 (by decide)).1 5 (by decide)
      (by decide) (by decide)).1 (by decide),
   ((checkDebugSync_three_cases oneTick 1 0 (by decide)).1 0 (by decide)
      (by decide) (by decide)).2 (by decide),
   (checkDebugSync_three_cases fiveDumps 77 0 (by decide)).2 (by decide)⟩

theorem runChecks_stable (sd : SyncDebug) (T : Nat) (cs : List Nat)
    (hopen : T ≠ sd.syncDebugGameTime.getD sd.syncDebugNext 0)
    (hf : ∀ n, n < MAX_SYNC_HISTORY → sd.syncDebugGameTime.getD n 0 ≠ T)
    (hcs : ∀ c ∈ cs, not32 (sd.syncDebugCrcs.getD MAX_SYNC_HISTORY 0) ≠ c) :
    runChecks T cs sd = (List.replicate cs.length false, sd) := by
  induction cs with
  | nil => rfl
  | cons c cs ih =>
    have h := checkDebugSync_backup sd T c hopen hf
    have hd : decide (sd.syncDebugGameTime.getD MAX_SYNC_HISTORY 0 = T ∧
        not32 (sd.syncDebugCrcs.getD MAX_SYNC_HISTORY 0) = c) = false :=
      decide_eq_false (fun hc => hcs c (List.mem_cons_self c cs) hc.2)
    rw [hd] at h
    unfold runChecks
    simp only [h]
    rw [ih (fun c hc => hcs c (List.mem_cons_of_mem _ hc))]
    rfl

theorem eraseRecord_time (sd : SyncDebug) (j n : Nat)
    (hlen : sd.syncDebugGameTime.length = MAX_SYNC_HISTORY + 1) (hn : n < MAX_SYNC_HISTORY) :
    (eraseRecord sd j).syncDebugGameTime.getD n 0 =
      if n = j then 0 else sd.syncDebugGameTime.getD n 0 := by
  show ((sd.syncDebugGameTime.set MAX_SYNC_HISTORY (sd.syncDebugGameTime.getD j 0)).set j
    0).getD n 0 = _
  by_cases h : n = j
  · rw [if_pos h, h, list_getD_set_self]
    rw [List.length_set, hlen]
    omega
  · rw [if_neg h, list_getD_set_ne _ _ _ _ _ (fun e => h e.symm),
      list_getD_set_ne _ _ _ _ _ (by omega)]

theorem eraseRecord_backup_crc (sd : SyncDebug) (j : Nat) (hj : j < MAX_SYNC_HISTORY)
    (hlen : sd.syncDebugCrcs.length = MAX_SYNC_HISTORY + 1) :
    (eraseRecord sd j).syncDebugCrcs.getD MAX_SYNC_HISTORY 0 = sd.syncDebugCrcs.getD j 0 := by
  show ((sd.syncDebugCrcs.set MAX_SYNC_HISTORY (sd.syncDebugCrcs.getD j 0)).set j
    0).getD MAX_SYNC_HISTORY 0 = _
  rw [list_getD_set_ne _ _ _ _ _ (by omega), list_getD_set_self]
  rw [hlen]
  omega

/-- C17. Let `T`, not 0 and not the game time of the open record, be the
game time of exactly one record `j` of the history, and let every checksum of a
non-empty sequence differ from the checksum of that record. Then every call
`checkDebugSync(T, c)` of the sequence returns false, the whole sequence leaves
the recorder as the first call left it, with the record erased, and the list
of sent dumps has grown by the dump of the record if fewer than 5 dumps were
sent before, and by nothing otherwise: at most one dump in all. -/
theorem checkDebugSync_dumps_once (sd : SyncDebug) (T j : Nat) (cs : List Nat)
    (hT : T ≠ 0) (hnext : sd.syncDebugNext < MAX_SYNC_HISTORY)
    (hopen : T ≠ sd.syncDebugGameTime.getD sd.syncDebugNext 0)
    (hlenT : sd.syncDebugGameTime.length = MAX_SYNC_HISTORY + 1)
    (hlenC : sd.syncDebugCrcs.length = MAX_SYNC_HISTORY + 1)
    (hj : j < MAX_SYNC_HISTORY) (ht : sd.syncDebugGameTime.getD j 0 = T)
    (huniq : ∀ n, n < MAX_SYNC_HISTORY → n ≠ j → sd.syncDebugGameTime.getD n 0 ≠ T)
    (hcs : ∀ c ∈ cs, c ≠ not32 (sd.syncDebugCrcs.getD j 0)) (hne : cs ≠ []) :
    (runChecks T cs sd).1 = List.replicate cs.length false ∧
      (runChecks T cs sd).2 = (checkDebugSync sd T (cs.headD 0)).2 ∧
      (runChecks T cs sd).2.syncDebugGameTime.getD j 0 = 0 ∧
      (runChecks T cs sd).2.sent =
        if sd.numDumps < 5 then sd.sent ++ [syncDumpOf sd j] else sd.sent := by
  cases cs with
  | nil => exact absurd rfl hne
  | cons c cs =>
    have hc : not32 (sd.syncDebugCrcs.getD j 0) ≠ c :=
      fun e => hcs c (List.mem_cons_self c cs) e.symm
    have h1 := checkDebugSync_mismatch sd T c j hopen hj ht
      (fun n hn => huniq n (by omega) (by omega)) hc
    have hjn : sd.syncDebugNext ≠ j := by
      intro e
      rw [e] at hopen
      exact hopen ht.symm
    have hopen1 : T ≠ (eraseRecord sd j).syncDebugGameTime.getD
        (eraseRecord sd j).syncDebugNext 0 := by
      show T ≠ (eraseRecord sd j).syncDebugGameTime.getD sd.syncDebugNext 0
      rw [eraseRecord_time sd j _ hlenT hnext, if_neg hjn]
      exact hopen
    have hf1 : ∀ n, n < MAX_SYNC_HISTORY →
        (eraseRecord sd j).syncDebugGameTime.getD n 0 ≠ T := by
      intro n hn
      rw [eraseRecord_time sd j n hlenT hn]
      by_cases e : n = j
      · rw [if_pos e]
        exact fun h => hT h.symm
      · rw [if_neg e]
        exact huniq n hn e
    have hcs1 : ∀ c ∈ cs, not32 ((eraseRecord sd j).syncDebugCrcs.getD MAX_SYNC_HISTORY 0) ≠ c := by
      intro c hc e
      rw [eraseRecord_backup_crc sd j hj hlenC] at e
      exact hcs c (List.mem_cons_of_mem _ hc) e.symm
    have h2 := runChecks_stable (eraseRecord sd j) T cs hopen1 hf1 hcs1
    have hrun : runChecks T (c :: cs) sd =
        (List.replicate (c :: cs).length false, eraseRecord sd j) := by
      unfold runChecks
      simp only [h1, h2]
      rfl
    rw [hrun]
    refine ⟨rfl, ?_, ?_, rfl⟩
    · show eraseRecord sd j = (checkDebugSync sd T c).2
      rw [h1]
    · show (eraseRecord sd j).syncDebugGameTime.getD j 0 = 0
      rw [eraseRecord_time sd j j hlenT hj, if_pos rfl]

/-- C17 for three calls with differing checksums on the record of `oneTick`. -/
theorem checkDebugSync_dumps_once_witness :
    (runChecks 1 [0, 5, 0] oneTick).1 = List.replicate [0, 5, 0].length false ∧
      (runChecks 1 [0, 5, 0] oneTick).2 = (checkDebugSync oneTick 1 ([0, 5, 0].headD 0)).2 ∧
      (runChecks 1 [0, 5, 0] oneTick).2.syncDebugGameTime.getD 0 0 = 0 ∧
      (runChecks 1 [0, 5, 0] oneTick).2.sent =
        if oneTick.numDumps < 5 then oneTick.sent ++ [syncDumpOf oneTick 0] else oneTick.sent :=
  checkDebugSync_dumps_once oneTick 1 0 [0, 5, 0] (by decide) (by decide) (by decide) (by decide)
    (by decide) (by decide) (by decide) (by decide) (by decide) (by decide)

theorem nextDebugSync_time (sd : SyncDebug) (g : Nat) :
    (nextDebugSync sd g).2.syncDebugGameTime =
      (sd.syncDebugGameTime.set sd.syncDebugNext g).set
        ((sd.syncDebugNext + 1) % MAX_SYNC_HISTORY) 0 := rfl

theorem nextDebugSync_crcs (sd : SyncDebug) (g : Nat) :
    (nextDebugSync sd g).2.syncDebugCrcs =
      sd.syncDebugCrcs.set ((sd.syncDebugNext + 1) % MAX_SYNC_HISTORY) 0 := rfl

theorem nextDebugSync_next (sd : SyncDebug) (g : Nat) :
    (nextDebugSync sd g).2.syncDebugNext = (sd.syncDebugNext + 1) % MAX_SYNC_HISTORY := rfl

theorem nextDebugSync_held_first (sd : SyncDebug) (T : Nat) (hT : T ≠ 0)
    (hnext : sd.syncDebugNext < MAX_SYNC_HISTORY)
    (hlenT : sd.syncDebugGameTime.length = MAX_SYNC_HISTORY + 1)
    (hother : ∀ n, n < MAX_SYNC_HISTORY + 1 → n ≠ sd.syncDebugNext →
      sd.syncDebugGameTime.getD n 0 ≠ T) :
    RecordHeld (nextDebugSync sd T).2 T (sd.syncDebugCrcs.getD sd.syncDebugNext 0)
      sd.syncDebugNext (MAX_SYNC_HISTORY - 1) := by
  have h12 : MAX_SYNC_HISTORY = 12 := rfl
  have hne : (sd.syncDebugNext + 1) % MAX_SYNC_HISTORY ≠ sd.syncDebugNext := by
    rw [h12] at hnext ⊢
    omega
  refine ⟨?_, hnext, ?_, ?_, ?_, ?_, ?_⟩
  · rw [nextDebugSync_next, h12]
    omega
  · rw [nextDebugSync_next]
    rw [h12] at hnext ⊢
    omega
  · rw [nextDebugSync_time, List.length_set, List.length_set]
    exact hlenT
  · rw [nextDebugSync_time, list_getD_set_ne _ _ _ _ _ hne, list_getD_set_self]
    rw [hlenT]
    omega
  · rw [nextDebugSync_crcs, list_getD_set_ne _ _ _ _ _ hne]
  · intro n hn hnp
    rw [nextDebugSync_time, list_getD_set]
    split
    · exact fun h => hT h.symm
    · rw [list_getD_set_ne _ _ _ _ _ (fun e => hnp e.symm)]
      exact hother n hn hnp

theorem nextDebugSync_held_step (sd : SyncDebug) (T crc p d g : Nat) (hT : T ≠ 0)
    (hg : g ≠ T) (hd : 2 ≤ d) (hd2 : d ≤ MAX_SYNC_HISTORY - 1)
    (h : RecordHeld sd T crc p d) : RecordHeld (nextDebugSync sd g).2 T crc p (d - 1) := by
  have h12 : MAX_SYNC_HISTORY = 12 := rfl
  obtain ⟨i1, i2, i3, i4, i5, i6, i7⟩ := h
  rw [h12] at i1 i2 i3 hd2
  have hne : (sd.syncDebugNext + 1) % MAX_SYNC_HISTORY ≠ p := by
    rw [h12]
    omega
  have hne2 : sd.syncDebugNext ≠ p := by omega
  refine ⟨?_, ?_, ?_, ?_, ?_, ?_, ?_⟩
  · rw [nextDebugSync_next, h12]
    omega
  · rw [h12]
    exact i2
  · rw [nextDebugSync_next, h12]
    omega
  · rw [nextDebugSync_time, List.length_set, List.length_set]
    exact i4
  · rw [nextDebugSync_time, list_getD_set_ne _ _ _ _ _ hne,
      list_getD_set_ne _ _ _ _ _ hne2]
    exact i5
  · rw [nextDebugSync_crcs, list_getD_set_ne _ _ _ _ _ hne]
    exact i6
  · intro n hn hnp
    rw [nextDebugSync_time, list_getD_set]
    split
    · exact fun e => hT e.symm
    · rw [list_getD_set]
      split
      · exact hg
      · exact i7 n hn hnp

theorem nextDebugSync_held_last (sd : SyncDebug) (T crc p g : Nat) (hT : T ≠ 0)
    (hg : g ≠ T) (h : RecordHeld sd T crc p 1) : RecordEvicted (nextDebugSync sd g).2 T := by
  have h12 : MAX_SYNC_HISTORY = 12 := rfl
  obtain ⟨i1, i2, i3, i4, i5, i6, i7⟩ := h
  refine ⟨?_, ?_, ?_⟩
  · rw [nextDebugSync_next, h12]
    omega
  · rw [nextDebugSync_time, List.length_set, List.length_set]
    exact i4
  · intro n hn
    rw [nextDebugSync_time, list_getD_set]
    split
    · exact fun e => hT e.symm
    · rename_i hc
      have hnp : n ≠ p := by
        intro e
        apply hc
        refine ⟨by rw [i3, e], ?_⟩
        rw [List.length_set, i4, i3]
        omega
      rw [list_getD_set]
      split
      · exact hg
      · exact i7 n hn hnp

theorem nextDebugSync_evicted (sd : SyncDebug) (T g : Nat) (hT : T ≠ 0) (hg : g ≠ T)
    (h : RecordEvicted sd T) : RecordEvicted (nextDebugSync sd g).2 T := by
  have h12 : MAX_SYNC_HISTORY = 12 := rfl
  obtain ⟨i1, i2, i3⟩ := h
  refine ⟨?_, ?_, ?_⟩
  · rw [nextDebugSync_next, h12]
    omega
  · rw [nextDebugSync_time, List.length_set, List.length_set]
    exact i2
  · intro n hn
    rw [nextDebugSync_time, list_getD_set]
    split
    · exact fun e => hT e.symm
    · rw [list_getD_set]
      split
      · exact hg
      · exact i3 n hn

theorem runNext_evicted (gs : List Nat) (sd : SyncDebug) (T : Nat) (hT : T ≠ 0)
    (hgs : ∀ g ∈ gs, g ≠ T) (h : RecordEvicted sd T) : RecordEvicted (runNext gs sd) T := by
  induction gs generalizing sd with
  | nil => exact h
  | cons g gs ih =>
    exact ih _ (fun x hx => hgs x (List.mem_cons_of_mem _ hx))
      (nextDebugSync_evicted sd T g hT (hgs g (List.mem_cons_self g gs)) h)

theorem runNext_held (gs : List Nat) (sd : SyncDebug) (T crc p d : Nat) (hT : T ≠ 0)
    (hgs : ∀ g ∈ gs, g ≠ T) (hd : 1 ≤ d) (hd2 : d ≤ MAX_SYNC_HISTORY - 1)
    (h : RecordHeld sd T crc p d) :
    (gs.length < d → RecordHeld (runNext gs sd) T crc p (d - gs.length)) ∧
      (d ≤ gs.length → RecordEvicted (runNext gs sd) T) := by
  induction gs generalizing sd d with
  | nil =>
    refine ⟨fun _ => h, ?_⟩
    intro hle
    have hle2 : d ≤ 0 := hle
    omega
  | cons g gs ih =>
    have hg := hgs g (List.mem_cons_self g gs)
    have hrest : ∀ x ∈ gs, x ≠ T := fun x hx => hgs x (List.mem_cons_of_mem _ hx)
    by_cases h1 : d = 1
    · rw [h1] at h
      have he := nextDebugSync_held_last sd T crc p g hT hg h
      refine ⟨?_, ?_⟩
      · intro hlt
        rw [List.length_cons] at hlt
        omega
      · intro _
        exact runNext_evicted gs _ T hT hrest he
    · have hs := nextDebugSync_held_step sd T crc p d g hT hg (by omega) hd2 h
      have hi := ih (nextDebugSync sd g).2 (d - 1) hrest (by omega) (by omega) hs
      refine ⟨?_, ?_⟩
      · intro hlt
        rw [List.length_cons] at hlt ⊢
        have e : d - (gs.length + 1) = d - 1 - gs.length := by omega
        rw [e]
        exact hi.1 (by omega)
      · intro hle
        rw [List.length_cons] at hle
        exact hi.2 (by omega)

theorem checkDebugSync_held (sd : SyncDebug) (T crc p d : Nat) (hd : 1 ≤ d)
    (hd2 : d ≤ MAX_SYNC_HISTORY - 1) (h : RecordHeld sd T crc p d) :
    checkDebugSync sd T (not32 crc) = (true, sd) := by
  have h12 : MAX_SYNC_HISTORY = 12 := rfl
  obtain ⟨i1, i2, i3, i4, i5, i6, i7⟩ := h
  have hne : sd.syncDebugNext ≠ p := by
    rw [h12] at i1 i2 i3 hd2
    omega
  refine checkDebugSync_match sd T (not32 crc) p ?_ (by omega) i5 ?_ ?_
  · exact fun e => i7 sd.syncDebugNext (by omega) hne e.symm
  · intro n hn
    exact i7 n (by omega) (by omega)
  · rw [i6]

theorem checkDebugSync_evicted (sd : SyncDebug) (T c : Nat) (h : RecordEvicted sd T) :
    checkDebugSync sd T c = (false, sd) := by
  obtain ⟨i1, i2, i3⟩ := h
  have hb := checkDebugSync_backup sd T c
    (fun e => i3 sd.syncDebugNext (by omega) e.symm) (fun n hn => i3 n (by omega))
  rw [hb, decide_eq_false (fun hc => i3 MAX_SYNC_HISTORY (by omega) hc.1)]

/-- C19. Let `nextDebugSync` finalize the open record at a game time `T`,
not 0, that no other slot holds, and let further calls of `nextDebugSync` follow
at game times other than `T`. After at most `MAX_SYNC_HISTORY - 2` further calls
`checkDebugSync` of `T` and the returned checksum returns true and changes
nothing; after `MAX_SYNC_HISTORY - 1` further calls or more, `checkDebugSync(T, c)`
returns false and changes nothing for every `c`; and `syncDebugNext` is below
`MAX_SYNC_HISTORY` after each of the calls. -/
theorem sync_history_ring (sd : SyncDebug) (T : Nat) (gs : List Nat) (hT : T ≠ 0)
    (hnext : sd.syncDebugNext < MAX_SYNC_HISTORY)
    (hlenT : sd.syncDebugGameTime.length = MAX_SYNC_HISTORY + 1)
    (hother : ∀ n, n < MAX_SYNC_HISTORY + 1 → n ≠ sd.syncDebugNext →
      sd.syncDebugGameTime.getD n 0 ≠ T)
    (hgs : ∀ g ∈ gs, g ≠ T) :
    (gs.length ≤ MAX_SYNC_HISTORY - 2 →
      checkDebugSync (runNext gs (nextDebugSync sd T).2) T (nextDebugSync sd T).1 =
        (true, runNext gs (nextDebugSync sd T).2)) ∧
    (MAX_SYNC_HISTORY - 1 ≤ gs.length →
      ∀ c, checkDebugSync (runNext gs (nextDebugSync sd T).2) T c =
        (false, runNext gs (nextDebugSync sd T).2)) ∧
    (nextDebugSync sd T).2.syncDebugNext < MAX_SYNC_HISTORY ∧
    (runNext gs (nextDebugSync sd T).2).syncDebugNext < MAX_SYNC_HISTORY := by
  have h12 : MAX_SYNC_HISTORY = 12 := rfl
  have h0 := nextDebugSync_held_first sd T hT hnext hlenT hother
  have hrun := runNext_held gs (nextDebugSync sd T).2 T
    (sd.syncDebugCrcs.getD sd.syncDebugNext 0) sd.syncDebugNext (MAX_SYNC_HISTORY - 1) hT hgs
    (by rw [h12]; omega) (Nat.le_refl _) h0
  refine ⟨?_, ?_, h0.1, ?_⟩
  · intro hlen
    have hh := hrun.1 (by rw [h12] at hlen ⊢; omega)
    exact checkDebugSync_held _ T _ _ _ (by rw [h12] at hlen ⊢; omega) (by omega) hh
  · intro hlen c
    exact checkDebugSync_evicted _ T c (hrun.2 hlen)
  · by_cases hlen : gs.length < MAX_SYNC_HISTORY - 1
    · exact (hrun.1 hlen).1
    · exact (hrun.2 (by omega)).1

/-- C19 on a fresh session for a tick finalized at game time 7: verifiable
after two further ticks, evicted after eleven. -/
theorem sync_history_ring_witness :
    (checkDebugSync (runNext [8, 9] (nextDebugSync syncStart 7).2) 7
        (nextDebugSync syncStart 7).1 = (true, runNext [8, 9] (nextDebugSync syncStart 7).2)) ∧
      (∀ c, checkDebugSync
          (runNext [8, 9, 10, 11, 12, 13, 14, 15, 16, 17, 18] (nextDebugSync syncStart 7).2) 7 c =
        (false, runNext [8, 9, 10, 11, 12, 13, 14, 15, 16, 17, 18]
          (nextDebugSync syncStart 7).2)) ∧
      (runNext [8, 9] (nextDebugSync syncStart 7).2).syncDebugNext < MAX_SYNC_HISTORY :=
  ⟨(sync_history_ring syncStart 7 [8, 9] (by decide) (by decide) (by decide) (by decide)
      (by decide)).1 (by decide),
   (sync_history_ring syncStart 7 [8, 9, 10, 11, 12, 13, 14, 15, 16, 17, 18] (by decide)
      (by decide) (by decide) (by decide) (by decide)).2.1 (by decide),
   (sync_history_ring syncStart 7 [8, 9] (by decide) (by decide) (by decide) (by decide)
      (by decide)).2.2.2⟩

/-! ## Polling cycles and dropped players -/

/-- C15, the code at the failing input. Slot 1 of `timedOutHost` is allocated, its
heartbeat is false and its timer, started at 1000, has run out at the time
20000. The polling cycle at 20000, in which no socket has anything to read,
drops the slot: one `NET_PLAYER_DROPPED` for slot 1 is sent and the slot is
unallocated, but its socket stays in `connected_bsocket[1]`. In the cycle at
20100 the socket loop of `NETrecvNet` finds that socket closed and drops the
slot again: a second `NET_PLAYER_DROPPED` for slot 1 is sent. -/
theorem NETrecvNet_drops_twice :
    (timedOutHost.player 1).allocated = true ∧ (timedOutHost.player 1).heartbeat = false ∧
    droppedNotices timedOutHost.out = [] ∧
    (NETrecvNet wzConstants quietJoinEnv quietEnv timedOutHost 20000).map
        (fun r => (droppedNotices r.2.out, (r.2.player 1).allocated,
          r.2.connected_bsocket.getD 1 none))
      = some ([1], false, some 9) ∧
    ((NETrecvNet wzConstants quietJoinEnv quietEnv timedOutHost 20000).bind
        (fun r => NETrecvNet wzConstants quietJoinEnv (closedEnv 9) r.2 20100)).map
        (fun r => droppedNotices r.2.out)
      = some [1, 1] := by
  refine ⟨by decide, by decide, by decide, ?_, ?_⟩
  · set_option maxRecDepth 4000 in decide
  · set_option maxRecDepth 4000 in decide

/-! ## Loss of the host -/

theorem NET_InitPlayer_link (cfg : NetConstants) (s : NetState) (i : Nat) (b : Bool) :
    (NET_InitPlayer cfg s i b).link = s.link := rfl

theorem NET_DestroyPlayer_link (cfg : NetConstants) (s : NetState) (index : Nat) :
    (NET_DestroyPlayer cfg s index).link = s.link := by
  unfold NET_DestroyPlayer
  simp only
  rw [NET_InitPlayer_link]
  split
  · split <;> rfl
  · rfl

theorem NETsetPlayerConnectionStatus_clear_link (player : Nat) (ns : List Nat) (s : NetState) :
    (NETsetPlayerConnectionStatus_clear player ns s).link = s.link := by
  induction ns generalizing s with
  | nil => rfl
  | cons n ns ih => exact ih _

theorem NETsetPlayerConnectionStatus_single_link (cfg : NetConstants) (s : NetState)
    (status player : Nat) :
    (NETsetPlayerConnectionStatus_single cfg s status player).link = s.link := by
  unfold NETsetPlayerConnectionStatus_single
  split
  · exact NETsetPlayerConnectionStatus_clear_link _ _ _
  · rfl

theorem NETsetPlayerConnectionStatus_all_link (cfg : NetConstants) (status : Nat)
    (ns : List Nat) (s : NetState) :
    (NETsetPlayerConnectionStatus_all cfg status ns s).link = s.link := by
  induction ns generalizing s with
  | nil => rfl
  | cons n ns ih =>
    exact (ih _).trans (NETsetPlayerConnectionStatus_single_link cfg s status n)

theorem NETsetPlayerConnectionStatus_link (cfg : NetConstants) (s : NetState)
    (status player : Nat) :
    (NETsetPlayerConnectionStatus cfg s status player).link = s.link := by
  unfold NETsetPlayerConnectionStatus
  split
  · exact NETsetPlayerConnectionStatus_single_link _ _ _ _
  · split
    · exact NETsetPlayerConnectionStatus_all_link _ _ _ _
    · exact NETsetPlayerConnectionStatus_single_link _ _ _ _

theorem NETplayerLeaving_link (cfg : NetConstants) (s : NetState) (index : Nat) :
    (NETplayerLeaving cfg s index).link = s.link := by
  unfold NETplayerLeaving
  simp only
  rw [NET_DestroyPlayer_link]
  split <;> rfl

theorem hostLost_iff (s : NetState) :
    HostLost s ↔
      s.isHost = false ∧ s.isHostAlive = false ∧ s.tcp_socket = none ∧ s.bsocket = none := by
  unfold HostLost NetState.link
  constructor
  · intro h
    injection h with h1 h
    injection h with h2 h
    injection h with h3 h4
    exact ⟨h1, h2, h3, h4⟩
  · rintro ⟨h1, h2, h3, h4⟩
    rw [h1, h2, h3, h4]

theorem hostLost_of_link {s s' : NetState} (h : s'.link = s.link) (hs : HostLost s) :
    HostLost s' := by
  unfold HostLost at hs ⊢
  rw [h, hs]

theorem lostKept_of_link {s s' : NetState} (h : s'.link = s.link) : LostKept s s' :=
  fun hs => hostLost_of_link h hs

theorem lostKept_refl (s : NetState) : LostKept s s := fun hs => hs

theorem lostKept_trans (a b c : NetState) (h : LostKept a b) (h' : LostKept b c) :
    LostKept a c := fun hs => h' (h hs)

theorem lostKept_sendSteps (cfg : NetConstants) : SendSteps cfg LostKept where
  refl := lostKept_refl
  trans := lostKept_trans
  write := fun _ _ _ => lostKept_of_link rfl
  drop := fun _ _ _ => lostKept_of_link rfl
  relay := fun _ _ _ _ _ => lostKept_of_link rfl
  leave := fun t i _ _ => lostKept_of_link (NETplayerLeaving_link cfg t i)
  lost := by
    intro t sock _ _ hs
    obtain ⟨h1, _, _, _⟩ := (hostLost_iff t).1 hs
    rw [hostLost_iff]
    exact ⟨h1, rfl, rfl, rfl⟩

theorem lostKept_nameSteps : NameSteps LostKept where
  info := fun _ _ _ _ => lostKept_of_link rfl
  lobby := fun _ _ _ => lostKept_of_link rfl
  rename := fun _ _ _ => lostKept_of_link rfl

theorem lostKept_frame (cfg : NetConstants) (env : SocketEnv) : SendFrame cfg env LostKept :=
  sendFrame_of_steps cfg env (lostKept_sendSteps cfg)

/-- A send on a client that has lost its host leaves the host lost. -/
theorem NETend_lost (cfg : NetConstants) (env : SocketEnv) (s : NetState) (q : NETQUEUE)
    (m : NetMessage) : LostKept s (NETend cfg env s q m) :=
  lostKept_trans _ _ _ (lostKept_of_link rfl) ((lostKept_frame cfg env).send s q m)

theorem NETplayerDropped_lost (cfg : NetConstants) (env : SocketEnv) (s : NetState)
    (index : Nat) : LostKept s (NETplayerDropped cfg env s index) := by
  refine lostKept_trans _ _ _ (NETend_lost cfg env s .broadcast (.NET_PLAYER_DROPPED index)) ?_
  refine lostKept_of_link ?_
  unfold NETplayerDropped
  simp only
  rw [NETsetPlayerConnectionStatus_link, NET_DestroyPlayer_link]
  rfl

theorem namesOnly_link {s s' : NetState} (h : NamesOnly s s') : s'.link = s.link := by
  have h2 := congrArg NetState.link h.2.1
  exact h2

theorem insertNetMessage_link (s : NetState) (q : Nat) (queue : List NetMessage) (index : Nat)
    (message : NetMessage) : (insertNetMessage s q queue index message).2.link = s.link := by
  unfold insertNetMessage
  split <;> rfl

theorem NETprocessSystemMessage_SEND_TO_PLAYER_lost (cfg : NetConstants) (env : SocketEnv)
    (s : NetState) (q : Nat) (rest : List NetMessage) (sender receiver : Nat)
    (message : NetMessage) (complete : Bool) :
    LostKept s
      (NETprocessSystemMessage_SEND_TO_PLAYER cfg env s q rest sender receiver message
        complete).2 := by
  unfold NETprocessSystemMessage_SEND_TO_PLAYER
  split
  · exact lostKept_refl s
  · split
    · split
      · exact lostKept_of_link (insertNetMessage_link _ _ _ _ _)
      · exact lostKept_refl s
    · split
      · simp only
        refine lostKept_trans _ _ _
          (NETend_lost cfg env s (.net receiver)
            (.NET_SEND_TO_PLAYER sender receiver message true)) ?_
        split
        · exact lostKept_of_link (insertNetMessage_link _ _ _ _ _)
        · exact lostKept_refl _
      · exact lostKept_refl s

theorem NETprocessSystemMessage_SHARE_GAME_QUEUE_link (s : NetState) (player num : Nat)
    (messages : List RawMessage) :
    (NETprocessSystemMessage_SHARE_GAME_QUEUE s player num messages).link = s.link := by
  unfold NETprocessSystemMessage_SHARE_GAME_QUEUE
  generalize readMessages num messages = ms
  induction ms generalizing s with
  | nil => rfl
  | cons m ms ih => exact ih _

theorem playerInfoApply_link (cfg : NetConstants) (s : NetState) (q : Nat)
    (e : PlayerInfoEntry) : (playerInfoApply cfg s q e).link = s.link := by
  unfold playerInfoApply
  simp only
  split <;> rfl

theorem playerInfoLoop_link (cfg : NetConstants) (q : Nat) (es : List PlayerInfoEntry)
    (s : NetState) (index : Nat) : (playerInfoLoop cfg q es s index).1.link = s.link := by
  induction es generalizing s index with
  | nil => rfl
  | cons e es ih =>
    unfold playerInfoLoop
    split
    · rfl
    · exact (ih _ _).trans (playerInfoApply_link cfg s q e)

theorem NETprocessSystemMessage_PLAYER_INFO_lost (cfg : NetConstants) (env : SocketEnv)
    (s : NetState) (q : Nat) (indexLen : Nat) (entries : List PlayerInfoEntry) :
    LostKept s (NETprocessSystemMessage_PLAYER_INFO cfg env s q indexLen entries) := by
  unfold NETprocessSystemMessage_PLAYER_INFO
  split
  · exact lostKept_refl s
  · simp only
    have h := playerInfoLoop_link cfg q (readEntries indexLen entries) s cfg.MAX_PLAYERS
    refine lostKept_trans _ _ _ (lostKept_of_link h) ?_
    split
    · refine lostKept_trans _ _ _ ?_ (lostKept_of_link rfl)
      exact lostKept_trans _ _ _
        (NETBroadcastPlayerInfo_frame cfg env (lostKept_frame cfg env) lostKept_nameSteps.info
          _ _)
        (NETfixDuplicatePlayerNames_frame cfg env (lostKept_frame cfg env) lostKept_nameSteps _)
    · exact lostKept_of_link rfl

theorem NETprocessSystemMessage_PLAYER_LEAVING_lost (cfg : NetConstants) (env : SocketEnv)
    (s : NetState) (q index : Nat) :
    LostKept s (NETprocessSystemMessage_PLAYER_LEAVING cfg env s q index) := by
  unfold NETprocessSystemMessage_PLAYER_LEAVING
  simp only
  refine lostKept_trans _ _ _ ?_
    (lostKept_of_link ((NETsetPlayerConnectionStatus_link cfg _ _ _).trans
      (NETplayerLeaving_link cfg _ _)))
  split
  · exact NETend_lost cfg env s _ _
  · exact lostKept_refl s

theorem NETprocessSystemMessage_GAME_FLAGS_loop_link (flags : List Int) (is : List Nat)
    (s : NetState) : (NETprocessSystemMessage_GAME_FLAGS_loop flags is s).link = s.link := by
  induction is generalizing s with
  | nil => rfl
  | cons i is ih => exact ih _

theorem NETprocessSystemMessage_GAME_FLAGS_lost (cfg : NetConstants) (env : SocketEnv)
    (s : NetState) (count : Nat) (flags : List Int) :
    LostKept s (NETprocessSystemMessage_GAME_FLAGS cfg env s count flags) := by
  unfold NETprocessSystemMessage_GAME_FLAGS
  simp only
  have h := NETprocessSystemMessage_GAME_FLAGS_loop_link flags
    (NETprocessSystemMessage_GAME_FLAGS_indices count) s
  refine lostKept_trans _ _ _ (lostKept_of_link h) ?_
  split
  · exact NETend_lost cfg env _ _ _
  · exact lostKept_refl _

theorem NETprocessSystemMessage_lost (cfg : NetConstants) (env : SocketEnv) (s : NetState)
    (q : Nat) (queue : List NetMessage) :
    LostKept s (NETprocessSystemMessage cfg env s q queue).2.2 := by
  unfold NETprocessSystemMessage
  split
  · exact NETprocessSystemMessage_SEND_TO_PLAYER_lost _ _ _ _ _ _ _ _ _
  · exact lostKept_of_link (NETprocessSystemMessage_SHARE_GAME_QUEUE_link _ _ _ _)
  · exact lostKept_refl s
  · exact NETprocessSystemMessage_PLAYER_INFO_lost _ _ _ _ _ _
  · exact lostKept_refl s
  · exact NETprocessSystemMessage_PLAYER_LEAVING_lost _ _ _ _ _
  · exact NETprocessSystemMessage_GAME_FLAGS_lost _ _ _ _ _
  · exact lostKept_refl s
  · exact lostKept_refl s

theorem NETrecvNet_while_lost (cfg : NetConstants) (env : SocketEnv) (current fuel : Nat)
    (queue : List NetMessage) (s : NetState) :
    LostKept s (NETrecvNet_while cfg env current fuel queue s).2.2 := by
  induction fuel generalizing queue s with
  | zero => exact lostKept_refl s
  | succ fuel ih =>
    unfold NETrecvNet_while
    split
    · exact lostKept_refl s
    · simp only
      split
      · exact NETprocessSystemMessage_lost cfg env s current queue
      · exact lostKept_trans _ _ _ (NETprocessSystemMessage_lost cfg env s current queue)
          (ih _ _)

theorem NETrecvNet_messages_lost (cfg : NetConstants) (env : SocketEnv) (cs : List Nat)
    (s : NetState) : LostKept s (NETrecvNet_messages cfg env cs s).2 := by
  induction cs generalizing s with
  | nil => exact lostKept_refl s
  | cons current cs ih =>
    unfold NETrecvNet_messages
    simp only
    have h := NETrecvNet_while_lost cfg env current (queueWeight (s.netQueues.getD current []))
      (s.netQueues.getD current []) s
    have h' : LostKept s
        { (NETrecvNet_while cfg env current (queueWeight (s.netQueues.getD current []))
            (s.netQueues.getD current []) s).2.2 with
          netQueues := (NETrecvNet_while cfg env current
            (queueWeight (s.netQueues.getD current []))
            (s.netQueues.getD current []) s).2.2.netQueues.set current
              (NETrecvNet_while cfg env current (queueWeight (s.netQueues.getD current []))
                (s.netQueues.getD current []) s).2.1 } :=
      lostKept_trans _ _ _ h (lostKept_of_link rfl)
    split
    · exact h'
    · exact lostKept_trans _ _ _ h' (ih _)

theorem NETcheckPlayers_kick_lost (cfg : NetConstants) (env : SocketEnv) (t : NetState)
    (i : Nat) : LostKept t (if (t.player i).kick then NETplayerDropped cfg env t i else t) := by
  split
  · exact NETplayerDropped_lost _ _ _ _
  · exact lostKept_refl t

theorem NETcheckPlayers_slot_lost (cfg : NetConstants) (env : SocketEnv) (gameTime2 : Nat)
    (s : NetState) (i : Nat) : LostKept s (NETcheckPlayers_slot cfg env gameTime2 s i) := by
  unfold NETcheckPlayers_slot
  split
  · exact lostKept_refl s
  · simp only
    refine lostKept_trans _ _ _ ?_ (NETcheckPlayers_kick_lost cfg env _ i)
    split
    · exact lostKept_of_link rfl
    · split
      · exact lostKept_of_link rfl
      · exact lostKept_refl s

theorem NETcheckPlayers_lost (cfg : NetConstants) (env : SocketEnv) (s : NetState)
    (gameTime2 : Nat) : LostKept s (NETcheckPlayers cfg env s gameTime2) := by
  unfold NETcheckPlayers
  generalize List.range cfg.MAX_PLAYERS = l
  induction l generalizing s with
  | nil => exact lostKept_refl s
  | cons i l ih =>
    exact lostKept_trans _ _ _ (NETcheckPlayers_slot_lost cfg env gameTime2 s i) (ih _)

theorem NETclose_players_link (cfg : NetConstants) (is : List Nat) (s : NetState) :
    (NETclose_players cfg is s).link = s.link := by
  induction is generalizing s with
  | nil => rfl
  | cons i is ih =>
    unfold NETclose_players
    simp only
    rw [ih, NET_DestroyPlayer_link]
    split <;> rfl

theorem NETclose_tmp_link (is : List Nat) (s : NetState) :
    (NETclose_tmp is s).link = s.link := by
  induction is generalizing s with
  | nil => rfl
  | cons i is ih =>
    unfold NETclose_tmp
    simp only
    rw [ih]
    split <;> rfl

theorem NETclose_link (cfg : NetConstants) (s : NetState) :
    (NETclose cfg s).link = (false, s.isHostAlive, none, none) := by
  unfold NETclose
  simp only
  have h := (NETclose_tmp_link (List.range cfg.MAX_TMP_SOCKETS) _).trans
    (NETclose_players_link cfg (List.range cfg.MAX_CONNECTED_PLAYERS)
      { { (NEThaltJoining s) with isHost := false, allow_joining := false } with bsocket := none })
  have h1 := congrArg (fun l => l.1) h
  have h2 := congrArg (fun l => l.2.1) h
  have h3 := congrArg (fun l => l.2.2.2) h
  simp only [NetState.link] at h1 h2 h3
  split
  · simp only [NetState.link, NetState.emit, h1, h2, h3]
    rfl
  · rename_i hn
    simp only [NetState.link, h1, h2, h3, hn]
    rfl

theorem NETrecvNet_socket_lost (cfg : NetConstants) (env : SocketEnv) (s : NetState)
    (current : Nat) (hs : HostLost s) : NETrecvNet_socket cfg env s current = s := by
  obtain ⟨h1, _, _, h4⟩ := (hostLost_iff s).1 hs
  unfold NETrecvNet_socket
  simp only [h1, Bool.false_eq_true, if_false, SocketRef.get, h4]
  split <;> rfl

theorem NETrecvNet_sockets_lost (cfg : NetConstants) (env : SocketEnv) (s : NetState)
    (hs : HostLost s) : NETrecvNet_sockets cfg env s = s := by
  unfold NETrecvNet_sockets
  generalize List.range cfg.MAX_CONNECTED_PLAYERS = l
  induction l with
  | nil => rfl
  | cons c l ih =>
    rw [List.foldl_cons, NETrecvNet_socket_lost cfg env s c hs]
    exact ih

theorem NETrecvNet_poll_lost (cfg : NetConstants) (env : SocketEnv) (s : NetState)
    (gameTime2 : Nat) (hs : HostLost s) : HostLost (NETrecvNet_poll cfg env s gameTime2).2 := by
  unfold NETrecvNet_poll
  have hc : HostLost (NETcheckPlayers cfg env s gameTime2) :=
    NETcheckPlayers_lost cfg env s gameTime2 hs
  refine NETrecvNet_messages_lost cfg env _ _ ?_
  split
  · exact hc
  · rw [NETrecvNet_sockets_lost cfg env _ hc]
    exact hc

theorem NETrecvNet_lost (cfg : NetConstants) (join : AllowJoiningEnv) (env : SocketEnv)
    (s : NetState) (gameTime2 : Nat) (hs : HostLost s) :
    ∃ r, NETrecvNet cfg join env s gameTime2 = some r ∧ HostLost r.2 := by
  obtain ⟨h1, _, _, _⟩ := (hostLost_iff s).1 hs
  unfold NETrecvNet
  split
  · exact ⟨_, rfl, hs⟩
  · simp only [h1, Bool.false_eq_true, if_false]
    exact ⟨_, rfl, NETrecvNet_poll_lost cfg env s gameTime2 hs⟩

theorem NETsend_lost (cfg : NetConstants) (env : SocketEnv) (s : NetState) (player : Nat)
    (message : NetMessage) (hs : HostLost s) :
    HostLost (NETsend cfg env s player message).2 := by
  obtain ⟨h1, _, h3, _⟩ := (hostLost_iff s).1 hs
  unfold NETsend NETsend_body
  split
  · exact hs
  · split
    · exact hs
    · simp only [h1, Bool.false_eq_true, if_false, h3]
      split
      · exact hs
      · exact NETend_lost cfg env s _ _ hs

theorem NETflush_lost (cfg : NetConstants) (s : NetState) (hs : HostLost s) :
    HostLost (NETflush cfg s) := by
  obtain ⟨h1, _, _, h4⟩ := (hostLost_iff s).1 hs
  unfold NETflush
  split
  · exact hs
  · have he : (s.emit .flushGameQueues).isHost = false := h1
    have hb : (s.emit .flushGameQueues).bsocket = none := h4
    simp only [he, Bool.false_eq_true, if_false, hb]
    exact hostLost_of_link rfl hs

theorem runLinkStep_lost (cfg : NetConstants) (s : NetState) (step : LinkStep)
    (hs : HostLost s) : ∃ s', runLinkStep cfg s step = some s' ∧ HostLost s' := by
  cases step with
  | NETsend env player message => exact ⟨_, rfl, NETsend_lost cfg env s player message hs⟩
  | NETflush => exact ⟨_, rfl, NETflush_lost cfg s hs⟩
  | NETrecvNet join env gameTime2 =>
    obtain ⟨r, hr, hl⟩ := NETrecvNet_lost cfg join env s gameTime2 hs
    exact ⟨r.2, by simp [runLinkStep, hr], hl⟩

theorem runLinkSteps_lost (cfg : NetConstants) (steps : List LinkStep) (s : NetState)
    (hs : HostLost s) : ∃ s', runLinkSteps cfg steps s = some s' ∧ HostLost s' := by
  induction steps generalizing s with
  | nil => exact ⟨s, rfl, hs⟩
  | cons step steps ih =>
    obtain ⟨s1, h1, hl⟩ := runLinkStep_lost cfg s step hs
    obtain ⟨s2, h2, hl2⟩ := ih s1 hl
    exact ⟨s2, by simp [runLinkSteps, h1, h2], hl2⟩

theorem NETsend_write_error (cfg : NetConstants) (env : SocketEnv) (s : NetState) (sock : Nat)
    (message : NetMessage) (hclient : s.isHost = false) (hcomms : s.bComms = true)
    (htcp : s.tcp_socket = some sock) (hhost : s.hostPlayer < cfg.MAX_CONNECTED_PLAYERS)
    (hw : env.writeAll (s.out.length + 1) sock = .SOCKET_ERROR) :
    (NETsend cfg env s s.hostPlayer message).1 = false ∧
      HostLost (NETsend cfg env s s.hostPlayer message).2 := by
  have hw' : env.writeAll (s.emit (.writeMessage sock message)).out.length sock
      = .SOCKET_ERROR := by
    simpa [NetState.emit] using hw
  unfold NETsend NETsend_body
  rw [if_neg (by simp [hcomms]), if_neg (fun h => absurd hhost (Nat.not_lt.2 h.1)),
    if_neg (by simp [hclient]), if_pos rfl]
  simp only [htcp, hw']
  refine ⟨trivial, ?_⟩
  rw [hostLost_iff]
  exact ⟨hclient, rfl, rfl, rfl⟩

theorem NET_fillBuffer_host_lost (cfg : NetConstants) (env : SocketEnv) (s : NetState)
    (pSocket : SocketRef) (sock : Nat) (htcp : s.tcp_socket = some sock)
    (hready : env.socketReadReady sock = true)
    (hread : env.readNoInt sock = .closed ∨ env.readNoInt sock = .SOCKET_ERROR) :
    (NET_fillBuffer cfg env s pSocket sock).1 = 0 ∧
      HostLost (NET_fillBuffer cfg env s pSocket sock).2.2 := by
  unfold NET_fillBuffer
  rw [if_neg (by simp [hready])]
  have hl : HostLost (NETclose cfg
      (({ s with tcp_socket := none, bsocket := none, isHostAlive := false } : NetState).emit
        (.setLobbyError .ERROR_HOSTDROPPED))) := by
    unfold HostLost
    rw [NETclose_link]
    rfl
  rcases hread with h | h
  · rw [h]
    simp only [htcp, if_true]
    exact ⟨trivial, hl⟩
  · rw [h]
    simp only [htcp, if_true]
    exact ⟨trivial, hl⟩

theorem weight_pos (m : NetMessage) : 1 ≤ m.weight := by
  cases m <;> simp [NetMessage.weight]

theorem queueWeight_cons (m : NetMessage) (queue : List NetMessage) :
    queueWeight (m :: queue) = m.weight + queueWeight queue := by
  simp [queueWeight]

theorem queueWeight_append (queue : List NetMessage) (m : NetMessage) :
    queueWeight (queue ++ [m]) = queueWeight queue + m.weight := by
  simp [queueWeight]

theorem insertNetMessage_weight (s : NetState) (q : Nat) (queue : List NetMessage) (index : Nat)
    (message : NetMessage) :
    queueWeight (insertNetMessage s q queue index message).1
      ≤ queueWeight queue + message.weight := by
  unfold insertNetMessage
  split
  · rw [queueWeight_append]
  · exact Nat.le_add_right _ _

theorem NETprocessSystemMessage_SEND_TO_PLAYER_weight (cfg : NetConstants) (env : SocketEnv)
    (s : NetState) (q : Nat) (rest : List NetMessage) (sender receiver : Nat)
    (message : NetMessage) (complete : Bool) :
    queueWeight
        (NETprocessSystemMessage_SEND_TO_PLAYER cfg env s q rest sender receiver message
          complete).1
      ≤ queueWeight rest + message.weight := by
  unfold NETprocessSystemMessage_SEND_TO_PLAYER
  split
  · exact Nat.le_add_right _ _
  · split
    · split
      · exact insertNetMessage_weight _ _ _ _ _
      · exact Nat.le_add_right _ _
    · split
      · simp only
        split
        · exact insertNetMessage_weight _ _ _ _ _
        · exact Nat.le_add_right _ _
      · exact Nat.le_add_right _ _

/-- Every message that `NETprocessSystemMessage` handles takes one message out
of the queue, wrapped ones counted. -/
theorem NETprocessSystemMessage_weight (cfg : NetConstants) (env : SocketEnv) (s : NetState)
    (q : Nat) (queue : List NetMessage)
    (h : (NETprocessSystemMessage cfg env s q queue).1 = true) :
    queueWeight (NETprocessSystemMessage cfg env s q queue).2.1 < queueWeight queue := by
  cases queue with
  | nil => exact absurd h (by simp [NETprocessSystemMessage])
  | cons m rest =>
    cases m
    case NET_SEND_TO_PLAYER sender receiver message complete =>
      have hw := NETprocessSystemMessage_SEND_TO_PLAYER_weight cfg env s q rest sender receiver
        message complete
      rw [queueWeight_cons]
      show queueWeight
          (NETprocessSystemMessage_SEND_TO_PLAYER cfg env s q rest sender receiver message
            complete).1
        < (message.weight + 1) + queueWeight rest
      omega
    all_goals first
      | (rw [queueWeight_cons]
         show queueWeight rest < 1 + queueWeight rest
         omega)
      | exact absurd h (by simp [NETprocessSystemMessage])

/-- The weight of the queue is fuel enough for the `while` loop of `NETrecvNet`:
more fuel gives the same result. -/
theorem NETrecvNet_while_fuel (cfg : NetConstants) (env : SocketEnv) (current : Nat) :
    ∀ (fuel : Nat) (queue : List NetMessage) (s : NetState), queueWeight queue ≤ fuel →
      NETrecvNet_while cfg env current (fuel + 1) queue s
        = NETrecvNet_while cfg env current fuel queue s := by
  intro fuel
  induction fuel with
  | zero =>
    intro queue s h
    cases queue with
    | nil => rfl
    | cons m queue =>
      rw [queueWeight_cons] at h
      have := weight_pos m
      omega
  | succ fuel ih =>
    intro queue s h
    rw [NETrecvNet_while]
    conv => rhs; rw [NETrecvNet_while]
    split
    · rfl
    · simp only
      split
      · rfl
      · rename_i hr
        have hr2 : (NETprocessSystemMessage cfg env s current queue).1 = true := by
          cases hc : (NETprocessSystemMessage cfg env s current queue).1
          · rw [hc] at hr
            exact absurd rfl hr
          · rfl
        have hw := NETprocessSystemMessage_weight cfg env s current queue hr2
        exact ih _ _ (by omega)

theorem NETrecvNet_socket_host_lost (cfg : NetConstants) (env : SocketEnv) (s : NetState)
    (sock : Nat) (hclient : s.isHost = false) (htcp : s.tcp_socket = some sock)
    (hb : s.bsocket = some sock) (hready : env.socketReadReady sock = true)
    (hread : env.readNoInt sock = .closed ∨ env.readNoInt sock = .SOCKET_ERROR) :
    NETrecvNet_socket cfg env s NET_HOST_ONLY = (NET_fillBuffer cfg env s .bsocket sock).2.2 := by
  obtain ⟨h0, hl⟩ := NET_fillBuffer_host_lost cfg env s .bsocket sock htcp hready hread
  obtain ⟨h1, _, _, h4⟩ := (hostLost_iff _).1 hl
  unfold NETrecvNet_socket
  simp only [hclient, Bool.false_eq_true, if_false, SocketRef.get, hb, h0, h4, h1]
  simp

/-- C20. On a client whose host socket `sock` is both `tcp_socket` and `bsocket`:
when the write of `NETsend` to the host ends in `SOCKET_ERROR`, `NETsend` returns
false with `isHostAlive` false and both handles cleared; when the socket is
ready and `NET_fillBuffer`, called by the socket loop of `NETrecvNet` for the
queue of the host, finds it closed or in error, the loop body leaves the state
of `NET_fillBuffer`, which returns 0 with `isHostAlive` false and both handles
cleared. In both cases any sequence of later calls of `NETsend`, `NETflush` and
`NETrecvNet` runs to its end, whatever the sockets answer, and `isHostAlive` is
still false, and the handles still cleared, after it. -/
theorem host_loss_is_final (cfg : NetConstants) (env : SocketEnv) (s : NetState) (sock : Nat)
    (message : NetMessage) (steps : List LinkStep)
    (hclient : s.isHost = false) (hcomms : s.bComms = true)
    (htcp : s.tcp_socket = some sock) (hb : s.bsocket = some sock)
    (hhost : s.hostPlayer < cfg.MAX_CONNECTED_PLAYERS) :
    (env.writeAll (s.out.length + 1) sock = .SOCKET_ERROR →
      (NETsend cfg env s s.hostPlayer message).1 = false ∧
      (NETsend cfg env s s.hostPlayer message).2.isHostAlive = false ∧
      (NETsend cfg env s s.hostPlayer message).2.tcp_socket = none ∧
      (NETsend cfg env s s.hostPlayer message).2.bsocket = none ∧
      ∃ s', runLinkSteps cfg steps (NETsend cfg env s s.hostPlayer message).2 = some s' ∧
        s'.isHostAlive = false ∧ s'.tcp_socket = none ∧ s'.bsocket = none) ∧
    (env.socketReadReady sock = true →
      env.readNoInt sock = .closed ∨ env.readNoInt sock = .SOCKET_ERROR →
      NETrecvNet_socket cfg env s NET_HOST_ONLY = (NET_fillBuffer cfg env s .bsocket sock).2.2 ∧
      (NET_fillBuffer cfg env s .bsocket sock).1 = 0 ∧
      (NET_fillBuffer cfg env s .bsocket sock).2.2.isHostAlive = false ∧
      (NET_fillBuffer cfg env s .bsocket sock).2.2.tcp_socket = none ∧
      (NET_fillBuffer cfg env s .bsocket sock).2.2.bsocket = none ∧
      ∃ s', runLinkSteps cfg steps (NET_fillBuffer cfg env s .bsocket sock).2.2 = some s' ∧
        s'.isHostAlive = false ∧ s'.tcp_socket = none ∧ s'.bsocket = none) := by
  refine ⟨?_, ?_⟩
  · intro hw
    obtain ⟨h0, hl⟩ := NETsend_write_error cfg env s sock message hclient hcomms htcp hhost hw
    obtain ⟨_, a2, a3, a4⟩ := (hostLost_iff _).1 hl
    obtain ⟨s', hs', hl'⟩ := runLinkSteps_lost cfg steps _ hl
    obtain ⟨_, b2, b3, b4⟩ := (hostLost_iff _).1 hl'
    exact ⟨h0, a2, a3, a4, s', hs', b2, b3, b4⟩
  · intro hready hread
    obtain ⟨h0, hl⟩ := NET_fillBuffer_host_lost cfg env s .bsocket sock htcp hready hread
    obtain ⟨_, a2, a3, a4⟩ := (hostLost_iff _).1 hl
    obtain ⟨s', hs', hl'⟩ := runLinkSteps_lost cfg steps _ hl
    obtain ⟨_, b2, b3, b4⟩ := (hostLost_iff _).1 hl'
    exact ⟨NETrecvNet_socket_host_lost cfg env s sock hclient htcp hb hready hread,
      h0, a2, a3, a4, s', hs', b2, b3, b4⟩

/-- C20 on the client of `joinedClient`, whose host is alive, when every read and
write of the socket 5 ends in `SOCKET_ERROR`, followed by the calls of
`laterSteps`. -/
theorem host_loss_is_final_witness :
    joinedClient.isHostAlive = true ∧
    (NETsend wzConstants brokenEnv joinedClient joinedClient.hostPlayer
      (.other forgedOrder)).2.isHostAlive = false ∧
    (∃ s', runLinkSteps wzConstants laterSteps
        (NETsend wzConstants brokenEnv joinedClient joinedClient.hostPlayer
          (.other forgedOrder)).2 = some s' ∧
      s'.isHostAlive = false ∧ s'.tcp_socket = none ∧ s'.bsocket = none) ∧
    (NET_fillBuffer wzConstants brokenEnv joinedClient .bsocket 5).2.2.isHostAlive = false ∧
    (∃ s', runLinkSteps wzConstants laterSteps
        (NET_fillBuffer wzConstants brokenEnv joinedClient .bsocket 5).2.2 = some s' ∧
      s'.isHostAlive = false ∧ s'.tcp_socket = none ∧ s'.bsocket = none) :=
  ⟨rfl,
   ((host_loss_is_final wzConstants brokenEnv joinedClient 5 (.other forgedOrder) laterSteps
      rfl rfl rfl rfl (by decide)).1 rfl).2.1,
   ((host_loss_is_final wzConstants brokenEnv joinedClient 5 (.other forgedOrder) laterSteps
      rfl rfl rfl rfl (by decide)).1 rfl).2.2.2.2,
   ((host_loss_is_final wzConstants brokenEnv joinedClient 5 (.other forgedOrder) laterSteps
      rfl rfl rfl rfl (by decide)).2 rfl (Or.inr rfl)).2.2.1,
   ((host_loss_is_final wzConstants brokenEnv joinedClient 5 (.other forgedOrder) laterSteps
      rfl rfl rfl rfl (by decide)).2 rfl (Or.inr rfl)).2.2.2.2.2⟩

/-! ## Game flags -/

/-- C30, the code at the failing input. With comms enabled and the game flags 7,
8, 9 and 10, `NETsetGameFlags(1, 0)` stores 0 in flag 1 and leaves the other
flags, but the value it returns is false; for the value 5 it returns true. -/
theorem NETsetGameFlags_zero_returns_false :
    flaggedHost.bComms = true ∧
    (NETsetGameFlags wzConstants quietEnv flaggedHost 1 0).1 = false ∧
    NETgetGameFlags (NETsetGameFlags wzConstants quietEnv flaggedHost 1 0).2 1 = 0 ∧
    NETgetGameFlags (NETsetGameFlags wzConstants quietEnv flaggedHost 1 0).2 2 = 8 ∧
    NETgetGameFlags (NETsetGameFlags wzConstants quietEnv flaggedHost 1 0).2 3 = 9 ∧
    NETgetGameFlags (NETsetGameFlags wzConstants quietEnv flaggedHost 1 0).2 4 = 10 ∧
    (NETsetGameFlags wzConstants quietEnv flaggedHost 1 5).1 = true := by
  decide

/-- C29, the code at the failing input. On `markedHost` player 1 is marked as
dropped. `NETsetPlayerConnectionStatus(CONNECTIONSTATUS_NORMAL, NET_ALL_PLAYERS)`
takes the branch of `CONNECTIONSTATUS_NORMAL` first and clears the column of the
table whose index is `NET_ALL_PLAYERS`, which is not below `MAX_PLAYERS`: the
entries of the players are left as they were and player 1 is still found
dropped, whereas one call for each player clears the mark. -/
theorem NETsetPlayerConnectionStatus_normal_all_players :
    ¬ wzConstants.NET_ALL_PLAYERS < wzConstants.MAX_PLAYERS ∧
    NETsetPlayerConnectionStatus wzConstants markedHost CONNECTIONSTATUS_NORMAL
        wzConstants.NET_ALL_PLAYERS
      = NETsetPlayerConnectionStatus_clear wzConstants.NET_ALL_PLAYERS
          (List.range CONNECTIONSTATUS_NORMAL) markedHost ∧
    NETcheckPlayerConnectionStatus wzConstants markedHost
        wzConstants.CONNECTIONSTATUS_PLAYER_DROPPED 1 = true ∧
    NETcheckPlayerConnectionStatus wzConstants
        (NETsetPlayerConnectionStatus wzConstants markedHost CONNECTIONSTATUS_NORMAL
          wzConstants.NET_ALL_PLAYERS)
        wzConstants.CONNECTIONSTATUS_PLAYER_DROPPED 1 = true ∧
    NETcheckPlayerConnectionStatus wzConstants
        ((List.range wzConstants.MAX_PLAYERS).foldl
          (fun t n => NETsetPlayerConnectionStatus wzConstants t CONNECTIONSTATUS_NORMAL n)
          markedHost)
        wzConstants.CONNECTIONSTATUS_PLAYER_DROPPED 1 = false := by
  decide

/-! ## Player-info messages without an entry -/

/-- C28, the code at the failing input. Player 1 sends the host of `busyHost` a
`NET_PLAYER_INFO` message that declares no update. No slot is updated, and the
host broadcasts the info of the slot `MAX_PLAYERS`, the value `index` was
initialised with, which is not below `MAX_CONNECTED_PLAYERS`. -/
theorem NET_PLAYER_INFO_empty_broadcasts_MAX_PLAYERS :
    busyHost.isHost = true ∧
    ¬ wzConstants.MAX_PLAYERS < wzConstants.MAX_CONNECTED_PLAYERS ∧
    (NETprocessSystemMessage wzConstants quietEnv busyHost 1 [.NET_PLAYER_INFO 0 []]).2.2.players
      = busyHost.players ∧
    (NETprocessSystemMessage wzConstants quietEnv busyHost 1 [.NET_PLAYER_INFO 0 []]).2.2.out
      = busyHost.out ++
        [.encode (.net wzConstants.NET_ALL_PLAYERS)
          (.NET_PLAYER_INFO 1 [playerInfoEntry wzConstants busyHost wzConstants.MAX_PLAYERS])] := by
  decide

/-! ## The grace timer -/

/-- C24, the code at the failing input. Slot 1 of `revivedHost` is allocated, its
kick flag is not set, its heartbeat is true, and its timer was started at the
time 1000. `NETcheckPlayers` at the time 20000 drops the slot all the same: a
`NET_PLAYER_DROPPED` for slot 1 is sent and the slot is unallocated. -/
theorem NETcheckPlayers_drops_live_player :
    (revivedHost.player 1).allocated = true ∧ (revivedHost.player 1).kick = false ∧
    (revivedHost.player 1).heartbeat = true ∧ (revivedHost.player 1).heartattacktime = 1000 ∧
    droppedNotices (NETcheckPlayers wzConstants quietEnv revivedHost 20000).out = [1] ∧
    ((NETcheckPlayers wzConstants quietEnv revivedHost 20000).player 1).allocated = false := by
  decide

/-! ## Leaving players -/

theorem NETsetPlayerConnectionStatus_clear_frame {α : Type} (π : NetState → α)
    (hπ : ∀ (t : NetState) (v : List (List Nat)), π { t with connectionStatus := v } = π t)
    (player : Nat) (ns : List Nat) (s : NetState) :
    π (NETsetPlayerConnectionStatus_clear player ns s) = π s := by
  induction ns generalizing s with
  | nil => rfl
  | cons n ns ih => exact (ih _).trans (hπ s _)

theorem NETsetPlayerConnectionStatus_single_frame {α : Type} (π : NetState → α)
    (hπ : ∀ (t : NetState) (v : List (List Nat)), π { t with connectionStatus := v } = π t)
    (cfg : NetConstants) (s : NetState) (status player : Nat) :
    π (NETsetPlayerConnectionStatus_single cfg s status player) = π s := by
  unfold NETsetPlayerConnectionStatus_single
  split
  · exact NETsetPlayerConnectionStatus_clear_frame π hπ _ _ _
  · exact hπ s _

theorem NETsetPlayerConnectionStatus_all_frame {α : Type} (π : NetState → α)
    (hπ : ∀ (t : NetState) (v : List (List Nat)), π { t with connectionStatus := v } = π t)
    (cfg : NetConstants) (status : Nat) (ns : List Nat) (s : NetState) :
    π (NETsetPlayerConnectionStatus_all cfg status ns s) = π s := by
  induction ns generalizing s with
  | nil => rfl
  | cons n ns ih =>
    exact (ih _).trans (NETsetPlayerConnectionStatus_single_frame π hπ cfg s status n)

/-- Setting a connection status changes the status table only: whatever does
not depend on the table is as before. -/
theorem NETsetPlayerConnectionStatus_frame {α : Type} (π : NetState → α)
    (hπ : ∀ (t : NetState) (v : List (List Nat)), π { t with connectionStatus := v } = π t)
    (cfg : NetConstants) (s : NetState) (status player : Nat) :
    π (NETsetPlayerConnectionStatus cfg s status player) = π s := by
  unfold NETsetPlayerConnectionStatus
  split
  · exact NETsetPlayerConnectionStatus_single_frame π hπ _ _ _ _
  · split
    · exact NETsetPlayerConnectionStatus_all_frame π hπ _ _ _ _
    · exact NETsetPlayerConnectionStatus_single_frame π hπ _ _ _ _

theorem list_getD_set_none {α : Type} (l : List (Option α)) (i : Nat) :
    (l.set i none).getD i none = none := by
  rw [list_getD_set]
  split
  · rfl
  · rename_i hn
    by_cases hlt : i < l.length
    · exact absurd ⟨rfl, hlt⟩ hn
    · exact List.getD_eq_default _ _ (Nat.le_of_not_lt hlt)

theorem droppedOrKept_refl (s : NetState) : DroppedOrKept s s :=
  fun _ => Or.inl ⟨rfl, rfl⟩

theorem droppedOrKept_trans (a b c : NetState) (h : DroppedOrKept a b)
    (h' : DroppedOrKept b c) : DroppedOrKept a c := by
  intro j
  rcases h' j with ⟨h1, h2⟩ | h1
  · rcases h j with ⟨g1, g2⟩ | ⟨g1, g2⟩
    · exact Or.inl ⟨h1.trans g1, h2.trans g2⟩
    · exact Or.inr ⟨by rw [h1]; exact g1, by rw [h2]; exact g2⟩
  · exact Or.inr h1

theorem droppedOrKept_of_eq (s s' : NetState) (h : s'.players = s.players)
    (h' : s'.connected_bsocket = s.connected_bsocket) : DroppedOrKept s s' := by
  intro j
  left
  unfold NetState.player
  rw [h, h']
  exact ⟨rfl, rfl⟩

theorem NETplayerLeaving_droppedOrKept (cfg : NetConstants) (s : NetState) (i : Nat) :
    DroppedOrKept s (NETplayerLeaving cfg s i) := by
  intro j
  by_cases h : i = j
  · subst h
    right
    refine ⟨NETplayerLeaving_unallocated cfg s i, ?_⟩
    rw [NETplayerLeaving_sockets]
    exact list_getD_set_none _ _
  · left
    refine ⟨NETplayerLeaving_player_ne cfg s i j h, ?_⟩
    rw [NETplayerLeaving_sockets, list_getD_set_ne _ _ _ _ _ h]

/-- A send of the host changes a slot only by dropping its player. -/
theorem NETend_droppedOrKept (cfg : NetConstants) (env : SocketEnv) (s : NetState)
    (q : NETQUEUE) (m : NetMessage) (hs : s.isHost = true) :
    DroppedOrKept s (NETend cfg env s q m) :=
  droppedOrKept_trans _ _ _ (droppedOrKept_of_eq s (s.emit (.encode q m)) rfl rfl)
    (NETend_host cfg env DroppedOrKept droppedOrKept_refl droppedOrKept_trans
      (fun t _ _ => droppedOrKept_of_eq t _ rfl rfl)
      (fun t _ => droppedOrKept_of_eq t _ rfl rfl)
      (fun t i _ _ => NETplayerLeaving_droppedOrKept cfg t i) s q m hs)

theorem NETend_kept (cfg : NetConstants) (env : SocketEnv) (hrel : env.reliable)
    (s : NetState) (q : NETQUEUE) (m : NetMessage) :
    (NETend cfg env s q m).players = s.players ∧
    (NETend cfg env s q m).connected_bsocket = s.connected_bsocket := by
  have h := ((sendsOnly_frame cfg env hrel).send s q m).1
  have h1 := congrArg (fun x : NetState => x.players) h
  have h2 := congrArg (fun x : NetState => x.connected_bsocket) h
  exact ⟨h1, h2⟩

/-- C26, counterexample. On the host of `peersHost`, player 1 sends a
`NET_PLAYER_LEAVING` on its own queue. The host broadcasts the message before it
removes the player; the write to the socket of player 2 fails, and the host
drops player 2 as well: slot 2, allocated before, ends unallocated. -/
theorem NET_PLAYER_LEAVING_write_error_drops_other :
    (1 : Nat) ≠ peersHost.hostPlayer ∧ (peersHost.player 2).allocated = true ∧
    ((NETprocessSystemMessage wzConstants (failingEnv 11) peersHost 1
        [.NET_PLAYER_LEAVING 1 false]).2.2.player 2).allocated = false := by
  decide

/-- C26, amended. A `NET_PLAYER_LEAVING` message received on a queue `q` other
than the one of the host is handled as if it declared the player `q`, whatever
index it declares: it is popped, and slot `q` ends unallocated with its socket
handle `NULL`. Every other slot and every other socket handle is as before when
the receiver is not the host or when no write of the host's broadcast fails; in
every case another slot is as before, with its socket handle, or it is the slot
of a player that the host has dropped: unallocated, its socket handle `NULL`. -/
theorem NET_PLAYER_LEAVING_own_slot_only (cfg : NetConstants) (env : SocketEnv) (s : NetState)
    (q index : Nat) (host : Bool) (rest : List NetMessage) (hq : q ≠ s.hostPlayer) :
    NETprocessSystemMessage cfg env s q (.NET_PLAYER_LEAVING index host :: rest)
      = (true, rest, NETprocessSystemMessage_PLAYER_LEAVING cfg env s q q) ∧
    ((NETprocessSystemMessage_PLAYER_LEAVING cfg env s q q).player q).allocated = false ∧
    (NETprocessSystemMessage_PLAYER_LEAVING cfg env s q q).connected_bsocket.getD q none
      = none ∧
    (∀ j, j ≠ q →
      ((NETprocessSystemMessage_PLAYER_LEAVING cfg env s q q).player j = s.player j ∧
        (NETprocessSystemMessage_PLAYER_LEAVING cfg env s q q).connected_bsocket.getD j none
          = s.connected_bsocket.getD j none) ∨
      (((NETprocessSystemMessage_PLAYER_LEAVING cfg env s q q).player j).allocated = false ∧
        (NETprocessSystemMessage_PLAYER_LEAVING cfg env s q q).connected_bsocket.getD j none
          = none)) ∧
    ((s.isHost = false ∨ env.reliable) → ∀ j, j ≠ q →
      (NETprocessSystemMessage_PLAYER_LEAVING cfg env s q q).player j = s.player j ∧
      (NETprocessSystemMessage_PLAYER_LEAVING cfg env s q q).connected_bsocket.getD j none
        = s.connected_bsocket.getD j none) := by
  have hidx : ∀ i, (if q ≠ s.hostPlayer ∧ i ≠ q then q else i) = q := by
    intro i
    by_cases h : i = q
    · rw [if_neg (fun c => c.2 h), h]
    · rw [if_pos ⟨hq, h⟩]
  have hsame : NETprocessSystemMessage_PLAYER_LEAVING cfg env s q index
      = NETprocessSystemMessage_PLAYER_LEAVING cfg env s q q := by
    unfold NETprocessSystemMessage_PLAYER_LEAVING
    simp only [hidx]
  have hstate : ∃ s1 : NetState, DroppedOrKept s s1 ∧
      ((s.isHost = false ∨ env.reliable) →
        s1.players = s.players ∧ s1.connected_bsocket = s.connected_bsocket) ∧
      NETprocessSystemMessage_PLAYER_LEAVING cfg env s q q
        = NETsetPlayerConnectionStatus cfg (NETplayerLeaving cfg s1 q)
            cfg.CONNECTIONSTATUS_PLAYER_LEAVING q := by
    unfold NETprocessSystemMessage_PLAYER_LEAVING
    simp only [hidx]
    by_cases h : s.isHost = true
    · refine ⟨NETend cfg env s .broadcast (.NET_PLAYER_LEAVING q s.isHost),
        NETend_droppedOrKept cfg env s _ _ h, fun hw => ?_, by rw [if_pos h]⟩
      rcases hw with hw | hw
      · rw [hw] at h
        cases h
      · exact NETend_kept cfg env hw s _ _
    · exact ⟨s, droppedOrKept_refl s, fun _ => ⟨rfl, rfl⟩, by rw [if_neg h]⟩
  obtain ⟨s1, hd, hk, hs⟩ := hstate
  have hplayers : (NETprocessSystemMessage_PLAYER_LEAVING cfg env s q q).players
      = (NETplayerLeaving cfg s1 q).players := by
    rw [hs]
    exact NETsetPlayerConnectionStatus_frame (fun t => t.players) (fun _ _ => rfl) _ _ _ _
  have hsock : (NETprocessSystemMessage_PLAYER_LEAVING cfg env s q q).connected_bsocket
      = s1.connected_bsocket.set q none := by
    rw [hs]
    refine (NETsetPlayerConnectionStatus_frame (fun t => t.connected_bsocket)
      (fun _ _ => rfl) _ _ _ _).trans ?_
    show (NETplayerLeaving cfg s1 q).connected_bsocket = _
    rw [NETplayerLeaving_sockets]
  have hplayer : ∀ j, (NETprocessSystemMessage_PLAYER_LEAVING cfg env s q q).player j
      = (NETplayerLeaving cfg s1 q).player j := by
    intro j
    unfold NetState.player
    rw [hplayers]
  have hother : ∀ j, j ≠ q →
      (NETprocessSystemMessage_PLAYER_LEAVING cfg env s q q).player j = s1.player j ∧
      (NETprocessSystemMessage_PLAYER_LEAVING cfg env s q q).connected_bsocket.getD j none
        = s1.connected_bsocket.getD j none := by
    intro j hj
    refine ⟨?_, ?_⟩
    · rw [hplayer, NETplayerLeaving_player_ne _ _ _ _ (fun e => hj e.symm)]
    · rw [hsock, list_getD_set_ne _ _ _ _ _ (fun e => hj e.symm)]
  refine ⟨?_, ?_, ?_, ?_, ?_⟩
  · show (true, rest, NETprocessSystemMessage_PLAYER_LEAVING cfg env s q index) = _
    rw [hsame]
  · rw [hplayer]
    exact NETplayerLeaving_unallocated cfg s1 q
  · rw [hsock]
    exact list_getD_set_none _ _
  · intro j hj
    obtain ⟨o1, o2⟩ := hother j hj
    rw [o1, o2]
    exact hd j
  · intro hw j hj
    obtain ⟨o1, o2⟩ := hother j hj
    obtain ⟨k1, k2⟩ := hk hw
    rw [o1, o2]
    unfold NetState.player
    rw [k1, k2]
    exact ⟨rfl, rfl⟩

/-- C26, amended, on the host of `timedOutHost`: player 1 sends a
`NET_PLAYER_LEAVING` that names player 0, the host. Slot 1 is freed and its
socket handle cleared; slot 0 is as before. -/
theorem NET_PLAYER_LEAVING_own_slot_only_witness :
    (1 : Nat) ≠ timedOutHost.hostPlayer ∧
    (timedOutHost.player 1).allocated = true ∧
    timedOutHost.connected_bsocket.getD 1 none = some 9 ∧
    NETprocessSystemMessage wzConstants quietEnv timedOutHost 1
        (.NET_PLAYER_LEAVING 0 false :: [])
      = (true, [], NETprocessSystemMessage_PLAYER_LEAVING wzConstants quietEnv timedOutHost
          1 1) ∧
    ((NETprocessSystemMessage_PLAYER_LEAVING wzConstants quietEnv timedOutHost 1 1).player
      1).allocated = false ∧
    (NETprocessSystemMessage_PLAYER_LEAVING wzConstants quietEnv
      timedOutHost 1 1).connected_bsocket.getD 1 none = none ∧
    (NETprocessSystemMessage_PLAYER_LEAVING wzConstants quietEnv timedOutHost 1 1).player 0
      = timedOutHost.player 0 :=
  ⟨by decide, by decide, by decide,
   (NET_PLAYER_LEAVING_own_slot_only wzConstants quietEnv timedOutHost 1 0 false []
      (by decide)).1,
   (NET_PLAYER_LEAVING_own_slot_only wzConstants quietEnv timedOutHost 1 0 false []
      (by decide)).2.1,
   (NET_PLAYER_LEAVING_own_slot_only wzConstants quietEnv timedOutHost 1 0 false []
      (by decide)).2.2.1,
   ((NET_PLAYER_LEAVING_own_slot_only wzConstants quietEnv timedOutHost 1 0 false []
      (by decide)).2.2.2.2 (Or.inr quietEnv_reliable) 0 (by decide)).1⟩

/-! ## The order of the messages of an admission -/

theorem allocOnlyDrops_refl (s : NetState) : AllocOnlyDrops s s := fun _ h => h

theorem allocOnlyDrops_trans (a b c : NetState) (h : AllocOnlyDrops a b)
    (h' : AllocOnlyDrops b c) : AllocOnlyDrops a c := fun j hj => h j (h' j hj)

theorem allocOnlyDrops_of_players (s s' : NetState) (h : s'.players = s.players) :
    AllocOnlyDrops s s' := by
  intro j hj
  unfold NetState.player at hj ⊢
  rw [h] at hj
  exact hj

theorem allocOnlyDrops_sendSteps (cfg : NetConstants) : SendSteps cfg AllocOnlyDrops where
  refl := allocOnlyDrops_refl
  trans := allocOnlyDrops_trans
  write := fun t _ _ => allocOnlyDrops_of_players t _ rfl
  drop := fun t _ _ => allocOnlyDrops_of_players t _ rfl
  relay := fun t _ _ _ _ => allocOnlyDrops_of_players t _ rfl
  leave := by
    intro t i _ _ j hj
    by_cases h : i = j
    · subst h
      rw [NETplayerLeaving_unallocated] at hj
      cases hj
    · rw [NETplayerLeaving_player_ne cfg t i j h] at hj
      exact hj
  lost := by
    intro t sock _ _ j hj
    rcases NETsend_hostLost_player t sock j with h | h
    · rw [h] at hj
      exact hj
    · rw [h] at hj
      exact hj

theorem allocOnlyDrops_nameSteps : NameSteps AllocOnlyDrops where
  info := fun t _ _ _ => allocOnlyDrops_of_players t _ rfl
  lobby := fun t _ _ => allocOnlyDrops_of_players t _ rfl
  rename := by
    intro t i n j hj
    rcases setPlayer_player t i j { t.player i with name := n } with h | ⟨h1, h⟩
    · rw [h] at hj
      exact hj
    · rw [h] at hj
      rw [h1]
      exact hj

theorem allocOnlyDrops_frame (cfg : NetConstants) (env : SocketEnv) :
    SendFrame cfg env AllocOnlyDrops :=
  sendFrame_of_steps cfg env (allocOnlyDrops_sendSteps cfg)

/-- A send allocates no slot. -/
theorem NETend_allocOnlyDrops (cfg : NetConstants) (env : SocketEnv) (s : NetState)
    (q : NETQUEUE) (m : NetMessage) : AllocOnlyDrops s (NETend cfg env s q m) :=
  allocOnlyDrops_trans _ _ _ (allocOnlyDrops_of_players s (s.emit (.encode q m)) rfl)
    ((allocOnlyDrops_frame cfg env).send s q m)

theorem joinNotices_narrowcast (index : Nat) (js : List Nat) :
    joinNotices (js.map (fun j => Event.encode (.net index) (.NET_PLAYER_JOINED j)))
      = js.map (fun j => (NETQUEUE.net index, NetMessage.NET_PLAYER_JOINED j)) := by
  induction js with
  | nil => rfl
  | cons j js ih => simp [joinNotices, ih]

/-- The narrowcast sends at most one `NET_PLAYER_JOINED` to the newcomer for
every allocated slot of `js` other than its own, in the order of `js`: one for
each of them when no write fails, and otherwise for those that are still
allocated when their turn comes. -/
theorem NETallowJoining_narrowcast_out (cfg : NetConstants) (net : SocketEnv) (index : Nat) :
    ∀ (js : List Nat) (s : NetState), ∃ (sent : List Nat) (evs : List Event),
      (NETallowJoining_narrowcast cfg net index js s).out = s.out ++ evs ∧
      joinNotices evs
        = sent.map (fun j => (NETQUEUE.net index, NetMessage.NET_PLAYER_JOINED j)) ∧
      sent.Sublist (js.filter (fun j => index ≠ j ∧ (s.player j).allocated)) ∧
      (net.reliable →
        sent = js.filter (fun j => index ≠ j ∧ (s.player j).allocated)) := by
  intro js
  induction js with
  | nil =>
    intro s
    exact ⟨[], [], by simp [NETallowJoining_narrowcast], rfl, List.Sublist.refl _,
      fun _ => rfl⟩
  | cons j js ih =>
    intro s
    unfold NETallowJoining_narrowcast
    by_cases h : index ≠ j ∧ (s.player j).allocated = true
    · obtain ⟨e1, h1, hq1, _⟩ := NETend_out cfg net s (.net index) (.NET_PLAYER_JOINED j)
      have ha1 := NETend_allocOnlyDrops cfg net s (.net index) (.NET_PLAYER_JOINED j)
      obtain ⟨sent, evs, h2, h3, h4, h5⟩ :=
        ih (NETend cfg net s (.net index) (.NET_PLAYER_JOINED j))
      have hmono : (js.filter (fun k => index ≠ k ∧
            ((NETend cfg net s (.net index) (.NET_PLAYER_JOINED j)).player k).allocated)).Sublist
          (js.filter (fun k => index ≠ k ∧ (s.player k).allocated)) := by
        apply List.monotone_filter_right
        intro k hk
        simp only [ne_eq, decide_eq_true_eq] at hk ⊢
        exact ⟨hk.1, ha1 k hk.2⟩
      simp only [if_pos h]
      refine ⟨j :: sent, Event.encode (.net index) (.NET_PLAYER_JOINED j) :: (e1 ++ evs),
        ?_, ?_, ?_, fun hrel => ?_⟩
      · rw [h2, h1]
        simp only [List.append_assoc, List.cons_append]
      · have : joinNotices (Event.encode (.net index) (.NET_PLAYER_JOINED j) :: (e1 ++ evs))
            = (NETQUEUE.net index, NetMessage.NET_PLAYER_JOINED j) :: joinNotices (e1 ++ evs) :=
          rfl
        rw [this, joinNotices_append, hq1, h3]
        rfl
      · rw [List.filter_cons_of_pos (by simpa using h)]
        exact List.Sublist.cons₂ j (h4.trans hmono)
      · rw [List.filter_cons_of_pos (by simpa using h), h5 hrel]
        congr 1
        apply List.filter_congr
        intro k _
        have hp : (NETend cfg net s (.net index) (.NET_PLAYER_JOINED j)).player k
            = s.player k := by
          unfold NetState.player
          rw [(NETend_kept cfg net hrel s _ _).1]
        rw [hp]
    · obtain ⟨sent, evs, h2, h3, h4, h5⟩ := ih s
      simp only [if_neg h]
      refine ⟨sent, evs, h2, h3, ?_, fun hrel => ?_⟩
      · rw [List.filter_cons_of_neg (by simpa using h)]
        exact h4
      · rw [List.filter_cons_of_neg (by simpa using h)]
        exact h5 hrel

/-- The messages of the welcome: `NET_ACCEPTED` first, then the narrowcast, then
the broadcast of the newcomer; the other events hold no such message. -/
theorem NETallowJoining_welcome_notices (cfg : NetConstants) (net : SocketEnv) (t : NetState)
    (index : Nat) :
    ∃ (sent : List Nat) (evs : List Event),
      (NETallowJoining_welcome cfg net t index).out
        = t.out ++ Event.encode (.net index) (.NET_ACCEPTED index) :: evs ∧
      joinNotices evs
        = sent.map (fun j => (NETQUEUE.net index, NetMessage.NET_PLAYER_JOINED j))
          ++ [(NETQUEUE.broadcast, NetMessage.NET_PLAYER_JOINED index)] ∧
      sent.Sublist (otherPlayers cfg t index) ∧
      (net.reliable → sent = otherPlayers cfg t index) := by
  have hq1 : OutQuiet (t.emit (.encode (.net index) (.NET_ACCEPTED index)))
      (NETBroadcastPlayerInfo cfg net
        (NETSendAllPlayerInfoTo cfg net (NETend cfg net t (.net index) (.NET_ACCEPTED index))
          index) index) := by
    refine outQuiet_trans _ _ _
      ((outQuiet_frame cfg net).send t (.net index) (.NET_ACCEPTED index)) ?_
    refine outQuiet_trans _ _ _
      (NETSendAllPlayerInfoTo_frame cfg net (outQuiet_frame cfg net) outQuiet_nameSteps.info
        (NETend cfg net t (.net index) (.NET_ACCEPTED index)) index) ?_
    exact NETBroadcastPlayerInfo_frame cfg net (outQuiet_frame cfg net)
      outQuiet_nameSteps.info _ index
  have ha1 : AllocOnlyDrops t
      (NETBroadcastPlayerInfo cfg net
        (NETSendAllPlayerInfoTo cfg net (NETend cfg net t (.net index) (.NET_ACCEPTED index))
          index) index) := by
    refine allocOnlyDrops_trans _ _ _
      (NETend_allocOnlyDrops cfg net t (.net index) (.NET_ACCEPTED index)) ?_
    refine allocOnlyDrops_trans _ _ _
      (NETSendAllPlayerInfoTo_frame cfg net (allocOnlyDrops_frame cfg net)
        allocOnlyDrops_nameSteps.info (NETend cfg net t (.net index) (.NET_ACCEPTED index))
        index) ?_
    exact NETBroadcastPlayerInfo_frame cfg net (allocOnlyDrops_frame cfg net)
      allocOnlyDrops_nameSteps.info _ index
  have hp1 : net.reliable →
      (NETBroadcastPlayerInfo cfg net
        (NETSendAllPlayerInfoTo cfg net (NETend cfg net t (.net index) (.NET_ACCEPTED index))
          index) index).players = t.players := by
    intro hrel
    have h : SendsOnly (t.emit (.encode (.net index) (.NET_ACCEPTED index)))
        (NETBroadcastPlayerInfo cfg net
          (NETSendAllPlayerInfoTo cfg net (NETend cfg net t (.net index) (.NET_ACCEPTED index))
            index) index) := by
      refine sendsOnly_trans _ _ _
        ((sendsOnly_frame cfg net hrel).send t (.net index) (.NET_ACCEPTED index)) ?_
      refine sendsOnly_trans _ _ _
        (NETSendAllPlayerInfoTo_frame cfg net (sendsOnly_frame cfg net hrel) sendsOnly_info
          (NETend cfg net t (.net index) (.NET_ACCEPTED index)) index) ?_
      exact NETBroadcastPlayerInfo_frame cfg net (sendsOnly_frame cfg net hrel) sendsOnly_info
        _ index
    have h2 := sendsOnly_players h
    exact h2
  obtain ⟨e1, ho1, hn1, _⟩ := hq1
  unfold NETallowJoining_welcome
  dsimp only
  generalize NETBroadcastPlayerInfo cfg net
    (NETSendAllPlayerInfoTo cfg net (NETend cfg net t (.net index) (.NET_ACCEPTED index))
      index) index = a2 at ho1 ha1 hp1 ⊢
  obtain ⟨sent, e3, ho3, hn3, hs3, hr3⟩ := NETallowJoining_narrowcast_out cfg net index
    (List.range cfg.MAX_CONNECTED_PLAYERS) a2
  have hsub : ((List.range cfg.MAX_CONNECTED_PLAYERS).filter
      (fun j => index ≠ j ∧ (a2.player j).allocated)).Sublist (otherPlayers cfg t index) := by
    unfold otherPlayers
    apply List.monotone_filter_right
    intro k hk
    simp only [ne_eq, decide_eq_true_eq] at hk ⊢
    exact ⟨hk.1, ha1 k hk.2⟩
  have hq5 : OutQuiet
      ((NETallowJoining_narrowcast cfg net index (List.range cfg.MAX_CONNECTED_PLAYERS) a2).emit
        (.encode .broadcast (.NET_PLAYER_JOINED index)))
      (NETfixDuplicatePlayerNames cfg net
        (NETallowJoining_broadcastAll cfg net (List.range cfg.MAX_CONNECTED_PLAYERS)
          (NETend cfg net
            (NETallowJoining_narrowcast cfg net index (List.range cfg.MAX_CONNECTED_PLAYERS) a2)
            .broadcast (.NET_PLAYER_JOINED index)))) := by
    refine outQuiet_trans _ _ _
      ((outQuiet_frame cfg net).send
        (NETallowJoining_narrowcast cfg net index (List.range cfg.MAX_CONNECTED_PLAYERS) a2)
        .broadcast (.NET_PLAYER_JOINED index)) ?_
    refine outQuiet_trans _ _ _
      (NETallowJoining_broadcastAll_frame cfg net (outQuiet_frame cfg net)
        outQuiet_nameSteps.info (List.range cfg.MAX_CONNECTED_PLAYERS)
        (NETend cfg net
          (NETallowJoining_narrowcast cfg net index (List.range cfg.MAX_CONNECTED_PLAYERS) a2)
          .broadcast (.NET_PLAYER_JOINED index))) ?_
    exact NETfixDuplicatePlayerNames_frame cfg net (outQuiet_frame cfg net)
      outQuiet_nameSteps _
  obtain ⟨e2, ho5, hn5, _⟩ := hq5
  refine ⟨sent, e1 ++ e3 ++ [Event.encode .broadcast (.NET_PLAYER_JOINED index)] ++ e2,
    ?_, ?_, hs3.trans hsub, fun hrel => ?_⟩
  · show (NETfixDuplicatePlayerNames cfg net
        (NETallowJoining_broadcastAll cfg net (List.range cfg.MAX_CONNECTED_PLAYERS)
          (NETend cfg net
            (NETallowJoining_narrowcast cfg net index (List.range cfg.MAX_CONNECTED_PLAYERS) a2)
            .broadcast (.NET_PLAYER_JOINED index)))).out = _
    rw [ho5]
    show (NETallowJoining_narrowcast cfg net index (List.range cfg.MAX_CONNECTED_PLAYERS) a2).out
      ++ [Event.encode .broadcast (.NET_PLAYER_JOINED index)] ++ e2 = _
    rw [ho3, ho1]
    show t.out ++ [Event.encode (.net index) (.NET_ACCEPTED index)] ++ e1 ++ _ ++ _ ++ e2 = _
    simp only [List.append_assoc, List.singleton_append, List.cons_append, List.nil_append]
  · rw [joinNotices_append, joinNotices_append, joinNotices_append, hn1, hn5, hn3]
    simp [joinNotices]
  · rw [hr3 hrel]
    unfold otherPlayers NetState.player
    rw [hp1 hrel]

theorem otherPlayers_congr (cfg : NetConstants) (s s' : NetState) (index : Nat)
    (h : ∀ j, j ≠ index → (s'.player j).allocated = (s.player j).allocated) :
    otherPlayers cfg s' index = otherPlayers cfg s index := by
  unfold otherPlayers
  apply List.filter_congr
  intro j _
  by_cases hj : index = j
  · simp [hj]
  · have := h j (fun e => hj e.symm)
    simp [hj, this]

/-- C22, counterexample. The host of `lobbyHost` has the players 0, 1 and 2, and
a fourth asks to join through the socket 7. It is admitted into slot 3; while
the host broadcasts the info of the newcomer, the write to the socket of player
2 fails and the host drops player 2. The narrowcast that follows names the
players 0 and 1 only: no `NET_PLAYER_JOINED(2)` is sent to the newcomer, though
slot 2 was allocated when the request was admitted. -/
theorem NETallowJoining_admission_skips_dropped :
    otherPlayers wzConstants lobbyHost 3 = [0, 1, 2] ∧
    (NETallowJoining_join wzConstants (failingEnv 11) lobbyHost 0 [68] [] [] [] []
        plainJoinEnv).map (fun r => joinNotices r.2.out)
      = some [(NETQUEUE.net 3, NetMessage.NET_ACCEPTED 3),
          (NETQUEUE.net 3, NetMessage.NET_PLAYER_JOINED 0),
          (NETQUEUE.net 3, NetMessage.NET_PLAYER_JOINED 1),
          (NETQUEUE.broadcast, NetMessage.NET_PLAYER_JOINED 3)] := by
  refine ⟨by decide, ?_⟩
  set_option maxRecDepth 8000 in decide

/-- C22, amended. Let a join request be admitted into slot `index` (the lowest
slot that is unallocated and open; the game has room, the address is not banned,
the password and the mod list agree, the lobby does not refuse). Then the first
message the host encodes is `NET_ACCEPTED(index)` to the newcomer, and the
`NET_ACCEPTED` and `NET_PLAYER_JOINED` messages it encodes are, in order: that
`NET_ACCEPTED`, then `NET_PLAYER_JOINED(j)` to the newcomer for slots `j` other
than `index` that were allocated when the request came, each at most once and
in increasing `j`, and last the broadcast `NET_PLAYER_JOINED(index)`. When no
write to a socket fails, there is a `NET_PLAYER_JOINED(j)` for every such slot;
otherwise the slots of players that the host has dropped in the meantime are
left out. -/
theorem NETallowJoining_admission_order (cfg : NetConstants) (net : SocketEnv) (s : NetState)
    (i index : Nat) (name ModList GamePassword username session : CString) (env : JoinEnv)
    (hlen : s.players.length = cfg.MAX_CONNECTED_PLAYERS)
    (h256 : cfg.MAX_CONNECTED_PLAYERS ≤ 256)
    (hidx : index < cfg.MAX_CONNECTED_PLAYERS)
    (hfree : (s.player index).allocated = false ∧ (s.player index).ai = cfg.AI_OPEN)
    (hleast : ∀ j, j < index →
      ¬ ((s.player j).allocated = false ∧ (s.player j).ai = cfg.AI_OPEN))
    (hcap : s.playercount < s.maxPlayers)
    (hban : onBanList cfg s (sstrcpy cfg.IPtextSize env.socketTextAddress) = false)
    (hpw : s.GamePassworded = false ∨ s.gamePassword = GamePassword)
    (hmod : env.modList = ModList)
    (hlobby : env.isAuthenticated = false ∨ env.addPlayerOk = true) :
    ∃ (r : NetState) (evs : List Event) (sent : List Nat),
      NETallowJoining_join cfg net s i name ModList GamePassword username session env
        = some (false, r) ∧
      r.out = s.out ++ evs ∧
      (messagesOf evs).head? = some (NETQUEUE.net index, NetMessage.NET_ACCEPTED index) ∧
      joinNotices evs
        = (NETQUEUE.net index, NetMessage.NET_ACCEPTED index) ::
          (sent.map (fun j => (NETQUEUE.net index, NetMessage.NET_PLAYER_JOINED j))
          ++ [(NETQUEUE.broadcast, NetMessage.NET_PLAYER_JOINED index)]) ∧
      sent.Sublist (otherPlayers cfg s index) ∧
      (net.reliable → sent = otherPlayers cfg s index) := by
  have hscan := scan_complete cfg s index hidx hfree hleast
  have hlt : index < s.players.length := by omega
  have hpw' : (s.GamePassworded && s.gamePassword != GamePassword) = false := by
    rcases hpw with h | h
    · simp [h]
    · simp [h]
  have hcap' : ¬ u32 ((s.playercount : Int) + 1) > s.maxPlayers := by
    have := u32_succ_le s.playercount
    omega
  have hmod' : (env.modList != ModList) = false := by simp [hmod]
  rw [NETallowJoining_join_some cfg net s i index name ModList GamePassword username session
    env hscan (by omega)]
  have hout : (NETallowJoining_promote cfg (NET_CreatePlayer cfg s name).2 i index env).out
      = s.out := by
    rw [NETallowJoining_promote_create cfg s i index name env hscan hlt]
  have hother : ∀ j, j ≠ index →
      ((NETallowJoining_promote cfg (NET_CreatePlayer cfg s name).2 i index env).player
        j).allocated = (s.player j).allocated := by
    intro j hj
    rw [NETallowJoining_promote_create cfg s i index name env hscan hlt]
    unfold NetState.player
    show ((s.players.set index _).getD j default).allocated = _
    rw [list_getD_set_ne _ _ _ _ _ (fun e => hj e.symm)]
  obtain ⟨u1, u2, u3, u4, u5, u6, u7, u8, u9⟩ :=
    NETallowJoining_promote_facts cfg s i index name env hscan hlt
  generalize NETallowJoining_promote cfg (NET_CreatePlayer cfg s name).2 i index env = u
    at u1 u2 u3 u4 u5 u6 u7 u8 u9 hout hother ⊢
  have vban : onBanList cfg u (u.player index).IPtextAddress = false := by
    rw [u2, onBanList_congr cfg s u _ u9]; exact hban
  have vpw : (u.GamePassworded && u.gamePassword != GamePassword) = false := by
    rw [u5, u6]; exact hpw'
  have vcap : ¬ u.playercount > u.maxPlayers := by
    rw [u7, u8]; exact hcap'
  obtain ⟨u', pre, hu', hpre, hm, hj, hv⟩ := NETallowJoining_verdict_pass cfg net u index name
    ModList GamePassword username session env vban vpw vcap hmod' hlobby
  rw [hv]
  obtain ⟨sent, evs, he, hn, hsub, hall⟩ := NETallowJoining_welcome_notices cfg net u' index
  have hop : otherPlayers cfg u' index = otherPlayers cfg s index := by
    apply otherPlayers_congr
    intro j hj
    have : u'.player j = u.player j := by
      unfold NetState.player
      rw [hu']
    rw [this]
    exact hother j hj
  rw [hop] at hsub hall
  refine ⟨_, pre ++ Event.encode (.net index) (.NET_ACCEPTED index) :: evs, sent, rfl,
    ?_, ?_, ?_, hsub, hall⟩
  · rw [he, hpre, hout, List.append_assoc]
  · rw [messagesOf_append, hm]
    rfl
  · rw [joinNotices_append, hj, ← hn]
    rfl

/-- C22, amended, for a client named `C` that joins the host of `busyHost`, whose
slots 0 and 1 are taken: it is admitted into slot 2 and is told of the players 0
and 1 before it is announced to everyone. -/
theorem NETallowJoining_admission_order_witness :
    otherPlayers wzConstants busyHost 2 = [0, 1] ∧
    ∃ (r : NetState) (evs : List Event) (sent : List Nat),
      NETallowJoining_join wzConstants quietEnv busyHost 0 [67] [] [] [] [] plainJoinEnv
        = some (false, r) ∧
      r.out = busyHost.out ++ evs ∧
      (messagesOf evs).head? = some (NETQUEUE.net 2, NetMessage.NET_ACCEPTED 2) ∧
      joinNotices evs
        = (NETQUEUE.net 2, NetMessage.NET_ACCEPTED 2) ::
          (sent.map (fun j => (NETQUEUE.net 2, NetMessage.NET_PLAYER_JOINED j))
          ++ [(NETQUEUE.broadcast, NetMessage.NET_PLAYER_JOINED 2)]) ∧
      sent.Sublist (otherPlayers wzConstants busyHost 2) ∧
      (quietEnv.reliable → sent = otherPlayers wzConstants busyHost 2) :=
  ⟨by decide,
   NETallowJoining_admission_order wzConstants quietEnv busyHost 0 2 [67] [] [] [] []
     plainJoinEnv (by decide) (by decide) (by decide) (by decide) (by decide) (by decide)
     (by decide) (by decide) (by decide) (by decide)⟩

/-! ## The dispatcher of system messages -/

theorem insertNetMessage_queue (s : NetState) (q : Nat) (queue : List NetMessage) (index : Nat)
    (message : NetMessage) :
    (insertNetMessage s q queue index message).1
      = if index = q then queue ++ [message] else queue := by
  unfold insertNetMessage
  split <;> rfl

theorem NETprocessSystemMessage_SEND_TO_PLAYER_queue (cfg : NetConstants) (env : SocketEnv)
    (s : NetState) (q : Nat) (rest : List NetMessage) (sender receiver : Nat)
    (message : NetMessage) (complete : Bool) :
    (NETprocessSystemMessage_SEND_TO_PLAYER cfg env s q rest sender receiver message
      complete).1 = rest ∨
    (complete = true ∧ sender = q ∧
      (NETprocessSystemMessage_SEND_TO_PLAYER cfg env s q rest sender receiver message
        complete).1 = rest ++ [message]) := by
  have hins : ∀ t : NetState, (insertNetMessage t q rest sender message).1 = rest ∨
      (sender = q ∧ (insertNetMessage t q rest sender message).1 = rest ++ [message]) := by
    intro t
    rw [insertNetMessage_queue]
    by_cases h : sender = q
    · rw [if_pos h]
      exact Or.inr ⟨h, rfl⟩
    · rw [if_neg h]
      exact Or.inl rfl
  cases complete
  · left
    rfl
  · unfold NETprocessSystemMessage_SEND_TO_PLAYER
    simp only [Bool.not_true, Bool.false_eq_true, if_false]
    split
    · split
      · rcases hins s with h | ⟨h1, h2⟩
        · exact Or.inl h
        · exact Or.inr ⟨trivial, h1, h2⟩
      · exact Or.inl rfl
    · split
      · split
        · rcases hins (NETend cfg env s (.net receiver)
            (.NET_SEND_TO_PLAYER sender receiver message true)) with h | ⟨h1, h2⟩
          · exact Or.inl h
          · exact Or.inr ⟨trivial, h1, h2⟩
        · exact Or.inl rfl
      · exact Or.inl rfl

/-- C21. For a message `m` at the head of the queue of player `q`: if the type
of `m` is one of the eight system types, `NETprocessSystemMessage` returns true
and the queue is left without `m`, the messages behind it staying in order; the
one message the handlers can add to that queue is the message wrapped in a
complete `NET_SEND_TO_PLAYER` whose sender is `q`, put at the end. If the type
of `m` is another one, the function returns false and the queue and the state
are unchanged. -/
theorem NETprocessSystemMessage_pops_system_messages (cfg : NetConstants) (env : SocketEnv)
    (s : NetState) (q : Nat) (m : NetMessage) (rest : List NetMessage) :
    (isSystemMessage m = true →
      (NETprocessSystemMessage cfg env s q (m :: rest)).1 = true ∧
      ((NETprocessSystemMessage cfg env s q (m :: rest)).2.1 = rest ∨
        ∃ sender receiver message, m = .NET_SEND_TO_PLAYER sender receiver message true ∧
          sender = q ∧ (NETprocessSystemMessage cfg env s q (m :: rest)).2.1 = rest ++ [message])) ∧
    (isSystemMessage m = false →
      NETprocessSystemMessage cfg env s q (m :: rest) = (false, m :: rest, s)) := by
  cases m
  case NET_SEND_TO_PLAYER sender receiver message complete =>
    refine ⟨fun _ => ⟨rfl, ?_⟩, fun h => absurd h (by simp [isSystemMessage])⟩
    rcases NETprocessSystemMessage_SEND_TO_PLAYER_queue cfg env s q rest sender receiver message
      complete with h | ⟨h1, h2, h3⟩
    · exact Or.inl h
    · exact Or.inr ⟨sender, receiver, message, by rw [h1], h2, h3⟩
  all_goals first
    | exact ⟨fun _ => ⟨rfl, Or.inl rfl⟩, fun h => absurd h (by simp [isSystemMessage])⟩
    | exact ⟨fun h => absurd h (by simp [isSystemMessage]), fun _ => rfl⟩

/-- C21 on the host of `sharingHost`: the relay request of player 1 is popped and
the wrapped message is queued behind the pending message; a message of another
type is left where it is. -/
theorem NETprocessSystemMessage_pops_system_messages_witness :
    NETprocessSystemMessage wzConstants quietEnv sharingHost 1
        (relayRequest :: [.NET_PLAYER_DROPPED 3]) =
      (true, [.NET_PLAYER_DROPPED 3, .other forgedOrder],
        (NETprocessSystemMessage wzConstants quietEnv sharingHost 1
          (relayRequest :: [.NET_PLAYER_DROPPED 3])).2.2) ∧
    NETprocessSystemMessage wzConstants quietEnv sharingHost 1 (.NET_PLAYER_DROPPED 3 :: [relayRequest])
      = (false, .NET_PLAYER_DROPPED 3 :: [relayRequest], sharingHost) :=
  ⟨by decide,
   (NETprocessSystemMessage_pops_system_messages wzConstants quietEnv sharingHost 1
      (.NET_PLAYER_DROPPED 3) [relayRequest]).2 rfl⟩

/-! ## Lines of the sync debug recorder -/

/-- C27. Let the open record, of index `syncDebugNext` below `MAX_SYNC_HISTORY`,
hold `num` lines. When `num` is below `MAX_SYNC_MESSAGES`, `_syncDebug(function,
text)` makes the line count of the open record `num + 1`, its checksum the sum
`crcSum(crcSum(old, function with terminator), line with terminator)` and its
lines the old ones followed by the new one, `line` being the text as it fits the
buffer of `MAX_LEN_LOG_LINE` bytes, which is the text itself when that is
shorter than the buffer; the line count, checksum and lines of every other
record, and all game times, `syncDebugNext`, `numDumps` and the dumps sent are
unchanged. When `num` is not below `MAX_SYNC_MESSAGES` the call changes
nothing. -/
theorem syncDebug_changes_open_record_only (crcSum : Nat → List Nat → Nat) (sd : SyncDebug)
    (function text : CString)
    (hnum : sd.syncDebugNext < sd.syncDebugNum.length)
    (hcrc : sd.syncDebugNext < sd.syncDebugCrcs.length)
    (hlines : sd.syncDebugNext < sd.syncDebugLines.length) :
    (sd.syncDebugNum.getD sd.syncDebugNext 0 < MAX_SYNC_MESSAGES →
      (_syncDebug crcSum sd function text).syncDebugNum.getD sd.syncDebugNext 0
        = sd.syncDebugNum.getD sd.syncDebugNext 0 + 1 ∧
      (_syncDebug crcSum sd function text).syncDebugCrcs.getD sd.syncDebugNext 0
        = crcSum (crcSum (sd.syncDebugCrcs.getD sd.syncDebugNext 0) (function ++ [0]))
            (sstrcpy MAX_LEN_LOG_LINE text ++ [0]) ∧
      (_syncDebug crcSum sd function text).syncDebugLines.getD sd.syncDebugNext []
        = (sd.syncDebugLines.getD sd.syncDebugNext []).take
            (sd.syncDebugNum.getD sd.syncDebugNext 0)
          ++ [{ function := function, string := sstrcpy MAX_LEN_LOG_LINE text }] ∧
      (text.length < MAX_LEN_LOG_LINE → sstrcpy MAX_LEN_LOG_LINE text = text) ∧
      (∀ k, k ≠ sd.syncDebugNext →
        (_syncDebug crcSum sd function text).syncDebugNum.getD k 0
          = sd.syncDebugNum.getD k 0 ∧
        (_syncDebug crcSum sd function text).syncDebugCrcs.getD k 0
          = sd.syncDebugCrcs.getD k 0 ∧
        (_syncDebug crcSum sd function text).syncDebugLines.getD k []
          = sd.syncDebugLines.getD k []) ∧
      (_syncDebug crcSum sd function text).syncDebugGameTime = sd.syncDebugGameTime ∧
      (_syncDebug crcSum sd function text).syncDebugNext = sd.syncDebugNext ∧
      (_syncDebug crcSum sd function text).numDumps = sd.numDumps ∧
      (_syncDebug crcSum sd function text).sent = sd.sent) ∧
    (¬ sd.syncDebugNum.getD sd.syncDebugNext 0 < MAX_SYNC_MESSAGES →
      _syncDebug crcSum sd function text = sd) := by
  refine ⟨fun h => ?_, fun h => ?_⟩
  · have h12 : MAX_SYNC_MESSAGES = 20000 := rfl
    unfold _syncDebug
    simp only [if_pos h]
    refine ⟨?_, ?_, ?_, sstrcpy_of_length_lt _ _, ?_, by trivial, by trivial, by trivial,
      by trivial⟩
    · rw [list_getD_set_self _ _ _ _ hnum]
      unfold u32
      rw [h12] at h
      omega
    · rw [list_getD_set_self _ _ _ _ hcrc]
    · rw [list_getD_set_self _ _ _ _ hlines]
    · intro k hk
      exact ⟨list_getD_set_ne _ _ _ _ _ (fun e => hk e.symm),
        list_getD_set_ne _ _ _ _ _ (fun e => hk e.symm),
        list_getD_set_ne _ _ _ _ _ (fun e => hk e.symm)⟩
  · unfold _syncDebug
    simp only [if_neg h]

/-- C27 on the recorder of `oneLine`, whose open record 0 holds one line, for a
checksum that adds up lengths: a second line is counted and summed. -/
theorem syncDebug_changes_open_record_only_witness :
    oneLine.syncDebugNum.getD oneLine.syncDebugNext 0 = 1 ∧
    (_syncDebug (fun crc data => crc + data.length) oneLine [103] [121, 122]).syncDebugNum.getD
      oneLine.syncDebugNext 0 = oneLine.syncDebugNum.getD oneLine.syncDebugNext 0 + 1 ∧
    (_syncDebug (fun crc data => crc + data.length) oneLine [103]
      [121, 122]).syncDebugCrcs.getD oneLine.syncDebugNext 0
      = (fun crc (data : List Nat) => crc + data.length)
          ((fun crc (data : List Nat) => crc + data.length)
            (oneLine.syncDebugCrcs.getD oneLine.syncDebugNext 0) ([103] ++ [0]))
          (sstrcpy MAX_LEN_LOG_LINE [121, 122] ++ [0]) :=
  ⟨by decide,
   ((syncDebug_changes_open_record_only (fun crc data => crc + data.length) oneLine [103]
      [121, 122] (by decide) (by decide) (by decide)).1 (by decide)).1,
   ((syncDebug_changes_open_record_only (fun crc data => crc + data.length) oneLine [103]
      [121, 122] (by decide) (by decide) (by decide)).1 (by decide)).2.1⟩

/-! ## Duplicate player names -/

/-- C25, counterexample. On `shadowedNames` slot 2 has the name `A_2`, which
differs from the names `A` and `A` of the slots 0 and 1; yet
`NETfixDuplicatePlayerNames` changes it, to `A_2_2`, because slot 1 was renamed
`A_2` first. On `longNames` the slots 0 and 1 have the same name of 63 letters;
the name followed by `_2` is not the name of slot 0, yet slot 1 keeps the name
of slot 0, because the candidates are cut to the 63 bytes of the buffer. -/
theorem NETfixDuplicatePlayerNames_renames_distinct_name :
    shadowedNames.bComms = true ∧
    (shadowedNames.player 2).name = [65, 95, 50] ∧
    (∀ j, j < 2 → (shadowedNames.player 2).name ≠ (shadowedNames.player j).name) ∧
    ((NETfixDuplicatePlayerNames wzConstants quietEnv shadowedNames).player 2).name
      = [65, 95, 50, 95, 50] ∧
    longNames.bComms = true ∧
    (longNames.player 1).name ≠ [] ∧
    (longNames.player 1).name ++ [95, 50] ≠ (longNames.player 0).name ∧
    ((NETfixDuplicatePlayerNames wzConstants quietEnv longNames).player 1).name
      = ((NETfixDuplicatePlayerNames wzConstants quietEnv longNames).player 0).name := by
  refine ⟨by decide, by decide, by decide, by decide, by decide, by decide, by decide, ?_⟩
  decide

theorem duplicateBelow_iff (s : NetState) (i : Nat) (name : CString) :
    duplicateBelow s i name = true ↔ ∃ j, j < i ∧ name = (s.player j).name := by
  unfold duplicateBelow
  rw [List.any_eq_true]
  constructor
  · rintro ⟨j, hj, he⟩
    exact ⟨j, List.mem_range.1 hj, by simpa using he⟩
  · rintro ⟨j, hj, he⟩
    exact ⟨j, List.mem_range.2 hj, by simpa using he⟩

theorem duplicateBelow_eq_false (s : NetState) (i : Nat) (name : CString)
    (h : duplicateBelow s i name = false) : ∀ j, j < i → name ≠ (s.player j).name := by
  intro j hj he
  have := (duplicateBelow_iff s i name).2 ⟨j, hj, he⟩
  rw [h] at this
  cases this

/-- The pass loop, started at `pass` with `k` passes left: every pass before the
one it stops at met a duplicate; if it stops early, the name it returns is the
candidate of that pass, which is no duplicate; if it runs out, the name it
returns is the last candidate. -/
theorem NETfixDuplicatePlayerNames_pass_spec (cfg : NetConstants) (t : NetState) (i : Nat) :
    ∀ (k pass : Nat) (name : CString),
      pass ≤ (NETfixDuplicatePlayerNames_pass cfg t i k pass name).1 ∧
      (NETfixDuplicatePlayerNames_pass cfg t i k pass name).1 ≤ pass + k ∧
      (∀ p, pass ≤ p → p < (NETfixDuplicatePlayerNames_pass cfg t i k pass name).1 →
        duplicateBelow t i (if p = 0 then name else suffixedName cfg (t.player i).name p)
          = true) ∧
      ((NETfixDuplicatePlayerNames_pass cfg t i k pass name).1 < pass + k →
        duplicateBelow t i
          (if (NETfixDuplicatePlayerNames_pass cfg t i k pass name).1 = 0 then name
            else suffixedName cfg (t.player i).name
              (NETfixDuplicatePlayerNames_pass cfg t i k pass name).1) = false ∧
        (NETfixDuplicatePlayerNames_pass cfg t i k pass name).2
          = (if (NETfixDuplicatePlayerNames_pass cfg t i k pass name).1 = 0 then name
            else suffixedName cfg (t.player i).name
              (NETfixDuplicatePlayerNames_pass cfg t i k pass name).1)) ∧
      ((NETfixDuplicatePlayerNames_pass cfg t i k pass name).1 = pass + k →
        (NETfixDuplicatePlayerNames_pass cfg t i k pass name).2
          = (if k = 0 ∨ pass + k - 1 = 0 then name
            else suffixedName cfg (t.player i).name (pass + k - 1))) := by
  intro k
  induction k with
  | zero =>
    intro pass name
    refine ⟨Nat.le_refl _, Nat.le_refl _, ?_, ?_, ?_⟩
    · intro p h1 h2
      have h3 : p < pass := h2
      omega
    · intro h
      have h3 : pass < pass + 0 := h
      omega
    · intro _
      rw [if_pos (Or.inl rfl)]
      rfl
  | succ k ih =>
    intro pass name
    have hname : (if pass ≠ 0 then suffixedName cfg (t.player i).name pass else name)
        = (if pass = 0 then name else suffixedName cfg (t.player i).name pass) := by
      by_cases h : pass = 0
      · rw [if_neg (fun c => c h), if_pos h]
      · rw [if_pos h, if_neg h]
    rw [NETfixDuplicatePlayerNames_pass]
    simp only [hname]
    cases hd : duplicateBelow t i
      (if pass = 0 then name else suffixedName cfg (t.player i).name pass)
    · simp only [Bool.false_eq_true, if_false]
      refine ⟨Nat.le_refl _, by omega, ?_, ?_, ?_⟩
      · intro p h1 h2
        omega
      · intro _
        exact ⟨hd, trivial⟩
      · intro h
        omega
    · simp only [if_true]
      obtain ⟨i1, i2, i3, i4, i5⟩ := ih (pass + 1)
        (if pass = 0 then name else suffixedName cfg (t.player i).name pass)
      generalize NETfixDuplicatePlayerNames_pass cfg t i k (pass + 1)
        (if pass = 0 then name else suffixedName cfg (t.player i).name pass) = r
        at i1 i2 i3 i4 i5 ⊢
      refine ⟨by omega, by omega, ?_, ?_, ?_⟩
      · intro p h1 h2
        by_cases hp : p = pass
        · rw [hp]
          exact hd
        · have h3 := i3 p (by omega) h2
          rw [if_neg (by omega)] at h3
          rw [if_neg (by omega)]
          exact h3
      · intro h
        have h4 := i4 (by omega)
        rw [if_neg (by omega)] at h4
        rw [if_neg (by omega)]
        exact h4
      · intro h
        have h5 := i5 (by omega)
        by_cases hk : k = 0
        · subst hk
          rw [if_pos (Or.inl rfl)] at h5
          rw [h5]
          by_cases hp : pass = 0
          · rw [if_pos hp, if_pos (Or.inr (by omega))]
          · have e : pass + (0 + 1) - 1 = pass := by omega
            rw [if_neg hp, if_neg (by omega), e]
        · have e : pass + (k + 1) - 1 = pass + 1 + k - 1 := by omega
          rw [if_neg (by omega)] at h5
          rw [if_neg (by omega), e]
          exact h5

theorem namesKept_refl (s : NetState) : NamesKept s s := ⟨fun _ => rfl, rfl, rfl⟩

theorem namesKept_trans (a b c : NetState) (h : NamesKept a b) (h' : NamesKept b c) :
    NamesKept a c :=
  ⟨fun j => (h'.1 j).trans (h.1 j), h'.2.1.trans h.2.1, h'.2.2.trans h.2.2⟩

theorem namesKept_of_players (s s' : NetState) (h : s'.players = s.players)
    (h' : s'.bComms = s.bComms) : NamesKept s s' := by
  refine ⟨fun j => ?_, h', by rw [h]⟩
  unfold NetState.player
  rw [h]

theorem namesKept_sendSteps (cfg : NetConstants) : SendSteps cfg NamesKept where
  refl := namesKept_refl
  trans := namesKept_trans
  write := fun t _ _ => namesKept_of_players t _ rfl rfl
  drop := fun t _ _ => namesKept_of_players t _ rfl rfl
  relay := fun t _ _ _ _ => namesKept_of_players t _ rfl rfl
  leave := by
    intro t i hh _
    refine ⟨fun j => ?_, (NETplayerLeaving_flags cfg t i).2, NETplayerLeaving_length cfg t i⟩
    rcases NETplayerLeaving_player cfg t i j with h | ⟨hj, h⟩
    · rw [h]
    · rw [h, hh, hj]
      rfl
  lost := by
    intro t sock _ _
    refine ⟨fun j => ?_, rfl, ?_⟩
    · rcases NETsend_hostLost_player t sock j with h | h <;> rw [h]
    · unfold NETsend_hostLost NetState.setPlayer NetState.emit
      simp

theorem namesKept_frame (cfg : NetConstants) (env : SocketEnv) :
    SendFrame cfg env NamesKept :=
  sendFrame_of_steps cfg env (namesKept_sendSteps cfg)

theorem NETchangePlayerName_names (cfg : NetConstants) (env : SocketEnv) (s : NetState)
    (index : Nat) (newName : CString) (hc : s.bComms = true) (hi : index < s.players.length) :
    (∀ m, m ≠ index →
      ((NETchangePlayerName cfg env s index newName).2.player m).name = (s.player m).name) ∧
    ((NETchangePlayerName cfg env s index newName).2.player index).name
      = sstrcpy cfg.StringSize newName ∧
    (NETchangePlayerName cfg env s index newName).2.bComms = true ∧
    (NETchangePlayerName cfg env s index newName).2.players.length = s.players.length := by
  have hk : ∀ t : NetState, NamesKept t (NETBroadcastPlayerInfo cfg env t index) :=
    fun t => NETBroadcastPlayerInfo_frame cfg env (namesKept_frame cfg env)
      (fun x _ _ _ => namesKept_of_players x _ rfl rfl) t index
  have hset : ∀ t : NetState, t.players = s.players → t.bComms = s.bComms →
      (∀ m, m ≠ index →
        ((NETBroadcastPlayerInfo cfg env
          (t.setPlayer index { t.player index with name := sstrcpy cfg.StringSize newName })
          index).player m).name = (s.player m).name) ∧
      ((NETBroadcastPlayerInfo cfg env
          (t.setPlayer index { t.player index with name := sstrcpy cfg.StringSize newName })
          index).player index).name = sstrcpy cfg.StringSize newName ∧
      (NETBroadcastPlayerInfo cfg env
          (t.setPlayer index { t.player index with name := sstrcpy cfg.StringSize newName })
          index).bComms = true ∧
      (NETBroadcastPlayerInfo cfg env
          (t.setPlayer index { t.player index with name := sstrcpy cfg.StringSize newName })
          index).players.length = s.players.length := by
    intro t hp hb
    obtain ⟨k1, k2, k3⟩ := hk
      (t.setPlayer index { t.player index with name := sstrcpy cfg.StringSize newName })
    refine ⟨fun m hm => ?_, ?_, ?_, ?_⟩
    · rw [k1 m]
      unfold NetState.player NetState.setPlayer
      dsimp only
      rw [list_getD_set_ne _ _ _ _ _ (fun e => hm e.symm), hp]
    · rw [k1 index, player_setPlayer_same _ _ _ (by rw [hp]; exact hi)]
    · rw [k2]
      exact hb.trans hc
    · rw [k3]
      unfold NetState.setPlayer
      simp [hp]
  unfold NETchangePlayerName
  rw [if_neg (by simp [hc])]
  simp only
  split
  · exact hset _ rfl rfl
  · exact hset _ rfl rfl

theorem candidateName_zero (cfg : NetConstants) (orig : CString)
    (hfit : orig.length < cfg.StringSize) : candidateName cfg orig 0 = orig := by
  unfold candidateName
  rw [if_pos rfl, sstrcpy_of_length_lt _ _ hfit]

theorem slotFixed_congr (cfg : NetConstants) (orig : CString) (lower lower' : Nat → CString)
    (i : Nat) (final : CString) (h : ∀ j, j < i → lower j = lower' j)
    (hs : SlotFixed cfg orig lower i final) : SlotFixed cfg orig lower' i final := by
  obtain ⟨h1, h2, h3⟩ := hs
  refine ⟨h1, ?_, ?_⟩
  · intro hd
    exact h2 (fun j hj => by rw [h j hj]; exact hd j hj)
  · intro hne
    rcases h3 hne with h4 | ⟨h4, h5⟩
    · exact Or.inl (fun j hj => by rw [← h j hj]; exact h4 j hj)
    · refine Or.inr ⟨?_, h5⟩
      intro p hp
      obtain ⟨j, hj, he⟩ := h4 p hp
      exact ⟨j, hj, by rw [← h j hj]; exact he⟩

/-- One turn of the outer loop: the other slots are left alone and slot `i` is
fixed against the lower slots. -/
theorem NETfixDuplicatePlayerNames_slot_spec (cfg : NetConstants) (env : SocketEnv)
    (t : NetState) (i : Nat)
    (hc : t.bComms = true) (hi : i < t.players.length)
    (hfit : (t.player i).name.length < cfg.StringSize) :
    (∀ m, m ≠ i →
      ((NETfixDuplicatePlayerNames_slot cfg env t i).player m).name = (t.player m).name) ∧
    (NETfixDuplicatePlayerNames_slot cfg env t i).bComms = true ∧
    (NETfixDuplicatePlayerNames_slot cfg env t i).players.length = t.players.length ∧
    SlotFixed cfg (t.player i).name (fun j => (t.player j).name) i
      ((NETfixDuplicatePlayerNames_slot cfg env t i).player i).name := by
  have hcopy : sstrcpy cfg.StringSize (t.player i).name = (t.player i).name :=
    sstrcpy_of_length_lt _ _ hfit
  unfold NETfixDuplicatePlayerNames_slot
  simp only [hcopy]
  by_cases hempty : (t.player i).name = []
  · rw [if_pos hempty]
    exact ⟨fun _ _ => rfl, hc, rfl, fun _ => rfl, fun _ => rfl, fun h => absurd hempty h⟩
  · rw [if_neg hempty]
    obtain ⟨p1, p2, p3, p4, p5⟩ :=
      NETfixDuplicatePlayerNames_pass_spec cfg t i 101 0 (t.player i).name
    generalize NETfixDuplicatePlayerNames_pass cfg t i 101 0 (t.player i).name = r
      at p1 p2 p3 p4 p5 ⊢
    have hcand : ∀ p, (if p = 0 then (t.player i).name
        else suffixedName cfg (t.player i).name p) = candidateName cfg (t.player i).name p := by
      intro p
      unfold candidateName
      rw [hcopy]
    by_cases hr : r.1 = 0
    · rw [if_neg (fun c => c hr)]
      refine ⟨fun _ _ => rfl, hc, rfl, fun _ => rfl, fun _ => rfl, fun _ => Or.inl ?_⟩
      have h4 := (p4 (by omega)).1
      rw [if_pos hr] at h4
      exact duplicateBelow_eq_false t i _ h4
    · rw [if_pos hr]
      obtain ⟨hpl, hnm, hb, hln⟩ := NETchangePlayerName_names cfg env t i r.2 hc hi
      have hsuf : ∃ p, 1 ≤ p ∧ r.2 = suffixedName cfg (t.player i).name p ∧
          ((∀ j, j < i → r.2 ≠ (t.player j).name) ∨
            ((∀ q, q ≤ 100 → ∃ j, j < i ∧
                candidateName cfg (t.player i).name q = (t.player j).name) ∧
              r.2 = candidateName cfg (t.player i).name 100)) := by
        by_cases hlt : r.1 < 0 + 101
        · obtain ⟨h4, h5⟩ := p4 hlt
          rw [if_neg hr] at h4 h5
          exact ⟨r.1, by omega, h5,
            Or.inl (by rw [h5]; exact duplicateBelow_eq_false t i _ h4)⟩
        · have h5 := p5 (by omega)
          rw [if_neg (by omega)] at h5
          refine ⟨100, by omega, h5, Or.inr ⟨?_, ?_⟩⟩
          · intro q hq
            have h3 := p3 q (by omega) (by omega)
            rw [hcand] at h3
            exact (duplicateBelow_iff t i _).1 h3
          · rw [h5]
            unfold candidateName
            rw [if_neg (by omega)]
      obtain ⟨p, hp1, hp2, hp3⟩ := hsuf
      have hfinal : sstrcpy cfg.StringSize r.2 = r.2 := by
        rw [hp2]
        unfold suffixedName
        exact sstrcpy_idem _ _
      have hname : ((NETchangePlayerName cfg env t i r.2).2.player i).name = r.2 := by
        rw [hnm]
        exact hfinal
      refine ⟨hpl, hb, hln, ?_, ?_, ?_⟩
      · intro h
        exact absurd h hempty
      · intro hd
        have h3 := p3 0 (Nat.le_refl _) (by omega)
        rw [if_pos rfl] at h3
        obtain ⟨j, hj, he⟩ := (duplicateBelow_iff t i _).1 h3
        exact absurd he (hd j hj)
      · intro _
        rw [hname]
        exact hp3

/-- The outer loop from slot `i` on, for `k` slots: the slots below `i` keep their
names, and each slot of the loop is fixed against the names that the lower slots
have in the end. -/
theorem NETfixDuplicatePlayerNames_loop_spec (cfg : NetConstants) (env : SocketEnv) :
    ∀ (k i : Nat) (s : NetState), s.bComms = true → i + k ≤ s.players.length →
      (∀ m, i ≤ m → m < i + k → (s.player m).name.length < cfg.StringSize) →
      (∀ m, m < i →
        ((NETfixDuplicatePlayerNames_loop cfg env k i s).player m).name = (s.player m).name) ∧
      (∀ m, i ≤ m → m < i + k →
        SlotFixed cfg (s.player m).name
          (fun j => ((NETfixDuplicatePlayerNames_loop cfg env k i s).player j).name) m
          ((NETfixDuplicatePlayerNames_loop cfg env k i s).player m).name) := by
  intro k
  induction k with
  | zero =>
    intro i s _ _ _
    refine ⟨fun _ _ => rfl, ?_⟩
    intro m h1 h2
    omega
  | succ k ih =>
    intro i s hc hlen hfit
    obtain ⟨s1, s2, s3, s4⟩ := NETfixDuplicatePlayerNames_slot_spec cfg env s i hc (by omega)
      (hfit i (Nat.le_refl _) (by omega))
    have hfit' : ∀ m, i + 1 ≤ m → m < i + 1 + k →
        ((NETfixDuplicatePlayerNames_slot cfg env s i).player m).name.length < cfg.StringSize := by
      intro m h1 h2
      rw [s1 m (by omega)]
      exact hfit m (by omega) (by omega)
    obtain ⟨a, b⟩ := ih (i + 1) (NETfixDuplicatePlayerNames_slot cfg env s i) s2
      (by rw [s3]; omega) hfit'
    show (∀ m, m < i →
        ((NETfixDuplicatePlayerNames_loop cfg env k (i + 1)
          (NETfixDuplicatePlayerNames_slot cfg env s i)).player m).name = (s.player m).name) ∧
      (∀ m, i ≤ m → m < i + (k + 1) →
        SlotFixed cfg (s.player m).name
          (fun j => ((NETfixDuplicatePlayerNames_loop cfg env k (i + 1)
            (NETfixDuplicatePlayerNames_slot cfg env s i)).player j).name) m
          ((NETfixDuplicatePlayerNames_loop cfg env k (i + 1)
            (NETfixDuplicatePlayerNames_slot cfg env s i)).player m).name)
    have hlow : ∀ m, m < i →
        ((NETfixDuplicatePlayerNames_loop cfg env k (i + 1)
          (NETfixDuplicatePlayerNames_slot cfg env s i)).player m).name = (s.player m).name := by
      intro m hm
      rw [a m (by omega), s1 m (by omega)]
    refine ⟨hlow, ?_⟩
    intro m h1 h2
    by_cases hm : m = i
    · subst hm
      rw [a m (by omega)]
      exact slotFixed_congr cfg _ _ _ m _ (fun j hj => (hlow j hj).symm) s4
    · have hb := b m (by omega) (by omega)
      rw [s1 m hm] at hb
      exact hb

/-- C25, amended. In a session with comms enabled, whose names fit their buffers
of `StringSize` bytes, `NETfixDuplicatePlayerNames` makes at most 101 passes
for a slot and leaves the name of slot 0. For a slot `i` of `1 .. MAX_PLAYERS - 1`
whose name is `orig`: the name is left if it is empty or differs from the names
that the lower slots have once they were fixed themselves; and if `orig` is not
empty, the name differs in the end from the names of all lower slots, unless
each of the 101 candidates (`orig` and `orig` followed by `_2` ... `_65`, cut
to the `StringSize - 1` bytes that the buffer holds) is the name of a lower
slot, in which case the name is the last candidate. -/
theorem NETfixDuplicatePlayerNames_fixes (cfg : NetConstants) (env : SocketEnv) (s : NetState)
    (hc : s.bComms = true) (hmp : 1 ≤ cfg.MAX_PLAYERS)
    (hlen : cfg.MAX_PLAYERS ≤ s.players.length)
    (hfit : ∀ m, m < cfg.MAX_PLAYERS → (s.player m).name.length < cfg.StringSize) :
    (∀ (t : NetState) (i : Nat) (name : CString),
      (NETfixDuplicatePlayerNames_pass cfg t i 101 0 name).1 ≤ 101) ∧
    ((NETfixDuplicatePlayerNames cfg env s).player 0).name = (s.player 0).name ∧
    (∀ i, 1 ≤ i → i < cfg.MAX_PLAYERS →
      ((s.player i).name = [] →
        ((NETfixDuplicatePlayerNames cfg env s).player i).name = (s.player i).name) ∧
      ((∀ j, j < i → (s.player i).name ≠ ((NETfixDuplicatePlayerNames cfg env s).player j).name) →
        ((NETfixDuplicatePlayerNames cfg env s).player i).name = (s.player i).name) ∧
      ((s.player i).name ≠ [] →
        (∀ j, j < i → ((NETfixDuplicatePlayerNames cfg env s).player i).name
          ≠ ((NETfixDuplicatePlayerNames cfg env s).player j).name) ∨
        ((∀ p, p ≤ 100 → ∃ j, j < i ∧ candidateName cfg (s.player i).name p
            = ((NETfixDuplicatePlayerNames cfg env s).player j).name) ∧
          ((NETfixDuplicatePlayerNames cfg env s).player i).name
            = candidateName cfg (s.player i).name 100))) := by
  obtain ⟨a, b⟩ := NETfixDuplicatePlayerNames_loop_spec cfg env (cfg.MAX_PLAYERS - 1) 1 s hc
    (by omega) (fun m _ h2 => hfit m (by omega))
  refine ⟨?_, a 0 (by omega), ?_⟩
  · intro t i name
    have h := (NETfixDuplicatePlayerNames_pass_spec cfg t i 101 0 name).2.1
    omega
  · intro i h1 h2
    exact b i h1 (by omega)

/-- C25, amended, on `shadowedNames`: slot 1, named like slot 0, is renamed `A_2`,
and slot 2, then named like slot 1, ends with a name that differs from both. -/
theorem NETfixDuplicatePlayerNames_fixes_witness :
    shadowedNames.bComms = true ∧ 1 ≤ wzConstants.MAX_PLAYERS ∧
    wzConstants.MAX_PLAYERS ≤ shadowedNames.players.length ∧
    (∀ m, m < wzConstants.MAX_PLAYERS →
      (shadowedNames.player m).name.length < wzConstants.StringSize) ∧
    ((NETfixDuplicatePlayerNames wzConstants quietEnv shadowedNames).player 0).name
      = (shadowedNames.player 0).name ∧
    ((shadowedNames.player 2).name ≠ [] →
      (∀ j, j < 2 → ((NETfixDuplicatePlayerNames wzConstants quietEnv shadowedNames).player 2).name
        ≠ ((NETfixDuplicatePlayerNames wzConstants quietEnv shadowedNames).player j).name) ∨
      ((∀ p, p ≤ 100 → ∃ j, j < 2 ∧ candidateName wzConstants (shadowedNames.player 2).name p
          = ((NETfixDuplicatePlayerNames wzConstants quietEnv shadowedNames).player j).name) ∧
        ((NETfixDuplicatePlayerNames wzConstants quietEnv shadowedNames).player 2).name
          = candidateName wzConstants (shadowedNames.player 2).name 100)) :=
  ⟨by decide, by decide, by decide, by decide,
   (NETfixDuplicatePlayerNames_fixes wzConstants quietEnv shadowedNames (by decide) (by decide)
      (by decide) (by decide)).2.1,
   ((NETfixDuplicatePlayerNames_fixes wzConstants quietEnv shadowedNames (by decide) (by decide)
      (by decide) (by decide)).2.2 2 (by decide) (by decide)).2.2⟩

end Netplay
